import Mathlib

/-!
# Verification development for the Mach-O / fat parser of `tbd`

Shallow embedding of the C sources (`src/array.c`, `src/arch_info.c`,
`src/macho_file.c`, `src/macho_file_parse_load_commands.c`).

Conventions of the embedding:

* unsigned machine integers are natural numbers, reduced `% 2 ^ 32` or `% 2 ^ 64`
  wherever the C arithmetic can wrap; signed 32-bit integers are `Int`;
* a pointer into an array is the index of the element it points to, `NULL` is `none`;
* a byte buffer is a `List Nat` of byte values, multi-byte fields are read in the
  byte order of the host (little-endian) and swapped afterwards when the source swaps them.
-/

namespace Tbd

/-! ## Machine integers -/

/-- Reduction of a natural number to an unsigned 32-bit value. -/
def wrap32 (x : Nat) : Nat := x % 2 ^ 32

/-- Reduction of a natural number to an unsigned 64-bit value. -/
def wrap64 (x : Nat) : Nat := x % 2 ^ 64

/-- Reduction of an integer to a signed 32-bit value (two's complement). -/
def wrap_int32 (x : Int) : Int := (x + 2 ^ 31) % 2 ^ 32 - 2 ^ 31

/-! ## `src/array.c`: binary search over a slice -/

/-- Inclusive index slice `struct array_slice`. -/
structure array_slice where
  front : Nat
  back : Nat
deriving DecidableEq, Repr

/-- The enum `array_cached_index_type`. -/
inductive array_cached_index_type where
  | ARRAY_CACHED_INDEX_EQUAL
  | ARRAY_CACHED_INDEX_LESS_THAN
  | ARRAY_CACHED_INDEX_GREATER_THAN
deriving DecidableEq, Repr

/-- The record `struct array_cached_index_info`. -/
structure array_cached_index_info where
  index : Nat
  type : array_cached_index_type
deriving DecidableEq, Repr

/-- Outcome of a search: the pointer result together with what is written to `info_out`.
`item i` is a pointer to element `i` (with `info_out = {i, EQUAL}`), `null info` is `NULL`.
`outside` records a read of an element that is not part of the modelled array and
`exhausted` that the iteration budget of the model ran out. -/
inductive search_result where
  | item (index : Nat)
  | null (info : array_cached_index_info)
  | outside
  | exhausted
deriving DecidableEq, Repr

/-- Function `array_slice_get_middle_index`. -/
def array_slice_get_middle_index (slice : array_slice) : Nat :=
  let length := wrap64 (slice.back + 2 ^ 64 - slice.front)
  wrap64 (slice.front + (length >>> 1))

/-- Function `array_slice_set_to_lower_half`. -/
def array_slice_set_to_lower_half (slice : array_slice) (middle : Nat) : array_slice :=
  { slice with back := wrap64 (middle + 2 ^ 64 - 1) }

/-- Function `array_slice_set_to_upper_half`. -/
def array_slice_set_to_upper_half (slice : array_slice) (middle : Nat) : array_slice :=
  { slice with front := wrap64 (middle + 1) }

/-- Function `array_slice_holds_one_element`. -/
def array_slice_holds_one_element (slice : array_slice) : Bool :=
  slice.front == slice.back

/-- Function `array_slice_holds_two_elements`. -/
def array_slice_holds_two_elements (slice : array_slice) : Bool :=
  wrap64 (slice.back + 2 ^ 64 - slice.front) == 1

/-- Function `get_cached_index_type_from_ret`. -/
def get_cached_index_type_from_ret (ret : Int) : array_cached_index_type :=
  if ret < 0 then .ARRAY_CACHED_INDEX_GREATER_THAN
  else if ret > 0 then .ARRAY_CACHED_INDEX_LESS_THAN
  else .ARRAY_CACHED_INDEX_EQUAL

/-- The `do ... while (true)` loop of `array_slice_get_sorted_array_item_for_item`,
with an explicit iteration budget. `data` is the element array starting at `array->data`;
the comparator receives the array element on the left and the searched item on the right. -/
def array_slice_search_loop {α β : Type} (data : List α) (comparator : α → β → Int) (item : β) :
    Nat → array_slice → search_result
  | 0, _ => .exhausted
  | fuel + 1, slice =>
    let index := array_slice_get_middle_index slice
    match data.get? index with
    | none => .outside
    | some array_item =>
      let compare := comparator array_item item
      if compare = 0 then .item index
      else if array_slice_holds_one_element slice then
        .null ⟨slice.front, get_cached_index_type_from_ret compare⟩
      else if compare > 0 then
        if array_slice_holds_two_elements slice then
          .null ⟨slice.front, .ARRAY_CACHED_INDEX_LESS_THAN⟩
        else array_slice_search_loop data comparator item fuel
          (array_slice_set_to_lower_half slice index)
      else array_slice_search_loop data comparator item fuel
        (array_slice_set_to_upper_half slice index)

/-- Function `array_slice_get_sorted_array_item_for_item`. The 64-bit length of the slice is
at least halved by every iteration that does not return, so the budget of 65 iterations is
not a restriction. -/
def array_slice_get_sorted_array_item_for_item {α β : Type} (data : List α)
    (slice : array_slice) (item : β) (comparator : α → β → Int) : search_result :=
  array_slice_search_loop data comparator item 65 slice

/-- Function `array_find_item_in_sorted_with_slice`. -/
def array_find_item_in_sorted_with_slice {α β : Type} (data : List α)
    (slice : array_slice) (item : β) (comparator : α → β → Int) : search_result :=
  array_slice_get_sorted_array_item_for_item data slice item comparator

/-- Pointer result of a search: index of the matching element, or `none` for `NULL`
(and for the outcomes that the model does not cover). -/
def search_result.ptr : search_result → Option Nat
  | .item i => some i
  | _ => none

/-! ## `src/arch_info.c`: the architecture table

The numeric values of the `CPU_TYPE_*` and `CPU_SUBTYPE_*` names come from the Mach-O ABI
header `mach/machine.h`, which the table refers to by name. -/

/-- The record `struct arch_info`; `name = none` is the `NULL` name of the terminator. -/
structure arch_info where
  cputype : Int
  cpusubtype : Int
  name : Option String
deriving DecidableEq, Repr

/-- Constant `CPU_ARCH_ABI64` of `mach/machine.h`. -/
def CPU_ARCH_ABI64 : Int := 0x01000000
/-- Constant `CPU_ARCH_ABI64_32` of `mach/machine.h`. -/
def CPU_ARCH_ABI64_32 : Int := 0x02000000

/-- Constant of `mach/machine.h`. -/
def CPU_TYPE_ANY : Int := -1
/-- Constant of `mach/machine.h`. -/
def CPU_TYPE_MC680x0 : Int := 6
/-- Constant of `mach/machine.h`. -/
def CPU_TYPE_X86 : Int := 7
/-- Constant of `mach/machine.h`. -/
def CPU_TYPE_HPPA : Int := 11
/-- Constant of `mach/machine.h`. -/
def CPU_TYPE_ARM : Int := 12
/-- Constant of `mach/machine.h`. -/
def CPU_TYPE_MC88000 : Int := 13
/-- Constant of `mach/machine.h`. -/
def CPU_TYPE_SPARC : Int := 14
/-- Constant of `mach/machine.h`. -/
def CPU_TYPE_I860 : Int := 15
/-- Constant of `mach/machine.h`. -/
def CPU_TYPE_POWERPC : Int := 18
/-- Constant of `mach/machine.h`. -/
def CPU_TYPE_VEO : Int := 255
/-- Constant of `mach/machine.h`: `CPU_TYPE_X86 | CPU_ARCH_ABI64`. -/
def CPU_TYPE_X86_64 : Int := CPU_TYPE_X86 + CPU_ARCH_ABI64
/-- Constant of `mach/machine.h`: `CPU_TYPE_ARM | CPU_ARCH_ABI64`. -/
def CPU_TYPE_ARM64 : Int := CPU_TYPE_ARM + CPU_ARCH_ABI64
/-- Constant of `mach/machine.h`: `CPU_TYPE_POWERPC | CPU_ARCH_ABI64`. -/
def CPU_TYPE_POWERPC64 : Int := CPU_TYPE_POWERPC + CPU_ARCH_ABI64
/-- Constant of `mach/machine.h`: `CPU_TYPE_ARM | CPU_ARCH_ABI64_32`. -/
def CPU_TYPE_ARM64_32 : Int := CPU_TYPE_ARM + CPU_ARCH_ABI64_32

/-- Macro `CPU_SUBTYPE_INTEL(f, m)` of `mach/machine.h`: `f + (m << 4)`. -/
def CPU_SUBTYPE_INTEL (f m : Int) : Int := f + m * 16

/-- Constant of `mach/machine.h`. -/
def CPU_SUBTYPE_MULTIPLE : Int := -1
/-- Constant of `mach/machine.h`. -/
def CPU_SUBTYPE_LITTLE_ENDIAN : Int := 0
/-- Constant of `mach/machine.h`. -/
def CPU_SUBTYPE_BIG_ENDIAN : Int := 1
/-- Constant of `mach/machine.h`. -/
def CPU_SUBTYPE_MC680x0_ALL : Int := 1
/-- Constant of `mach/machine.h`. -/
def CPU_SUBTYPE_MC68040 : Int := 2
/-- Constant of `mach/machine.h`. -/
def CPU_SUBTYPE_MC68030_ONLY : Int := 3
/-- Constant of `mach/machine.h`. -/
def CPU_SUBTYPE_I386_ALL : Int := CPU_SUBTYPE_INTEL 3 0
/-- Constant of `mach/machine.h`. -/
def CPU_SUBTYPE_486 : Int := CPU_SUBTYPE_INTEL 4 0
/-- Constant of `mach/machine.h`. -/
def CPU_SUBTYPE_486SX : Int := CPU_SUBTYPE_INTEL 4 8
/-- Constant of `mach/machine.h`. -/
def CPU_SUBTYPE_PENT : Int := CPU_SUBTYPE_INTEL 5 0
/-- Constant of `mach/machine.h`. -/
def CPU_SUBTYPE_PENTPRO : Int := CPU_SUBTYPE_INTEL 6 1
/-- Constant of `mach/machine.h`. -/
def CPU_SUBTYPE_PENTII_M3 : Int := CPU_SUBTYPE_INTEL 6 3
/-- Constant of `mach/machine.h`. -/
def CPU_SUBTYPE_PENTII_M5 : Int := CPU_SUBTYPE_INTEL 6 5
/-- Constant of `mach/machine.h`. -/
def CPU_SUBTYPE_PENTIUM_4 : Int := CPU_SUBTYPE_INTEL 10 0
/-- Constant of `mach/machine.h`. -/
def CPU_SUBTYPE_X86_64_ALL : Int := 3
/-- Constant of `mach/machine.h`. -/
def CPU_SUBTYPE_X86_64_H : Int := 8
/-- Constant of `mach/machine.h`. -/
def CPU_SUBTYPE_HPPA_ALL : Int := 0
/-- Constant of `mach/machine.h`. -/
def CPU_SUBTYPE_HPPA_7100 : Int := 0
/-- Constant of `mach/machine.h`. -/
def CPU_SUBTYPE_ARM_ALL : Int := 0
/-- Constant of `mach/machine.h`. -/
def CPU_SUBTYPE_ARM_V4T : Int := 5
/-- Constant of `mach/machine.h`. -/
def CPU_SUBTYPE_ARM_V6 : Int := 6
/-- Constant of `mach/machine.h`. -/
def CPU_SUBTYPE_ARM_V5TEJ : Int := 7
/-- Constant of `mach/machine.h`. -/
def CPU_SUBTYPE_ARM_XSCALE : Int := 8
/-- Constant of `mach/machine.h`. -/
def CPU_SUBTYPE_ARM_V7 : Int := 9
/-- Constant of `mach/machine.h`. -/
def CPU_SUBTYPE_ARM_V7F : Int := 10
/-- Constant of `mach/machine.h`. -/
def CPU_SUBTYPE_ARM_V7S : Int := 11
/-- Constant of `mach/machine.h`. -/
def CPU_SUBTYPE_ARM_V7K : Int := 12
/-- Constant of `mach/machine.h`. -/
def CPU_SUBTYPE_ARM_V8 : Int := 13
/-- Constant of `mach/machine.h`. -/
def CPU_SUBTYPE_ARM_V6M : Int := 14
/-- Constant of `mach/machine.h`. -/
def CPU_SUBTYPE_ARM_V7M : Int := 15
/-- Constant of `mach/machine.h`. -/
def CPU_SUBTYPE_ARM_V7EM : Int := 16
/-- Constant of `mach/machine.h`. -/
def CPU_SUBTYPE_MC88000_ALL : Int := 0
/-- Constant of `mach/machine.h`. -/
def CPU_SUBTYPE_SPARC_ALL : Int := 0
/-- Constant of `mach/machine.h`. -/
def CPU_SUBTYPE_I860_ALL : Int := 0
/-- Constant of `mach/machine.h`. -/
def CPU_SUBTYPE_POWERPC_ALL : Int := 0
/-- Constant of `mach/machine.h`. -/
def CPU_SUBTYPE_POWERPC_601 : Int := 1
/-- Constant of `mach/machine.h`. -/
def CPU_SUBTYPE_POWERPC_602 : Int := 2
/-- Constant of `mach/machine.h`. -/
def CPU_SUBTYPE_POWERPC_603 : Int := 3
/-- Constant of `mach/machine.h`. -/
def CPU_SUBTYPE_POWERPC_603e : Int := 4
/-- Constant of `mach/machine.h`. -/
def CPU_SUBTYPE_POWERPC_603ev : Int := 5
/-- Constant of `mach/machine.h`. -/
def CPU_SUBTYPE_POWERPC_604 : Int := 6
/-- Constant of `mach/machine.h`. -/
def CPU_SUBTYPE_POWERPC_604e : Int := 7
/-- Constant of `mach/machine.h`. -/
def CPU_SUBTYPE_POWERPC_750 : Int := 9
/-- Constant of `mach/machine.h`. -/
def CPU_SUBTYPE_POWERPC_7400 : Int := 10
/-- Constant of `mach/machine.h`. -/
def CPU_SUBTYPE_POWERPC_7450 : Int := 11
/-- Constant of `mach/machine.h`. -/
def CPU_SUBTYPE_POWERPC_970 : Int := 100
/-- Constant of `mach/machine.h`. -/
def CPU_SUBTYPE_VEO_1 : Int := 1
/-- Constant of `mach/machine.h`. -/
def CPU_SUBTYPE_VEO_2 : Int := 2
/-- Constant of `mach/machine.h`: `CPU_SUBTYPE_VEO_ALL` is defined as `CPU_SUBTYPE_VEO_2`. -/
def CPU_SUBTYPE_VEO_ALL : Int := CPU_SUBTYPE_VEO_2
/-- Constant of `mach/machine.h`. -/
def CPU_SUBTYPE_ARM64_ALL : Int := 0
/-- Constant of `mach/machine.h`. -/
def CPU_SUBTYPE_ARM64_V8 : Int := 1
/-- Constant of `mach/machine.h`. -/
def CPU_SUBTYPE_ARM64E : Int := 2

/-- The table `arch_info_list`, terminator included (index 56). -/
def arch_info_list : List arch_info := [
  ⟨CPU_TYPE_ANY, CPU_SUBTYPE_MULTIPLE, some "any"⟩,
  ⟨CPU_TYPE_ANY, CPU_SUBTYPE_LITTLE_ENDIAN, some "little"⟩,
  ⟨CPU_TYPE_ANY, CPU_SUBTYPE_BIG_ENDIAN, some "big"⟩,
  ⟨CPU_TYPE_MC680x0, CPU_SUBTYPE_MC680x0_ALL, some "m68k"⟩,
  ⟨CPU_TYPE_MC680x0, CPU_SUBTYPE_MC68040, some "m68040"⟩,
  ⟨CPU_TYPE_MC680x0, CPU_SUBTYPE_MC68030_ONLY, some "m68030"⟩,
  ⟨CPU_TYPE_X86, CPU_SUBTYPE_I386_ALL, some "i386"⟩,
  ⟨CPU_TYPE_X86, CPU_SUBTYPE_486, some "i486"⟩,
  ⟨CPU_TYPE_X86, CPU_SUBTYPE_486SX, some "i486SX"⟩,
  ⟨CPU_TYPE_X86, CPU_SUBTYPE_PENT, some "pentium"⟩,
  ⟨CPU_TYPE_X86, CPU_SUBTYPE_PENTPRO, some "pentpro"⟩,
  ⟨CPU_TYPE_X86, CPU_SUBTYPE_PENTII_M3, some "pentIIm3"⟩,
  ⟨CPU_TYPE_X86, CPU_SUBTYPE_PENTII_M5, some "pentIIm5"⟩,
  ⟨CPU_TYPE_X86, CPU_SUBTYPE_PENTIUM_4, some "pentium4"⟩,
  ⟨CPU_TYPE_X86, CPU_SUBTYPE_X86_64_H, some "x86_64h"⟩,
  ⟨CPU_TYPE_HPPA, CPU_SUBTYPE_HPPA_ALL, some "hppa"⟩,
  ⟨CPU_TYPE_HPPA, CPU_SUBTYPE_HPPA_7100, some "hppa7100LC"⟩,
  ⟨CPU_TYPE_ARM, CPU_SUBTYPE_ARM_ALL, some "arm"⟩,
  ⟨CPU_TYPE_ARM, CPU_SUBTYPE_ARM_V4T, some "armv4t"⟩,
  ⟨CPU_TYPE_ARM, CPU_SUBTYPE_ARM_V6, some "armv6"⟩,
  ⟨CPU_TYPE_ARM, CPU_SUBTYPE_ARM_V5TEJ, some "armv5"⟩,
  ⟨CPU_TYPE_ARM, CPU_SUBTYPE_ARM_XSCALE, some "xscale"⟩,
  ⟨CPU_TYPE_ARM, CPU_SUBTYPE_ARM_V7, some "armv7"⟩,
  ⟨CPU_TYPE_ARM, CPU_SUBTYPE_ARM_V7F, some "armv7f"⟩,
  ⟨CPU_TYPE_ARM, CPU_SUBTYPE_ARM_V7S, some "armv7s"⟩,
  ⟨CPU_TYPE_ARM, CPU_SUBTYPE_ARM_V7K, some "armv7k"⟩,
  ⟨CPU_TYPE_ARM, CPU_SUBTYPE_ARM_V6M, some "armv6"⟩,
  ⟨CPU_TYPE_ARM, CPU_SUBTYPE_ARM_V7M, some "armv7m"⟩,
  ⟨CPU_TYPE_ARM, CPU_SUBTYPE_ARM_V7EM, some "armv7em"⟩,
  ⟨CPU_TYPE_ARM, CPU_SUBTYPE_ARM_V8, some "armv8"⟩,
  ⟨CPU_TYPE_MC88000, CPU_SUBTYPE_MC88000_ALL, some "m88k"⟩,
  ⟨CPU_TYPE_SPARC, CPU_SUBTYPE_SPARC_ALL, some "sparc"⟩,
  ⟨CPU_TYPE_I860, CPU_SUBTYPE_I860_ALL, some "i860"⟩,
  ⟨CPU_TYPE_POWERPC, CPU_SUBTYPE_POWERPC_ALL, some "ppc"⟩,
  ⟨CPU_TYPE_POWERPC, CPU_SUBTYPE_POWERPC_601, some "ppc601"⟩,
  ⟨CPU_TYPE_POWERPC, CPU_SUBTYPE_POWERPC_602, some "ppc602"⟩,
  ⟨CPU_TYPE_POWERPC, CPU_SUBTYPE_POWERPC_603, some "ppc603"⟩,
  ⟨CPU_TYPE_POWERPC, CPU_SUBTYPE_POWERPC_603e, some "ppc603e"⟩,
  ⟨CPU_TYPE_POWERPC, CPU_SUBTYPE_POWERPC_603ev, some "ppc603ev"⟩,
  ⟨CPU_TYPE_POWERPC, CPU_SUBTYPE_POWERPC_604, some "ppc604"⟩,
  ⟨CPU_TYPE_POWERPC, CPU_SUBTYPE_POWERPC_604e, some "ppc604e"⟩,
  ⟨CPU_TYPE_POWERPC, CPU_SUBTYPE_POWERPC_750, some "ppc750"⟩,
  ⟨CPU_TYPE_POWERPC, CPU_SUBTYPE_POWERPC_7400, some "ppc7400"⟩,
  ⟨CPU_TYPE_POWERPC, CPU_SUBTYPE_POWERPC_7450, some "ppc7450"⟩,
  ⟨CPU_TYPE_POWERPC, CPU_SUBTYPE_POWERPC_970, some "ppc970"⟩,
  ⟨CPU_TYPE_VEO, CPU_SUBTYPE_VEO_ALL, some "veo"⟩,
  ⟨CPU_TYPE_VEO, CPU_SUBTYPE_VEO_1, some "veo1"⟩,
  ⟨CPU_TYPE_VEO, CPU_SUBTYPE_VEO_2, some "veo2"⟩,
  ⟨CPU_TYPE_X86_64, CPU_SUBTYPE_X86_64_ALL, some "x86_64"⟩,
  ⟨CPU_TYPE_X86_64, CPU_SUBTYPE_X86_64_H, some "x86_64h"⟩,
  ⟨CPU_TYPE_ARM64, CPU_SUBTYPE_ARM64_ALL, some "arm64"⟩,
  ⟨CPU_TYPE_ARM64, CPU_SUBTYPE_ARM64_V8, some "arm64"⟩,
  ⟨CPU_TYPE_ARM64, CPU_SUBTYPE_ARM64E, some "arm64e"⟩,
  ⟨CPU_TYPE_POWERPC64, CPU_SUBTYPE_POWERPC_ALL, some "ppc64"⟩,
  ⟨CPU_TYPE_POWERPC64, CPU_SUBTYPE_POWERPC_970, some "ppc970-64"⟩,
  ⟨CPU_TYPE_ARM64_32, CPU_SUBTYPE_ARM64_ALL, some "arm64_32"⟩,
  ⟨0, 0, none⟩]

/-- The record `struct arch_info_cputype_info`. -/
structure arch_info_cputype_info where
  cputype : Int
  front : Nat
  back : Nat
deriving DecidableEq, Repr

/-- The table `cputype_info_list`. -/
def cputype_info_list : List arch_info_cputype_info := [
  ⟨CPU_TYPE_ANY, 0, 2⟩,
  ⟨CPU_TYPE_MC680x0, 3, 5⟩,
  ⟨CPU_TYPE_X86, 6, 14⟩,
  ⟨CPU_TYPE_HPPA, 15, 16⟩,
  ⟨CPU_TYPE_ARM, 17, 29⟩,
  ⟨CPU_TYPE_MC88000, 30, 30⟩,
  ⟨CPU_TYPE_SPARC, 31, 31⟩,
  ⟨CPU_TYPE_I860, 32, 32⟩,
  ⟨CPU_TYPE_POWERPC, 33, 44⟩,
  ⟨CPU_TYPE_VEO, 45, 47⟩,
  ⟨CPU_TYPE_X86_64, 48, 49⟩,
  ⟨CPU_TYPE_ARM64, 50, 52⟩,
  ⟨CPU_TYPE_POWERPC64, 53, 54⟩,
  ⟨CPU_TYPE_ARM64_32, 55, 55⟩]

/-- Function `arch_info_get_list`. -/
def arch_info_get_list : List arch_info := arch_info_list

/-- Function `arch_info_list_get_size`: `sizeof(arch_info_list) / sizeof(struct arch_info)`. -/
def arch_info_list_get_size : Nat := arch_info_list.length

/-- Function `cputype_info_list_get_size`. -/
def cputype_info_list_get_size : Nat := cputype_info_list.length

/-- Function `cputype_info_comparator`: it reads the leading `cputype` field of the element. -/
def cputype_info_comparator (info : arch_info_cputype_info) (cputype : Int) : Int :=
  wrap_int32 (info.cputype - cputype)

/-- Function `arch_info_cpusubtype_comparator`. -/
def arch_info_cpusubtype_comparator (info : arch_info) (cpusubtype : Int) : Int :=
  wrap_int32 (info.cpusubtype - cpusubtype)

/-- Function `arch_info_for_cputype`; the result is the index in `arch_info_list` of the
entry the returned pointer refers to, `none` for `NULL`. -/
def arch_info_for_cputype (cputype cpusubtype : Int) : Option Nat :=
  let cputype_info_slice : array_slice :=
    { front := 0, back := wrap64 (cputype_info_list_get_size + 2 ^ 64 - 1) }
  match (array_find_item_in_sorted_with_slice cputype_info_list cputype_info_slice
      cputype cputype_info_comparator).ptr with
  | none => none
  | some i =>
    match cputype_info_list.get? i with
    | none => none
    | some info =>
      let info_front_index := info.front
      if info_front_index = info.back then
        match arch_info_list.get? info_front_index with
        | none => none
        | some arch => if arch.cpusubtype = cpusubtype then some info_front_index else none
      else
        let slice : array_slice := { front := info.front, back := info.back }
        (array_find_item_in_sorted_with_slice arch_info_list slice
          cpusubtype arch_info_cpusubtype_comparator).ptr

/-! ## Bytes, byte order, checked arithmetic and ranges -/

/-- Byte of a buffer at an offset; bytes the buffer does not hold read as 0. -/
def byte_at (buf : List Nat) (off : Nat) : Nat := buf.getD off 0

/-- Load of a `uint32_t` at a byte offset of a buffer, in host (little-endian) order. -/
def read_u32 (buf : List Nat) (off : Nat) : Nat :=
  byte_at buf off + byte_at buf (off + 1) * 2 ^ 8 + byte_at buf (off + 2) * 2 ^ 16
    + byte_at buf (off + 3) * 2 ^ 24

/-- Load of a `uint64_t` at a byte offset of a buffer, in host (little-endian) order. -/
def read_u64 (buf : List Nat) (off : Nat) : Nat :=
  read_u32 buf off + read_u32 buf (off + 4) * 2 ^ 32

/-- Reinterpretation of an unsigned 32-bit value as `int32_t`. -/
def to_int32 (x : Nat) : Int := if x < 2 ^ 31 then (x : Int) else (x : Int) - 2 ^ 32

/-- Modelled from the spec: `swap_uint32` of `swap.h` (not under src/), the 32-bit endian
swap: the four bytes of the value in reverse order. -/
def swap_uint32 (x : Nat) : Nat :=
  (x % 2 ^ 8) * 2 ^ 24 + (x / 2 ^ 8 % 2 ^ 8) * 2 ^ 16 + (x / 2 ^ 16 % 2 ^ 8) * 2 ^ 8
    + x / 2 ^ 24 % 2 ^ 8

/-- Modelled from the spec: `swap_uint64` of `swap.h` (not under src/), the 64-bit endian
swap: the eight bytes of the value in reverse order. -/
def swap_uint64 (x : Nat) : Nat :=
  swap_uint32 (x % 2 ^ 32) * 2 ^ 32 + swap_uint32 (x / 2 ^ 32 % 2 ^ 32)

/-- Modelled from the spec: `swap_int32` of `swap.h` (not under src/), the 32-bit endian swap
of a signed value. -/
def swap_int32 (x : Int) : Int := to_int32 (swap_uint32 (x % 2 ^ 32).toNat)

/-- Modelled from the spec: `guard_overflow_add` of `guard_overflow.h` (not under src/), the
checked addition over unsigned integers of `bits` bits. `none` is the report of an overflow
(the macro returns true), `some s` the sum stored through the left pointer. -/
def guard_overflow_add (bits left right : Nat) : Option Nat :=
  if left + right < 2 ^ bits then some (left + right) else none

/-- Modelled from the spec: `guard_overflow_mul` of `guard_overflow.h` (not under src/), the
checked multiplication over unsigned integers of `bits` bits. `none` is the report of an
overflow (the macro returns true), `some p` the product stored through the left pointer. -/
def guard_overflow_mul (bits left right : Nat) : Option Nat :=
  if left * right < 2 ^ bits then some (left * right) else none

/-- The record `struct range` of `include/range.h`: half-open `[begin, end)`. -/
structure range where
  begin : Nat
  end_ : Nat
deriving DecidableEq, Repr

/-- Modelled from the spec: `range_contains_location` of `range.c` (not under src/):
`begin ≤ x < end`. -/
def range_contains_location (r : range) (location : Nat) : Bool :=
  decide (r.begin ≤ location) && decide (location < r.end_)

/-- Modelled from the spec: `range_contains_range` of `range.c` (not under src/):
`outer.begin ≤ inner.begin ∧ inner.end ≤ outer.end`. -/
def range_contains_range (left right : range) : Bool :=
  decide (left.begin ≤ right.begin) && decide (right.end_ ≤ left.end_)

/-- Modelled from the spec: `ranges_overlap` of `range.c` (not under src/):
`a.begin < b.end ∧ b.begin < a.end`. -/
def ranges_overlap (left right : range) : Bool :=
  decide (left.begin < right.end_) && decide (right.begin < left.end_)

/-- Conversion of a machine word to `bool` after masking: the C test `word & flag`. -/
def flag_set (word flag : Nat) : Bool := (word &&& flag) != 0

/-! ## Result codes and the aggregate -/

/-- The enum `macho_file_parse_result` (the codes that the embedded sources return). -/
inductive macho_file_parse_result where
  | E_MACHO_FILE_PARSE_OK
  | E_MACHO_FILE_PARSE_NOT_A_MACHO
  | E_MACHO_FILE_PARSE_SEEK_FAIL
  | E_MACHO_FILE_PARSE_READ_FAIL
  | E_MACHO_FILE_PARSE_FSTAT_FAIL
  | E_MACHO_FILE_PARSE_SIZE_TOO_SMALL
  | E_MACHO_FILE_PARSE_ALLOC_FAIL
  | E_MACHO_FILE_PARSE_ARRAY_FAIL
  | E_MACHO_FILE_PARSE_TOO_MANY_ARCHITECTURES
  | E_MACHO_FILE_PARSE_NO_ARCHITECTURES
  | E_MACHO_FILE_PARSE_NO_VALID_ARCHITECTURES
  | E_MACHO_FILE_PARSE_INVALID_ARCHITECTURE
  | E_MACHO_FILE_PARSE_OVERLAPPING_ARCHITECTURES
  | E_MACHO_FILE_PARSE_MULTIPLE_ARCHS_FOR_CPUTYPE
  | E_MACHO_FILE_PARSE_UNSUPPORTED_CPUTYPE
  | E_MACHO_FILE_PARSE_NO_LOAD_COMMANDS
  | E_MACHO_FILE_PARSE_TOO_MANY_LOAD_COMMANDS
  | E_MACHO_FILE_PARSE_LOAD_COMMANDS_AREA_TOO_SMALL
  | E_MACHO_FILE_PARSE_INVALID_LOAD_COMMAND
  | E_MACHO_FILE_PARSE_TOO_MANY_SECTIONS
  | E_MACHO_FILE_PARSE_INVALID_SECTION
  | E_MACHO_FILE_PARSE_INVALID_CLIENT
  | E_MACHO_FILE_PARSE_INVALID_INSTALL_NAME
  | E_MACHO_FILE_PARSE_INVALID_PARENT_UMBRELLA
  | E_MACHO_FILE_PARSE_INVALID_PLATFORM
  | E_MACHO_FILE_PARSE_INVALID_REEXPORT
  | E_MACHO_FILE_PARSE_INVALID_SYMBOL_TABLE
  | E_MACHO_FILE_PARSE_INVALID_STRING_TABLE
  | E_MACHO_FILE_PARSE_INVALID_UUID
  | E_MACHO_FILE_PARSE_CONFLICTING_FLAGS
  | E_MACHO_FILE_PARSE_CONFLICTING_IDENTIFICATION
  | E_MACHO_FILE_PARSE_CONFLICTING_OBJC_CONSTRAINT
  | E_MACHO_FILE_PARSE_CONFLICTING_PARENT_UMBRELLA
  | E_MACHO_FILE_PARSE_CONFLICTING_PLATFORM
  | E_MACHO_FILE_PARSE_CONFLICTING_SWIFT_VERSION
  | E_MACHO_FILE_PARSE_CONFLICTING_UUID
  | E_MACHO_FILE_PARSE_NO_IDENTIFICATION
  | E_MACHO_FILE_PARSE_NO_PLATFORM
  | E_MACHO_FILE_PARSE_NO_SYMBOL_TABLE
  | E_MACHO_FILE_PARSE_NO_UUID
  | E_MACHO_FILE_PARSE_NO_EXPORTS
deriving DecidableEq, Repr

open macho_file_parse_result

/-- The record `struct tbd_export_info`; `string` holds the `length` bytes of the name. -/
structure tbd_export_info where
  archs : Nat
  archs_count : Nat
  length : Nat
  string : List Nat
  type : Nat
  flags : Nat
deriving DecidableEq, Repr

/-- The record `struct tbd_uuid_info`; `arch` is the index of the architecture entry the
pointer refers to and `uuid` the 16 raw bytes. -/
structure tbd_uuid_info where
  arch : Option Nat
  uuid : List Nat
deriving DecidableEq, Repr

/-- The aggregate `struct tbd_create_info`, with the fields that the parser reads or writes.
A string pointer is `none` when `NULL` and otherwise holds the bytes it points to. -/
structure tbd_create_info where
  archs : Nat
  flags : Nat
  flags_field : Nat
  platform : Nat
  objc_constraint : Nat
  swift_version : Nat
  current_version : Nat
  compatibility_version : Nat
  install_name : Option (List Nat)
  install_name_length : Nat
  parent_umbrella : Option (List Nat)
  parent_umbrella_length : Nat
  exports : List tbd_export_info
  uuids : List tbd_uuid_info
deriving DecidableEq, Repr

/-! ## Mach-O ABI constants (`mach-o/loader.h`, `mach-o/fat.h`) -/

/-- Size of `struct fat_header`. -/
def sizeof_fat_header : Nat := 8
/-- Size of `struct fat_arch`. -/
def sizeof_fat_arch : Nat := 20
/-- Size of `struct fat_arch_64`. -/
def sizeof_fat_arch_64 : Nat := 32
/-- Size of `struct mach_header`. -/
def sizeof_mach_header : Nat := 28
/-- Size of `struct mach_header_64`. -/
def sizeof_mach_header_64 : Nat := 32
/-- Size of `struct load_command`. -/
def sizeof_load_command : Nat := 8
/-- Size of `struct dylib_command`. -/
def sizeof_dylib_command : Nat := 24
/-- Size of `struct sub_client_command`. -/
def sizeof_sub_client_command : Nat := 12
/-- Size of `struct sub_framework_command`. -/
def sizeof_sub_framework_command : Nat := 12
/-- Size of `struct symtab_command`. -/
def sizeof_symtab_command : Nat := 24
/-- Size of `struct uuid_command`. -/
def sizeof_uuid_command : Nat := 24
/-- Size of `struct version_min_command`. -/
def sizeof_version_min_command : Nat := 16
/-- Size of `struct build_version_command`. -/
def sizeof_build_version_command : Nat := 24
/-- Size of `struct segment_command`. -/
def sizeof_segment_command : Nat := 56
/-- Size of `struct segment_command_64`. -/
def sizeof_segment_command_64 : Nat := 72
/-- Size of `struct section`. -/
def sizeof_section : Nat := 68
/-- Size of `struct section_64`. -/
def sizeof_section_64 : Nat := 80
/-- Size of `struct objc_image_info`. -/
def sizeof_objc_image_info : Nat := 8

/-- Load-command number of `mach-o/loader.h`. -/
def LC_SEGMENT : Nat := 0x1
/-- Load-command number of `mach-o/loader.h`. -/
def LC_SYMTAB : Nat := 0x2
/-- Load-command number of `mach-o/loader.h`. -/
def LC_ID_DYLIB : Nat := 0xd
/-- Load-command number of `mach-o/loader.h`. -/
def LC_SUB_FRAMEWORK : Nat := 0x12
/-- Load-command number of `mach-o/loader.h`. -/
def LC_SUB_CLIENT : Nat := 0x14
/-- Load-command number of `mach-o/loader.h`. -/
def LC_SEGMENT_64 : Nat := 0x19
/-- Load-command number of `mach-o/loader.h`. -/
def LC_UUID : Nat := 0x1b
/-- Load-command number of `mach-o/loader.h`: `0x1f | LC_REQ_DYLD`. -/
def LC_REEXPORT_DYLIB : Nat := 0x8000001f
/-- Load-command number of `mach-o/loader.h`. -/
def LC_VERSION_MIN_MACOSX : Nat := 0x24
/-- Load-command number of `mach-o/loader.h`. -/
def LC_VERSION_MIN_IPHONEOS : Nat := 0x25
/-- Load-command number of `mach-o/loader.h`. -/
def LC_VERSION_MIN_TVOS : Nat := 0x2f
/-- Load-command number of `mach-o/loader.h`. -/
def LC_VERSION_MIN_WATCHOS : Nat := 0x30
/-- Load-command number of `mach-o/loader.h`. -/
def LC_BUILD_VERSION : Nat := 0x32

/-- Magic of `mach-o/loader.h`. -/
def MH_MAGIC : Nat := 0xfeedface
/-- Magic of `mach-o/loader.h`. -/
def MH_CIGAM : Nat := 0xcefaedfe
/-- Magic of `mach-o/loader.h`. -/
def MH_MAGIC_64 : Nat := 0xfeedfacf
/-- Magic of `mach-o/loader.h`. -/
def MH_CIGAM_64 : Nat := 0xcffaedfe
/-- Header flag of `mach-o/loader.h`. -/
def MH_TWOLEVEL : Nat := 0x80
/-- Header flag of `mach-o/loader.h`. -/
def MH_APP_EXTENSION_SAFE : Nat := 0x02000000

/-! ## The file descriptor

A descriptor is the content of the file and the current position. Reads cannot fail in this
model (no I/O error is injected), so the `read(...) < 0` branches of the sources are not
taken; a read that reaches the end of the file leaves the rest of the destination as 0.
Allocation is taken to succeed. -/

/-- An open file: content and position. -/
structure Fd where
  bytes : List Nat
  pos : Nat
deriving DecidableEq, Repr

/-- The call `read(fd, buf, n)`: the `n` destination bytes and the advanced descriptor. -/
def Fd.read (fd : Fd) (n : Nat) : List Nat × Fd :=
  let got := (fd.bytes.drop fd.pos).take n
  (got ++ List.replicate (n - got.length) 0, { fd with pos := fd.pos + got.length })

/-- The call `lseek(fd, off, SEEK_SET)` where `off` is a 64-bit value converted to `off_t`:
it fails (`none`) when the converted offset is negative. -/
def Fd.lseek_set (fd : Fd) (off : Nat) : Option Fd :=
  if off < 2 ^ 63 then some { fd with pos := off } else none

/-- The call `lseek(fd, n, SEEK_CUR)`. -/
def Fd.lseek_cur (fd : Fd) (n : Nat) : Option Fd :=
  if fd.pos + n < 2 ^ 63 then some { fd with pos := fd.pos + n } else none

/-- The record `struct symtab_command`. -/
structure symtab_command where
  cmd : Nat
  cmdsize : Nat
  symoff : Nat
  nsyms : Nat
  stroff : Nat
  strsize : Nat
deriving DecidableEq, Repr

/-! ## Declarations of the repository that are not under src/

The option bits, flag bits and enum values of `tbd.h`, `macho_file.h` and `objc.h`, the
string check of `yaml.h`, the comparators of `tbd.c` and the symbol-table parsers of
`macho_file_parse_symbols.c` are parameters of the embedding. -/

/-- Values and functions declared outside the embedded sources. -/
structure Externals where
  O_TBD_PARSE_IGNORE_CLIENTS : Nat
  O_TBD_PARSE_IGNORE_CURRENT_VERSION : Nat
  O_TBD_PARSE_IGNORE_COMPATIBILITY_VERSION : Nat
  O_TBD_PARSE_IGNORE_INSTALL_NAME : Nat
  O_TBD_PARSE_IGNORE_MISSING_EXPORTS : Nat
  O_TBD_PARSE_IGNORE_OBJC_CONSTRAINT : Nat
  O_TBD_PARSE_IGNORE_PARENT_UMBRELLA : Nat
  O_TBD_PARSE_IGNORE_PLATFORM : Nat
  O_TBD_PARSE_IGNORE_REEXPORTS : Nat
  O_TBD_PARSE_IGNORE_SWIFT_VERSION : Nat
  O_TBD_PARSE_IGNORE_SYMBOLS : Nat
  O_TBD_PARSE_IGNORE_UUID : Nat
  O_MACHO_FILE_PARSE_IGNORE_INVALID_FIELDS : Nat
  O_MACHO_FILE_PARSE_IGNORE_CONFLICTING_FIELDS : Nat
  O_MACHO_FILE_PARSE_SKIP_INVALID_ARCHITECTURES : Nat
  O_MACHO_FILE_PARSE_SECT_OFF_ABSOLUTE : Nat
  O_MACHO_FILE_PARSE_COPY_STRINGS_IN_MAP : Nat
  O_MACHO_FILE_PARSE_DONT_PARSE_SYMBOL_TABLE : Nat
  F_TBD_CREATE_INFO_INSTALL_NAME_NEEDS_QUOTES : Nat
  F_TBD_CREATE_INFO_PARENT_UMBRELLA_NEEDS_QUOTES : Nat
  F_TBD_CREATE_INFO_STRINGS_WERE_COPIED : Nat
  F_TBD_EXPORT_INFO_STRING_NEEDS_QUOTES : Nat
  TBD_FLAG_FLAT_NAMESPACE : Nat
  TBD_FLAG_NOT_APP_EXTENSION_SAFE : Nat
  TBD_PLATFORM_MACOS : Nat
  TBD_PLATFORM_IOS : Nat
  TBD_PLATFORM_WATCHOS : Nat
  TBD_PLATFORM_TVOS : Nat
  TBD_OBJC_CONSTRAINT_RETAIN_RELEASE : Nat
  TBD_OBJC_CONSTRAINT_RETAIN_RELEASE_OR_GC : Nat
  TBD_OBJC_CONSTRAINT_RETAIN_RELEASE_FOR_SIMULATOR : Nat
  TBD_OBJC_CONSTRAINT_GC : Nat
  TBD_EXPORT_TYPE_REEXPORT : Nat
  TBD_EXPORT_TYPE_CLIENT : Nat
  F_OBJC_IMAGE_INFO_SUPPORTS_GC : Nat
  F_OBJC_IMAGE_INFO_REQUIRES_GC : Nat
  F_OBJC_IMAGE_INFO_IS_FOR_SIMULATOR : Nat
  objc_image_info_swift_version_mask : Nat
  yaml_check_c_str : List Nat → Bool
  tbd_export_info_no_archs_comparator : tbd_export_info → tbd_export_info → Int
  tbd_export_info_comparator : tbd_export_info → tbd_export_info → Int
  tbd_uuid_info_comparator : tbd_uuid_info → tbd_uuid_info → Int
  macho_file_parse_symbols_from_file : tbd_create_info → Fd → range → range → Nat → Bool →
    Nat → Nat → Nat → Nat → Nat → macho_file_parse_result × tbd_create_info × Fd
  macho_file_parse_symbols_64_from_file : tbd_create_info → Fd → range → range → Nat → Bool →
    Nat → Nat → Nat → Nat → Nat → macho_file_parse_result × tbd_create_info × Fd
  macho_file_parse_symbols_from_map : tbd_create_info → List Nat → range → Nat → Bool →
    Nat → Nat → Nat → Nat → Nat → macho_file_parse_result × tbd_create_info
  macho_file_parse_symbols_64_from_map : tbd_create_info → List Nat → range → Nat → Bool →
    Nat → Nat → Nat → Nat → Nat → macho_file_parse_result × tbd_create_info

/-! ## `src/array.c`: search and insertion on whole arrays

An array of fixed-size items is the list of its items. -/

/-- The enum `array_result`. -/
inductive array_result where
  | E_ARRAY_OK
  | E_ARRAY_ALLOC_FAIL
  | E_ARRAY_INDEX_OUT_OF_BOUNDS
deriving DecidableEq, Repr

/-- Function `array_find_item`: linear search, the index of the first item on which the
comparator returns 0. -/
def array_find_item {α β : Type} (items : List α) (item : β) (comparator : α → β → Int) :
    Option Nat :=
  match items.findIdx? (fun x => comparator x item == 0) with
  | some i => some i
  | none => none

/-- Function `array_find_item_in_sorted`. -/
def array_find_item_in_sorted {α β : Type} (items : List α) (item : β)
    (comparator : α → β → Int) : search_result :=
  if items.length = 0 then
    .null ⟨0, .ARRAY_CACHED_INDEX_EQUAL⟩
  else
    let slice : array_slice := { front := 0, back := items.length - 1 }
    array_slice_get_sorted_array_item_for_item items slice item comparator

/-- Function `array_add_item`: the item is stored after the last item. -/
def array_add_item {α : Type} (items : List α) (item : α) : array_result × List α :=
  (.E_ARRAY_OK, items ++ [item])

/-- Function `array_add_item_to_index`: the item is stored at `index`, the items from `index`
on move up by one. -/
def array_add_item_to_index {α : Type} (items : List α) (item : α) (index : Nat) :
    array_result × List α :=
  if index > items.length then (.E_ARRAY_INDEX_OUT_OF_BOUNDS, items)
  else (.E_ARRAY_OK, items.take index ++ item :: items.drop index)

/-- Function `array_add_item_with_cached_index_info`. -/
def array_add_item_with_cached_index_info {α : Type} (items : List α) (item : α)
    (info : array_cached_index_info) : array_result × List α :=
  let index := info.index
  let type := info.type
  if index = 0 then
    if type ≠ .ARRAY_CACHED_INDEX_GREATER_THAN then array_add_item_to_index items item 0
    else array_add_item_to_index items item 1
  else
    let back_index := wrap64 (items.length + 2 ^ 64 - 1)
    if index = back_index then
      if type = .ARRAY_CACHED_INDEX_GREATER_THAN then array_add_item items item
      else array_add_item_to_index items item back_index
    else if type ≠ .ARRAY_CACHED_INDEX_GREATER_THAN then
      array_add_item_to_index items item index
    else array_add_item_to_index items item (index + 1)

/-! ## `src/macho_file_parse_load_commands.c` -/

/-- The `n` bytes of a buffer from an offset on. -/
def bytes_at (buf : List Nat) (off n : Nat) : List Nat :=
  (List.range n).map (fun i => byte_at buf (off + i))

/-- The call `strnlen(buf + off, max)`: number of bytes before the first NUL, at most `max`. -/
def strnlen (buf : List Nat) (off : Nat) : Nat → Nat
  | 0 => 0
  | max + 1 => if byte_at buf off = 0 then 0 else strnlen buf (off + 1) max + 1

/-- The test `memcmp(a, b, n) != 0`. -/
def memcmp_ne (a b : List Nat) (n : Nat) : Bool := decide (a.take n ≠ b.take n)

/-- Function `segment_has_image_info_sect`; `name` is the offset of the 16-byte name. -/
def segment_has_image_info_sect (buf : List Nat) (name : Nat) : Bool :=
  let first := read_u64 buf name
  let second := read_u64 buf (name + 8)
  if first = 71830128058207 then second == 0
  else if first = 4926728347494670175 then second == 1498698313
  else if first = 4854670753456742239 then second == 1414745679
  else if first = 73986219138911 then second == 0
  else false

/-- Function `is_image_info_section`; `name` is the offset of the 16-byte name. -/
def is_image_info_section (buf : List Nat) (name : Nat) : Bool :=
  let first := read_u64 buf name
  let second := read_u64 buf (name + 8)
  if first = 6874014074396041055 then second == 1868983913
  else if first = 7592896805339094879 then second == 8027224784786383213
  else false

/-- Decoding of the Objective-C constraint from the flags of an `objc_image_info`, as done by
`parse_section_from_file` and `parse_section_from_map`. -/
def objc_constraint_of_flags (K : Externals) (flags : Nat) : Nat :=
  if flag_set flags K.F_OBJC_IMAGE_INFO_REQUIRES_GC then K.TBD_OBJC_CONSTRAINT_GC
  else if flag_set flags K.F_OBJC_IMAGE_INFO_SUPPORTS_GC then
    K.TBD_OBJC_CONSTRAINT_RETAIN_RELEASE_OR_GC
  else if flag_set flags K.F_OBJC_IMAGE_INFO_IS_FOR_SIMULATOR then
    K.TBD_OBJC_CONSTRAINT_RETAIN_RELEASE_FOR_SIMULATOR
  else K.TBD_OBJC_CONSTRAINT_RETAIN_RELEASE

/-- Tail of `parse_section_from_file` and `parse_section_from_map` once the flags word of the
`objc_image_info` is loaded: the constraint and swift-version checks. The result carries the
aggregate and the value behind `existing_swift_version_in`. -/
def parse_section_flags (K : Externals) (info_in : tbd_create_info)
    (existing_swift_version_in flags : Nat) :
    macho_file_parse_result × tbd_create_info × Nat :=
  let objc_constraint := objc_constraint_of_flags K flags
  let info_objc_constraint := info_in.objc_constraint
  if info_objc_constraint ≠ 0 ∧ info_objc_constraint ≠ objc_constraint then
    (E_MACHO_FILE_PARSE_CONFLICTING_OBJC_CONSTRAINT, info_in, existing_swift_version_in)
  else
    let info1 :=
      if info_objc_constraint ≠ 0 then info_in
      else { info_in with objc_constraint := objc_constraint }
    let mask := K.objc_image_info_swift_version_mask
    let existing_swift_version := existing_swift_version_in
    let image_swift_version := (flags &&& mask) >>> 8
    if existing_swift_version ≠ 0 then
      if existing_swift_version ≠ image_swift_version then
        (E_MACHO_FILE_PARSE_CONFLICTING_SWIFT_VERSION, info1, existing_swift_version_in)
      else (E_MACHO_FILE_PARSE_OK, info1, existing_swift_version_in)
    else (E_MACHO_FILE_PARSE_OK, info1, image_swift_version)

/-- Function `parse_section_from_file`. The result carries the aggregate, the value behind
`existing_swift_version_in` and the descriptor. -/
def parse_section_from_file (K : Externals) (info_in : tbd_create_info)
    (existing_swift_version_in : Nat) (fd : Fd) (full_range macho_range : range)
    (sect_offset sect_size options : Nat) :
    macho_file_parse_result × tbd_create_info × Nat × Fd :=
  if sect_size ≠ sizeof_objc_image_info then
    (E_MACHO_FILE_PARSE_INVALID_SECTION, info_in, existing_swift_version_in, fd)
  else
    let sect_range : range :=
      { begin := sect_offset, end_ := wrap64 (sect_offset + sect_size) }
    if !range_contains_range macho_range sect_range then
      (E_MACHO_FILE_PARSE_INVALID_SECTION, info_in, existing_swift_version_in, fd)
    else
      let original_pos := fd.pos
      let sought :=
        if flag_set options K.O_MACHO_FILE_PARSE_SECT_OFF_ABSOLUTE then fd.lseek_set sect_offset
        else fd.lseek_set (wrap64 (full_range.begin + sect_offset))
      match sought with
      | none => (E_MACHO_FILE_PARSE_SEEK_FAIL, info_in, existing_swift_version_in, fd)
      | some fd1 =>
        let image_info := (fd1.read sizeof_objc_image_info).1
        let fd2 := (fd1.read sizeof_objc_image_info).2
        match fd2.lseek_set original_pos with
        | none => (E_MACHO_FILE_PARSE_SEEK_FAIL, info_in, existing_swift_version_in, fd2)
        | some fd3 =>
          let r := parse_section_flags K info_in existing_swift_version_in
            (read_u32 image_info 4)
          (r.1, r.2.1, r.2.2, fd3)

/-- Function `parse_section_from_map`; `map` is the mapped file and `macho` the offset in
it of the Mach-O image. -/
def parse_section_from_map (K : Externals) (info_in : tbd_create_info)
    (existing_swift_version_in : Nat) (map_range macho_range : range) (map : List Nat)
    (macho : Nat) (sect_offset sect_size options : Nat) :
    macho_file_parse_result × tbd_create_info × Nat :=
  if sect_size ≠ sizeof_objc_image_info then
    (E_MACHO_FILE_PARSE_INVALID_SECTION, info_in, existing_swift_version_in)
  else
    let sect_range : range :=
      { begin := sect_offset, end_ := wrap64 (sect_offset + sect_size) }
    if flag_set options K.O_MACHO_FILE_PARSE_SECT_OFF_ABSOLUTE then
      if !range_contains_range map_range sect_range then
        (E_MACHO_FILE_PARSE_INVALID_SECTION, info_in, existing_swift_version_in)
      else
        parse_section_flags K info_in existing_swift_version_in
          (read_u32 map (sect_offset + 4))
    else
      if !range_contains_range macho_range sect_range then
        (E_MACHO_FILE_PARSE_INVALID_SECTION, info_in, existing_swift_version_in)
      else
        parse_section_flags K info_in existing_swift_version_in
          (read_u32 map (macho + sect_offset + 4))

/-- Function `add_export_to_info`. -/
def add_export_to_info (K : Externals) (info_in : tbd_create_info) (arch_bit type : Nat)
    (string : List Nat) (string_length : Nat) : macho_file_parse_result × tbd_create_info :=
  let export_info : tbd_export_info :=
    { archs := arch_bit, archs_count := 1, length := string_length, string := string,
      type := type, flags := 0 }
  let exports := info_in.exports
  match array_find_item_in_sorted exports export_info
      K.tbd_export_info_no_archs_comparator with
  | .item i =>
    match exports.get? i with
    | none => (E_MACHO_FILE_PARSE_OK, info_in)
    | some existing_info =>
      let archs := existing_info.archs
      if !flag_set archs arch_bit then
        let updated : tbd_export_info :=
          { existing_info with
            archs := archs ||| arch_bit, archs_count := wrap32 (existing_info.archs_count + 1) }
        (E_MACHO_FILE_PARSE_OK, { info_in with exports := exports.set i updated })
      else (E_MACHO_FILE_PARSE_OK, info_in)
  | .null cached_info =>
    let needs_quotes := K.yaml_check_c_str string
    let export_info1 : tbd_export_info :=
      if needs_quotes then
        { export_info with flags := export_info.flags ||| K.F_TBD_EXPORT_INFO_STRING_NEEDS_QUOTES }
      else export_info
    match array_add_item_with_cached_index_info exports export_info1 cached_info with
    | (.E_ARRAY_OK, exports1) => (E_MACHO_FILE_PARSE_OK, { info_in with exports := exports1 })
    | (_, _) => (E_MACHO_FILE_PARSE_ARRAY_FAIL, info_in)
  | _ => (E_MACHO_FILE_PARSE_ARRAY_FAIL, info_in)

/-- The record `struct load_command`, after the swap of its two fields. -/
structure load_command where
  cmd : Nat
  cmdsize : Nat
deriving DecidableEq, Repr

/-- The locals of the command walk that `parse_load_command` reaches through pointers:
`uuid_info`, `found_uuid`, `found_identification` and `symtab`. -/
structure walk_locals where
  uuid_info : tbd_uuid_info
  found_uuid : Bool
  found_identification : Bool
  symtab : symtab_command
deriving DecidableEq, Repr

/-- A 32-bit field of a command, swapped when the slice is big-endian. -/
def read_field (buf : List Nat) (off : Nat) (is_big_endian : Bool) : Nat :=
  if is_big_endian then swap_uint32 (read_u32 buf off) else read_u32 buf off

/-- Case `LC_BUILD_VERSION` of `parse_load_command`. -/
def parse_load_command_build_version (K : Externals) (info_in : tbd_create_info)
    (v : walk_locals) (load_cmd : load_command) (buf : List Nat) (load_cmd_iter : Nat)
    (is_big_endian : Bool) (tbd_options options : Nat) :
    macho_file_parse_result × tbd_create_info × walk_locals :=
  if flag_set tbd_options K.O_TBD_PARSE_IGNORE_PLATFORM then (E_MACHO_FILE_PARSE_OK, info_in, v)
  else if load_cmd.cmdsize < sizeof_build_version_command then
    (E_MACHO_FILE_PARSE_INVALID_LOAD_COMMAND, info_in, v)
  else
    let build_version_platform := read_field buf (load_cmd_iter + 8) is_big_endian
    if build_version_platform < K.TBD_PLATFORM_MACOS then
      if flag_set options K.O_MACHO_FILE_PARSE_IGNORE_INVALID_FIELDS then
        (E_MACHO_FILE_PARSE_OK, info_in, v)
      else (E_MACHO_FILE_PARSE_INVALID_PLATFORM, info_in, v)
    else if build_version_platform > K.TBD_PLATFORM_WATCHOS then
      if flag_set options K.O_MACHO_FILE_PARSE_IGNORE_INVALID_FIELDS then
        (E_MACHO_FILE_PARSE_OK, info_in, v)
      else (E_MACHO_FILE_PARSE_INVALID_PLATFORM, info_in, v)
    else if info_in.platform ≠ 0 then
      let ignore_conflicting_fields :=
        flag_set options K.O_MACHO_FILE_PARSE_IGNORE_CONFLICTING_FIELDS
      if !ignore_conflicting_fields && decide (info_in.platform ≠ build_version_platform) then
        (E_MACHO_FILE_PARSE_CONFLICTING_PLATFORM, info_in, v)
      else (E_MACHO_FILE_PARSE_OK, info_in, v)
    else (E_MACHO_FILE_PARSE_OK, { info_in with platform := build_version_platform }, v)

/-- The part of case `LC_ID_DYLIB` of `parse_load_command` that follows the checks of the
name: `name` holds the `length` bytes of the install name, `dylib_current_version` and
`dylib_compatibility_version` are the two version fields as they lie in the command. -/
def parse_load_command_id_dylib_record (K : Externals) (info_in : tbd_create_info)
    (v : walk_locals) (name : List Nat) (length : Nat)
    (dylib_current_version dylib_compatibility_version : Nat) (tbd_options options : Nat) :
    macho_file_parse_result × tbd_create_info × walk_locals :=
  let needs_quotes := K.yaml_check_c_str name
  let info1 :=
    if needs_quotes then
      { info_in with
        flags := info_in.flags ||| K.F_TBD_CREATE_INFO_INSTALL_NAME_NEEDS_QUOTES }
    else info_in
  match info1.install_name with
  | some install_name =>
    let ignore_conflicting_fields :=
      flag_set options K.O_MACHO_FILE_PARSE_IGNORE_CONFLICTING_FIELDS
    if ignore_conflicting_fields then
      (E_MACHO_FILE_PARSE_OK, info1, { v with found_identification := true })
    else if info1.current_version ≠ dylib_current_version then
      (E_MACHO_FILE_PARSE_CONFLICTING_IDENTIFICATION, info1, v)
    else
      let compatibility_version := dylib_compatibility_version
      if compatibility_version ≠ dylib_compatibility_version then
        (E_MACHO_FILE_PARSE_CONFLICTING_IDENTIFICATION, info1, v)
      else if info1.install_name_length ≠ length then
        (E_MACHO_FILE_PARSE_CONFLICTING_IDENTIFICATION, info1, v)
      else if memcmp_ne install_name name length then
        (E_MACHO_FILE_PARSE_CONFLICTING_IDENTIFICATION, info1, v)
      else (E_MACHO_FILE_PARSE_OK, info1, { v with found_identification := true })
  | none =>
    let info2 :=
      if !flag_set tbd_options K.O_TBD_PARSE_IGNORE_CURRENT_VERSION then
        { info1 with current_version := dylib_current_version }
      else info1
    let ignore_compatibility_version :=
      flag_set options K.O_TBD_PARSE_IGNORE_COMPATIBILITY_VERSION
    let info3 :=
      if !ignore_compatibility_version then
        { info2 with compatibility_version := dylib_compatibility_version }
      else info2
    let info4 :=
      if !flag_set tbd_options K.O_TBD_PARSE_IGNORE_INSTALL_NAME then
        { info3 with install_name := some name, install_name_length := length }
      else info3
    (E_MACHO_FILE_PARSE_OK, info4, { v with found_identification := true })

/-- Case `LC_ID_DYLIB` of `parse_load_command`. -/
def parse_load_command_id_dylib (K : Externals) (info_in : tbd_create_info)
    (v : walk_locals) (load_cmd : load_command) (buf : List Nat) (load_cmd_iter : Nat)
    (is_big_endian : Bool) (tbd_options options : Nat) :
    macho_file_parse_result × tbd_create_info × walk_locals :=
  if flag_set tbd_options K.O_TBD_PARSE_IGNORE_CURRENT_VERSION &&
      flag_set tbd_options K.O_TBD_PARSE_IGNORE_COMPATIBILITY_VERSION &&
      flag_set tbd_options K.O_TBD_PARSE_IGNORE_INSTALL_NAME then
    (E_MACHO_FILE_PARSE_OK, info_in, { v with found_identification := true })
  else if load_cmd.cmdsize < sizeof_dylib_command then
    (E_MACHO_FILE_PARSE_INVALID_LOAD_COMMAND, info_in, v)
  else
    let name_offset := read_field buf (load_cmd_iter + 8) is_big_endian
    if name_offset < sizeof_dylib_command then
      if flag_set options K.O_MACHO_FILE_PARSE_IGNORE_INVALID_FIELDS then
        (E_MACHO_FILE_PARSE_OK, info_in, { v with found_identification := true })
      else (E_MACHO_FILE_PARSE_INVALID_INSTALL_NAME, info_in, v)
    else if name_offset ≥ load_cmd.cmdsize then
      if flag_set options K.O_MACHO_FILE_PARSE_IGNORE_INVALID_FIELDS then
        (E_MACHO_FILE_PARSE_OK, info_in, { v with found_identification := true })
      else (E_MACHO_FILE_PARSE_INVALID_INSTALL_NAME, info_in, v)
    else
      let name_ptr := load_cmd_iter + name_offset
      let max_length := load_cmd.cmdsize - name_offset
      let length := wrap32 (strnlen buf name_ptr max_length)
      if length = 0 then
        if flag_set options K.O_MACHO_FILE_PARSE_IGNORE_INVALID_FIELDS then
          (E_MACHO_FILE_PARSE_OK, info_in, { v with found_identification := true })
        else (E_MACHO_FILE_PARSE_INVALID_INSTALL_NAME, info_in, v)
      else
        parse_load_command_id_dylib_record K info_in v (bytes_at buf name_ptr length) length
          (read_u32 buf (load_cmd_iter + 16)) (read_u32 buf (load_cmd_iter + 20))
          tbd_options options

/-- Case `LC_REEXPORT_DYLIB` of `parse_load_command`. -/
def parse_load_command_reexport_dylib (K : Externals) (info_in : tbd_create_info)
    (v : walk_locals) (arch_bit : Nat) (load_cmd : load_command) (buf : List Nat)
    (load_cmd_iter : Nat) (is_big_endian : Bool) (tbd_options options : Nat) :
    macho_file_parse_result × tbd_create_info × walk_locals :=
  if flag_set tbd_options K.O_TBD_PARSE_IGNORE_REEXPORTS then
    (E_MACHO_FILE_PARSE_OK, info_in, v)
  else if load_cmd.cmdsize < sizeof_dylib_command then
    (E_MACHO_FILE_PARSE_INVALID_LOAD_COMMAND, info_in, v)
  else
    let reexport_offset := read_field buf (load_cmd_iter + 8) is_big_endian
    if reexport_offset < sizeof_dylib_command then
      (E_MACHO_FILE_PARSE_INVALID_REEXPORT, info_in, v)
    else if reexport_offset ≥ load_cmd.cmdsize then
      (E_MACHO_FILE_PARSE_INVALID_REEXPORT, info_in, v)
    else
      let reexport_string := load_cmd_iter + reexport_offset
      let max_length := load_cmd.cmdsize - reexport_offset
      let length := wrap32 (strnlen buf reexport_string max_length)
      if length = 0 then
        if flag_set options K.O_MACHO_FILE_PARSE_IGNORE_INVALID_FIELDS then
          (E_MACHO_FILE_PARSE_OK, info_in, v)
        else (E_MACHO_FILE_PARSE_INVALID_REEXPORT, info_in, v)
      else
        let add_reexport_result := add_export_to_info K info_in arch_bit
          K.TBD_EXPORT_TYPE_REEXPORT (bytes_at buf reexport_string length) length
        (add_reexport_result.1, add_reexport_result.2, v)

/-- Case `LC_SUB_CLIENT` of `parse_load_command`. -/
def parse_load_command_sub_client (K : Externals) (info_in : tbd_create_info)
    (v : walk_locals) (arch_bit : Nat) (load_cmd : load_command) (buf : List Nat)
    (load_cmd_iter : Nat) (is_big_endian : Bool) (tbd_options options : Nat) :
    macho_file_parse_result × tbd_create_info × walk_locals :=
  if flag_set tbd_options K.O_TBD_PARSE_IGNORE_CLIENTS then
    (E_MACHO_FILE_PARSE_OK, info_in, v)
  else if load_cmd.cmdsize < sizeof_sub_client_command then
    (E_MACHO_FILE_PARSE_INVALID_LOAD_COMMAND, info_in, v)
  else
    let client_offset := read_field buf (load_cmd_iter + 8) is_big_endian
    if client_offset < sizeof_sub_client_command then
      (E_MACHO_FILE_PARSE_INVALID_CLIENT, info_in, v)
    else if client_offset ≥ load_cmd.cmdsize then
      (E_MACHO_FILE_PARSE_INVALID_CLIENT, info_in, v)
    else
      let string := load_cmd_iter + client_offset
      let max_length := load_cmd.cmdsize - client_offset
      let length := wrap32 (strnlen buf string max_length)
      if length = 0 then
        if flag_set options K.O_MACHO_FILE_PARSE_IGNORE_INVALID_FIELDS then
          (E_MACHO_FILE_PARSE_OK, info_in, v)
        else (E_MACHO_FILE_PARSE_INVALID_CLIENT, info_in, v)
      else
        let add_client_result := add_export_to_info K info_in arch_bit
          K.TBD_EXPORT_TYPE_CLIENT (bytes_at buf string length) length
        (add_client_result.1, add_client_result.2, v)

/-- The part of case `LC_SUB_FRAMEWORK` of `parse_load_command` that follows the checks of
the string: `umbrella` holds the `length` bytes of the umbrella name. -/
def parse_load_command_sub_framework_record (K : Externals) (info_in : tbd_create_info)
    (v : walk_locals) (umbrella : List Nat) (length : Nat) (options : Nat) :
    macho_file_parse_result × tbd_create_info × walk_locals :=
  let needs_quotes := K.yaml_check_c_str umbrella
  let info1 :=
    if needs_quotes then
      { info_in with
        flags := info_in.flags ||| K.F_TBD_CREATE_INFO_PARENT_UMBRELLA_NEEDS_QUOTES }
    else info_in
  match info1.parent_umbrella with
  | some parent_umbrella =>
    let ignore_conflicting_fields :=
      flag_set options K.O_MACHO_FILE_PARSE_IGNORE_CONFLICTING_FIELDS
    if ignore_conflicting_fields then (E_MACHO_FILE_PARSE_OK, info1, v)
    else if info1.parent_umbrella_length ≠ length then
      (E_MACHO_FILE_PARSE_CONFLICTING_PARENT_UMBRELLA, info1, v)
    else if memcmp_ne parent_umbrella umbrella length then
      (E_MACHO_FILE_PARSE_CONFLICTING_PARENT_UMBRELLA, info1, v)
    else (E_MACHO_FILE_PARSE_OK, info1, v)
  | none =>
    (E_MACHO_FILE_PARSE_OK,
      { info1 with parent_umbrella := some umbrella, parent_umbrella_length := length }, v)

/-- Case `LC_SUB_FRAMEWORK` of `parse_load_command`. -/
def parse_load_command_sub_framework (K : Externals) (info_in : tbd_create_info)
    (v : walk_locals) (load_cmd : load_command) (buf : List Nat) (load_cmd_iter : Nat)
    (is_big_endian : Bool) (tbd_options options : Nat) :
    macho_file_parse_result × tbd_create_info × walk_locals :=
  if flag_set tbd_options K.O_TBD_PARSE_IGNORE_PARENT_UMBRELLA then
    (E_MACHO_FILE_PARSE_OK, info_in, v)
  else if load_cmd.cmdsize < sizeof_sub_framework_command then
    (E_MACHO_FILE_PARSE_INVALID_LOAD_COMMAND, info_in, v)
  else
    let umbrella_offset := read_field buf (load_cmd_iter + 8) is_big_endian
    if umbrella_offset < sizeof_sub_framework_command then
      if flag_set options K.O_MACHO_FILE_PARSE_IGNORE_INVALID_FIELDS then
        (E_MACHO_FILE_PARSE_OK, info_in, v)
      else (E_MACHO_FILE_PARSE_INVALID_PARENT_UMBRELLA, info_in, v)
    else if umbrella_offset ≥ load_cmd.cmdsize then
      if flag_set options K.O_MACHO_FILE_PARSE_IGNORE_INVALID_FIELDS then
        (E_MACHO_FILE_PARSE_OK, info_in, v)
      else (E_MACHO_FILE_PARSE_INVALID_PARENT_UMBRELLA, info_in, v)
    else
      let umbrella := load_cmd_iter + umbrella_offset
      let max_length := load_cmd.cmdsize - umbrella_offset
      let length := wrap32 (strnlen buf umbrella max_length)
      if length = 0 then
        if flag_set options K.O_MACHO_FILE_PARSE_IGNORE_INVALID_FIELDS then
          (E_MACHO_FILE_PARSE_OK, info_in, v)
        else (E_MACHO_FILE_PARSE_INVALID_PARENT_UMBRELLA, info_in, v)
      else
        parse_load_command_sub_framework_record K info_in v (bytes_at buf umbrella length)
          length options

/-- Case `LC_SYMTAB` of `parse_load_command`: the command is copied as it lies in the buffer. -/
def parse_load_command_symtab (K : Externals) (info_in : tbd_create_info)
    (v : walk_locals) (load_cmd : load_command) (buf : List Nat) (load_cmd_iter : Nat)
    (tbd_options : Nat) : macho_file_parse_result × tbd_create_info × walk_locals :=
  if flag_set tbd_options K.O_TBD_PARSE_IGNORE_SYMBOLS then (E_MACHO_FILE_PARSE_OK, info_in, v)
  else if load_cmd.cmdsize ≠ sizeof_symtab_command then
    (E_MACHO_FILE_PARSE_INVALID_SYMBOL_TABLE, info_in, v)
  else
    let symtab : symtab_command :=
      { cmd := read_u32 buf load_cmd_iter, cmdsize := read_u32 buf (load_cmd_iter + 4),
        symoff := read_u32 buf (load_cmd_iter + 8), nsyms := read_u32 buf (load_cmd_iter + 12),
        stroff := read_u32 buf (load_cmd_iter + 16),
        strsize := read_u32 buf (load_cmd_iter + 20) }
    (E_MACHO_FILE_PARSE_OK, info_in, { v with symtab := symtab })

/-- Case `LC_UUID` of `parse_load_command`. -/
def parse_load_command_uuid (K : Externals) (info_in : tbd_create_info)
    (v : walk_locals) (load_cmd : load_command) (buf : List Nat) (load_cmd_iter : Nat)
    (tbd_options options : Nat) : macho_file_parse_result × tbd_create_info × walk_locals :=
  if flag_set tbd_options K.O_TBD_PARSE_IGNORE_UUID then (E_MACHO_FILE_PARSE_OK, info_in, v)
  else if load_cmd.cmdsize ≠ sizeof_uuid_command then
    (E_MACHO_FILE_PARSE_INVALID_UUID, info_in, v)
  else
    let found_uuid := v.found_uuid
    let uuid_cmd_uuid := bytes_at buf (load_cmd_iter + 8) 16
    if found_uuid then
      let uuid_str := v.uuid_info.uuid
      let ignore_conflicting_fields :=
        flag_set options K.O_MACHO_FILE_PARSE_IGNORE_CONFLICTING_FIELDS
      if !ignore_conflicting_fields && memcmp_ne uuid_str uuid_cmd_uuid 16 then
        (E_MACHO_FILE_PARSE_CONFLICTING_UUID, info_in, v)
      else (E_MACHO_FILE_PARSE_OK, info_in, v)
    else
      (E_MACHO_FILE_PARSE_OK, info_in,
        { v with uuid_info := { v.uuid_info with uuid := uuid_cmd_uuid }, found_uuid := true })

/-- Cases `LC_VERSION_MIN_MACOSX`, `LC_VERSION_MIN_IPHONEOS`, `LC_VERSION_MIN_WATCHOS` and
`LC_VERSION_MIN_TVOS` of `parse_load_command`, whose bodies differ in the platform only. -/
def parse_load_command_version_min (K : Externals) (info_in : tbd_create_info)
    (v : walk_locals) (load_cmd : load_command) (tbd_options options platform : Nat) :
    macho_file_parse_result × tbd_create_info × walk_locals :=
  if flag_set tbd_options K.O_TBD_PARSE_IGNORE_PLATFORM then (E_MACHO_FILE_PARSE_OK, info_in, v)
  else if load_cmd.cmdsize ≠ sizeof_version_min_command then
    (E_MACHO_FILE_PARSE_INVALID_LOAD_COMMAND, info_in, v)
  else if info_in.platform ≠ 0 then
    let ignore_conflicting_fields :=
      flag_set options K.O_MACHO_FILE_PARSE_IGNORE_CONFLICTING_FIELDS
    if !ignore_conflicting_fields && decide (info_in.platform ≠ platform) then
      (E_MACHO_FILE_PARSE_CONFLICTING_PLATFORM, info_in, v)
    else (E_MACHO_FILE_PARSE_OK, info_in, v)
  else (E_MACHO_FILE_PARSE_OK, { info_in with platform := platform }, v)

/-- Function `parse_load_command`. `buf` is the buffer that `load_cmd_iter` points into and
`load_cmd_iter` the offset of the command in it; the result carries the aggregate and the
locals behind the pointer arguments. `copy_strings` selects between a copy of a string and a
pointer to it, which hold the same bytes. -/
def parse_load_command (K : Externals) (info_in : tbd_create_info) (v : walk_locals)
    (arch_bit : Nat) (load_cmd : load_command) (buf : List Nat) (load_cmd_iter : Nat)
    (is_big_endian : Bool) (tbd_options options : Nat) (_copy_strings : Bool) :
    macho_file_parse_result × tbd_create_info × walk_locals :=
  if load_cmd.cmd = LC_BUILD_VERSION then
    parse_load_command_build_version K info_in v load_cmd buf load_cmd_iter is_big_endian
      tbd_options options
  else if load_cmd.cmd = LC_ID_DYLIB then
    parse_load_command_id_dylib K info_in v load_cmd buf load_cmd_iter is_big_endian
      tbd_options options
  else if load_cmd.cmd = LC_REEXPORT_DYLIB then
    parse_load_command_reexport_dylib K info_in v arch_bit load_cmd buf load_cmd_iter
      is_big_endian tbd_options options
  else if load_cmd.cmd = LC_SUB_CLIENT then
    parse_load_command_sub_client K info_in v arch_bit load_cmd buf load_cmd_iter
      is_big_endian tbd_options options
  else if load_cmd.cmd = LC_SUB_FRAMEWORK then
    parse_load_command_sub_framework K info_in v load_cmd buf load_cmd_iter is_big_endian
      tbd_options options
  else if load_cmd.cmd = LC_SYMTAB then
    parse_load_command_symtab K info_in v load_cmd buf load_cmd_iter tbd_options
  else if load_cmd.cmd = LC_UUID then
    parse_load_command_uuid K info_in v load_cmd buf load_cmd_iter tbd_options options
  else if load_cmd.cmd = LC_VERSION_MIN_MACOSX then
    parse_load_command_version_min K info_in v load_cmd tbd_options options
      K.TBD_PLATFORM_MACOS
  else if load_cmd.cmd = LC_VERSION_MIN_IPHONEOS then
    parse_load_command_version_min K info_in v load_cmd tbd_options options K.TBD_PLATFORM_IOS
  else if load_cmd.cmd = LC_VERSION_MIN_WATCHOS then
    parse_load_command_version_min K info_in v load_cmd tbd_options options
      K.TBD_PLATFORM_WATCHOS
  else if load_cmd.cmd = LC_VERSION_MIN_TVOS then
    parse_load_command_version_min K info_in v load_cmd tbd_options options
      K.TBD_PLATFORM_TVOS
  else (E_MACHO_FILE_PARSE_OK, info_in, v)

/-- The record `struct mf_parse_load_commands_from_file_info`, without the descriptor, which
the embedding passes next to it; `arch` is the index of the architecture entry. -/
structure mf_parse_load_commands_from_file_info where
  arch : Option Nat
  arch_bit : Nat
  is_64 : Bool
  is_big_endian : Bool
  ncmds : Nat
  sizeofcmds : Nat
  tbd_options : Nat
  options : Nat
  full_range : range
  available_range : range
deriving DecidableEq, Repr

/-- State of the command walk of `macho_file_parse_load_commands_from_file`: the aggregate,
the locals, the descriptor, the offset of `load_cmd_iter` in the buffer and `size_left`. -/
structure file_walk_state where
  info : tbd_create_info
  locals : walk_locals
  fd : Fd
  load_cmd_iter : Nat
  size_left : Nat
deriving DecidableEq, Repr

/-- The loop over the sections of a segment in `macho_file_parse_load_commands_from_file`
(`struct section` when `wide` is false, `struct section_64` when it is true): `n` sections
remain, `sect` is the offset of the current one. The result carries the aggregate, the local
`swift_version` and the descriptor. -/
def sections_loop_from_file (K : Externals) (wide : Bool) (buf : List Nat)
    (is_big_endian : Bool) (full_range relative_range : range) (options : Nat) :
    Nat → Nat → tbd_create_info → Nat → Fd → macho_file_parse_result × tbd_create_info × Nat × Fd
  | 0, _, info, swift_version, fd => (E_MACHO_FILE_PARSE_OK, info, swift_version, fd)
  | n + 1, sect, info, swift_version, fd =>
    let next := sect + (if wide then sizeof_section_64 else sizeof_section)
    if !is_image_info_section buf sect then
      sections_loop_from_file K wide buf is_big_endian full_range relative_range options
        n next info swift_version fd
    else
      let sect_offset := read_field buf (sect + (if wide then 48 else 40)) is_big_endian
      let sect_size :=
        if wide then
          (if is_big_endian then swap_uint64 (read_u64 buf (sect + 40))
            else read_u64 buf (sect + 40))
        else read_field buf (sect + 36) is_big_endian
      let r := parse_section_from_file K info swift_version fd full_range relative_range
        sect_offset sect_size options
      if r.1 ≠ E_MACHO_FILE_PARSE_OK then r
      else
        sections_loop_from_file K wide buf is_big_endian full_range relative_range options
          n next r.2.1 r.2.2.1 r.2.2.2

/-- The end of the cases `LC_SEGMENT` and `LC_SEGMENT_64` of the switch in
`macho_file_parse_load_commands_from_file`, after the loop over the sections: `r` is what the
loop leaves (its result, the aggregate, the local `swift_version` and the descriptor). -/
def parse_segment_from_file_swift_version (K : Externals) (options : Nat)
    (r : macho_file_parse_result × tbd_create_info × Nat × Fd) :
    macho_file_parse_result × tbd_create_info × Fd :=
  if r.1 ≠ E_MACHO_FILE_PARSE_OK then (r.1, r.2.1, r.2.2.2)
  else
    let info1 := r.2.1
    let swift_version := r.2.2.1
    if info1.swift_version ≠ 0 then
      let ignore_conflicting_fields :=
        flag_set options K.O_MACHO_FILE_PARSE_IGNORE_CONFLICTING_FIELDS
      if !ignore_conflicting_fields && decide (info1.swift_version ≠ swift_version) then
        (E_MACHO_FILE_PARSE_CONFLICTING_SWIFT_VERSION, info1, r.2.2.2)
      else (E_MACHO_FILE_PARSE_OK, info1, r.2.2.2)
    else (E_MACHO_FILE_PARSE_OK, { info1 with swift_version := swift_version }, r.2.2.2)

/-- Cases `LC_SEGMENT` (`wide` false) and `LC_SEGMENT_64` (`wide` true) of the switch in
`macho_file_parse_load_commands_from_file`. -/
def parse_segment_from_file (K : Externals) (wide : Bool)
    (p : mf_parse_load_commands_from_file_info) (buf : List Nat) (relative_range : range)
    (info : tbd_create_info) (fd : Fd) (load_cmd : load_command) (load_cmd_iter : Nat) :
    macho_file_parse_result × tbd_create_info × Fd :=
  if flag_set p.tbd_options K.O_TBD_PARSE_IGNORE_OBJC_CONSTRAINT &&
      flag_set p.tbd_options K.O_TBD_PARSE_IGNORE_SWIFT_VERSION then
    (E_MACHO_FILE_PARSE_OK, info, fd)
  else if p.is_64 != wide then (E_MACHO_FILE_PARSE_OK, info, fd)
  else
    let sizeof_segment := if wide then sizeof_segment_command_64 else sizeof_segment_command
    if load_cmd.cmdsize < sizeof_segment then
      (E_MACHO_FILE_PARSE_INVALID_LOAD_COMMAND, info, fd)
    else if !segment_has_image_info_sect buf (load_cmd_iter + 8) then
      (E_MACHO_FILE_PARSE_OK, info, fd)
    else
      let nsects_raw := read_u32 buf (load_cmd_iter + (if wide then 64 else 48))
      if nsects_raw = 0 then (E_MACHO_FILE_PARSE_OK, info, fd)
      else
        let nsects := if p.is_big_endian then swap_uint32 nsects_raw else nsects_raw
        match guard_overflow_mul 64 (if wide then sizeof_section_64 else sizeof_section)
            nsects with
        | none => (E_MACHO_FILE_PARSE_TOO_MANY_SECTIONS, info, fd)
        | some sections_size =>
          let max_sections_size := load_cmd.cmdsize - sizeof_segment
          if sections_size > max_sections_size then
            (E_MACHO_FILE_PARSE_TOO_MANY_SECTIONS, info, fd)
          else
            parse_segment_from_file_swift_version K p.options
              (sections_loop_from_file K wide buf p.is_big_endian p.full_range
                relative_range p.options nsects (load_cmd_iter + sizeof_segment) info 0 fd)

/-- The `switch (load_cmd.cmd)` of the walk in `macho_file_parse_load_commands_from_file`:
what is done with a command whose header passed the size checks. -/
def extract_from_file (K : Externals) (p : mf_parse_load_commands_from_file_info)
    (buf : List Nat) (relative_range : range) (s : file_walk_state) (load_cmd : load_command) :
    macho_file_parse_result × tbd_create_info × walk_locals × Fd :=
  if load_cmd.cmd = LC_SEGMENT then
    let r := parse_segment_from_file K false p buf relative_range s.info s.fd load_cmd
      s.load_cmd_iter
    (r.1, r.2.1, s.locals, r.2.2)
  else if load_cmd.cmd = LC_SEGMENT_64 then
    let r := parse_segment_from_file K true p buf relative_range s.info s.fd load_cmd
      s.load_cmd_iter
    (r.1, r.2.1, s.locals, r.2.2)
  else
    let r := parse_load_command K s.info s.locals p.arch_bit load_cmd buf s.load_cmd_iter
      p.is_big_endian p.tbd_options p.options true
    (r.1, r.2.1, r.2.2, s.fd)

/-- The header of the command at `load_cmd_iter`, swapped when the slice is big-endian. -/
def load_command_at (buf : List Nat) (load_cmd_iter : Nat) (is_big_endian : Bool) :
    load_command :=
  { cmd := read_field buf load_cmd_iter is_big_endian,
    cmdsize := read_field buf (load_cmd_iter + 4) is_big_endian }

/-- One iteration of the `for` loop of `macho_file_parse_load_commands_from_file`. A result
other than ok is the value the function returns from inside the loop. -/
def from_file_iteration (K : Externals) (p : mf_parse_load_commands_from_file_info)
    (buf : List Nat) (relative_range : range) (s : file_walk_state) :
    macho_file_parse_result × file_walk_state :=
  if s.size_left < sizeof_load_command then (E_MACHO_FILE_PARSE_INVALID_LOAD_COMMAND, s)
  else
    let load_cmd := load_command_at buf s.load_cmd_iter p.is_big_endian
    if load_cmd.cmdsize < sizeof_load_command then (E_MACHO_FILE_PARSE_INVALID_LOAD_COMMAND, s)
    else if s.size_left < load_cmd.cmdsize then (E_MACHO_FILE_PARSE_INVALID_LOAD_COMMAND, s)
    else
      let size_left := s.size_left - load_cmd.cmdsize
      let r := extract_from_file K p buf relative_range s load_cmd
      if r.1 ≠ E_MACHO_FILE_PARSE_OK then
        (r.1, { s with info := r.2.1, locals := r.2.2.1, fd := r.2.2.2, size_left := size_left })
      else
        (E_MACHO_FILE_PARSE_OK,
          { info := r.2.1, locals := r.2.2.1, fd := r.2.2.2,
            load_cmd_iter := s.load_cmd_iter + load_cmd.cmdsize, size_left := size_left })

/-- The `for (i = 0; i != ncmds; i++)` loop of `macho_file_parse_load_commands_from_file`,
with `n` iterations to go. -/
def from_file_loop (K : Externals) (p : mf_parse_load_commands_from_file_info)
    (buf : List Nat) (relative_range : range) :
    Nat → file_walk_state → macho_file_parse_result × file_walk_state
  | 0, s => (E_MACHO_FILE_PARSE_OK, s)
  | n + 1, s =>
    let r := from_file_iteration K p buf relative_range s
    if r.1 ≠ E_MACHO_FILE_PARSE_OK then r
    else from_file_loop K p buf relative_range n r.2

/-- What a load-command parser hands back: the returned code, the aggregate, the descriptor
and the command stored through `symtab_out` when that pointer is not `NULL`. -/
structure load_commands_outcome where
  result : macho_file_parse_result
  info : tbd_create_info
  fd : Fd
  symtab_out : Option symtab_command
deriving DecidableEq, Repr

/-- The initial locals of a walk: `found_identification = false`, `found_uuid = false`,
`symtab = {}` and `uuid_info = { .arch = parse_info->arch }`. -/
def initial_locals (arch : Option Nat) : walk_locals :=
  { uuid_info := { arch := arch, uuid := List.replicate 16 0 }, found_uuid := false,
    found_identification := false, symtab := ⟨0, 0, 0, 0, 0, 0⟩ }

/-- The symbol-table command with its four table fields swapped when the slice is
big-endian, as done after the walk. -/
def swap_symtab (is_big_endian : Bool) (symtab : symtab_command) : symtab_command :=
  if is_big_endian then
    { symtab with
      symoff := swap_uint32 symtab.symoff, nsyms := swap_uint32 symtab.nsyms,
      stroff := swap_uint32 symtab.stroff, strsize := swap_uint32 symtab.strsize }
  else symtab

/-- The part of `macho_file_parse_load_commands_from_file` that follows the walk. -/
def from_file_after_walk (K : Externals) (p : mf_parse_load_commands_from_file_info)
    (s : file_walk_state) : load_commands_outcome :=
  if !s.locals.found_identification then
    ⟨E_MACHO_FILE_PARSE_NO_IDENTIFICATION, s.info, s.fd, none⟩
  else
    match array_find_item s.info.uuids s.locals.uuid_info K.tbd_uuid_info_comparator with
    | some _ => ⟨E_MACHO_FILE_PARSE_CONFLICTING_UUID, s.info, s.fd, none⟩
    | none =>
      let info1 := { s.info with uuids := (array_add_item s.info.uuids s.locals.uuid_info).2 }
      if !flag_set p.tbd_options K.O_TBD_PARSE_IGNORE_PLATFORM && info1.platform == 0 then
        ⟨E_MACHO_FILE_PARSE_NO_PLATFORM, info1, s.fd, none⟩
      else if !flag_set p.tbd_options K.O_TBD_PARSE_IGNORE_SYMBOLS &&
          s.locals.symtab.cmd != LC_SYMTAB then
        ⟨E_MACHO_FILE_PARSE_NO_SYMBOL_TABLE, info1, s.fd, none⟩
      else if !flag_set p.tbd_options K.O_TBD_PARSE_IGNORE_UUID && !s.locals.found_uuid then
        ⟨E_MACHO_FILE_PARSE_NO_UUID, info1, s.fd, none⟩
      else
        let symtab := swap_symtab p.is_big_endian s.locals.symtab
        if flag_set p.options K.O_MACHO_FILE_PARSE_DONT_PARSE_SYMBOL_TABLE then
          ⟨E_MACHO_FILE_PARSE_OK, info1, s.fd, some symtab⟩
        else
          let ret :=
            if p.is_64 then
              K.macho_file_parse_symbols_64_from_file info1 s.fd p.full_range
                p.available_range p.arch_bit p.is_big_endian symtab.symoff symtab.nsyms
                symtab.stroff symtab.strsize p.tbd_options
            else
              K.macho_file_parse_symbols_from_file info1 s.fd p.full_range
                p.available_range p.arch_bit p.is_big_endian symtab.symoff symtab.nsyms
                symtab.stroff symtab.strsize p.tbd_options
          ⟨ret.1, ret.2.1, ret.2.2, some symtab⟩

/-- The local `relative_range` of `macho_file_parse_load_commands_from_file`:
`{ header_size, macho_size }`. -/
def from_file_relative_range (parse_info : mf_parse_load_commands_from_file_info) : range :=
  let full_range := parse_info.full_range
  let available_range := parse_info.available_range
  let macho_size := wrap64 (full_range.end_ + 2 ^ 64 - full_range.begin)
  let header_size := wrap64 (available_range.begin + 2 ^ 64 - full_range.begin)
  { begin := header_size, end_ := macho_size }

/-- The state in which `macho_file_parse_load_commands_from_file` enters its walk, after the
buffer is read: `load_cmd_iter = load_cmd_buffer` and `size_left = sizeofcmds`. -/
def from_file_walk_start (K : Externals) (info_in : tbd_create_info) (fd : Fd)
    (parse_info : mf_parse_load_commands_from_file_info) : file_walk_state :=
  { info := { info_in with
      flags := info_in.flags ||| K.F_TBD_CREATE_INFO_STRINGS_WERE_COPIED },
    locals := initial_locals parse_info.arch, fd := (fd.read parse_info.sizeofcmds).2,
    load_cmd_iter := 0, size_left := parse_info.sizeofcmds }

/-- The part of `macho_file_parse_load_commands_from_file` that follows the check of
`sizeofcmds` against the minimum size: the check against the available range, the read of
the command area, the walk and what follows it. -/
def from_file_past_minimum_size (K : Externals) (info_in : tbd_create_info)
    (fd : Fd) (parse_info : mf_parse_load_commands_from_file_info) : load_commands_outcome :=
  let ncmds := parse_info.ncmds
  let sizeofcmds := parse_info.sizeofcmds
  let available_range := parse_info.available_range
  let max_sizeofcmds :=
    wrap32 (wrap64 (available_range.end_ + 2 ^ 64 - available_range.begin))
  if sizeofcmds > max_sizeofcmds then
    ⟨E_MACHO_FILE_PARSE_TOO_MANY_LOAD_COMMANDS, info_in, fd, none⟩
  else
    let relative_range := from_file_relative_range parse_info
    let load_cmd_buffer := (fd.read sizeofcmds).1
    let w := from_file_loop K parse_info load_cmd_buffer relative_range ncmds
      (from_file_walk_start K info_in fd parse_info)
    if w.1 ≠ E_MACHO_FILE_PARSE_OK then ⟨w.1, w.2.info, w.2.fd, none⟩
    else from_file_after_walk K parse_info w.2

/-- Function `macho_file_parse_load_commands_from_file`. -/
def macho_file_parse_load_commands_from_file (K : Externals) (info_in : tbd_create_info)
    (fd : Fd) (parse_info : mf_parse_load_commands_from_file_info) : load_commands_outcome :=
  let ncmds := parse_info.ncmds
  if ncmds = 0 then ⟨E_MACHO_FILE_PARSE_NO_LOAD_COMMANDS, info_in, fd, none⟩
  else
    let sizeofcmds := parse_info.sizeofcmds
    if sizeofcmds < sizeof_load_command then
      ⟨E_MACHO_FILE_PARSE_LOAD_COMMANDS_AREA_TOO_SMALL, info_in, fd, none⟩
    else
      match guard_overflow_mul 32 sizeof_load_command ncmds with
      | none => ⟨E_MACHO_FILE_PARSE_TOO_MANY_LOAD_COMMANDS, info_in, fd, none⟩
      | some minimum_size =>
        if sizeofcmds < minimum_size then
          ⟨E_MACHO_FILE_PARSE_TOO_MANY_LOAD_COMMANDS, info_in, fd, none⟩
        else from_file_past_minimum_size K info_in fd parse_info

/-- The record `struct mf_parse_load_commands_from_map_info`: `map` is the content of the
mapping and `macho` the offset in it of the Mach-O image. -/
structure mf_parse_load_commands_from_map_info where
  map : List Nat
  available_map_range : range
  macho : Nat
  macho_size : Nat
  arch : Option Nat
  arch_bit : Nat
  is_64 : Bool
  is_big_endian : Bool
  ncmds : Nat
  sizeofcmds : Nat
  tbd_options : Nat
  options : Nat
deriving DecidableEq, Repr

/-- State of the command walk of `macho_file_parse_load_commands_from_map`: the aggregate,
the locals, the offset of `load_cmd_iter` in the mapping and `size_left`. -/
structure map_walk_state where
  info : tbd_create_info
  locals : walk_locals
  load_cmd_iter : Nat
  size_left : Nat
deriving DecidableEq, Repr

/-- The loop over the sections of a segment in `macho_file_parse_load_commands_from_map`
(`struct section` when `wide` is false, `struct section_64` when it is true). -/
def sections_loop_from_map (K : Externals) (wide : Bool)
    (p : mf_parse_load_commands_from_map_info) (relative_range : range) :
    Nat → Nat → tbd_create_info → Nat → macho_file_parse_result × tbd_create_info × Nat
  | 0, _, info, swift_version => (E_MACHO_FILE_PARSE_OK, info, swift_version)
  | n + 1, sect, info, swift_version =>
    let next := sect + (if wide then sizeof_section_64 else sizeof_section)
    if !is_image_info_section p.map sect then
      sections_loop_from_map K wide p relative_range n next info swift_version
    else
      let sect_offset := read_field p.map (sect + (if wide then 48 else 40)) p.is_big_endian
      let sect_size :=
        if wide then
          (if p.is_big_endian then swap_uint64 (read_u64 p.map (sect + 40))
            else read_u64 p.map (sect + 40))
        else read_field p.map (sect + 36) p.is_big_endian
      let r := parse_section_from_map K info swift_version p.available_map_range
        relative_range p.map p.macho sect_offset sect_size p.options
      if r.1 ≠ E_MACHO_FILE_PARSE_OK then r
      else sections_loop_from_map K wide p relative_range n next r.2.1 r.2.2

/-- Cases `LC_SEGMENT` (`wide` false) and `LC_SEGMENT_64` (`wide` true) of the switch in
`macho_file_parse_load_commands_from_map`. -/
def parse_segment_from_map (K : Externals) (wide : Bool)
    (p : mf_parse_load_commands_from_map_info) (relative_range : range)
    (info : tbd_create_info) (load_cmd : load_command) (load_cmd_iter : Nat) :
    macho_file_parse_result × tbd_create_info :=
  if flag_set p.tbd_options K.O_TBD_PARSE_IGNORE_OBJC_CONSTRAINT &&
      flag_set p.tbd_options K.O_TBD_PARSE_IGNORE_SWIFT_VERSION then
    (E_MACHO_FILE_PARSE_OK, info)
  else if p.is_64 != wide then (E_MACHO_FILE_PARSE_OK, info)
  else
    let sizeof_segment := if wide then sizeof_segment_command_64 else sizeof_segment_command
    if load_cmd.cmdsize < sizeof_segment then (E_MACHO_FILE_PARSE_INVALID_LOAD_COMMAND, info)
    else if !segment_has_image_info_sect p.map (load_cmd_iter + 8) then
      (E_MACHO_FILE_PARSE_OK, info)
    else
      let nsects_raw := read_u32 p.map (load_cmd_iter + (if wide then 64 else 48))
      if nsects_raw = 0 then (E_MACHO_FILE_PARSE_OK, info)
      else
        let nsects := if p.is_big_endian then swap_uint32 nsects_raw else nsects_raw
        match guard_overflow_mul 64 (if wide then sizeof_section_64 else sizeof_section)
            nsects with
        | none => (E_MACHO_FILE_PARSE_TOO_MANY_SECTIONS, info)
        | some sections_size =>
          let max_sections_size := load_cmd.cmdsize - sizeof_segment
          if sections_size > max_sections_size then
            (E_MACHO_FILE_PARSE_TOO_MANY_SECTIONS, info)
          else
            let r := sections_loop_from_map K wide p relative_range nsects
              (load_cmd_iter + sizeof_segment) info 0
            if r.1 ≠ E_MACHO_FILE_PARSE_OK then (r.1, r.2.1)
            else
              let info1 := r.2.1
              let swift_version := r.2.2
              if info1.swift_version ≠ 0 then
                let ignore_conflicting_fields :=
                  flag_set p.options K.O_MACHO_FILE_PARSE_IGNORE_CONFLICTING_FIELDS
                if !ignore_conflicting_fields &&
                    decide (info1.swift_version ≠ swift_version) then
                  (E_MACHO_FILE_PARSE_CONFLICTING_SWIFT_VERSION, info1)
                else (E_MACHO_FILE_PARSE_OK, info1)
              else (E_MACHO_FILE_PARSE_OK, { info1 with swift_version := swift_version })

/-- The `switch (load_cmd.cmd)` of the walk in `macho_file_parse_load_commands_from_map`:
what is done with a command whose header passed the size checks. -/
def extract_from_map (K : Externals) (p : mf_parse_load_commands_from_map_info)
    (relative_range : range) (s : map_walk_state) (load_cmd : load_command) :
    macho_file_parse_result × tbd_create_info × walk_locals :=
  if load_cmd.cmd = LC_SEGMENT then
    let r := parse_segment_from_map K false p relative_range s.info load_cmd s.load_cmd_iter
    (r.1, r.2, s.locals)
  else if load_cmd.cmd = LC_SEGMENT_64 then
    let r := parse_segment_from_map K true p relative_range s.info load_cmd s.load_cmd_iter
    (r.1, r.2, s.locals)
  else
    let copy_strings := flag_set p.options K.O_MACHO_FILE_PARSE_COPY_STRINGS_IN_MAP
    parse_load_command K s.info s.locals p.arch_bit load_cmd p.map s.load_cmd_iter
      p.is_big_endian p.tbd_options p.options copy_strings

/-- One iteration of the `for` loop of `macho_file_parse_load_commands_from_map`. A result
other than ok is the value the function returns from inside the loop. -/
def from_map_iteration (K : Externals) (p : mf_parse_load_commands_from_map_info)
    (relative_range : range) (s : map_walk_state) :
    macho_file_parse_result × map_walk_state :=
  if s.size_left < sizeof_load_command then (E_MACHO_FILE_PARSE_INVALID_LOAD_COMMAND, s)
  else
    let load_cmd := load_command_at p.map s.load_cmd_iter p.is_big_endian
    if load_cmd.cmdsize < sizeof_load_command then (E_MACHO_FILE_PARSE_INVALID_LOAD_COMMAND, s)
    else if s.size_left < load_cmd.cmdsize then (E_MACHO_FILE_PARSE_INVALID_LOAD_COMMAND, s)
    else
      let size_left := s.size_left - load_cmd.cmdsize
      let r := extract_from_map K p relative_range s load_cmd
      if r.1 ≠ E_MACHO_FILE_PARSE_OK then
        (r.1, { s with info := r.2.1, locals := r.2.2, size_left := size_left })
      else
        (E_MACHO_FILE_PARSE_OK,
          { info := r.2.1, locals := r.2.2,
            load_cmd_iter := s.load_cmd_iter + load_cmd.cmdsize, size_left := size_left })

/-- The `for (i = 0; i != ncmds; i++)` loop of `macho_file_parse_load_commands_from_map`,
with `n` iterations to go. -/
def from_map_loop (K : Externals) (p : mf_parse_load_commands_from_map_info)
    (relative_range : range) : Nat → map_walk_state → macho_file_parse_result × map_walk_state
  | 0, s => (E_MACHO_FILE_PARSE_OK, s)
  | n + 1, s =>
    let r := from_map_iteration K p relative_range s
    if r.1 ≠ E_MACHO_FILE_PARSE_OK then r
    else from_map_loop K p relative_range n r.2

/-- What the map-based parser hands back: the returned code, the aggregate and the command
stored through `symtab_out` when that pointer is not `NULL`. -/
structure map_load_commands_outcome where
  result : macho_file_parse_result
  info : tbd_create_info
  symtab_out : Option symtab_command
deriving DecidableEq, Repr

/-- The part of `macho_file_parse_load_commands_from_map` that follows the walk. -/
def from_map_after_walk (K : Externals) (p : mf_parse_load_commands_from_map_info)
    (s : map_walk_state) : map_load_commands_outcome :=
  if !s.locals.found_identification then ⟨E_MACHO_FILE_PARSE_NO_IDENTIFICATION, s.info, none⟩
  else if !flag_set p.tbd_options K.O_TBD_PARSE_IGNORE_UUID && !s.locals.found_uuid then
    ⟨E_MACHO_FILE_PARSE_NO_UUID, s.info, none⟩
  else
    match array_find_item s.info.uuids s.locals.uuid_info K.tbd_uuid_info_comparator with
    | some _ => ⟨E_MACHO_FILE_PARSE_CONFLICTING_UUID, s.info, none⟩
    | none =>
      let info1 := { s.info with uuids := (array_add_item s.info.uuids s.locals.uuid_info).2 }
      if s.locals.symtab.cmd ≠ LC_SYMTAB then
        if flag_set p.tbd_options K.O_TBD_PARSE_IGNORE_SYMBOLS then
          ⟨E_MACHO_FILE_PARSE_OK, info1, none⟩
        else if flag_set p.tbd_options K.O_TBD_PARSE_IGNORE_MISSING_EXPORTS then
          ⟨E_MACHO_FILE_PARSE_OK, info1, none⟩
        else ⟨E_MACHO_FILE_PARSE_NO_SYMBOL_TABLE, info1, none⟩
      else
        let symtab := swap_symtab p.is_big_endian s.locals.symtab
        if flag_set p.options K.O_MACHO_FILE_PARSE_DONT_PARSE_SYMBOL_TABLE then
          ⟨E_MACHO_FILE_PARSE_OK, info1, some symtab⟩
        else
          let ret :=
            if p.is_64 then
              K.macho_file_parse_symbols_64_from_map info1 p.map p.available_map_range
                p.arch_bit p.is_big_endian symtab.symoff symtab.nsyms symtab.stroff
                symtab.strsize p.tbd_options
            else
              K.macho_file_parse_symbols_from_map info1 p.map p.available_map_range
                p.arch_bit p.is_big_endian symtab.symoff symtab.nsyms symtab.stroff
                symtab.strsize p.tbd_options
          ⟨ret.1, ret.2, some symtab⟩

/-- The local `header_size` of `macho_file_parse_load_commands_from_map`. -/
def from_map_header_size (is_64 : Bool) : Nat :=
  if is_64 then wrap32 (sizeof_mach_header + 4) else sizeof_mach_header

/-- The state in which `macho_file_parse_load_commands_from_map` enters its walk:
`load_cmd_iter = macho + header_size` and `size_left = sizeofcmds`. -/
def from_map_walk_start (K : Externals) (info_in : tbd_create_info)
    (parse_info : mf_parse_load_commands_from_map_info) : map_walk_state :=
  { info :=
      if flag_set parse_info.options K.O_MACHO_FILE_PARSE_COPY_STRINGS_IN_MAP then
        { info_in with flags := info_in.flags ||| K.F_TBD_CREATE_INFO_STRINGS_WERE_COPIED }
      else info_in,
    locals := initial_locals parse_info.arch,
    load_cmd_iter := parse_info.macho + from_map_header_size parse_info.is_64,
    size_left := parse_info.sizeofcmds }

/-- The part of `macho_file_parse_load_commands_from_map` that follows the check of
`sizeofcmds` against the minimum size. -/
def from_map_past_minimum_size (K : Externals) (info_in : tbd_create_info)
    (parse_info : mf_parse_load_commands_from_map_info) : map_load_commands_outcome :=
  let ncmds := parse_info.ncmds
  let sizeofcmds := parse_info.sizeofcmds
  let header_size := from_map_header_size parse_info.is_64
  let macho_size := parse_info.macho_size
  let max_sizeofcmds := wrap32 (wrap64 (macho_size + 2 ^ 64 - header_size))
  if sizeofcmds > max_sizeofcmds then
    ⟨E_MACHO_FILE_PARSE_TOO_MANY_LOAD_COMMANDS, info_in, none⟩
  else
    let relative_range : range := { begin := 0, end_ := macho_size }
    let w := from_map_loop K parse_info relative_range ncmds
      (from_map_walk_start K info_in parse_info)
    if w.1 ≠ E_MACHO_FILE_PARSE_OK then ⟨w.1, w.2.info, none⟩
    else from_map_after_walk K parse_info w.2

/-- Function `macho_file_parse_load_commands_from_map`. -/
def macho_file_parse_load_commands_from_map (K : Externals) (info_in : tbd_create_info)
    (parse_info : mf_parse_load_commands_from_map_info) : map_load_commands_outcome :=
  let ncmds := parse_info.ncmds
  if ncmds = 0 then ⟨E_MACHO_FILE_PARSE_NO_LOAD_COMMANDS, info_in, none⟩
  else
    let sizeofcmds := parse_info.sizeofcmds
    if sizeofcmds < sizeof_load_command then
      ⟨E_MACHO_FILE_PARSE_LOAD_COMMANDS_AREA_TOO_SMALL, info_in, none⟩
    else
      match guard_overflow_mul 32 sizeof_load_command ncmds with
      | none => ⟨E_MACHO_FILE_PARSE_TOO_MANY_LOAD_COMMANDS, info_in, none⟩
      | some minimum_size =>
        if sizeofcmds < minimum_size then
          ⟨E_MACHO_FILE_PARSE_TOO_MANY_LOAD_COMMANDS, info_in, none⟩
        else from_map_past_minimum_size K info_in parse_info

/-! ## `src/macho_file.c` -/

/-- The record `struct mach_header`. -/
structure mach_header where
  magic : Nat
  cputype : Int
  cpusubtype : Int
  filetype : Nat
  ncmds : Nat
  sizeofcmds : Nat
  flags : Nat
deriving DecidableEq, Repr

/-- First block of `parse_thin_file`: the check of the size and the skip of the `reserved`
field for a 64-bit header, the check of the magic for a 32-bit one. The result carries the
descriptor. -/
def parse_thin_file_entry (fd : Fd) (header : mach_header) (is_big_endian : Bool)
    (size : Nat) : macho_file_parse_result × Fd :=
  let is_64 := header.magic == MH_MAGIC_64 || header.magic == MH_CIGAM_64
  if is_64 then
    if size < sizeof_mach_header_64 then (E_MACHO_FILE_PARSE_SIZE_TOO_SMALL, fd)
    else
      match fd.lseek_cur 4 with
      | none => (E_MACHO_FILE_PARSE_SEEK_FAIL, fd)
      | some fd1 => (E_MACHO_FILE_PARSE_OK, fd1)
  else if !is_big_endian && header.magic != MH_MAGIC then
    (E_MACHO_FILE_PARSE_NOT_A_MACHO, fd)
  else (E_MACHO_FILE_PARSE_OK, fd)

/-- Second block of `parse_thin_file`: the cross-check of `flags_field` against the flags
of the header when `info_in->flags` is not 0, the import of the two flags otherwise. The
result carries the aggregate. -/
def parse_thin_file_flags (K : Externals) (info_in : tbd_create_info) (header : mach_header) :
    macho_file_parse_result × tbd_create_info :=
  if info_in.flags ≠ 0 then
    if flag_set info_in.flags_field K.TBD_FLAG_FLAT_NAMESPACE &&
        !flag_set header.flags MH_TWOLEVEL then
      (E_MACHO_FILE_PARSE_CONFLICTING_FLAGS, info_in)
    else if flag_set info_in.flags_field K.TBD_FLAG_NOT_APP_EXTENSION_SAFE &&
        flag_set header.flags MH_APP_EXTENSION_SAFE then
      (E_MACHO_FILE_PARSE_CONFLICTING_FLAGS, info_in)
    else (E_MACHO_FILE_PARSE_OK, info_in)
  else
    let info1 :=
      if flag_set header.flags MH_TWOLEVEL then
        { info_in with flags_field := info_in.flags_field ||| K.TBD_FLAG_FLAT_NAMESPACE }
      else info_in
    let info2 :=
      if !flag_set header.flags MH_APP_EXTENSION_SAFE then
        { info1 with
          flags_field := info1.flags_field ||| K.TBD_FLAG_NOT_APP_EXTENSION_SAFE }
      else info1
    (E_MACHO_FILE_PARSE_OK, info2)

/-- The `struct mf_parse_load_commands_from_file_info` that `parse_thin_file` builds for the
architecture entry of index `arch_index`. -/
def parse_thin_file_info (header : mach_header) (is_big_endian : Bool)
    (start size tbd_options options arch_index : Nat) : mf_parse_load_commands_from_file_info :=
  let is_64 := header.magic == MH_MAGIC_64 || header.magic == MH_CIGAM_64
  let headers_size := if is_64 then wrap32 (sizeof_mach_header + 4) else sizeof_mach_header
  let full_range : range := { begin := start, end_ := wrap64 (start + size) }
  { arch := some arch_index, arch_bit := wrap64 (1 <<< arch_index), is_64 := is_64,
    is_big_endian := is_big_endian, ncmds := header.ncmds, sizeofcmds := header.sizeofcmds,
    tbd_options := tbd_options, options := options, full_range := full_range,
    available_range := { begin := wrap64 (start + headers_size), end_ := full_range.end_ } }

/-- Function `parse_thin_file`; the result carries the aggregate and the descriptor. -/
def parse_thin_file (K : Externals) (info_in : tbd_create_info) (fd : Fd)
    (header : mach_header) (is_big_endian : Bool) (start size tbd_options options : Nat) :
    macho_file_parse_result × tbd_create_info × Fd :=
  let entry := parse_thin_file_entry fd header is_big_endian size
  if entry.1 ≠ E_MACHO_FILE_PARSE_OK then (entry.1, info_in, fd)
  else
    let fd1 := entry.2
    let flags_check := parse_thin_file_flags K info_in header
    if flags_check.1 ≠ E_MACHO_FILE_PARSE_OK then (flags_check.1, flags_check.2, fd1)
    else
      let info2 := flags_check.2
      match arch_info_for_cputype header.cputype header.cpusubtype with
      | none => (E_MACHO_FILE_PARSE_UNSUPPORTED_CPUTYPE, info2, fd1)
      | some arch_index =>
        let arch_bit := wrap64 (1 <<< arch_index)
        if flag_set info2.archs arch_bit then
          (E_MACHO_FILE_PARSE_MULTIPLE_ARCHS_FOR_CPUTYPE, info2, fd1)
        else
          let info3 := { info2 with archs := info2.archs ||| arch_bit }
          let info := parse_thin_file_info header is_big_endian start size tbd_options
            options arch_index
          let r := macho_file_parse_load_commands_from_file K info3 fd1 info
          (r.result, r.info, r.fd)

/-- Function `thin_magic_is_valid`. -/
def thin_magic_is_valid (magic : Nat) : Bool := magic == MH_MAGIC || magic == MH_MAGIC_64

/-- The records `struct fat_arch` (`offset` and `size` of 32 bits) and `struct fat_arch_64`
(`offset` and `size` of 64 bits), with the fields that the handlers read. -/
structure fat_arch where
  cputype : Int
  cpusubtype : Int
  offset : Nat
  size : Nat
deriving DecidableEq, Repr

/-- The `struct mach_header` that lies in a 28-byte buffer, in host order. -/
def mach_header_of_bytes (b : List Nat) : mach_header :=
  { magic := read_u32 b 0, cputype := to_int32 (read_u32 b 4),
    cpusubtype := to_int32 (read_u32 b 8), filetype := read_u32 b 12,
    ncmds := read_u32 b 16, sizeofcmds := read_u32 b 20, flags := read_u32 b 24 }

/-- The swap of the header fields that the fat handlers and `macho_file_parse_from_file` do
for a big-endian slice. -/
def mach_header_swap (header : mach_header) : mach_header :=
  { header with
    cputype := swap_int32 header.cputype, cpusubtype := swap_int32 header.cpusubtype,
    ncmds := swap_uint32 header.ncmds, sizeofcmds := swap_uint32 header.sizeofcmds,
    flags := swap_uint32 header.flags }

/-- The last loop of `handle_fat_32_file` and of `handle_fat_64_file` (the two are the same
text): every architecture is sought, its header read and checked against the record, and
the slice handed to `parse_thin_file`. The result carries the aggregate and the descriptor. -/
def handle_fat_parse_loop (K : Externals) (start tbd_options options : Nat) :
    List fat_arch → Bool → tbd_create_info → Fd → macho_file_parse_result × tbd_create_info × Fd
  | [], parsed_one_arch, info, fd =>
    if !parsed_one_arch then (E_MACHO_FILE_PARSE_NO_VALID_ARCHITECTURES, info, fd)
    else (E_MACHO_FILE_PARSE_OK, info, fd)
  | arch :: rest, parsed_one_arch, info, fd =>
    match fd.lseek_set (wrap64 (start + arch.offset)) with
    | none => (E_MACHO_FILE_PARSE_SEEK_FAIL, info, fd)
    | some fd1 =>
      let raw := mach_header_of_bytes (fd1.read sizeof_mach_header).1
      let fd2 := (fd1.read sizeof_mach_header).2
      let arch_is_big_endian := raw.magic == MH_CIGAM || raw.magic == MH_CIGAM_64
      if !arch_is_big_endian && !thin_magic_is_valid raw.magic then
        if flag_set options K.O_MACHO_FILE_PARSE_SKIP_INVALID_ARCHITECTURES then
          handle_fat_parse_loop K start tbd_options options rest parsed_one_arch info fd2
        else (E_MACHO_FILE_PARSE_INVALID_ARCHITECTURE, info, fd2)
      else
        let header := if arch_is_big_endian then mach_header_swap raw else raw
        if header.cputype ≠ arch.cputype then
          (E_MACHO_FILE_PARSE_INVALID_ARCHITECTURE, info, fd2)
        else if header.cpusubtype ≠ arch.cpusubtype then
          (E_MACHO_FILE_PARSE_INVALID_ARCHITECTURE, info, fd2)
        else
          let handle_arch_result := parse_thin_file K info fd2 header arch_is_big_endian
            (wrap64 (start + arch.offset)) arch.size tbd_options options
          if handle_arch_result.1 ≠ E_MACHO_FILE_PARSE_OK then handle_arch_result
          else
            handle_fat_parse_loop K start tbd_options options rest true
              handle_arch_result.2.1 handle_arch_result.2.2

/-- The `i`-th `struct fat_arch` of a buffer, in the byte order of the buffer. -/
def fat_arch_of_bytes (b : List Nat) (i : Nat) : fat_arch :=
  { cputype := to_int32 (read_u32 b (sizeof_fat_arch * i)),
    cpusubtype := to_int32 (read_u32 b (sizeof_fat_arch * i + 4)),
    offset := read_u32 b (sizeof_fat_arch * i + 8),
    size := read_u32 b (sizeof_fat_arch * i + 12) }

/-- The `i`-th `struct fat_arch_64` of a buffer, in the byte order of the buffer. -/
def fat_arch_64_of_bytes (b : List Nat) (i : Nat) : fat_arch :=
  { cputype := to_int32 (read_u32 b (sizeof_fat_arch_64 * i)),
    cpusubtype := to_int32 (read_u32 b (sizeof_fat_arch_64 * i + 4)),
    offset := read_u64 b (sizeof_fat_arch_64 * i + 8),
    size := read_u64 b (sizeof_fat_arch_64 * i + 16) }

/-- The in-place swap of a `struct fat_arch` that `handle_fat_32_file` does when the file is
big-endian. -/
def fat_arch_swap_32 (is_big_endian : Bool) (arch : fat_arch) : fat_arch :=
  if is_big_endian then
    { cputype := swap_int32 arch.cputype, cpusubtype := swap_int32 arch.cpusubtype,
      offset := swap_uint32 arch.offset, size := swap_uint32 arch.size }
  else arch

/-- The in-place swap of a `struct fat_arch_64` that `handle_fat_64_file` does when the file
is big-endian. -/
def fat_arch_swap_64 (is_big_endian : Bool) (arch : fat_arch) : fat_arch :=
  if is_big_endian then
    { cputype := swap_int32 arch.cputype, cpusubtype := swap_int32 arch.cpusubtype,
      offset := swap_uint64 arch.offset, size := swap_uint64 arch.size }
  else arch

/-- The checks that `handle_fat_32_file` makes on one (swapped) record, the first one and
those of the verification loop alike; `none` when the record passes. The end of the slice is
the sum of two `uint32_t` values. -/
def fat_32_check_arch (arch : fat_arch) (total_headers_size start size : Nat) :
    Option macho_file_parse_result :=
  let arch_offset := arch.offset
  let arch_size := arch.size
  if arch_offset < total_headers_size then some E_MACHO_FILE_PARSE_INVALID_ARCHITECTURE
  else if arch_size < sizeof_mach_header then some E_MACHO_FILE_PARSE_SIZE_TOO_SMALL
  else if arch_offset ≥ size then some E_MACHO_FILE_PARSE_INVALID_ARCHITECTURE
  else
    let arch_end := wrap32 (arch_offset + arch_size)
    if arch_end > size then some E_MACHO_FILE_PARSE_INVALID_ARCHITECTURE
    else
      match guard_overflow_add 64 start arch_offset with
      | none => some E_MACHO_FILE_PARSE_INVALID_ARCHITECTURE
      | some _ =>
        match guard_overflow_add 64 start arch_end with
        | none => some E_MACHO_FILE_PARSE_INVALID_ARCHITECTURE
        | some _ => none

/-- The verification loop of `handle_fat_32_file` (`for (i = 1; i < nfat_arch; i++)`):
`verified` holds the records before `i`, already swapped, and the second list the records
from `i` on as read. The result is the error returned from inside the loop, or the swapped
records. -/
def fat_32_verify_loop (is_big_endian : Bool) (total_headers_size start size : Nat) :
    List fat_arch → List fat_arch → Except macho_file_parse_result (List fat_arch)
  | verified, [] => .ok verified
  | verified, raw :: rest =>
    let arch := fat_arch_swap_32 is_big_endian raw
    match fat_32_check_arch arch total_headers_size start size with
    | some e => .error e
    | none =>
      let arch_range : range :=
        { begin := arch.offset, end_ := wrap32 (arch.offset + arch.size) }
      if verified.any (fun inner =>
          ranges_overlap arch_range
            { begin := inner.offset, end_ := wrap32 (inner.offset + inner.size) }) then
        .error E_MACHO_FILE_PARSE_OVERLAPPING_ARCHITECTURES
      else fat_32_verify_loop is_big_endian total_headers_size start size
        (verified ++ [arch]) rest

/-- The verification pass of `handle_fat_32_file` over the records as read: the checks on
the first record, then the loop over the others. A handler is entered with
`nfat_arch ≥ 1`; without a first record the model reports an invalid architecture. -/
def fat_32_verify (is_big_endian : Bool) (total_headers_size start size : Nat)
    (archs : List fat_arch) : Except macho_file_parse_result (List fat_arch) :=
  match archs with
  | [] => .error E_MACHO_FILE_PARSE_INVALID_ARCHITECTURE
  | raw :: rest =>
    let first_arch := fat_arch_swap_32 is_big_endian raw
    match fat_32_check_arch first_arch total_headers_size start size with
    | some e => .error e
    | none => fat_32_verify_loop is_big_endian total_headers_size start size [first_arch] rest

/-- Function `handle_fat_32_file`; the result carries the aggregate and the descriptor. -/
def handle_fat_32_file (K : Externals) (info_in : tbd_create_info) (fd : Fd)
    (is_big_endian : Bool) (nfat_arch start size tbd_options options : Nat) :
    macho_file_parse_result × tbd_create_info × Fd :=
  match guard_overflow_mul 64 sizeof_fat_arch nfat_arch with
  | none => (E_MACHO_FILE_PARSE_TOO_MANY_ARCHITECTURES, info_in, fd)
  | some archs_size =>
    match guard_overflow_add 64 sizeof_fat_header archs_size with
    | none => (E_MACHO_FILE_PARSE_TOO_MANY_ARCHITECTURES, info_in, fd)
    | some total_headers_size =>
      if total_headers_size ≥ size then
        (E_MACHO_FILE_PARSE_TOO_MANY_ARCHITECTURES, info_in, fd)
      else
        let buffer := (fd.read archs_size).1
        let fd1 := (fd.read archs_size).2
        let archs := (List.range nfat_arch).map (fat_arch_of_bytes buffer)
        match fat_32_verify is_big_endian total_headers_size start size archs with
        | .error e => (e, info_in, fd1)
        | .ok verified =>
          handle_fat_parse_loop K start tbd_options options verified false info_in fd1

/-- The checks that `handle_fat_64_file` makes on one (swapped) record, the first one and
those of the verification loop alike; `none` when the record passes. -/
def fat_64_check_arch (arch : fat_arch) (total_headers_size start size : Nat) :
    Option macho_file_parse_result :=
  let arch_offset := arch.offset
  let arch_size := arch.size
  if arch_offset < total_headers_size then some E_MACHO_FILE_PARSE_INVALID_ARCHITECTURE
  else if arch_size < sizeof_mach_header then some E_MACHO_FILE_PARSE_SIZE_TOO_SMALL
  else
    match guard_overflow_add 64 arch_offset arch_size with
    | none => some E_MACHO_FILE_PARSE_INVALID_ARCHITECTURE
    | some arch_end =>
      if arch_offset > size then some E_MACHO_FILE_PARSE_INVALID_ARCHITECTURE
      else if arch_end > size then some E_MACHO_FILE_PARSE_INVALID_ARCHITECTURE
      else
        match guard_overflow_add 64 start arch_offset with
        | none => some E_MACHO_FILE_PARSE_INVALID_ARCHITECTURE
        | some _ =>
          match guard_overflow_add 64 start arch_end with
          | none => some E_MACHO_FILE_PARSE_INVALID_ARCHITECTURE
          | some _ => none

/-- The verification loop of `handle_fat_64_file` (`for (i = 1; i < nfat_arch; i++)`), as
`fat_32_verify_loop`; the ends of the ranges are sums of `uint64_t` values. -/
def fat_64_verify_loop (is_big_endian : Bool) (total_headers_size start size : Nat) :
    List fat_arch → List fat_arch → Except macho_file_parse_result (List fat_arch)
  | verified, [] => .ok verified
  | verified, raw :: rest =>
    let arch := fat_arch_swap_64 is_big_endian raw
    match fat_64_check_arch arch total_headers_size start size with
    | some e => .error e
    | none =>
      let arch_range : range :=
        { begin := arch.offset, end_ := wrap64 (arch.offset + arch.size) }
      if verified.any (fun inner =>
          ranges_overlap arch_range
            { begin := inner.offset, end_ := wrap64 (inner.offset + inner.size) }) then
        .error E_MACHO_FILE_PARSE_OVERLAPPING_ARCHITECTURES
      else fat_64_verify_loop is_big_endian total_headers_size start size
        (verified ++ [arch]) rest

/-- The verification pass of `handle_fat_64_file` over the records as read, as
`fat_32_verify`. -/
def fat_64_verify (is_big_endian : Bool) (total_headers_size start size : Nat)
    (archs : List fat_arch) : Except macho_file_parse_result (List fat_arch) :=
  match archs with
  | [] => .error E_MACHO_FILE_PARSE_INVALID_ARCHITECTURE
  | raw :: rest =>
    let first_arch := fat_arch_swap_64 is_big_endian raw
    match fat_64_check_arch first_arch total_headers_size start size with
    | some e => .error e
    | none => fat_64_verify_loop is_big_endian total_headers_size start size [first_arch] rest

/-- Function `handle_fat_64_file`; the result carries the aggregate and the descriptor. -/
def handle_fat_64_file (K : Externals) (info_in : tbd_create_info) (fd : Fd)
    (is_big_endian : Bool) (nfat_arch start size tbd_options options : Nat) :
    macho_file_parse_result × tbd_create_info × Fd :=
  match guard_overflow_mul 64 sizeof_fat_arch_64 nfat_arch with
  | none => (E_MACHO_FILE_PARSE_TOO_MANY_ARCHITECTURES, info_in, fd)
  | some archs_size =>
    match guard_overflow_add 64 sizeof_fat_header archs_size with
    | none => (E_MACHO_FILE_PARSE_TOO_MANY_ARCHITECTURES, info_in, fd)
    | some total_headers_size =>
      if total_headers_size ≥ size then
        (E_MACHO_FILE_PARSE_TOO_MANY_ARCHITECTURES, info_in, fd)
      else
        let buffer := (fd.read archs_size).1
        let fd1 := (fd.read archs_size).2
        let archs := (List.range nfat_arch).map (fat_arch_64_of_bytes buffer)
        match fat_64_verify is_big_endian total_headers_size start size archs with
        | .error e => (e, info_in, fd1)
        | .ok verified =>
          handle_fat_parse_loop K start tbd_options options verified false info_in fd1

/-- The magic numbers of fat files (`mach-o/fat.h`). -/
def FAT_MAGIC : Nat := 0xcafebabe
/-- The magic number `FAT_MAGIC` in the other byte order. -/
def FAT_CIGAM : Nat := 0xbebafeca
/-- The magic number of fat files with 64-bit offsets. -/
def FAT_MAGIC_64 : Nat := 0xcafebabf
/-- The magic number `FAT_MAGIC_64` in the other byte order. -/
def FAT_CIGAM_64 : Nat := 0xbfbafeca

/-- Function `array_is_empty` of `src/array.c`. -/
def array_is_empty {α : Type} (items : List α) : Bool := items.isEmpty

/-- Function `array_sort_items_with_comparator` of `src/array.c`: the call of `qsort`, taken
as a sort by the comparator that rearranges the items (C leaves the order among items that
compare equal open). -/
def array_sort_items_with_comparator {α : Type} (items : List α) (comparator : α → α → Int) :
    array_result × List α :=
  (.E_ARRAY_OK, items.insertionSort (fun a b => comparator a b ≤ 0))

/-- The end of `macho_file_parse_from_file`, after the handler of the thin or fat file
returned `ret`: the check for missing exports and the sort of the exports. -/
def macho_file_parse_from_file_finish (K : Externals) (tbd_options : Nat)
    (ret : macho_file_parse_result × tbd_create_info × Fd) :
    macho_file_parse_result × tbd_create_info × Fd :=
  if ret.1 ≠ E_MACHO_FILE_PARSE_OK then ret
  else if !flag_set tbd_options K.O_TBD_PARSE_IGNORE_MISSING_EXPORTS &&
      array_is_empty ret.2.1.exports then
    (E_MACHO_FILE_PARSE_NO_EXPORTS, ret.2.1, ret.2.2)
  else
    match array_sort_items_with_comparator ret.2.1.exports K.tbd_export_info_comparator with
    | (.E_ARRAY_OK, exports) =>
      (E_MACHO_FILE_PARSE_OK, { ret.2.1 with exports := exports }, ret.2.2)
    | (_, _) => (E_MACHO_FILE_PARSE_ARRAY_FAIL, ret.2.1, ret.2.2)

/-- The fat branch of `macho_file_parse_from_file`: the read of `nfat_arch` and the call of
the handler, with the size of the file from `fstat`. -/
def macho_file_parse_from_file_fat (K : Externals) (info_in : tbd_create_info) (fd : Fd)
    (magic tbd_options options : Nat) : macho_file_parse_result × tbd_create_info × Fd :=
  let nfat_arch_raw := read_u32 (fd.read 4).1 0
  let fd1 := (fd.read 4).2
  if nfat_arch_raw = 0 then (E_MACHO_FILE_PARSE_NO_ARCHITECTURES, info_in, fd1)
  else
    let is_big_endian := magic == FAT_CIGAM || magic == FAT_CIGAM_64
    let nfat_arch := if is_big_endian then swap_uint32 nfat_arch_raw else nfat_arch_raw
    let is_64 := magic == FAT_MAGIC_64 || magic == FAT_CIGAM_64
    let file_size := wrap64 fd.bytes.length
    if is_64 then
      handle_fat_64_file K info_in fd1 is_big_endian nfat_arch 0 file_size tbd_options options
    else
      handle_fat_32_file K info_in fd1 is_big_endian nfat_arch 0 file_size tbd_options options

/-- The thin branch of `macho_file_parse_from_file`: the read of the rest of the header,
its swap for a big-endian file and the call of `parse_thin_file`. -/
def macho_file_parse_from_file_thin (K : Externals) (info_in : tbd_create_info) (fd : Fd)
    (magic tbd_options options : Nat) : macho_file_parse_result × tbd_create_info × Fd :=
  let is_thin :=
    magic == MH_MAGIC || magic == MH_CIGAM || magic == MH_MAGIC_64 || magic == MH_CIGAM_64
  if !is_thin then (E_MACHO_FILE_PARSE_NOT_A_MACHO, info_in, fd)
  else
    let rest := (fd.read (sizeof_mach_header - 4)).1
    let fd1 := (fd.read (sizeof_mach_header - 4)).2
    let header : mach_header :=
      { magic := magic, cputype := to_int32 (read_u32 rest 0),
        cpusubtype := to_int32 (read_u32 rest 4), filetype := read_u32 rest 8,
        ncmds := read_u32 rest 12, sizeofcmds := read_u32 rest 16, flags := read_u32 rest 20 }
    let file_size := wrap64 fd.bytes.length
    let is_big_endian := magic == MH_CIGAM || magic == MH_CIGAM_64
    parse_thin_file K info_in fd1 (if is_big_endian then mach_header_swap header else header)
      is_big_endian 0 file_size tbd_options options

/-- Function `macho_file_parse_from_file`; `fd` stands after the magic number, which the
caller has read. The result carries the aggregate and the descriptor. A `return` from inside
one of the two branches carries a code other than ok, which is handed on unchanged as by
`if (ret != E_MACHO_FILE_PARSE_OK) return ret`. -/
def macho_file_parse_from_file (K : Externals) (info_in : tbd_create_info) (fd : Fd)
    (magic tbd_options options : Nat) : macho_file_parse_result × tbd_create_info × Fd :=
  let is_fat :=
    magic == FAT_MAGIC || magic == FAT_CIGAM || magic == FAT_MAGIC_64 || magic == FAT_CIGAM_64
  let ret :=
    if is_fat then macho_file_parse_from_file_fat K info_in fd magic tbd_options options
    else macho_file_parse_from_file_thin K info_in fd magic tbd_options options
  macho_file_parse_from_file_finish K tbd_options ret

/-! ## `src/dyld_shared_cache.c`

The header `dyld_shared_cache.h` is not under src/. Its constants (the size of
`struct dyld_cache_header`, the option and flag bits) and the function `range_contains_end` of
`range.c` are fields of `CacheExternals`. The records `dyld_cache_mapping_info` and
`dyld_cache_image_info` have the on-disk layout of the shared-cache format, 32 bytes each. The
calls `read`, `fstat` and `mmap` are taken to succeed; the mapping of the file is its content,
an address in it is an offset. -/

/-- The enum `dyld_shared_cache_parse_result`, with the constants the source returns. -/
inductive dyld_shared_cache_parse_result where
  | E_DYLD_SHARED_CACHE_PARSE_OK
  | E_DYLD_SHARED_CACHE_PARSE_NOT_A_CACHE
  | E_DYLD_SHARED_CACHE_PARSE_READ_FAIL
  | E_DYLD_SHARED_CACHE_PARSE_FSTAT_FAIL
  | E_DYLD_SHARED_CACHE_PARSE_MMAP_FAIL
  | E_DYLD_SHARED_CACHE_PARSE_INVALID_IMAGES
  | E_DYLD_SHARED_CACHE_PARSE_INVALID_MAPPINGS
  | E_DYLD_SHARED_CACHE_PARSE_OVERLAPPING_RANGES
  | E_DYLD_SHARED_CACHE_PARSE_OVERLAPPING_MAPPINGS
deriving DecidableEq, Repr

open dyld_shared_cache_parse_result

/-- Constants of `dyld_shared_cache.h` and the function `range_contains_end` of `range.c`,
none of which is under src/. -/
structure CacheExternals where
  sizeof_dyld_cache_header : Nat
  O_DYLD_SHARED_CACHE_PARSE_ZERO_IMAGE_PADS : Nat
  O_DYLD_SHARED_CACHE_PARSE_VERIFY_IMAGE_PATH_OFFSETS : Nat
  F_DYLD_SHARED_CACHE_UNMAP_MAP : Nat
  range_contains_end : range → Nat → Bool

/-- The constant `dsc_magic_64`. -/
def dsc_magic_64 : Nat := 2319765435151317348

/-- The constant `dsc_magic_64_other`. -/
def dsc_magic_64_other : Nat := 7003509047616633188

/-- Function `get_arch_info_from_magic`: `none` when the function returns a non-zero value
(the enum constant not-a-cache is taken to be non-zero), otherwise the index written through
`arch_info_out` and the bit written through `arch_bit_out`. -/
def get_arch_info_from_magic (magic : List Nat) : Option (Nat × Nat) :=
  let first_part := read_u64 magic 0
  if first_part ≠ dsc_magic_64 ∧ first_part ≠ dsc_magic_64_other then none
  else
    let second_part := read_u64 magic 8
    if second_part = 15261442200576032 then some (6, 2 ^ 6)
    else if second_part = 14696481348417568 then some (48, 2 ^ 48)
    else if second_part = 29330805708175480 then some (49, 2 ^ 49)
    else if second_part = 15048386208145440 then some (20, 2 ^ 20)
    else if second_part = 15329861184856096 then some (19, 2 ^ 19)
    else if second_part = 15611336161566752 then some (22, 2 ^ 22)
    else if second_part = 3996502057361088544 then some (23, 2 ^ 23)
    else if second_part = 7725773898219855904 then some (25, 2 ^ 25)
    else if second_part = 8302234650523279392 then some (24, 2 ^ 24)
    else if second_part = 7869889086295711776 then some (26, 2 ^ 26)
    else if second_part = 14696542487257120 then some (50, 2 ^ 50)
    else if second_part = 28486381016867104 then some (52, 2 ^ 52)
    else if second_part = 14130232826424690 then some (55, 2 ^ 55)
    else none

/-- The fields of `struct dyld_cache_header` that the parser uses: the four 32-bit fields that
follow the 16 bytes of the magic. -/
structure dyld_cache_header where
  mappingOffset : Nat
  mappingCount : Nat
  imagesOffset : Nat
  imagesCount : Nat
deriving DecidableEq, Repr

/-- The fields of `struct dyld_cache_mapping_info` that the parser uses. -/
structure dyld_cache_mapping_info where
  address : Nat
  size : Nat
  fileOffset : Nat
deriving DecidableEq, Repr

/-- The size of `struct dyld_cache_mapping_info`. -/
def sizeof_dyld_cache_mapping_info : Nat := 32

/-- The size of `struct dyld_cache_image_info`. -/
def sizeof_dyld_cache_image_info : Nat := 32

/-- The record `struct dyld_shared_cache_info`, with the fields the parser writes; `map` is
the content of the mapping (`none` for `NULL`), `images` and `mappings` are offsets in it. -/
structure dyld_shared_cache_info where
  images : Nat
  images_count : Nat
  mappings : Nat
  mappings_count : Nat
  arch : Option Nat
  arch_bit : Nat
  map : Option (List Nat)
  size : Nat
  available_range : range
  flags : Nat
deriving DecidableEq, Repr

/-- The header as `dyld_shared_cache_parse_from_file` reads it: the descriptor stands after the
magic, and `sizeof(header) - 16` bytes are read into the header from `mappingOffset` on. -/
def dsc_read_header (C : CacheExternals) (fd : Fd) : dyld_cache_header :=
  let buffer := (fd.read (C.sizeof_dyld_cache_header - 16)).1
  { mappingOffset := read_u32 buffer 0, mappingCount := read_u32 buffer 4,
    imagesOffset := read_u32 buffer 8, imagesCount := read_u32 buffer 12 }

/-- The checks of the header in `dyld_shared_cache_parse_from_file`, up to the call of `mmap`:
the error returned, or the values of `mapping_end` and `images_end`. -/
def dsc_check_header (C : CacheExternals) (header : dyld_cache_header) (dsc_size : Nat) :
    Except dyld_shared_cache_parse_result (Nat × Nat) :=
  let no_main_header_range : range :=
    { begin := C.sizeof_dyld_cache_header, end_ := dsc_size }
  if !range_contains_location no_main_header_range header.mappingOffset then
    .error E_DYLD_SHARED_CACHE_PARSE_INVALID_MAPPINGS
  else if !range_contains_location no_main_header_range header.imagesOffset then
    .error E_DYLD_SHARED_CACHE_PARSE_INVALID_IMAGES
  else
    match guard_overflow_mul 64 sizeof_dyld_cache_mapping_info header.mappingCount with
    | none => .error E_DYLD_SHARED_CACHE_PARSE_INVALID_MAPPINGS
    | some mappings_size =>
      match guard_overflow_add 64 header.mappingOffset mappings_size with
      | none => .error E_DYLD_SHARED_CACHE_PARSE_INVALID_MAPPINGS
      | some mapping_end =>
        match guard_overflow_mul 64 sizeof_dyld_cache_image_info header.imagesCount with
        | none => .error E_DYLD_SHARED_CACHE_PARSE_INVALID_IMAGES
        | some images_size =>
          match guard_overflow_add 64 header.imagesOffset images_size with
          | none => .error E_DYLD_SHARED_CACHE_PARSE_INVALID_IMAGES
          | some images_end =>
            if !C.range_contains_end no_main_header_range mapping_end then
              .error E_DYLD_SHARED_CACHE_PARSE_INVALID_MAPPINGS
            else if !C.range_contains_end no_main_header_range images_end then
              .error E_DYLD_SHARED_CACHE_PARSE_INVALID_IMAGES
            else
              match guard_overflow_add 64 mappings_size images_size with
              | none => .error E_DYLD_SHARED_CACHE_PARSE_INVALID_IMAGES
              | some _ =>
                let mappings_range : range :=
                  { begin := header.mappingOffset, end_ := mapping_end }
                let images_range : range :=
                  { begin := header.imagesOffset, end_ := images_end }
                if ranges_overlap mappings_range images_range then
                  .error E_DYLD_SHARED_CACHE_PARSE_OVERLAPPING_RANGES
                else .ok (mapping_end, images_end)

/-- The record `mappings[i]` of the mapped file. -/
def dsc_mapping_at (map : List Nat) (mappings i : Nat) : dyld_cache_mapping_info :=
  let mapping := mappings + sizeof_dyld_cache_mapping_info * i
  { address := read_u64 map mapping, size := read_u64 map (mapping + 8),
    fileOffset := read_u64 map (mapping + 16) }

/-- The body of the loop over the mappings in `dyld_shared_cache_parse_from_file` for the
index `i`: the error returned from it, or `none` when the loop goes on. -/
def dsc_check_mapping (map : List Nat) (mappings dsc_size i : Nat) :
    Option dyld_shared_cache_parse_result :=
  let full_cache_range : range := { begin := 0, end_ := dsc_size }
  let mapping := dsc_mapping_at map mappings i
  let mapping_file_begin := mapping.fileOffset
  match guard_overflow_add 64 mapping_file_begin mapping.size with
  | none => some E_DYLD_SHARED_CACHE_PARSE_OVERLAPPING_MAPPINGS
  | some mapping_file_end =>
    let mapping_file_range : range := { begin := mapping_file_begin, end_ := mapping_file_end }
    if !range_contains_range full_cache_range mapping_file_range then
      some E_DYLD_SHARED_CACHE_PARSE_INVALID_MAPPINGS
    else if (List.range i).any (fun j =>
        let inner_mapping := dsc_mapping_at map mappings j
        let inner_file_begin := inner_mapping.fileOffset
        let inner_file_end := wrap64 (inner_file_begin + inner_mapping.size)
        ranges_overlap mapping_file_range { begin := inner_file_begin, end_ := inner_file_end })
        then
      some E_DYLD_SHARED_CACHE_PARSE_OVERLAPPING_MAPPINGS
    else none

/-- The loop over the mappings in `dyld_shared_cache_parse_from_file`, over the indices still
to visit: the error returned from it, or `none` when it ends. -/
def dsc_verify_mappings (map : List Nat) (mappings dsc_size : Nat) :
    List Nat → Option dyld_shared_cache_parse_result
  | [] => none
  | i :: rest =>
    match dsc_check_mapping map mappings dsc_size i with
    | some e => some e
    | none => dsc_verify_mappings map mappings dsc_size rest

/-- The store `image->pad = 0` into the mapping, for the image at offset `image`. -/
def dsc_zero_image_pad (map : List Nat) (image : Nat) : List Nat :=
  (((map.set (image + 28) 0).set (image + 29) 0).set (image + 30) 0).set (image + 31) 0

/-- The loops over the images in `dyld_shared_cache_parse_from_file`, over the indices still
to visit: the error returned from them, or the mapping, some pads of which were set to 0. -/
def dsc_images_loop (C : CacheExternals) (images : Nat) (available_range : range)
    (options : Nat) : List Nat → List Nat → Except dyld_shared_cache_parse_result (List Nat)
  | map, [] => .ok map
  | map, i :: rest =>
    let image := images + sizeof_dyld_cache_image_info * i
    if flag_set options C.O_DYLD_SHARED_CACHE_PARSE_ZERO_IMAGE_PADS then
      if flag_set options C.O_DYLD_SHARED_CACHE_PARSE_VERIFY_IMAGE_PATH_OFFSETS then
        let location := read_u32 map (image + 24)
        if range_contains_location available_range location then
          dsc_images_loop C images available_range options map rest
        else .error E_DYLD_SHARED_CACHE_PARSE_INVALID_IMAGES
      else
        dsc_images_loop C images available_range options (dsc_zero_image_pad map image) rest
    else if flag_set options C.O_DYLD_SHARED_CACHE_PARSE_VERIFY_IMAGE_PATH_OFFSETS then
      let location := read_u32 map (image + 24)
      if range_contains_location available_range location then
        dsc_images_loop C images available_range options map rest
      else .error E_DYLD_SHARED_CACHE_PARSE_INVALID_IMAGES
    else .ok map

/-- The part of `dyld_shared_cache_parse_from_file` that follows the call of `mmap`. -/
def dsc_parse_mapped (C : CacheExternals) (info_in : dyld_shared_cache_info)
    (header : dyld_cache_header) (map : List Nat) (dsc_size mapping_end images_end : Nat)
    (arch arch_bit options : Nat) : dyld_shared_cache_parse_result × dyld_shared_cache_info :=
  match dsc_verify_mappings map header.mappingOffset dsc_size
      (List.range header.mappingCount) with
  | some e => (e, info_in)
  | none =>
    let available_range_start := if images_end < mapping_end then mapping_end else images_end
    let available_range : range := { begin := available_range_start, end_ := dsc_size }
    match dsc_images_loop C header.imagesOffset available_range options map
        (List.range header.imagesCount) with
    | .error e => (e, info_in)
    | .ok map1 =>
      (E_DYLD_SHARED_CACHE_PARSE_OK,
        { images := header.imagesOffset, images_count := header.imagesCount,
          mappings := header.mappingOffset, mappings_count := header.mappingCount,
          arch := some arch, arch_bit := arch_bit, map := some map1, size := dsc_size,
          available_range := available_range,
          flags := info_in.flags ||| C.F_DYLD_SHARED_CACHE_UNMAP_MAP })

/-- Function `dyld_shared_cache_parse_from_file`; the descriptor stands after the 16 bytes of
the magic, which the caller has read. The result carries the caller's record and the
descriptor. -/
def dyld_shared_cache_parse_from_file (C : CacheExternals) (info_in : dyld_shared_cache_info)
    (fd : Fd) (magic : List Nat) (options : Nat) :
    dyld_shared_cache_parse_result × dyld_shared_cache_info × Fd :=
  match get_arch_info_from_magic magic with
  | none => (E_DYLD_SHARED_CACHE_PARSE_NOT_A_CACHE, info_in, fd)
  | some (arch, arch_bit) =>
    let header := dsc_read_header C fd
    let fd1 := (fd.read (C.sizeof_dyld_cache_header - 16)).2
    let dsc_size := fd.bytes.length
    match dsc_check_header C header dsc_size with
    | .error e => (e, info_in, fd1)
    | .ok (mapping_end, images_end) =>
      let r := dsc_parse_mapped C info_in header fd.bytes dsc_size mapping_end images_end
        arch arch_bit options
      (r.1, r.2, fd1)

/-! ## `src/array.c` at the level of bytes

The functions of `array.c` once more, on the buffer itself: an array is the address of its
buffer, the bytes in use and the capacity of the buffer. An address is a number, `NULL` is 0.
The call `malloc` is a parameter, which returns the address of the new buffer or 0. A pointer
`item_out` is `none` when the caller passes `NULL`, and otherwise holds the value of the
variable it points to. -/

namespace ByteLevel

/-- The record `struct array`: `data` is the address of the buffer (0 for `NULL`), `bytes` the
content of `[data, data_end)` and `capacity` the difference `alloc_end - data`. -/
structure array where
  data : Nat
  bytes : List Nat
  capacity : Nat
deriving DecidableEq, Repr

/-- The field `data_end` of an array. -/
def array.data_end (a : array) : Nat := a.data + a.bytes.length

/-- The field `alloc_end` of an array. -/
def array.alloc_end (a : array) : Nat := a.data + a.capacity

/-- Function `array_get_item_at_index`; the result is the pointer returned. -/
def array_get_item_at_index (a : array) (item_size index : Nat) : Nat :=
  let byte_index := wrap64 (item_size * index)
  let iter := a.data + byte_index
  if iter > a.data_end then 0 else iter

/-- Function `array_get_used_size`. -/
def array_get_used_size (a : array) : Nat := wrap64 (a.data_end + 2 ^ 64 - a.data)

/-- Function `array_get_item_count`. -/
def array_get_item_count (a : array) (item_size : Nat) : Nat :=
  array_get_used_size a / item_size

/-- The loop `while (new_capacity < wanted_capacity) new_capacity *= 2` of
`array_expand_if_necessary`, with a budget of tests: `none` when the budget runs out. A value
that is doubled 64 times is 0 on 64 bits and stays 0, so a loop that has not ended after 65
tests does not end. -/
def array_expand_loop (wanted_capacity : Nat) : Nat → Nat → Option Nat
  | 0, _ => none
  | fuel + 1, new_capacity =>
    if new_capacity < wanted_capacity then
      array_expand_loop wanted_capacity fuel (wrap64 (new_capacity * 2))
    else some new_capacity

/-- Function `array_expand_if_necessary`; `none` when its loop does not end. -/
def array_expand_if_necessary (malloc : Nat → Nat) (a : array) (add_byte_size : Nat) :
    Option (array_result × array) :=
  let used_size := array_get_used_size a
  let old_capacity := wrap64 (a.alloc_end + 2 ^ 64 - a.data)
  let wanted_capacity := wrap64 (used_size + add_byte_size)
  if wanted_capacity ≤ old_capacity then some (.E_ARRAY_OK, a)
  else
    let doubled := wrap64 (old_capacity * 2)
    let looped :=
      if doubled ≠ 0 then array_expand_loop wanted_capacity 65 doubled
      else some wanted_capacity
    match looped with
    | none => none
    | some new_capacity =>
      let new_data := malloc new_capacity
      if new_data = 0 then some (.E_ARRAY_ALLOC_FAIL, a)
      else some (.E_ARRAY_OK, { data := new_data, bytes := a.bytes, capacity := new_capacity })

/-- Function `array_add_item_to_byte_index`, for a `byte_index` of at most the used size, as
its callers pass it. The result carries the array and the variable behind `item_out`. -/
def array_add_item_to_byte_index (malloc : Nat → Nat) (a : array) (item_size : Nat)
    (item : List Nat) (byte_index : Nat) (item_out : Option Nat) :
    Option (array_result × array × Option Nat) :=
  match array_expand_if_necessary malloc a item_size with
  | none => none
  | some (expand_result, a1) =>
    if expand_result ≠ .E_ARRAY_OK then some (expand_result, a1, item_out)
    else
      let position := a1.data + byte_index
      let a2 : array :=
        { a1 with
          bytes := a1.bytes.take byte_index ++ bytes_at item 0 item_size ++
            a1.bytes.drop byte_index }
      some (.E_ARRAY_OK, a2, item_out.map (fun _ => position))

/-- Function `array_add_item`. -/
def array_add_item (malloc : Nat → Nat) (a : array) (item_size : Nat) (item : List Nat)
    (item_out : Option Nat) : Option (array_result × array × Option Nat) :=
  let byte_index := wrap64 (a.data_end + 2 ^ 64 - a.data)
  array_add_item_to_byte_index malloc a item_size item byte_index item_out

/-- Function `array_add_item_to_index`. -/
def array_add_item_to_index (malloc : Nat → Nat) (a : array) (item_size : Nat)
    (item : List Nat) (index : Nat) (item_out : Option Nat) :
    Option (array_result × array × Option Nat) :=
  let byte_index := wrap64 (item_size * index)
  let position := a.data + byte_index
  if position > a.data_end then some (.E_ARRAY_INDEX_OUT_OF_BOUNDS, a, item_out)
  else array_add_item_to_byte_index malloc a item_size item byte_index item_out

/-- Function `array_add_item_with_cached_index_info`. -/
def array_add_item_with_cached_index_info (malloc : Nat → Nat) (a : array) (item_size : Nat)
    (item : List Nat) (info : array_cached_index_info) (item_out : Option Nat) :
    Option (array_result × array × Option Nat) :=
  let index := info.index
  let type := info.type
  if index = 0 then
    if type ≠ .ARRAY_CACHED_INDEX_GREATER_THAN then
      array_add_item_to_index malloc a item_size item 0 item_out
    else array_add_item_to_index malloc a item_size item 1 item_out
  else
    let back_index := wrap64 (array_get_item_count a item_size + 2 ^ 64 - 1)
    if index = back_index then
      if type = .ARRAY_CACHED_INDEX_GREATER_THAN then
        match array_add_item malloc a item_size item none with
        | none => none
        | some r => some (r.1, r.2.1, item_out)
      else array_add_item_to_index malloc a item_size item back_index item_out
    else if type ≠ .ARRAY_CACHED_INDEX_GREATER_THAN then
      array_add_item_to_index malloc a item_size item index item_out
    else array_add_item_to_index malloc a item_size item (index + 1) item_out

end ByteLevel

/-! ## `src/array.c`: adding the items of another array

As in the first part, an array of fixed-size items is the list of its items; its used size is
0 exactly when the list is empty. Allocation is taken to succeed. -/

/-- Function `array_add_items_from_array`: the items of `other` are copied after the last
item. -/
def array_add_items_from_array {α : Type} (items other : List α) : array_result × List α :=
  (.E_ARRAY_OK, items ++ other)

/-- The loop of `array_add_and_unique_items_from_array` over the items of `other` still to
visit. -/
def array_add_and_unique_items_loop {α : Type} (comparator : α → α → Int) :
    List α → List α → array_result × List α
  | items, [] => (.E_ARRAY_OK, items)
  | items, other_iter :: rest =>
    match array_find_item items other_iter comparator with
    | some _ => array_add_and_unique_items_loop comparator items rest
    | none =>
      let add_item_result := array_add_item items other_iter
      if add_item_result.1 ≠ .E_ARRAY_OK then add_item_result
      else array_add_and_unique_items_loop comparator add_item_result.2 rest

/-- Function `array_add_and_unique_items_from_array`. -/
def array_add_and_unique_items_from_array {α : Type} (items other : List α)
    (comparator : α → α → Int) : array_result × List α :=
  if items.length = 0 then array_add_items_from_array items other
  else array_add_and_unique_items_loop comparator items other

/-! ## Auxiliary definitions for the statements -/

/-- Whether the lookup of the pair of table entry `i` returns an entry (not `NULL`) whose
`cputype` and `cpusubtype` equal the arguments. -/
def arch_entry_found (i : Nat) : Bool :=
  match arch_info_list.get? i with
  | none => false
  | some e =>
    match arch_info_for_cputype e.cputype e.cpusubtype with
    | none => false
    | some j =>
      match arch_info_list.get? j with
      | none => false
      | some r => r.cputype == e.cputype && r.cpusubtype == e.cpusubtype

/-- The conditions on `ncmds` and `sizeofcmds` under which
`macho_file_parse_load_commands_from_file` passes its three checks on the size of the command
area and enters the walk. -/
def from_file_enters_walk (p : mf_parse_load_commands_from_file_info) : Prop :=
  p.ncmds ≠ 0 ∧ 8 ≤ p.sizeofcmds ∧ 8 * p.ncmds < 2 ^ 32 ∧ 8 * p.ncmds ≤ p.sizeofcmds ∧
    p.sizeofcmds ≤ wrap32 (wrap64 (p.available_range.end_ + 2 ^ 64 - p.available_range.begin))

instance (p : mf_parse_load_commands_from_file_info) : Decidable (from_file_enters_walk p) := by
  unfold from_file_enters_walk
  infer_instance

/-- The conditions on `ncmds` and `sizeofcmds` under which
`macho_file_parse_load_commands_from_map` passes its three checks on the size of the command
area and enters the walk. -/
def from_map_enters_walk (p : mf_parse_load_commands_from_map_info) : Prop :=
  p.ncmds ≠ 0 ∧ 8 ≤ p.sizeofcmds ∧ 8 * p.ncmds < 2 ^ 32 ∧ 8 * p.ncmds ≤ p.sizeofcmds ∧
    p.sizeofcmds ≤ wrap32 (wrap64 (p.macho_size + 2 ^ 64 - from_map_header_size p.is_64))

instance (p : mf_parse_load_commands_from_map_info) : Decidable (from_map_enters_walk p) := by
  unfold from_map_enters_walk
  infer_instance

/-- Three-way comparison of two byte strings in lexicographic order. -/
def compare_bytes : List Nat → List Nat → Int
  | [], [] => 0
  | [], _ :: _ => -1
  | _ :: _, [] => 1
  | a :: as, b :: bs => if a < b then -1 else if b < a then 1 else compare_bytes as bs

/-- An assignment of the declarations that are not under src/, used to evaluate the
embedding on concrete inputs: distinct bits for the options and flags of each word, the enum
values in the order of the Mach-O platform numbers, a string check that never asks for
quotes, comparators that order exports by `(type, string)` and UUID records by their 16
bytes, and symbol-table parsers that accept every table. -/
def sample_externals : Externals where
  O_TBD_PARSE_IGNORE_CLIENTS := 1
  O_TBD_PARSE_IGNORE_CURRENT_VERSION := 2
  O_TBD_PARSE_IGNORE_COMPATIBILITY_VERSION := 4
  O_TBD_PARSE_IGNORE_INSTALL_NAME := 8
  O_TBD_PARSE_IGNORE_MISSING_EXPORTS := 16
  O_TBD_PARSE_IGNORE_OBJC_CONSTRAINT := 32
  O_TBD_PARSE_IGNORE_PARENT_UMBRELLA := 64
  O_TBD_PARSE_IGNORE_PLATFORM := 128
  O_TBD_PARSE_IGNORE_REEXPORTS := 256
  O_TBD_PARSE_IGNORE_SWIFT_VERSION := 512
  O_TBD_PARSE_IGNORE_SYMBOLS := 1024
  O_TBD_PARSE_IGNORE_UUID := 2048
  O_MACHO_FILE_PARSE_IGNORE_INVALID_FIELDS := 1
  O_MACHO_FILE_PARSE_IGNORE_CONFLICTING_FIELDS := 2
  O_MACHO_FILE_PARSE_SKIP_INVALID_ARCHITECTURES := 4
  O_MACHO_FILE_PARSE_SECT_OFF_ABSOLUTE := 8
  O_MACHO_FILE_PARSE_COPY_STRINGS_IN_MAP := 16
  O_MACHO_FILE_PARSE_DONT_PARSE_SYMBOL_TABLE := 32
  F_TBD_CREATE_INFO_INSTALL_NAME_NEEDS_QUOTES := 1
  F_TBD_CREATE_INFO_PARENT_UMBRELLA_NEEDS_QUOTES := 2
  F_TBD_CREATE_INFO_STRINGS_WERE_COPIED := 4
  F_TBD_EXPORT_INFO_STRING_NEEDS_QUOTES := 1
  TBD_FLAG_FLAT_NAMESPACE := 1
  TBD_FLAG_NOT_APP_EXTENSION_SAFE := 2
  TBD_PLATFORM_MACOS := 1
  TBD_PLATFORM_IOS := 2
  TBD_PLATFORM_TVOS := 3
  TBD_PLATFORM_WATCHOS := 4
  TBD_OBJC_CONSTRAINT_RETAIN_RELEASE := 1
  TBD_OBJC_CONSTRAINT_RETAIN_RELEASE_FOR_SIMULATOR := 2
  TBD_OBJC_CONSTRAINT_RETAIN_RELEASE_OR_GC := 3
  TBD_OBJC_CONSTRAINT_GC := 4
  TBD_EXPORT_TYPE_REEXPORT := 1
  TBD_EXPORT_TYPE_CLIENT := 6
  F_OBJC_IMAGE_INFO_SUPPORTS_GC := 2
  F_OBJC_IMAGE_INFO_REQUIRES_GC := 4
  F_OBJC_IMAGE_INFO_IS_FOR_SIMULATOR := 32
  objc_image_info_swift_version_mask := 0xff00
  yaml_check_c_str := fun _ => false
  tbd_export_info_no_archs_comparator := fun a b =>
    if a.type < b.type then -1 else if b.type < a.type then 1
    else compare_bytes a.string b.string
  tbd_export_info_comparator := fun a b =>
    if a.type < b.type then -1 else if b.type < a.type then 1
    else compare_bytes a.string b.string
  tbd_uuid_info_comparator := fun a b => compare_bytes a.uuid b.uuid
  macho_file_parse_symbols_from_file := fun info fd _ _ _ _ _ _ _ _ _ =>
    (E_MACHO_FILE_PARSE_OK, info, fd)
  macho_file_parse_symbols_64_from_file := fun info fd _ _ _ _ _ _ _ _ _ =>
    (E_MACHO_FILE_PARSE_OK, info, fd)
  macho_file_parse_symbols_from_map := fun info _ _ _ _ _ _ _ _ _ =>
    (E_MACHO_FILE_PARSE_OK, info)
  macho_file_parse_symbols_64_from_map := fun info _ _ _ _ _ _ _ _ _ =>
    (E_MACHO_FILE_PARSE_OK, info)

/-- The empty aggregate, as a caller constructs it. -/
def empty_create_info : tbd_create_info :=
  { archs := 0, flags := 0, flags_field := 0, platform := 0, objc_constraint := 0,
    swift_version := 0, current_version := 0, compatibility_version := 0,
    install_name := none, install_name_length := 0, parent_umbrella := none,
    parent_umbrella_length := 0, exports := [], uuids := [] }

/-- The four bytes of a 32-bit value in little-endian order. -/
def le32 (x : Nat) : List Nat := [x % 256, x / 256 % 256, x / 65536 % 256, x / 16777216 % 256]

/-- The four bytes of a 32-bit value in big-endian order. -/
def be32 (x : Nat) : List Nat := [x / 16777216 % 256, x / 65536 % 256, x / 256 % 256, x % 256]

/-- A command area of 32 bytes for a little-endian slice: an `LC_UUID` command of 24 bytes
followed by the header `{ LC_SYMTAB, 4 }`, whose `cmdsize` is below 8. -/
def sample_short_command_fd : Fd :=
  { bytes := le32 LC_UUID ++ le32 24 ++ List.replicate 16 7 ++ le32 LC_SYMTAB ++ le32 4,
    pos := 0 }

/-- Parse information for `sample_short_command_fd`: two commands in 32 bytes of a 32-bit
slice of 60 bytes. -/
def sample_short_command_info : mf_parse_load_commands_from_file_info :=
  { arch := some 6, arch_bit := 64, is_64 := false, is_big_endian := false, ncmds := 2,
    sizeofcmds := 32, tbd_options := 0, options := 0,
    full_range := { begin := 0, end_ := 60 }, available_range := { begin := 28, end_ := 60 } }

/-- Whether two half-open ranges `[offset, offset + size)` of slices share a byte, in
unbounded arithmetic. -/
def slices_overlap (a b : fat_arch) : Prop :=
  a.offset < b.offset + b.size ∧ b.offset < a.offset + a.size

/-- Parse information of a thin 32-bit slice of `2 ^ 32 + 36` bytes at the start of a file:
one command in a command area of 16 bytes; the available range holds `2 ^ 32 + 8` bytes. -/
def sample_large_slice_info : mf_parse_load_commands_from_file_info :=
  { arch := some 6, arch_bit := 64, is_64 := false, is_big_endian := false, ncmds := 1,
    sizeofcmds := 16, tbd_options := 0, options := 0,
    full_range := { begin := 0, end_ := 2 ^ 32 + 36 },
    available_range := { begin := 28, end_ := 2 ^ 32 + 36 } }

/-- Parse information whose `ncmds = 2 ^ 29` makes the 32-bit product `8 * ncmds` overflow. -/
def sample_overflow_info : mf_parse_load_commands_from_file_info :=
  { arch := some 6, arch_bit := 64, is_64 := false, is_big_endian := false, ncmds := 2 ^ 29,
    sizeofcmds := 4096, tbd_options := 0, options := 0,
    full_range := { begin := 0, end_ := 8192 }, available_range := { begin := 28, end_ := 8192 } }

/-- Parse information for a mapped 32-bit image of 60 bytes: 28 bytes of header and the
command area of `sample_short_command_fd`. -/
def sample_short_command_map_info : mf_parse_load_commands_from_map_info :=
  { map := List.replicate 28 0 ++ sample_short_command_fd.bytes,
    available_map_range := { begin := 0, end_ := 60 }, macho := 0, macho_size := 60,
    arch := some 6, arch_bit := 64, is_64 := false, is_big_endian := false, ncmds := 2,
    sizeofcmds := 32, tbd_options := 0, options := 0 }

/-- An `LC_ID_DYLIB` command of 32 bytes in the byte order given by the function `w` (`le32`
or `be32`): name offset `name_offset`, timestamp 0, the two versions, and the name `"/A"`
followed by NUL bytes up to the end of the command. -/
def id_dylib_command (w : Nat → List Nat) (name_offset current_version
    compatibility_version : Nat) : List Nat :=
  w LC_ID_DYLIB ++ w 32 ++ w name_offset ++ w 0 ++ w current_version ++
    w compatibility_version ++ [47, 65, 0, 0, 0, 0, 0, 0]

/-- The aggregate after a first `LC_ID_DYLIB` command was recorded: install name `"/A"`,
current version 2.0.0 and compatibility version 1.0.0. -/
def sample_identified_info : tbd_create_info :=
  { empty_create_info with
    current_version := 0x20000, compatibility_version := 0x10000,
    install_name := some [47, 65], install_name_length := 2 }

/-- A command area of 96 bytes in the byte order given by `w`: `LC_ID_DYLIB` (name `"/A"`,
versions 2.0.0 and 1.0.0), `LC_UUID` (sixteen bytes 7), `LC_VERSION_MIN_MACOSX` and
`LC_SYMTAB` (an empty symbol table). -/
def sample_dylib_commands (w : Nat → List Nat) : List Nat :=
  id_dylib_command w 24 0x20000 0x10000 ++
  (w LC_UUID ++ w 24 ++ List.replicate 16 7) ++
  (w LC_VERSION_MIN_MACOSX ++ w 16 ++ w 0 ++ w 0) ++
  (w LC_SYMTAB ++ w 24 ++ w 0 ++ w 0 ++ w 0 ++ w 0)

/-- A thin 32-bit file of 124 bytes, positioned after its header: 28 bytes of header and
`sample_dylib_commands`. -/
def sample_dylib_fd (w : Nat → List Nat) : Fd :=
  { bytes := List.replicate 28 0 ++ sample_dylib_commands w, pos := 28 }

/-- Parse information for `sample_dylib_fd`: four commands in 96 bytes, no option set. -/
def sample_dylib_info (is_big_endian : Bool) : mf_parse_load_commands_from_file_info :=
  { arch := some 6, arch_bit := 64, is_64 := false, is_big_endian := is_big_endian,
    ncmds := 4, sizeofcmds := 96, tbd_options := 0, options := 0,
    full_range := { begin := 0, end_ := 124 }, available_range := { begin := 28, end_ := 124 } }

/-- What the cases other than `LC_UUID` and `LC_SYMTAB` do to the locals: nothing, or they
set `found_identification`. -/
def locals_kept (v : walk_locals) (r : macho_file_parse_result × tbd_create_info × walk_locals) :
    Prop :=
  r.2.2 = v ∨ r.2.2 = { v with found_identification := true }

/-- A command area of 48 bytes for a little-endian slice (scenario S5): two `LC_UUID`
commands, the first with sixteen bytes 7 and the second with sixteen bytes 9. -/
def sample_two_uuid_fd : Fd :=
  { bytes := le32 LC_UUID ++ le32 24 ++ List.replicate 16 7 ++
      (le32 LC_UUID ++ le32 24 ++ List.replicate 16 9),
    pos := 0 }

/-- Parse information for `sample_two_uuid_fd`: two commands in 48 bytes, no option set. -/
def sample_two_uuid_info : mf_parse_load_commands_from_file_info :=
  { arch := some 6, arch_bit := 64, is_64 := false, is_big_endian := false, ncmds := 2,
    sizeofcmds := 48, tbd_options := 0, options := 0,
    full_range := { begin := 0, end_ := 76 }, available_range := { begin := 28, end_ := 76 } }

/-- A command area of 96 bytes of a little-endian slice: `LC_ID_DYLIB` (name `"/A"`, versions
2.0.0 and 1.0.0), `LC_UUID` (sixteen bytes `uuid_byte`), `LC_VERSION_MIN_MACOSX` and
`LC_SYMTAB` (an empty symbol table). -/
def sample_slice_commands (uuid_byte : Nat) : List Nat :=
  id_dylib_command le32 24 0x20000 0x10000 ++
  (le32 LC_UUID ++ le32 24 ++ List.replicate 16 uuid_byte) ++
  (le32 LC_VERSION_MIN_MACOSX ++ le32 16 ++ le32 0 ++ le32 0) ++
  (le32 LC_SYMTAB ++ le32 24 ++ le32 0 ++ le32 0 ++ le32 0 ++ le32 0)

/-- A thin 32-bit slice of 124 bytes, positioned after its header: 28 bytes of header and
`sample_slice_commands uuid_byte`. -/
def sample_slice_fd (uuid_byte : Nat) : Fd :=
  { bytes := List.replicate 28 0 ++ sample_slice_commands uuid_byte, pos := 28 }

/-- The header of a little-endian 32-bit slice with the four commands of
`sample_slice_commands` and the given architecture pair and flags. -/
def sample_slice_header (cputype cpusubtype : Int) (flags : Nat) : mach_header :=
  { magic := MH_MAGIC, cputype := cputype, cpusubtype := cpusubtype, filetype := 6,
    ncmds := 4, sizeofcmds := 96, flags := flags }

/-- The aggregate after the thin handler parsed a first slice for `(CPU_TYPE_X86,
CPU_SUBTYPE_I386_ALL)` whose header has `MH_TWOLEVEL` and `MH_APP_EXTENSION_SAFE` set, starting
from the empty aggregate. -/
def sample_two_level_aggregate : tbd_create_info :=
  (parse_thin_file sample_externals empty_create_info (sample_slice_fd 7)
    (sample_slice_header 7 3 (MH_TWOLEVEL ||| MH_APP_EXTENSION_SAFE)) false 0 124 0 0).2.1

/-- A command `LC_SEGMENT` of 124 bytes for the segment `__DATA` with one section
`__objc_imageinfo` of 8 bytes at offset 248 of the slice. -/
def sample_objc_segment : List Nat :=
  le32 LC_SEGMENT ++ le32 124 ++
  ([95, 95, 68, 65, 84, 65] ++ List.replicate 10 0) ++
  le32 0 ++ le32 0 ++ le32 0 ++ le32 0 ++ le32 7 ++ le32 7 ++ le32 1 ++ le32 0 ++
  [95, 95, 111, 98, 106, 99, 95, 105, 109, 97, 103, 101, 105, 110, 102, 111] ++
  ([95, 95, 68, 65, 84, 65] ++ List.replicate 10 0) ++
  le32 0 ++ le32 8 ++ le32 248 ++ le32 0 ++ le32 0 ++ le32 0 ++ le32 0 ++ le32 0 ++ le32 0

/-- A thin 32-bit slice of 256 bytes, positioned after its header: 28 bytes of header, the
command `sample_objc_segment`, the four commands of `sample_slice_commands uuid_byte` and, at
offset 248, an `objc_image_info` with version 0 and the given flags. -/
def sample_objc_slice_fd (uuid_byte image_flags : Nat) : Fd :=
  { bytes := List.replicate 28 0 ++ sample_objc_segment ++ sample_slice_commands uuid_byte ++
      le32 0 ++ le32 image_flags,
    pos := 28 }

/-- Parse information for `sample_objc_slice_fd`: five commands in 220 bytes, for the
architecture entry `arch` and the given options of the Mach-O parser. -/
def sample_objc_slice_info (arch options : Nat) : mf_parse_load_commands_from_file_info :=
  { arch := some arch, arch_bit := 1 <<< arch, is_64 := false, is_big_endian := false,
    ncmds := 5, sizeofcmds := 220, tbd_options := 0, options := options,
    full_range := { begin := 0, end_ := 256 }, available_range := { begin := 28, end_ := 256 } }

/-- The aggregate after the file-based parser handled a first slice (architecture entry 6)
whose image-info section has flags 0, with ignore-conflicting-fields set: the constraint
retain-release is recorded. -/
def sample_retain_release_aggregate : tbd_create_info :=
  (macho_file_parse_load_commands_from_file sample_externals empty_create_info
    (sample_objc_slice_fd 7 0)
    (sample_objc_slice_info 6
      sample_externals.O_MACHO_FILE_PARSE_IGNORE_CONFLICTING_FIELDS)).info

/-- What the statements about sorted arrays assume of a comparator on the items of one type:
its sign is antisymmetric and "not greater" is transitive, so it orders the items totally
(items that compare 0 are equivalent). -/
structure comparator_is_total_order {α : Type} (comparator : α → α → Int) : Prop where
  antisymm : ∀ a b, comparator a b < 0 ↔ 0 < comparator b a
  trans : ∀ a b c, comparator a b ≤ 0 → comparator b c ≤ 0 → comparator a c ≤ 0

/-- The position that a hint of a failed search stands for: `index`, or `index + 1` when
the relation is greater-than. -/
def hint_position (info : array_cached_index_info) : Nat :=
  if info.type = .ARRAY_CACHED_INDEX_GREATER_THAN then info.index + 1 else info.index

/-- What a search for `item` in the sorted `data` has to deliver: a pointer to an element
that compares equal, or a hint whose position splits the array into the elements that
compare less and those that compare greater. -/
def search_finds {α : Type} (comparator : α → α → Int) (data : List α) (item : α) :
    search_result → Prop
  | .item i => ∃ x, data.get? i = some x ∧ comparator x item = 0
  | .null info =>
    info.type ≠ .ARRAY_CACHED_INDEX_EQUAL ∧ hint_position info ≤ data.length ∧
    (∀ i x, i < hint_position info → data.get? i = some x → comparator x item < 0) ∧
    (∀ i x, hint_position info ≤ i → data.get? i = some x → 0 < comparator x item)
  | .outside => False
  | .exhausted => False

/-- A comparator on natural numbers in the manner of the C comparators: the difference. -/
def sample_comparator (a b : Nat) : Int := (a : Int) - (b : Int)

/-- The insertion of one item the way the callers of the sorted array do it: a call of
`array_find_item_in_sorted` and, when it returns `NULL`, a call of
`array_add_item_with_cached_index_info` with the hint it set. The result is the array after
the two calls, `none` when the item was found or a call failed. -/
def array_find_and_add_item {α : Type} (comparator : α → α → Int) (items : List α) (item : α) :
    Option (List α) :=
  match array_find_item_in_sorted items item comparator with
  | .null info =>
    match array_add_item_with_cached_index_info items item info with
    | (.E_ARRAY_OK, items1) => some items1
    | (_, _) => none
  | _ => none

/-- The insertion of a sequence of items, one at a time and in the order of the sequence,
by `array_find_and_add_item`. -/
def array_find_and_add_items {α : Type} (comparator : α → α → Int) :
    List α → List α → Option (List α)
  | items, [] => some items
  | items, x :: rest =>
    match array_find_and_add_item comparator items x with
    | some items1 => array_find_and_add_items comparator items1 rest
    | none => none

/-- What the statements assume of `tbd_export_info_no_archs_comparator` beyond the total
order: its result depends on the `type` and the `string` of the two records only (it ignores
`archs`, `archs_count` and `flags`). -/
def comparator_ignores_archs (comparator : tbd_export_info → tbd_export_info → Int) : Prop :=
  ∀ a b a1 b1 : tbd_export_info, a.type = a1.type → a.string = a1.string →
    b.type = b1.type → b.string = b1.string → comparator a b = comparator a1 b1

/-- A sequence of calls of `add_export_to_info` on one aggregate; a call is given by its
arguments `(arch_bit, type, string, string_length)`. -/
def add_exports_to_info (K : Externals) :
    tbd_create_info → List (Nat × Nat × List Nat × Nat) → tbd_create_info
  | info, [] => info
  | info, c :: rest =>
    add_exports_to_info K (add_export_to_info K info c.1 c.2.1 c.2.2.1 c.2.2.2).2 rest

/-- Every bit that is set in the mask `a` is set in the mask `m`. -/
def archs_within (a m : Nat) : Prop := ∀ i, a.testBit i = true → m.testBit i = true

/-- What the walk over the commands of a slice with architecture bit `arch_bit` may change
in the aggregate, from `a` to `b`: `archs` and `uuids` stay as they are, and the bits of the
masks of the exports stay within every mask that holds `arch_bit` and the bits they had. -/
def aggregate_kept (arch_bit : Nat) (a b : tbd_create_info) : Prop :=
  b.archs = a.archs ∧ b.uuids = a.uuids ∧
  ∀ m, archs_within arch_bit m → (∀ e ∈ a.exports, archs_within e.archs m) →
    ∀ e ∈ b.exports, archs_within e.archs m

/-- What the statements on whole slices assume of the symbol-table parsers of
`macho_file_parse_symbols.c`, which are not under src/: they read the file without changing
it, and they change the aggregate within `aggregate_kept` for the architecture bit they are
called with (they add exports for that bit and leave `archs` and `uuids` alone). -/
structure symbol_parsers_keep (K : Externals) : Prop where
  from_file : ∀ info fd r1 r2 arch_bit be symoff nsyms stroff strsize tbd_options,
    aggregate_kept arch_bit info
      (K.macho_file_parse_symbols_from_file info fd r1 r2 arch_bit be symoff nsyms stroff
        strsize tbd_options).2.1 ∧
    (K.macho_file_parse_symbols_from_file info fd r1 r2 arch_bit be symoff nsyms stroff
      strsize tbd_options).2.2.bytes = fd.bytes
  from_file_64 : ∀ info fd r1 r2 arch_bit be symoff nsyms stroff strsize tbd_options,
    aggregate_kept arch_bit info
      (K.macho_file_parse_symbols_64_from_file info fd r1 r2 arch_bit be symoff nsyms stroff
        strsize tbd_options).2.1 ∧
    (K.macho_file_parse_symbols_64_from_file info fd r1 r2 arch_bit be symoff nsyms stroff
      strsize tbd_options).2.2.bytes = fd.bytes

/-- The aggregate `b` has the `archs`, `uuids` and `exports` of `a`. -/
def fields_kept (a b : tbd_create_info) : Prop :=
  b.archs = a.archs ∧ b.uuids = a.uuids ∧ b.exports = a.exports

/-- What the file-based parser of the load commands changes in the aggregate for a slice
with architecture bit `arch_bit`, whatever it returns: `archs` stays as it is, and the bits of
the masks of the exports stay within every mask that holds `arch_bit` and the bits they had. -/
def exports_kept (arch_bit : Nat) (a b : tbd_create_info) : Prop :=
  b.archs = a.archs ∧
  ∀ m, archs_within arch_bit m → (∀ e ∈ a.exports, archs_within e.archs m) →
    ∀ e ∈ b.exports, archs_within e.archs m

/-- The change of `uuids` by a slice that is parsed with ok: one record is added at the
end, which compares different from all records before it under
`tbd_uuid_info_comparator`. -/
def uuid_added (K : Externals) (a b : tbd_create_info) : Prop :=
  ∃ u, b.uuids = a.uuids ++ [u] ∧ ∀ x ∈ a.uuids, K.tbd_uuid_info_comparator x u ≠ 0

/-- The aggregate after the thin handler parsed a first slice for `(CPU_TYPE_X86,
CPU_SUBTYPE_I386_ALL)`, the architecture entry of index 6, whose header has `MH_TWOLEVEL` set
and `MH_APP_EXTENSION_SAFE` clear, starting from the empty aggregate: bit 6 of `archs` is set
and not-app-extension-safe is recorded. -/
def sample_not_safe_aggregate : tbd_create_info :=
  (parse_thin_file sample_externals empty_create_info (sample_slice_fd 7)
    (sample_slice_header 7 3 MH_TWOLEVEL) false 0 124 0 0).2.1

/-- What the thin handler changes in the aggregate, from `a` to `b`, for a slice of the
architecture entry `k` that it parses with ok: bit `k`, clear before, is set in `archs`, one
UUID record is added, and the bits of the masks of the exports stay within every mask that
holds bit `k` and the bits they had. -/
def slice_added (K : Externals) (k : Nat) (a b : tbd_create_info) : Prop :=
  k < 64 ∧ a.archs.testBit k = false ∧ b.archs = a.archs ||| 1 <<< k ∧ uuid_added K a b ∧
  ∀ m, archs_within (1 <<< k) m → (∀ e ∈ a.exports, archs_within e.archs m) →
    ∀ e ∈ b.exports, archs_within e.archs m

/-- What the parse loop of a fat handler changes in the aggregate for the slices of the
given records, each parsed with ok by the thin handler, in the order of the records. -/
def slices_added (K : Externals) : List fat_arch → tbd_create_info → tbd_create_info → Prop
  | [], a, b => b = a
  | s :: rest, a, b =>
    ∃ k mid, arch_info_for_cputype s.cputype s.cpusubtype = some k ∧ slice_added K k a mid ∧
      slices_added K rest mid b

/-- The magic number of the slice of a record, as the parse loop of the fat handlers reads
it from the file. -/
def fat_slice_magic (bytes : List Nat) (start : Nat) (arch : fat_arch) : Nat :=
  (mach_header_of_bytes
    (({ bytes := bytes, pos := wrap64 (start + arch.offset) } : Fd).read
      sizeof_mach_header).1).magic

/-- Whether the parse loop of the fat handlers hands the slice of a record to the thin
handler: its magic number is one of the four Mach-O magic numbers. Other slices are skipped
under skip-invalid-architectures and make the handler fail without it. -/
def fat_slice_is_parsed (bytes : List Nat) (start : Nat) (arch : fat_arch) : Bool :=
  fat_slice_magic bytes start arch == MH_CIGAM || fat_slice_magic bytes start arch == MH_CIGAM_64 ||
    thin_magic_is_valid (fat_slice_magic bytes start arch)

/-- The records whose slices are parsed. -/
def parsed_slices (bytes : List Nat) (start : Nat) (archs : List fat_arch) : List fat_arch :=
  archs.filter (fat_slice_is_parsed bytes start)

/-- The bitwise OR of `1 << k` over the indices `k` in the architecture table of the pairs
`(cputype, cpusubtype)` of the records. -/
def arch_bits_of : List fat_arch → Nat
  | [] => 0
  | s :: rest =>
    (match arch_info_for_cputype s.cputype s.cpusubtype with
      | some k => 1 <<< k
      | none => 0) ||| arch_bits_of rest

/-- The number of bits that are set in a 64-bit mask. -/
def popcount (x : Nat) : Nat := ((List.range 64).filter (fun i => x.testBit i)).length

/-- The records of a fat-32 file in host order, as `handle_fat_32_file` reads them at the
position of the descriptor and swaps them. -/
def fat_32_records (fd : Fd) (is_big_endian : Bool) (nfat_arch : Nat) : List fat_arch :=
  (List.range nfat_arch).map (fun i =>
    fat_arch_swap_32 is_big_endian
      (fat_arch_of_bytes (fd.read (sizeof_fat_arch * nfat_arch)).1 i))

/-- The records of a fat-64 file in host order, as `handle_fat_64_file` reads them at the
position of the descriptor and swaps them. -/
def fat_64_records (fd : Fd) (is_big_endian : Bool) (nfat_arch : Nat) : List fat_arch :=
  (List.range nfat_arch).map (fun i =>
    fat_arch_swap_64 is_big_endian
      (fat_arch_64_of_bytes (fd.read (sizeof_fat_arch_64 * nfat_arch)).1 i))

/-- A thin little-endian 32-bit slice of 124 bytes for the given architecture pair: the
header with the flags `MH_TWOLEVEL` and the four commands of `sample_slice_commands`. -/
def sample_slice_bytes (cputype cpusubtype uuid_byte : Nat) : List Nat :=
  le32 MH_MAGIC ++ le32 cputype ++ le32 cpusubtype ++ le32 6 ++ le32 4 ++ le32 96 ++
    le32 MH_TWOLEVEL ++ sample_slice_commands uuid_byte

/-- A fat-32 file of 296 bytes with a big-endian fat header and two records: the slice for
`(7, 3)` at offset 48 and the slice for `(18, 0)` at offset 172, of 124 bytes each, with
different UUIDs. -/
def sample_fat_32_file : List Nat :=
  be32 FAT_MAGIC ++ be32 2 ++
  (be32 7 ++ be32 3 ++ be32 48 ++ be32 124 ++ be32 0) ++
  (be32 18 ++ be32 0 ++ be32 172 ++ be32 124 ++ be32 0) ++
  sample_slice_bytes 7 3 7 ++ sample_slice_bytes 18 0 9

/-- The eight bytes of a 64-bit value in big-endian order. -/
def be64 (x : Nat) : List Nat := be32 (x / 4294967296) ++ be32 (x % 4294967296)

/-- A fat-64 file of 320 bytes with a big-endian fat header and two records: the slice for
`(7, 3)` at offset 72 and the slice for `(18, 0)` at offset 196, of 124 bytes each, with
different UUIDs. -/
def sample_fat_64_file : List Nat :=
  be32 FAT_MAGIC_64 ++ be32 2 ++
  (be32 7 ++ be32 3 ++ be64 72 ++ be64 124 ++ be32 0 ++ be32 0) ++
  (be32 18 ++ be32 0 ++ be64 196 ++ be64 124 ++ be32 0 ++ be32 0) ++
  sample_slice_bytes 7 3 7 ++ sample_slice_bytes 18 0 9

/-- A thin little-endian 32-bit file of 156 bytes for `(7, 3)`: the header, the four commands
of `sample_slice_commands 7` and a command `LC_REEXPORT_DYLIB` of 32 bytes for the library
`"/B"`. -/
def sample_reexport_file : List Nat :=
  le32 MH_MAGIC ++ le32 7 ++ le32 3 ++ le32 6 ++ le32 5 ++ le32 128 ++ le32 MH_TWOLEVEL ++
    sample_slice_commands 7 ++
    (le32 LC_REEXPORT_DYLIB ++ le32 32 ++ le32 24 ++ le32 0 ++ le32 0 ++ le32 0 ++
      [47, 66, 0, 0, 0, 0, 0, 0])

/-- A little-endian dylib command (`struct dylib_command`) of 32 bytes with command number
`cmd`: name offset `name_offset`, timestamp 0, versions 2.0.0 and 1.0.0, and the string `"/A"`
followed by NUL bytes up to the end of the command. -/
def sample_dylib_command (cmd name_offset : Nat) : List Nat :=
  le32 cmd ++ le32 32 ++ le32 name_offset ++ le32 0 ++ le32 0x20000 ++ le32 0x10000 ++
    [47, 65, 0, 0, 0, 0, 0, 0]

/-- A little-endian `LC_SUB_CLIENT` command of 16 bytes: client offset `client_offset` and the
string `"A"` followed by NUL bytes. -/
def sample_sub_client_command (client_offset : Nat) : List Nat :=
  le32 LC_SUB_CLIENT ++ le32 16 ++ le32 client_offset ++ [65, 0, 0, 0]

/-- A command area of 80 bytes of a little-endian slice that holds no platform command:
`LC_ID_DYLIB` (name `"/A"`, versions 2.0.0 and 1.0.0), `LC_UUID` (sixteen bytes 7) and
`LC_SYMTAB` (an empty symbol table). -/
def sample_no_platform_commands : List Nat :=
  id_dylib_command le32 24 0x20000 0x10000 ++
  (le32 LC_UUID ++ le32 24 ++ List.replicate 16 7) ++
  (le32 LC_SYMTAB ++ le32 24 ++ le32 0 ++ le32 0 ++ le32 0 ++ le32 0)

/-- A thin 32-bit file of 108 bytes, positioned after its header: 28 bytes of header and
`sample_no_platform_commands`. -/
def sample_no_platform_fd : Fd :=
  { bytes := List.replicate 28 0 ++ sample_no_platform_commands, pos := 28 }

/-- Parse information for `sample_no_platform_fd`: three commands in 80 bytes, no option
set. -/
def sample_no_platform_info : mf_parse_load_commands_from_file_info :=
  { arch := some 6, arch_bit := 64, is_64 := false, is_big_endian := false,
    ncmds := 3, sizeofcmds := 80, tbd_options := 0, options := 0,
    full_range := { begin := 0, end_ := 108 }, available_range := { begin := 28, end_ := 108 } }

/-- Parse information for the mapping of the same 108 bytes: three commands in 80 bytes, no
option set. -/
def sample_no_platform_map_info : mf_parse_load_commands_from_map_info :=
  { map := sample_no_platform_fd.bytes,
    available_map_range := { begin := 0, end_ := 108 }, macho := 0, macho_size := 108,
    arch := some 6, arch_bit := 64, is_64 := false, is_big_endian := false, ncmds := 3,
    sizeofcmds := 80, tbd_options := 0, options := 0 }

/-- The order the two-level search needs between the entries `i` and `i + 1` of the
architecture table: the cputype grows, or it is the same and the cpusubtype grows. -/
def arch_entries_in_order (i : Nat) : Bool :=
  match arch_info_list.get? i, arch_info_list.get? (i + 1) with
  | some a, some b =>
    decide (a.cputype < b.cputype) ||
      (decide (a.cputype = b.cputype) && decide (a.cpusubtype < b.cpusubtype))
  | _, _ => false

/-- The cputype does not decrease from entry `i` to entry `i + 1` of the architecture table. -/
def arch_cputypes_in_order (i : Nat) : Bool :=
  match arch_info_list.get? i, arch_info_list.get? (i + 1) with
  | some a, some b => decide (a.cputype ≤ b.cputype)
  | _, _ => false

/-- A fat-64 file of 41 bytes with a big-endian fat header and one record, whose slice for
`(7, 3)` starts at offset 41, the end of the file, with a size of 28 bytes. -/
def sample_fat_64_end_file : List Nat :=
  be32 FAT_MAGIC_64 ++ be32 1 ++
  (be32 7 ++ be32 3 ++ be64 41 ++ be64 28 ++ be32 0 ++ be32 0) ++ [0]

/-- The eight bytes of a 64-bit value in little-endian order. -/
def le64 (x : Nat) : List Nat := le32 (x % 4294967296) ++ le32 (x / 4294967296)

/-- Sample values for the constants of `dyld_shared_cache.h`: a header of 112 bytes; and for
`range_contains_end`, the test `begin < end ≤ range.end`. -/
def sample_cache_externals : CacheExternals where
  sizeof_dyld_cache_header := 112
  O_DYLD_SHARED_CACHE_PARSE_ZERO_IMAGE_PADS := 1
  O_DYLD_SHARED_CACHE_PARSE_VERIFY_IMAGE_PATH_OFFSETS := 2
  F_DYLD_SHARED_CACHE_UNMAP_MAP := 1
  range_contains_end := fun r e => decide (r.begin < e) && decide (e ≤ r.end_)

/-- The record of a caller that has not parsed a cache yet. -/
def empty_cache_info : dyld_shared_cache_info :=
  { images := 0, images_count := 0, mappings := 0, mappings_count := 0, arch := none,
    arch_bit := 0, map := none, size := 0, available_range := { begin := 0, end_ := 0 },
    flags := 0 }

/-- The magic `"dyld_v1  x86_64"` followed by NUL, that of a cache for
`(CPU_TYPE_X86_64, CPU_SUBTYPE_X86_64_ALL)`. -/
def sample_cache_magic : List Nat := le64 dsc_magic_64 ++ le64 14696481348417568

/-- A `dyld_cache_mapping_info` record: address 0, the given size and file offset, and the two
protection fields 0. -/
def sample_cache_mapping (fileOffset size : Nat) : List Nat :=
  le64 0 ++ le64 size ++ le64 fileOffset ++ le32 0 ++ le32 0

/-- A `dyld_cache_image_info` record: address, modification time and inode 0, the given
offset of the path, and pad 7. -/
def sample_cache_image (pathFileOffset : Nat) : List Nat :=
  le64 0 ++ le64 0 ++ le64 0 ++ le32 pathFileOffset ++ le32 7

/-- A cache file with a header of 112 bytes (the magic, the offset and count of the mappings,
the offset of the images, one image, and 80 bytes 0), the given records after it, and the path
`"A"` at the end. -/
def sample_cache_file (mappingOffset mappingCount imagesOffset : Nat) (records : List Nat) :
    List Nat :=
  sample_cache_magic ++ le32 mappingOffset ++ le32 mappingCount ++ le32 imagesOffset ++
    le32 1 ++ List.replicate 80 0 ++ records ++ [65, 0]

/-- A cache file of 210 bytes, positioned after the magic, with two mappings and one image:
the first mapping covers `[0, 100)` of the file, the second has the given file offset and
size. -/
def sample_cache_two_mappings_fd (fileOffset size : Nat) : Fd :=
  { bytes := sample_cache_file 112 2 176
      (sample_cache_mapping 0 100 ++ sample_cache_mapping fileOffset size ++
        sample_cache_image 208),
    pos := 16 }

/-- A cache file of 178 bytes, positioned after the magic, with one mapping, of the given file
offset and size, and one image. -/
def sample_cache_one_mapping_fd (fileOffset size : Nat) : Fd :=
  { bytes := sample_cache_file 112 1 144
      (sample_cache_mapping fileOffset size ++ sample_cache_image 176),
    pos := 16 }

/-- The cases of the switch of `get_arch_info_from_magic`: the literal of the second half of
the magic, the index of the architecture entry and the architecture bit. -/
def dsc_magic_cases : List (Nat × Nat × Nat) :=
  [(15261442200576032, 6, 2 ^ 6), (14696481348417568, 48, 2 ^ 48),
    (29330805708175480, 49, 2 ^ 49), (15048386208145440, 20, 2 ^ 20),
    (15329861184856096, 19, 2 ^ 19), (15611336161566752, 22, 2 ^ 22),
    (3996502057361088544, 23, 2 ^ 23), (7725773898219855904, 25, 2 ^ 25),
    (8302234650523279392, 24, 2 ^ 24), (7869889086295711776, 26, 2 ^ 26),
    (14696542487257120, 50, 2 ^ 50), (28486381016867104, 52, 2 ^ 52),
    (14130232826424690, 55, 2 ^ 55)]

/-- A little-endian command `LC_SEGMENT` of 124 bytes for the segment with the given 16-byte
name, with one section of the given 16-byte name, of 8 bytes at the given offset of the
slice. -/
def sample_segment (segname sectname : List Nat) (offset : Nat) : List Nat :=
  le32 LC_SEGMENT ++ le32 124 ++ segname ++
  le32 0 ++ le32 0 ++ le32 0 ++ le32 0 ++ le32 7 ++ le32 7 ++ le32 1 ++ le32 0 ++
  sectname ++ segname ++
  le32 0 ++ le32 8 ++ le32 offset ++ le32 0 ++ le32 0 ++ le32 0 ++ le32 0 ++ le32 0 ++ le32 0

/-- The name `"__DATA"` padded with NUL bytes to 16 bytes. -/
def sample_name_data : List Nat := [95, 95, 68, 65, 84, 65] ++ List.replicate 10 0

/-- The name `"__DATA_CONST"` padded with NUL bytes to 16 bytes. -/
def sample_name_data_const : List Nat :=
  [95, 95, 68, 65, 84, 65, 95, 67, 79, 78, 83, 84] ++ List.replicate 4 0

/-- The name `"__objc_imageinfo"`. -/
def sample_name_objc_imageinfo : List Nat :=
  [95, 95, 111, 98, 106, 99, 95, 105, 109, 97, 103, 101, 105, 110, 102, 111]

/-- The name `"__const"` padded with NUL bytes to 16 bytes. -/
def sample_name_const : List Nat := [95, 95, 99, 111, 110, 115, 116] ++ List.replicate 9 0

/-- A thin 32-bit slice of 380 bytes, positioned after its header: 28 bytes of header, a
segment `__DATA` with the section `__objc_imageinfo` (at offset 372), a segment
`__DATA_CONST` with the section `__const`, the four commands of `sample_slice_commands 7`,
and at offset 372 an `objc_image_info` with version 0 and the flags `0x500` (Swift version
5). -/
def sample_two_segments_fd : Fd :=
  { bytes := List.replicate 28 0 ++
      sample_segment sample_name_data sample_name_objc_imageinfo 372 ++
      sample_segment sample_name_data_const sample_name_const 372 ++
      sample_slice_commands 7 ++ le32 0 ++ le32 0x500,
    pos := 28 }

/-- The same slice without the segment `__DATA_CONST`: 256 bytes, the image info at offset
248. -/
def sample_one_segment_fd : Fd :=
  { bytes := List.replicate 28 0 ++
      sample_segment sample_name_data sample_name_objc_imageinfo 248 ++
      sample_slice_commands 7 ++ le32 0 ++ le32 0x500,
    pos := 28 }

/-- Parse information for a little-endian thin 32-bit slice of `size` bytes with `ncmds`
commands in `sizeofcmds` bytes, for the architecture entry 6 and no option set. -/
def sample_segments_info (ncmds sizeofcmds size : Nat) :
    mf_parse_load_commands_from_file_info :=
  { arch := some 6, arch_bit := 64, is_64 := false, is_big_endian := false,
    ncmds := ncmds, sizeofcmds := sizeofcmds, tbd_options := 0, options := 0,
    full_range := { begin := 0, end_ := size }, available_range := { begin := 28, end_ := size } }

/-- The loop of `array_slice_get_sorted_array_item_for_item` with a record of its iterations:
beside the outcome, the slice at the start of every iteration, in order. Every iteration makes
one call of the comparator, on the element at the middle index of its slice. -/
def array_slice_search_loop_traced {α β : Type} (data : List α) (comparator : α → β → Int)
    (item : β) : Nat → array_slice → search_result × List array_slice
  | 0, _ => (.exhausted, [])
  | fuel + 1, slice =>
    let index := array_slice_get_middle_index slice
    match data.get? index with
    | none => (.outside, [slice])
    | some array_item =>
      let compare := comparator array_item item
      if compare = 0 then (.item index, [slice])
      else if array_slice_holds_one_element slice then
        (.null ⟨slice.front, get_cached_index_type_from_ret compare⟩, [slice])
      else if compare > 0 then
        if array_slice_holds_two_elements slice then
          (.null ⟨slice.front, .ARRAY_CACHED_INDEX_LESS_THAN⟩, [slice])
        else
          let r := array_slice_search_loop_traced data comparator item fuel
            (array_slice_set_to_lower_half slice index)
          (r.1, slice :: r.2)
      else
        let r := array_slice_search_loop_traced data comparator item fuel
          (array_slice_set_to_upper_half slice index)
        (r.1, slice :: r.2)

/-- An outcome of a search that is a return of the function: a pointer to an element or `NULL`
with a hint. -/
def search_result.returned : search_result → Bool
  | .item _ => true
  | .null _ => true
  | .outside => false
  | .exhausted => false

/-- An allocator for the samples: every buffer is placed at the address `0x2000`. -/
def sample_malloc (_ : Nat) : Nat := 0x2000

/-- An array of 4-byte items at the address `0x1000` in a buffer of exactly their size: the
little-endian numbers 1 to `n`. -/
def sample_byte_array (n : Nat) : ByteLevel.array :=
  { data := 0x1000, bytes := ((List.range n).map (fun i => le32 (i + 1))).flatten,
    capacity := 4 * n }

/-! # Theorems -/

/-! ## The architecture lookup -/

/-- C1 (defect of the code): entry 8 of the architecture table is
`(CPU_TYPE_X86, CPU_SUBTYPE_486SX)` = `(7, 132)`, and `arch_info_for_cputype(7, 132)` returns
`NULL`. The entries whose own pair is not found are exactly those of index 8, 9, 13, 14 and
29; the blocks of `CPU_TYPE_X86` and `CPU_TYPE_ARM` are not in increasing `cpusubtype` order,
which the binary search relies on. -/
theorem C1_lookup_misses_table_entries :
    arch_info_list.get? 8 = some ⟨7, 132, some "i486SX"⟩ ∧
    arch_info_for_cputype 7 132 = none ∧
    (List.range 56).filter (fun i => !arch_entry_found i) = [8, 9, 13, 14, 29] := by
  refine ⟨by decide, by decide, by decide⟩

/-! ## The command walk -/

/-- An iteration of the file-based walk that returns ok has accepted the header of the
command and moved the cursor over it. -/
theorem from_file_iteration_ok (K : Externals) (p : mf_parse_load_commands_from_file_info)
    (buf : List Nat) (rr : range) (s : file_walk_state)
    (h : (from_file_iteration K p buf rr s).1 = E_MACHO_FILE_PARSE_OK) :
    8 ≤ (load_command_at buf s.load_cmd_iter p.is_big_endian).cmdsize ∧
    (load_command_at buf s.load_cmd_iter p.is_big_endian).cmdsize ≤ s.size_left ∧
    (from_file_iteration K p buf rr s).2.load_cmd_iter =
      s.load_cmd_iter + (load_command_at buf s.load_cmd_iter p.is_big_endian).cmdsize ∧
    (from_file_iteration K p buf rr s).2.size_left =
      s.size_left - (load_command_at buf s.load_cmd_iter p.is_big_endian).cmdsize := by
  unfold from_file_iteration at h ⊢
  simp only [sizeof_load_command] at h ⊢
  by_cases h1 : s.size_left < 8
  · simp [h1] at h
  · by_cases h2 : (load_command_at buf s.load_cmd_iter p.is_big_endian).cmdsize < 8
    · simp [h1, h2] at h
    · by_cases h3 : s.size_left < (load_command_at buf s.load_cmd_iter p.is_big_endian).cmdsize
      · simp [h1, h2, h3] at h
      · by_cases h4 : (extract_from_file K p buf rr s
            (load_command_at buf s.load_cmd_iter p.is_big_endian)).1 = E_MACHO_FILE_PARSE_OK
        · simp only [h1, h2, h3, h4, if_false, ne_eq, not_true_eq_false]
          refine ⟨by omega, by omega, trivial, trivial⟩
        · simp [h1, h2, h3, h4] at h

/-- A header that fails a size check ends the file-based walk before any extraction. -/
theorem from_file_iteration_bad (K : Externals) (p : mf_parse_load_commands_from_file_info)
    (buf : List Nat) (rr : range) (s : file_walk_state)
    (h : s.size_left < 8 ∨ (load_command_at buf s.load_cmd_iter p.is_big_endian).cmdsize < 8 ∨
      s.size_left < (load_command_at buf s.load_cmd_iter p.is_big_endian).cmdsize) :
    from_file_iteration K p buf rr s = (E_MACHO_FILE_PARSE_INVALID_LOAD_COMMAND, s) := by
  unfold from_file_iteration
  simp only [sizeof_load_command]
  by_cases h1 : s.size_left < 8
  · simp [h1]
  · by_cases h2 : (load_command_at buf s.load_cmd_iter p.is_big_endian).cmdsize < 8
    · simp [h1, h2]
    · by_cases h3 : s.size_left < (load_command_at buf s.load_cmd_iter p.is_big_endian).cmdsize
      · simp [h1, h2, h3]
      · omega

/-- A header that passes the size checks hands the command to the extraction, whose code
is the code of the iteration. -/
theorem from_file_iteration_good (K : Externals) (p : mf_parse_load_commands_from_file_info)
    (buf : List Nat) (rr : range) (s : file_walk_state)
    (h1 : 8 ≤ (load_command_at buf s.load_cmd_iter p.is_big_endian).cmdsize)
    (h2 : (load_command_at buf s.load_cmd_iter p.is_big_endian).cmdsize ≤ s.size_left) :
    (from_file_iteration K p buf rr s).1 =
      (extract_from_file K p buf rr s
        (load_command_at buf s.load_cmd_iter p.is_big_endian)).1 := by
  unfold from_file_iteration
  simp only [sizeof_load_command]
  have e1 : ¬ s.size_left < 8 := by omega
  have e2 : ¬ (load_command_at buf s.load_cmd_iter p.is_big_endian).cmdsize < 8 := by omega
  have e3 : ¬ s.size_left < (load_command_at buf s.load_cmd_iter p.is_big_endian).cmdsize := by
    omega
  simp only [e1, e2, e3, if_false]
  by_cases h4 : (extract_from_file K p buf rr s
      (load_command_at buf s.load_cmd_iter p.is_big_endian)).1 = E_MACHO_FILE_PARSE_OK
  · simp [h4]
  · simp [h4]

/-- The sum of cursor and `size_left` is kept by the iterations of the file-based walk. -/
theorem from_file_loop_inv (K : Externals) (p : mf_parse_load_commands_from_file_info)
    (buf : List Nat) (rr : range) (n : Nat) :
    ∀ (s0 s : file_walk_state),
      from_file_loop K p buf rr n s0 = (E_MACHO_FILE_PARSE_OK, s) →
      s.load_cmd_iter + s.size_left = s0.load_cmd_iter + s0.size_left ∧
      s0.load_cmd_iter ≤ s.load_cmd_iter := by
  induction n with
  | zero =>
    intro s0 s h
    simp [from_file_loop] at h
    subst h
    exact ⟨rfl, le_refl _⟩
  | succ n ih =>
    intro s0 s h
    rw [from_file_loop] at h
    by_cases hr : (from_file_iteration K p buf rr s0).1 = E_MACHO_FILE_PARSE_OK
    · simp only [hr, ne_eq, not_true_eq_false, if_false] at h
      obtain ⟨h8, hle, hi, hs⟩ := from_file_iteration_ok K p buf rr s0 hr
      obtain ⟨e1, e2⟩ := ih _ _ h
      constructor <;> omega
    · simp only [ne_eq, hr, not_false_eq_true, if_true] at h
      rw [h] at hr
      exact absurd rfl hr

/-- Splitting of the file-based walk after `i` accepted commands. -/
theorem from_file_loop_add (K : Externals) (p : mf_parse_load_commands_from_file_info)
    (buf : List Nat) (rr : range) (i : Nat) :
    ∀ (n : Nat) (s0 s : file_walk_state),
      from_file_loop K p buf rr i s0 = (E_MACHO_FILE_PARSE_OK, s) →
      from_file_loop K p buf rr (i + n) s0 = from_file_loop K p buf rr n s := by
  induction i with
  | zero =>
    intro n s0 s h
    simp [from_file_loop] at h
    subst h
    simp
  | succ i ih =>
    intro n s0 s h
    rw [from_file_loop] at h
    have e : i + 1 + n = (i + n) + 1 := by omega
    rw [e, from_file_loop]
    by_cases hr : (from_file_iteration K p buf rr s0).1 = E_MACHO_FILE_PARSE_OK
    · simp only [hr, ne_eq, not_true_eq_false, if_false] at h ⊢
      exact ih n _ _ h
    · simp only [ne_eq, hr, not_false_eq_true, if_true] at h
      rw [h] at hr
      exact absurd rfl hr

/-- An iteration of the map-based walk that returns ok has accepted the header of the
command and moved the cursor over it. -/
theorem from_map_iteration_ok (K : Externals) (p : mf_parse_load_commands_from_map_info)
    (rr : range) (s : map_walk_state)
    (h : (from_map_iteration K p rr s).1 = E_MACHO_FILE_PARSE_OK) :
    8 ≤ (load_command_at p.map s.load_cmd_iter p.is_big_endian).cmdsize ∧
    (load_command_at p.map s.load_cmd_iter p.is_big_endian).cmdsize ≤ s.size_left ∧
    (from_map_iteration K p rr s).2.load_cmd_iter =
      s.load_cmd_iter + (load_command_at p.map s.load_cmd_iter p.is_big_endian).cmdsize ∧
    (from_map_iteration K p rr s).2.size_left =
      s.size_left - (load_command_at p.map s.load_cmd_iter p.is_big_endian).cmdsize := by
  unfold from_map_iteration at h ⊢
  simp only [sizeof_load_command] at h ⊢
  by_cases h1 : s.size_left < 8
  · simp [h1] at h
  · by_cases h2 : (load_command_at p.map s.load_cmd_iter p.is_big_endian).cmdsize < 8
    · simp [h1, h2] at h
    · by_cases h3 :
          s.size_left < (load_command_at p.map s.load_cmd_iter p.is_big_endian).cmdsize
      · simp [h1, h2, h3] at h
      · by_cases h4 : (extract_from_map K p rr s
            (load_command_at p.map s.load_cmd_iter p.is_big_endian)).1 = E_MACHO_FILE_PARSE_OK
        · simp only [h1, h2, h3, h4, if_false, ne_eq, not_true_eq_false]
          refine ⟨by omega, by omega, trivial, trivial⟩
        · simp [h1, h2, h3, h4] at h

/-- A header that fails a size check ends the map-based walk before any extraction. -/
theorem from_map_iteration_bad (K : Externals) (p : mf_parse_load_commands_from_map_info)
    (rr : range) (s : map_walk_state)
    (h : s.size_left < 8 ∨
      (load_command_at p.map s.load_cmd_iter p.is_big_endian).cmdsize < 8 ∨
      s.size_left < (load_command_at p.map s.load_cmd_iter p.is_big_endian).cmdsize) :
    from_map_iteration K p rr s = (E_MACHO_FILE_PARSE_INVALID_LOAD_COMMAND, s) := by
  unfold from_map_iteration
  simp only [sizeof_load_command]
  by_cases h1 : s.size_left < 8
  · simp [h1]
  · by_cases h2 : (load_command_at p.map s.load_cmd_iter p.is_big_endian).cmdsize < 8
    · simp [h1, h2]
    · by_cases h3 :
          s.size_left < (load_command_at p.map s.load_cmd_iter p.is_big_endian).cmdsize
      · simp [h1, h2, h3]
      · omega

/-- A header that passes the size checks hands the command to the extraction, whose code
is the code of the iteration. -/
theorem from_map_iteration_good (K : Externals) (p : mf_parse_load_commands_from_map_info)
    (rr : range) (s : map_walk_state)
    (h1 : 8 ≤ (load_command_at p.map s.load_cmd_iter p.is_big_endian).cmdsize)
    (h2 : (load_command_at p.map s.load_cmd_iter p.is_big_endian).cmdsize ≤ s.size_left) :
    (from_map_iteration K p rr s).1 =
      (extract_from_map K p rr s
        (load_command_at p.map s.load_cmd_iter p.is_big_endian)).1 := by
  unfold from_map_iteration
  simp only [sizeof_load_command]
  have e1 : ¬ s.size_left < 8 := by omega
  have e2 : ¬ (load_command_at p.map s.load_cmd_iter p.is_big_endian).cmdsize < 8 := by omega
  have e3 :
      ¬ s.size_left < (load_command_at p.map s.load_cmd_iter p.is_big_endian).cmdsize := by
    omega
  simp only [e1, e2, e3, if_false]
  by_cases h4 : (extract_from_map K p rr s
      (load_command_at p.map s.load_cmd_iter p.is_big_endian)).1 = E_MACHO_FILE_PARSE_OK
  · simp [h4]
  · simp [h4]

/-- The sum of cursor and `size_left` is kept by the iterations of the map-based walk. -/
theorem from_map_loop_inv (K : Externals) (p : mf_parse_load_commands_from_map_info)
    (rr : range) (n : Nat) :
    ∀ (s0 s : map_walk_state),
      from_map_loop K p rr n s0 = (E_MACHO_FILE_PARSE_OK, s) →
      s.load_cmd_iter + s.size_left = s0.load_cmd_iter + s0.size_left ∧
      s0.load_cmd_iter ≤ s.load_cmd_iter := by
  induction n with
  | zero =>
    intro s0 s h
    simp [from_map_loop] at h
    subst h
    exact ⟨rfl, le_refl _⟩
  | succ n ih =>
    intro s0 s h
    rw [from_map_loop] at h
    by_cases hr : (from_map_iteration K p rr s0).1 = E_MACHO_FILE_PARSE_OK
    · simp only [hr, ne_eq, not_true_eq_false, if_false] at h
      obtain ⟨h8, hle, hi, hs⟩ := from_map_iteration_ok K p rr s0 hr
      obtain ⟨e1, e2⟩ := ih _ _ h
      constructor <;> omega
    · simp only [ne_eq, hr, not_false_eq_true, if_true] at h
      rw [h] at hr
      exact absurd rfl hr

/-- Splitting of the map-based walk after `i` accepted commands. -/
theorem from_map_loop_add (K : Externals) (p : mf_parse_load_commands_from_map_info)
    (rr : range) (i : Nat) :
    ∀ (n : Nat) (s0 s : map_walk_state),
      from_map_loop K p rr i s0 = (E_MACHO_FILE_PARSE_OK, s) →
      from_map_loop K p rr (i + n) s0 = from_map_loop K p rr n s := by
  induction i with
  | zero =>
    intro n s0 s h
    simp [from_map_loop] at h
    subst h
    simp
  | succ i ih =>
    intro n s0 s h
    rw [from_map_loop] at h
    have e : i + 1 + n = (i + n) + 1 := by omega
    rw [e, from_map_loop]
    by_cases hr : (from_map_iteration K p rr s0).1 = E_MACHO_FILE_PARSE_OK
    · simp only [hr, ne_eq, not_true_eq_false, if_false] at h ⊢
      exact ih n _ _ h
    · simp only [ne_eq, hr, not_false_eq_true, if_true] at h
      rw [h] at hr
      exact absurd rfl hr

/-- Past its checks on the command area, the file-based parser returns what the walk returns,
or goes on to the checks that follow the walk. -/
theorem from_file_of_enters_walk (K : Externals) (info_in : tbd_create_info) (fd : Fd)
    (p : mf_parse_load_commands_from_file_info) (h : from_file_enters_walk p) :
    macho_file_parse_load_commands_from_file K info_in fd p =
      (if (from_file_loop K p (fd.read p.sizeofcmds).1 (from_file_relative_range p) p.ncmds
            (from_file_walk_start K info_in fd p)).1 ≠ E_MACHO_FILE_PARSE_OK then
        ⟨(from_file_loop K p (fd.read p.sizeofcmds).1 (from_file_relative_range p) p.ncmds
            (from_file_walk_start K info_in fd p)).1,
          (from_file_loop K p (fd.read p.sizeofcmds).1 (from_file_relative_range p) p.ncmds
            (from_file_walk_start K info_in fd p)).2.info,
          (from_file_loop K p (fd.read p.sizeofcmds).1 (from_file_relative_range p) p.ncmds
            (from_file_walk_start K info_in fd p)).2.fd, none⟩
      else from_file_after_walk K p
        (from_file_loop K p (fd.read p.sizeofcmds).1 (from_file_relative_range p) p.ncmds
          (from_file_walk_start K info_in fd p)).2) := by
  obtain ⟨h1, h2, h3, h4, h5⟩ := h
  unfold macho_file_parse_load_commands_from_file from_file_past_minimum_size
  have e2 : ¬ p.sizeofcmds < sizeof_load_command := by simp only [sizeof_load_command]; omega
  have e3 : guard_overflow_mul 32 sizeof_load_command p.ncmds = some (8 * p.ncmds) := by
    simp only [guard_overflow_mul, sizeof_load_command]
    rw [if_pos h3]
  have e4 : ¬ p.sizeofcmds < 8 * p.ncmds := by omega
  have e5 : ¬ p.sizeofcmds >
      wrap32 (wrap64 (p.available_range.end_ + 2 ^ 64 - p.available_range.begin)) := by omega
  simp only [h1, e2, e3, e4, e5, if_false]

/-- Past its checks on the command area, the map-based parser returns what the walk returns,
or goes on to the checks that follow the walk. -/
theorem from_map_of_enters_walk (K : Externals) (info_in : tbd_create_info)
    (p : mf_parse_load_commands_from_map_info) (h : from_map_enters_walk p) :
    macho_file_parse_load_commands_from_map K info_in p =
      (if (from_map_loop K p { begin := 0, end_ := p.macho_size } p.ncmds
            (from_map_walk_start K info_in p)).1 ≠ E_MACHO_FILE_PARSE_OK then
        ⟨(from_map_loop K p { begin := 0, end_ := p.macho_size } p.ncmds
            (from_map_walk_start K info_in p)).1,
          (from_map_loop K p { begin := 0, end_ := p.macho_size } p.ncmds
            (from_map_walk_start K info_in p)).2.info, none⟩
      else from_map_after_walk K p
        (from_map_loop K p { begin := 0, end_ := p.macho_size } p.ncmds
          (from_map_walk_start K info_in p)).2) := by
  obtain ⟨h1, h2, h3, h4, h5⟩ := h
  unfold macho_file_parse_load_commands_from_map from_map_past_minimum_size
  have e2 : ¬ p.sizeofcmds < sizeof_load_command := by simp only [sizeof_load_command]; omega
  have e3 : guard_overflow_mul 32 sizeof_load_command p.ncmds = some (8 * p.ncmds) := by
    simp only [guard_overflow_mul, sizeof_load_command]
    rw [if_pos h3]
  have e4 : ¬ p.sizeofcmds < 8 * p.ncmds := by omega
  have e5 : ¬ p.sizeofcmds >
      wrap32 (wrap64 (p.macho_size + 2 ^ 64 - from_map_header_size p.is_64)) := by omega
  simp only [h1, e2, e3, e4, e5, if_false]

/-- A command whose header fails a size check after `i < ncmds` accepted commands makes the
file-based parser return invalid-load-command. -/
theorem from_file_invalid_load_command (K : Externals) (info_in : tbd_create_info) (fd : Fd)
    (p : mf_parse_load_commands_from_file_info) (i : Nat) (s : file_walk_state)
    (hw : from_file_enters_walk p) (hi : i < p.ncmds)
    (hs : from_file_loop K p (fd.read p.sizeofcmds).1 (from_file_relative_range p) i
      (from_file_walk_start K info_in fd p) = (E_MACHO_FILE_PARSE_OK, s))
    (hb : s.size_left < 8 ∨
      (load_command_at (fd.read p.sizeofcmds).1 s.load_cmd_iter p.is_big_endian).cmdsize < 8 ∨
      s.size_left <
        (load_command_at (fd.read p.sizeofcmds).1 s.load_cmd_iter p.is_big_endian).cmdsize) :
    (macho_file_parse_load_commands_from_file K info_in fd p).result =
      E_MACHO_FILE_PARSE_INVALID_LOAD_COMMAND := by
  have hsplit := from_file_loop_add K p (fd.read p.sizeofcmds).1 (from_file_relative_range p) i
    (p.ncmds - i) _ _ hs
  have e : i + (p.ncmds - i) = p.ncmds := by omega
  rw [e] at hsplit
  obtain ⟨m, hm⟩ : ∃ m, p.ncmds - i = m + 1 := ⟨p.ncmds - i - 1, by omega⟩
  rw [hm, from_file_loop, from_file_iteration_bad K p _ _ s hb] at hsplit
  simp only [ne_eq, reduceCtorEq, not_false_eq_true, if_true] at hsplit
  rw [from_file_of_enters_walk K info_in fd p hw, hsplit]
  simp

/-- A command whose header fails a size check after `i < ncmds` accepted commands makes the
map-based parser return invalid-load-command. -/
theorem from_map_invalid_load_command (K : Externals) (info_in : tbd_create_info)
    (p : mf_parse_load_commands_from_map_info) (i : Nat) (s : map_walk_state)
    (hw : from_map_enters_walk p) (hi : i < p.ncmds)
    (hs : from_map_loop K p { begin := 0, end_ := p.macho_size } i
      (from_map_walk_start K info_in p) = (E_MACHO_FILE_PARSE_OK, s))
    (hb : s.size_left < 8 ∨
      (load_command_at p.map s.load_cmd_iter p.is_big_endian).cmdsize < 8 ∨
      s.size_left < (load_command_at p.map s.load_cmd_iter p.is_big_endian).cmdsize) :
    (macho_file_parse_load_commands_from_map K info_in p).result =
      E_MACHO_FILE_PARSE_INVALID_LOAD_COMMAND := by
  have hsplit := from_map_loop_add K p { begin := 0, end_ := p.macho_size } i
    (p.ncmds - i) _ _ hs
  have e : i + (p.ncmds - i) = p.ncmds := by omega
  rw [e] at hsplit
  obtain ⟨m, hm⟩ : ∃ m, p.ncmds - i = m + 1 := ⟨p.ncmds - i - 1, by omega⟩
  rw [hm, from_map_loop, from_map_iteration_bad K p _ s hb] at hsplit
  simp only [ne_eq, reduceCtorEq, not_false_eq_true, if_true] at hsplit
  rw [from_map_of_enters_walk K info_in p hw, hsplit]
  simp

/-- C2: in the file-based and in the map-based walk, at the start of every iteration reached
(after `i` accepted commands) the bytes consumed plus `size_left` equal `sizeofcmds`; a header
with `cmdsize < 8` or `cmdsize > size_left` ends the iteration with invalid-load-command
before any extraction, and makes the parser return invalid-load-command; a command reaches
the extraction only with `8 ≤ cmdsize ≤ size_left`, and then its bytes
`[offset, offset + cmdsize)` lie inside the command area of `sizeofcmds` bytes. -/
theorem C2_walk_within_command_area (K : Externals) :
    (∀ (info_in : tbd_create_info) (fd : Fd) (p : mf_parse_load_commands_from_file_info)
        (i : Nat) (s : file_walk_state) (lc : load_command),
      from_file_loop K p (fd.read p.sizeofcmds).1 (from_file_relative_range p) i
          (from_file_walk_start K info_in fd p) = (E_MACHO_FILE_PARSE_OK, s) →
      lc = load_command_at (fd.read p.sizeofcmds).1 s.load_cmd_iter p.is_big_endian →
      s.load_cmd_iter + s.size_left = p.sizeofcmds ∧
      ((lc.cmdsize < 8 ∨ s.size_left < lc.cmdsize) →
        from_file_iteration K p (fd.read p.sizeofcmds).1 (from_file_relative_range p) s =
          (E_MACHO_FILE_PARSE_INVALID_LOAD_COMMAND, s) ∧
        (from_file_enters_walk p → i < p.ncmds →
          (macho_file_parse_load_commands_from_file K info_in fd p).result =
            E_MACHO_FILE_PARSE_INVALID_LOAD_COMMAND)) ∧
      (from_file_iteration K p (fd.read p.sizeofcmds).1 (from_file_relative_range p) s ≠
          (E_MACHO_FILE_PARSE_INVALID_LOAD_COMMAND, s) →
        8 ≤ lc.cmdsize ∧ lc.cmdsize ≤ s.size_left ∧
        s.load_cmd_iter + lc.cmdsize ≤ p.sizeofcmds ∧
        (from_file_iteration K p (fd.read p.sizeofcmds).1 (from_file_relative_range p) s).1 =
          (extract_from_file K p (fd.read p.sizeofcmds).1 (from_file_relative_range p)
            s lc).1)) ∧
    (∀ (info_in : tbd_create_info) (p : mf_parse_load_commands_from_map_info)
        (i : Nat) (s : map_walk_state) (lc : load_command),
      from_map_loop K p { begin := 0, end_ := p.macho_size } i
          (from_map_walk_start K info_in p) = (E_MACHO_FILE_PARSE_OK, s) →
      lc = load_command_at p.map s.load_cmd_iter p.is_big_endian →
      p.macho + from_map_header_size p.is_64 ≤ s.load_cmd_iter ∧
      (s.load_cmd_iter - (p.macho + from_map_header_size p.is_64)) + s.size_left =
        p.sizeofcmds ∧
      ((lc.cmdsize < 8 ∨ s.size_left < lc.cmdsize) →
        from_map_iteration K p { begin := 0, end_ := p.macho_size } s =
          (E_MACHO_FILE_PARSE_INVALID_LOAD_COMMAND, s) ∧
        (from_map_enters_walk p → i < p.ncmds →
          (macho_file_parse_load_commands_from_map K info_in p).result =
            E_MACHO_FILE_PARSE_INVALID_LOAD_COMMAND)) ∧
      (from_map_iteration K p { begin := 0, end_ := p.macho_size } s ≠
          (E_MACHO_FILE_PARSE_INVALID_LOAD_COMMAND, s) →
        8 ≤ lc.cmdsize ∧ lc.cmdsize ≤ s.size_left ∧
        (s.load_cmd_iter - (p.macho + from_map_header_size p.is_64)) + lc.cmdsize ≤
          p.sizeofcmds ∧
        (from_map_iteration K p { begin := 0, end_ := p.macho_size } s).1 =
          (extract_from_map K p { begin := 0, end_ := p.macho_size } s lc).1)) := by
  constructor
  · intro info_in fd p i s lc hs hlc
    subst hlc
    obtain ⟨e1, _⟩ := from_file_loop_inv K p _ _ i _ _ hs
    have e0 : s.load_cmd_iter + s.size_left = p.sizeofcmds := by
      simpa [from_file_walk_start] using e1
    refine ⟨e0, ?_, ?_⟩
    · intro hb
      have hb' : s.size_left < 8 ∨
          (load_command_at (fd.read p.sizeofcmds).1 s.load_cmd_iter p.is_big_endian).cmdsize
            < 8 ∨
          s.size_left <
            (load_command_at (fd.read p.sizeofcmds).1 s.load_cmd_iter
              p.is_big_endian).cmdsize := Or.inr hb
      exact ⟨from_file_iteration_bad K p _ _ s hb',
        fun hw hi => from_file_invalid_load_command K info_in fd p i s hw hi hs hb'⟩
    · intro hne
      by_cases hb : s.size_left < 8 ∨
          (load_command_at (fd.read p.sizeofcmds).1 s.load_cmd_iter p.is_big_endian).cmdsize
            < 8 ∨
          s.size_left <
            (load_command_at (fd.read p.sizeofcmds).1 s.load_cmd_iter
              p.is_big_endian).cmdsize
      · exact absurd (from_file_iteration_bad K p _ _ s hb) hne
      · have h1 : 8 ≤ (load_command_at (fd.read p.sizeofcmds).1 s.load_cmd_iter
            p.is_big_endian).cmdsize := by omega
        have h2 : (load_command_at (fd.read p.sizeofcmds).1 s.load_cmd_iter
            p.is_big_endian).cmdsize ≤ s.size_left := by omega
        exact ⟨h1, h2, by omega, from_file_iteration_good K p _ _ s h1 h2⟩
  · intro info_in p i s lc hs hlc
    subst hlc
    obtain ⟨e1, e2⟩ := from_map_loop_inv K p _ i _ _ hs
    have e0 : s.load_cmd_iter + s.size_left =
        p.macho + from_map_header_size p.is_64 + p.sizeofcmds := by
      simpa [from_map_walk_start] using e1
    have e3 : p.macho + from_map_header_size p.is_64 ≤ s.load_cmd_iter := by
      simpa [from_map_walk_start] using e2
    refine ⟨e3, by omega, ?_, ?_⟩
    · intro hb
      have hb' : s.size_left < 8 ∨
          (load_command_at p.map s.load_cmd_iter p.is_big_endian).cmdsize < 8 ∨
          s.size_left < (load_command_at p.map s.load_cmd_iter p.is_big_endian).cmdsize :=
        Or.inr hb
      exact ⟨from_map_iteration_bad K p _ s hb',
        fun hw hi => from_map_invalid_load_command K info_in p i s hw hi hs hb'⟩
    · intro hne
      by_cases hb : s.size_left < 8 ∨
          (load_command_at p.map s.load_cmd_iter p.is_big_endian).cmdsize < 8 ∨
          s.size_left < (load_command_at p.map s.load_cmd_iter p.is_big_endian).cmdsize
      · exact absurd (from_map_iteration_bad K p _ s hb) hne
      · have h1 : 8 ≤ (load_command_at p.map s.load_cmd_iter p.is_big_endian).cmdsize := by
          omega
        have h2 : (load_command_at p.map s.load_cmd_iter p.is_big_endian).cmdsize ≤
            s.size_left := by omega
        exact ⟨h1, h2, by omega, from_map_iteration_good K p _ s h1 h2⟩

/-- Witness of C2: on `sample_short_command_fd` the walk accepts the `LC_UUID` command,
meets the header with `cmdsize = 4` at offset 24 with `size_left = 8`, and the parser
returns invalid-load-command. -/
theorem C2_walk_within_command_area_witness :
    (from_file_loop sample_externals sample_short_command_info
        (sample_short_command_fd.read 32).1
        (from_file_relative_range sample_short_command_info) 1
        (from_file_walk_start sample_externals empty_create_info sample_short_command_fd
          sample_short_command_info)).2.load_cmd_iter = 24 ∧
    (macho_file_parse_load_commands_from_file sample_externals empty_create_info
        sample_short_command_fd sample_short_command_info).result =
      E_MACHO_FILE_PARSE_INVALID_LOAD_COMMAND :=
  ⟨by decide,
    (((C2_walk_within_command_area sample_externals).1 empty_create_info
        sample_short_command_fd sample_short_command_info 1
        (from_file_loop sample_externals sample_short_command_info
          (sample_short_command_fd.read 32).1
          (from_file_relative_range sample_short_command_info) 1
          (from_file_walk_start sample_externals empty_create_info sample_short_command_fd
            sample_short_command_info)).2
        ⟨LC_SYMTAB, 4⟩ (by decide) (by decide)).2.1 (Or.inl (by decide))).2
      (by decide) (by decide)⟩

/-! ## The fat handlers -/

/-- C3 (defect of the code): for a fat-32 file of `0xFFFFFFFF` bytes with one record of
`offset = 0xFFFFFFF0` and `size = 0x20` (native byte order, `start = 0`, so
`total_headers_size = 28`), the validation pass of `handle_fat_32_file` accepts the record,
although `offset + size = 0x100000010` exceeds the file size: the end of the slice is
computed as a `uint32_t` sum, which wraps to `0x10`. -/
theorem C3_fat_32_accepts_slice_past_end_of_file :
    fat_32_verify false 28 0 0xFFFFFFFF [⟨7, 3, 0xFFFFFFF0, 0x20⟩] =
      .ok [⟨7, 3, 0xFFFFFFF0, 0x20⟩] ∧
    ¬ (0xFFFFFFF0 + 0x20 ≤ 0xFFFFFFFF) ∧
    wrap32 (0xFFFFFFF0 + 0x20) = 0x10 := by
  refine ⟨by rfl, by decide, by decide⟩

/-- C4 (defect of the code): in a fat-32 file of `0xFFFFFFFF` bytes with two records,
`(offset, size) = (0xFFFFFF00, 0x200)` and `(0xFFFFFF80, 0x40)`, each record passes the checks
made on it and the validation pass of `handle_fat_32_file` accepts both, although the second
range lies inside the first: the end of the first is the wrapped `uint32_t` sum `0x100`, so no
overlap is seen. It is the defect of C3. -/
theorem C4_fat_32_misses_overlap :
    fat_32_check_arch ⟨7, 3, 0xFFFFFF00, 0x200⟩ 48 0 0xFFFFFFFF = none ∧
    fat_32_check_arch ⟨12, 9, 0xFFFFFF80, 0x40⟩ 48 0 0xFFFFFFFF = none ∧
    slices_overlap ⟨7, 3, 0xFFFFFF00, 0x200⟩ ⟨12, 9, 0xFFFFFF80, 0x40⟩ ∧
    fat_32_verify false 48 0 0xFFFFFFFF
        [⟨7, 3, 0xFFFFFF00, 0x200⟩, ⟨12, 9, 0xFFFFFF80, 0x40⟩] =
      .ok [⟨7, 3, 0xFFFFFF00, 0x200⟩, ⟨12, 9, 0xFFFFFF80, 0x40⟩] := by
  refine ⟨by decide, by decide, ?_, by rfl⟩
  unfold slices_overlap
  decide

/-! ## The checks on the size of the command area -/

/-- C5 (defect of the code): for a slice whose available range holds `2 ^ 32 + 8` bytes,
with `ncmds = 1` and `sizeofcmds = 16`, the file-based parser returns
too-many-load-commands at the check against the available range, although
`sizeofcmds` is far below the size of the range: the size is cut to `uint32_t` (here 8)
before the comparison. -/
theorem C5_available_size_is_truncated (K : Externals) (info_in : tbd_create_info) (fd : Fd) :
    sample_large_slice_info.available_range.end_ -
        sample_large_slice_info.available_range.begin = 2 ^ 32 + 8 ∧
    ¬ (sample_large_slice_info.sizeofcmds >
        sample_large_slice_info.available_range.end_ -
          sample_large_slice_info.available_range.begin) ∧
    macho_file_parse_load_commands_from_file K info_in fd sample_large_slice_info =
      ⟨E_MACHO_FILE_PARSE_TOO_MANY_LOAD_COMMANDS, info_in, fd, none⟩ := by
  refine ⟨by decide, by decide, ?_⟩
  rfl

/-- C6: for every `ncmds ≥ 1` and `sizeofcmds ≥ 8` of 32 bits, the file-based and the
map-based parser return too-many-load-commands at the minimum-size check exactly when
`8 * ncmds > sizeofcmds` as natural numbers (also when the 32-bit product overflows);
otherwise they go on to the part that follows that check. The checked multiplication is
modelled from the spec. -/
theorem C6_minimum_size_check (K : Externals) (info_in : tbd_create_info) (fd : Fd)
    (pf : mf_parse_load_commands_from_file_info) (pm : mf_parse_load_commands_from_map_info)
    (hf1 : 1 ≤ pf.ncmds) (hf2 : pf.ncmds < 2 ^ 32) (hf3 : 8 ≤ pf.sizeofcmds)
    (hf4 : pf.sizeofcmds < 2 ^ 32)
    (hm1 : 1 ≤ pm.ncmds) (hm2 : pm.ncmds < 2 ^ 32) (hm3 : 8 ≤ pm.sizeofcmds)
    (hm4 : pm.sizeofcmds < 2 ^ 32) :
    macho_file_parse_load_commands_from_file K info_in fd pf =
      (if 8 * pf.ncmds > pf.sizeofcmds then
        ⟨E_MACHO_FILE_PARSE_TOO_MANY_LOAD_COMMANDS, info_in, fd, none⟩
      else from_file_past_minimum_size K info_in fd pf) ∧
    macho_file_parse_load_commands_from_map K info_in pm =
      (if 8 * pm.ncmds > pm.sizeofcmds then
        ⟨E_MACHO_FILE_PARSE_TOO_MANY_LOAD_COMMANDS, info_in, none⟩
      else from_map_past_minimum_size K info_in pm) := by
  constructor
  · unfold macho_file_parse_load_commands_from_file
    have e1 : pf.ncmds ≠ 0 := by omega
    have e2 : ¬ pf.sizeofcmds < 8 := by omega
    simp only [guard_overflow_mul, sizeof_load_command, e1, e2, if_false]
    by_cases h : 8 * pf.ncmds < 2 ^ 32
    · rw [if_pos h]
    · rw [if_neg h]
      have h3 : 8 * pf.ncmds > pf.sizeofcmds := by omega
      simp only [h3, if_true]
  · unfold macho_file_parse_load_commands_from_map
    have e1 : pm.ncmds ≠ 0 := by omega
    have e2 : ¬ pm.sizeofcmds < 8 := by omega
    simp only [guard_overflow_mul, sizeof_load_command, e1, e2, if_false]
    by_cases h : 8 * pm.ncmds < 2 ^ 32
    · rw [if_pos h]
    · rw [if_neg h]
      have h3 : 8 * pm.ncmds > pm.sizeofcmds := by omega
      simp only [h3, if_true]

/-- Witness of C6: with `ncmds = 2 ^ 29` and `sizeofcmds = 4096` the 32-bit product overflows
and the file-based parser returns too-many-load-commands; with `ncmds = 2` and
`sizeofcmds = 32` the map-based parser goes past the minimum-size check. -/
theorem C6_minimum_size_check_witness :
    (macho_file_parse_load_commands_from_file sample_externals empty_create_info
        sample_short_command_fd sample_overflow_info).result =
      E_MACHO_FILE_PARSE_TOO_MANY_LOAD_COMMANDS ∧
    macho_file_parse_load_commands_from_map sample_externals empty_create_info
        sample_short_command_map_info =
      from_map_past_minimum_size sample_externals empty_create_info
        sample_short_command_map_info := by
  have h := C6_minimum_size_check sample_externals empty_create_info sample_short_command_fd
    sample_overflow_info sample_short_command_map_info (by decide) (by decide) (by decide)
    (by decide) (by decide) (by decide) (by decide) (by decide)
  constructor
  · rw [h.1]
    decide
  · rw [h.2]
    decide

/-! ## Extraction of single commands -/

/-- An `LC_ID_DYLIB` command is handled by the `LC_ID_DYLIB` case. -/
theorem parse_load_command_of_id_dylib (K : Externals) (info_in : tbd_create_info)
    (v : walk_locals) (arch_bit : Nat) (load_cmd : load_command) (buf : List Nat)
    (load_cmd_iter : Nat) (is_big_endian : Bool) (tbd_options options : Nat)
    (copy_strings : Bool) (h : load_cmd.cmd = LC_ID_DYLIB) :
    parse_load_command K info_in v arch_bit load_cmd buf load_cmd_iter is_big_endian
        tbd_options options copy_strings =
      parse_load_command_id_dylib K info_in v load_cmd buf load_cmd_iter is_big_endian
        tbd_options options := by
  unfold parse_load_command
  rw [h]
  simp [LC_ID_DYLIB, LC_BUILD_VERSION]

/-- An `LC_UUID` command is handled by the `LC_UUID` case. -/
theorem parse_load_command_of_uuid (K : Externals) (info_in : tbd_create_info)
    (v : walk_locals) (arch_bit : Nat) (load_cmd : load_command) (buf : List Nat)
    (load_cmd_iter : Nat) (is_big_endian : Bool) (tbd_options options : Nat)
    (copy_strings : Bool) (h : load_cmd.cmd = LC_UUID) :
    parse_load_command K info_in v arch_bit load_cmd buf load_cmd_iter is_big_endian
        tbd_options options copy_strings =
      parse_load_command_uuid K info_in v load_cmd buf load_cmd_iter tbd_options options := by
  unfold parse_load_command
  rw [h]
  simp [LC_UUID, LC_ID_DYLIB, LC_BUILD_VERSION, LC_REEXPORT_DYLIB, LC_SUB_CLIENT,
    LC_SUB_FRAMEWORK, LC_SYMTAB]

/-- The bounded string length is at most the bound. -/
theorem strnlen_le (buf : List Nat) (max : Nat) : ∀ off, strnlen buf off max ≤ max := by
  induction max with
  | zero => intro off; simp [strnlen]
  | succ n ih =>
    intro off
    rw [strnlen]
    split_ifs
    · omega
    · have := ih (off + 1)
      omega

/-- The recording part of case `LC_ID_DYLIB` returns ok or conflicting-identification. -/
theorem parse_load_command_id_dylib_record_result (K : Externals) (info_in : tbd_create_info)
    (v : walk_locals) (name : List Nat) (length cv compat tbd_options options : Nat) :
    (parse_load_command_id_dylib_record K info_in v name length cv compat tbd_options
        options).1 ≠ E_MACHO_FILE_PARSE_INVALID_INSTALL_NAME ∧
    (parse_load_command_id_dylib_record K info_in v name length cv compat tbd_options
        options).1 ≠ E_MACHO_FILE_PARSE_INVALID_LOAD_COMMAND := by
  unfold parse_load_command_id_dylib_record
  simp only
  split <;> (split_ifs <;> simp)

/-- The recording part of case `LC_ID_DYLIB`, when no install name is recorded yet and the
install name is wanted: the name and its length are stored. -/
theorem parse_load_command_id_dylib_record_fresh (K : Externals) (info_in : tbd_create_info)
    (v : walk_locals) (name : List Nat) (length cv compat tbd_options options : Nat)
    (hnone : info_in.install_name = none)
    (hname : flag_set tbd_options K.O_TBD_PARSE_IGNORE_INSTALL_NAME = false) :
    (parse_load_command_id_dylib_record K info_in v name length cv compat tbd_options
        options).1 = E_MACHO_FILE_PARSE_OK ∧
    (parse_load_command_id_dylib_record K info_in v name length cv compat tbd_options
        options).2.1.install_name = some name ∧
    (parse_load_command_id_dylib_record K info_in v name length cv compat tbd_options
        options).2.1.install_name_length = length := by
  unfold parse_load_command_id_dylib_record
  simp only
  have hi : (if K.yaml_check_c_str name = true then
      { info_in with flags := info_in.flags ||| K.F_TBD_CREATE_INFO_INSTALL_NAME_NEEDS_QUOTES }
      else info_in).install_name = none := by
    split_ifs <;> simpa using hnone
  split
  · rename_i x heq
    rw [hi] at heq
    exact absurd heq (by simp)
  · simp only [hname, Bool.not_false, if_true]
    exact ⟨trivial, trivial, trivial⟩

/-- C7: for an `LC_ID_DYLIB` command with `cmdsize ≥ 24` and not all three of
ignore-current-version, ignore-compatibility-version and ignore-install-name set: when the
name offset is below 24 or not below `cmdsize`, or the name bounded by `cmdsize - offset` is
empty, the parser returns invalid-install-name without ignore-invalid-fields, and with
ignore-invalid-fields it returns ok, leaves the aggregate (so `install_name`,
`current_version` and `compatibility_version`) unchanged and sets `found_identification`.
Otherwise the command is accepted, `offset + length ≤ cmdsize` for the length of the name,
and a command that records its name records that length. -/
theorem C7_id_dylib_name_checks (K : Externals) (info_in : tbd_create_info) (v : walk_locals)
    (arch_bit : Nat) (load_cmd : load_command) (buf : List Nat) (load_cmd_iter : Nat)
    (is_big_endian : Bool) (tbd_options options : Nat) (copy_strings : Bool)
    (hcmd : load_cmd.cmd = LC_ID_DYLIB) (hsize : 24 ≤ load_cmd.cmdsize)
    (h32 : load_cmd.cmdsize < 2 ^ 32)
    (hwant : ¬ (flag_set tbd_options K.O_TBD_PARSE_IGNORE_CURRENT_VERSION = true ∧
      flag_set tbd_options K.O_TBD_PARSE_IGNORE_COMPATIBILITY_VERSION = true ∧
      flag_set tbd_options K.O_TBD_PARSE_IGNORE_INSTALL_NAME = true)) :
    let offset := read_field buf (load_cmd_iter + 8) is_big_endian
    let length := strnlen buf (load_cmd_iter + offset) (load_cmd.cmdsize - offset)
    let r := parse_load_command K info_in v arch_bit load_cmd buf load_cmd_iter is_big_endian
      tbd_options options copy_strings
    ((offset < 24 ∨ load_cmd.cmdsize ≤ offset ∨ length = 0) →
      (flag_set options K.O_MACHO_FILE_PARSE_IGNORE_INVALID_FIELDS = false →
        r = (E_MACHO_FILE_PARSE_INVALID_INSTALL_NAME, info_in, v)) ∧
      (flag_set options K.O_MACHO_FILE_PARSE_IGNORE_INVALID_FIELDS = true →
        r = (E_MACHO_FILE_PARSE_OK, info_in, { v with found_identification := true }))) ∧
    (¬ (offset < 24 ∨ load_cmd.cmdsize ≤ offset ∨ length = 0) →
      r.1 ≠ E_MACHO_FILE_PARSE_INVALID_INSTALL_NAME ∧
      r.1 ≠ E_MACHO_FILE_PARSE_INVALID_LOAD_COMMAND ∧
      offset + length ≤ load_cmd.cmdsize ∧
      (info_in.install_name = none →
        flag_set tbd_options K.O_TBD_PARSE_IGNORE_INSTALL_NAME = false →
        r.1 = E_MACHO_FILE_PARSE_OK ∧
        r.2.1.install_name = some (bytes_at buf (load_cmd_iter + offset) length) ∧
        r.2.1.install_name_length = length ∧
        offset + r.2.1.install_name_length ≤ load_cmd.cmdsize)) := by
  intro offset length r
  have hr : r = parse_load_command_id_dylib K info_in v load_cmd buf load_cmd_iter
      is_big_endian tbd_options options :=
    parse_load_command_of_id_dylib K info_in v arch_bit load_cmd buf load_cmd_iter
      is_big_endian tbd_options options copy_strings hcmd
  have hlen : length ≤ load_cmd.cmdsize - offset := strnlen_le buf _ _
  have hw : wrap32 length = length := by
    simp only [wrap32]
    exact Nat.mod_eq_of_lt (by omega)
  have hall : (flag_set tbd_options K.O_TBD_PARSE_IGNORE_CURRENT_VERSION &&
      flag_set tbd_options K.O_TBD_PARSE_IGNORE_COMPATIBILITY_VERSION &&
      flag_set tbd_options K.O_TBD_PARSE_IGNORE_INSTALL_NAME) = false := by
    cases h1 : flag_set tbd_options K.O_TBD_PARSE_IGNORE_CURRENT_VERSION <;>
    cases h2 : flag_set tbd_options K.O_TBD_PARSE_IGNORE_COMPATIBILITY_VERSION <;>
    cases h3 : flag_set tbd_options K.O_TBD_PARSE_IGNORE_INSTALL_NAME <;>
    simp_all
  have hs : ¬ load_cmd.cmdsize < 24 := by omega
  rw [hr]
  unfold parse_load_command_id_dylib
  simp only [sizeof_dylib_command, hall, hs, if_false, Bool.false_eq_true]
  constructor
  · intro hbad
    by_cases h1 : offset < 24
    · simp only [show read_field buf (load_cmd_iter + 8) is_big_endian < 24 from h1, if_true]
      constructor
      · intro hf; simp [hf]
      · intro hf; simp [hf]
    · simp only [show ¬ read_field buf (load_cmd_iter + 8) is_big_endian < 24 from h1,
        if_false]
      by_cases h2 : load_cmd.cmdsize ≤ offset
      · simp only [ge_iff_le,
          show load_cmd.cmdsize ≤ read_field buf (load_cmd_iter + 8) is_big_endian from h2,
          if_true]
        constructor
        · intro hf; simp [hf]
        · intro hf; simp [hf]
      · have h3 : length = 0 := by
          rcases hbad with h | h | h
          · exact absurd h h1
          · exact absurd h h2
          · exact h
        have h3' : wrap32 (strnlen buf (load_cmd_iter +
            read_field buf (load_cmd_iter + 8) is_big_endian)
            (load_cmd.cmdsize - read_field buf (load_cmd_iter + 8) is_big_endian)) = 0 := by
          rw [hw]; exact h3
        simp only [ge_iff_le,
          show ¬ load_cmd.cmdsize ≤ read_field buf (load_cmd_iter + 8) is_big_endian from h2,
          if_false, h3', if_true]
        constructor
        · intro hf; simp [hf]
        · intro hf; simp [hf]
  · intro hgood
    have h1 : ¬ read_field buf (load_cmd_iter + 8) is_big_endian < 24 := fun h =>
      hgood (Or.inl h)
    have h2 : ¬ load_cmd.cmdsize ≤ read_field buf (load_cmd_iter + 8) is_big_endian := fun h =>
      hgood (Or.inr (Or.inl h))
    have h3 : ¬ length = 0 := fun h => hgood (Or.inr (Or.inr h))
    have h3' : ¬ wrap32 (strnlen buf (load_cmd_iter +
        read_field buf (load_cmd_iter + 8) is_big_endian)
        (load_cmd.cmdsize - read_field buf (load_cmd_iter + 8) is_big_endian)) = 0 := by
      rw [hw]; exact h3
    have hw' : wrap32 (strnlen buf (load_cmd_iter +
        read_field buf (load_cmd_iter + 8) is_big_endian)
        (load_cmd.cmdsize - read_field buf (load_cmd_iter + 8) is_big_endian)) = length := hw
    simp only [ge_iff_le, h1, h2, h3', if_false, hw', h3]
    have hbound : offset + length ≤ load_cmd.cmdsize := by omega
    refine ⟨?_, ?_, hbound, ?_⟩
    · exact (parse_load_command_id_dylib_record_result K info_in v _ _ _ _ _ _).1
    · exact (parse_load_command_id_dylib_record_result K info_in v _ _ _ _ _ _).2
    · intro hnone hname
      obtain ⟨e1, e2, e3⟩ := parse_load_command_id_dylib_record_fresh K info_in v
        (bytes_at buf (load_cmd_iter + offset) length) length
        (read_u32 buf (load_cmd_iter + 16)) (read_u32 buf (load_cmd_iter + 20))
        tbd_options options hnone hname
      refine ⟨e1, e2, e3, ?_⟩
      rw [e3]
      exact hbound

/-- Witness of C7 (scenario S4): an `LC_ID_DYLIB` command whose name offset is 4 is rejected
with invalid-install-name when ignore-invalid-fields is not set. -/
theorem C7_id_dylib_name_checks_witness :
    parse_load_command sample_externals empty_create_info (initial_locals none) 64
        ⟨LC_ID_DYLIB, 32⟩ (id_dylib_command le32 4 0x10000 0x10000) 0 false 0 0 true =
      (E_MACHO_FILE_PARSE_INVALID_INSTALL_NAME, empty_create_info, initial_locals none) :=
  ((C7_id_dylib_name_checks sample_externals empty_create_info (initial_locals none) 64
      ⟨LC_ID_DYLIB, 32⟩ (id_dylib_command le32 4 0x10000 0x10000) 0 false 0 0 true
      rfl (by decide) (by decide) (by decide)).1 (Or.inl (by decide))).1 (by decide)

/-- C8 (defect of the code): a first `LC_ID_DYLIB` command records install name `"/A"`,
current version 2.0.0 and compatibility version 1.0.0; a later `LC_ID_DYLIB` with the same
name and current version but compatibility version 3.0.0 is accepted (ok) without
ignore-conflicting-fields, where the claim asks for conflicting-identification: the code
compares the compatibility version of the command with itself. A command that differs in
the current version is rejected. -/
theorem C8_compatibility_version_not_compared :
    parse_load_command sample_externals empty_create_info (initial_locals none) 64
        ⟨LC_ID_DYLIB, 32⟩ (id_dylib_command le32 24 0x20000 0x10000) 0 false 0 0 true =
      (E_MACHO_FILE_PARSE_OK, sample_identified_info,
        { initial_locals none with found_identification := true }) ∧
    parse_load_command sample_externals sample_identified_info
        { initial_locals none with found_identification := true } 64
        ⟨LC_ID_DYLIB, 32⟩ (id_dylib_command le32 24 0x20000 0x30000) 0 false 0 0 true =
      (E_MACHO_FILE_PARSE_OK, sample_identified_info,
        { initial_locals none with found_identification := true }) ∧
    (parse_load_command sample_externals sample_identified_info
        { initial_locals none with found_identification := true } 64
        ⟨LC_ID_DYLIB, 32⟩ (id_dylib_command le32 24 0x50000 0x10000) 0 false 0 0 true).1 =
      E_MACHO_FILE_PARSE_CONFLICTING_IDENTIFICATION := by
  refine ⟨by decide, by decide, by decide⟩

/-! ## The checks that follow the walk -/

/-- C10 (defect of the code): for the big-endian slice `sample_dylib_fd be32`, whose command
stream holds `LC_ID_DYLIB`, `LC_UUID`, `LC_VERSION_MIN_MACOSX` and, at offset 72, `LC_SYMTAB`,
the walk succeeds and records identification, UUID, platform and the symbol-table command,
and with ignore-symbols not set the file-based parser returns no-symbol-table: the command is
kept as it lies in the buffer, so its `cmd` field is the byte-swapped `0x02000000`, which the
check after the walk compares with `LC_SYMTAB`. The little-endian twin is parsed with ok. -/
theorem C10_big_endian_symtab_not_seen :
    load_command_at (sample_dylib_commands be32) 72 true = ⟨LC_SYMTAB, 24⟩ ∧
    (from_file_loop sample_externals (sample_dylib_info true) (sample_dylib_commands be32)
        (from_file_relative_range (sample_dylib_info true)) 4
        (from_file_walk_start sample_externals empty_create_info (sample_dylib_fd be32)
          (sample_dylib_info true))).1 = E_MACHO_FILE_PARSE_OK ∧
    (from_file_loop sample_externals (sample_dylib_info true) (sample_dylib_commands be32)
        (from_file_relative_range (sample_dylib_info true)) 4
        (from_file_walk_start sample_externals empty_create_info (sample_dylib_fd be32)
          (sample_dylib_info true))).2.locals.symtab.cmd = 0x02000000 ∧
    (macho_file_parse_load_commands_from_file sample_externals empty_create_info
        (sample_dylib_fd be32) (sample_dylib_info true)).result =
      E_MACHO_FILE_PARSE_NO_SYMBOL_TABLE ∧
    (macho_file_parse_load_commands_from_file sample_externals empty_create_info
        (sample_dylib_fd le32) (sample_dylib_info false)).result = E_MACHO_FILE_PARSE_OK := by
  refine ⟨by decide, by decide, by decide, by decide, by decide⟩

/-! ## The UUID of a slice -/

/-- Case analysis of `parse_load_command`: a property of the results of all its cases is a
property of its result. -/
theorem parse_load_command_cases (K : Externals) (info_in : tbd_create_info)
    (v : walk_locals) (arch_bit : Nat) (load_cmd : load_command) (buf : List Nat)
    (load_cmd_iter : Nat) (is_big_endian : Bool) (tbd_options options : Nat)
    (copy_strings : Bool)
    (P : macho_file_parse_result × tbd_create_info × walk_locals → Prop)
    (h1 : P (parse_load_command_build_version K info_in v load_cmd buf load_cmd_iter
      is_big_endian tbd_options options))
    (h2 : P (parse_load_command_id_dylib K info_in v load_cmd buf load_cmd_iter
      is_big_endian tbd_options options))
    (h3 : P (parse_load_command_reexport_dylib K info_in v arch_bit load_cmd buf load_cmd_iter
      is_big_endian tbd_options options))
    (h4 : P (parse_load_command_sub_client K info_in v arch_bit load_cmd buf load_cmd_iter
      is_big_endian tbd_options options))
    (h5 : P (parse_load_command_sub_framework K info_in v load_cmd buf load_cmd_iter
      is_big_endian tbd_options options))
    (h6 : P (parse_load_command_symtab K info_in v load_cmd buf load_cmd_iter tbd_options))
    (h7 : P (parse_load_command_uuid K info_in v load_cmd buf load_cmd_iter tbd_options
      options))
    (h8 : ∀ platform, P (parse_load_command_version_min K info_in v load_cmd tbd_options
      options platform))
    (h9 : P (E_MACHO_FILE_PARSE_OK, info_in, v)) :
    P (parse_load_command K info_in v arch_bit load_cmd buf load_cmd_iter is_big_endian
      tbd_options options copy_strings) := by
  unfold parse_load_command
  by_cases c1 : load_cmd.cmd = LC_BUILD_VERSION
  · rw [if_pos c1]; exact h1
  rw [if_neg c1]
  by_cases c2 : load_cmd.cmd = LC_ID_DYLIB
  · rw [if_pos c2]; exact h2
  rw [if_neg c2]
  by_cases c3 : load_cmd.cmd = LC_REEXPORT_DYLIB
  · rw [if_pos c3]; exact h3
  rw [if_neg c3]
  by_cases c4 : load_cmd.cmd = LC_SUB_CLIENT
  · rw [if_pos c4]; exact h4
  rw [if_neg c4]
  by_cases c5 : load_cmd.cmd = LC_SUB_FRAMEWORK
  · rw [if_pos c5]; exact h5
  rw [if_neg c5]
  by_cases c6 : load_cmd.cmd = LC_SYMTAB
  · rw [if_pos c6]; exact h6
  rw [if_neg c6]
  by_cases c7 : load_cmd.cmd = LC_UUID
  · rw [if_pos c7]; exact h7
  rw [if_neg c7]
  by_cases c8 : load_cmd.cmd = LC_VERSION_MIN_MACOSX
  · rw [if_pos c8]; exact h8 _
  rw [if_neg c8]
  by_cases c9 : load_cmd.cmd = LC_VERSION_MIN_IPHONEOS
  · rw [if_pos c9]; exact h8 _
  rw [if_neg c9]
  by_cases c10 : load_cmd.cmd = LC_VERSION_MIN_WATCHOS
  · rw [if_pos c10]; exact h8 _
  rw [if_neg c10]
  by_cases c11 : load_cmd.cmd = LC_VERSION_MIN_TVOS
  · rw [if_pos c11]; exact h8 _
  rw [if_neg c11]
  exact h9

/-- The locals after case `LC_BUILD_VERSION`. -/
theorem build_version_locals (K : Externals) (info_in : tbd_create_info) (v : walk_locals)
    (load_cmd : load_command) (buf : List Nat) (load_cmd_iter : Nat) (is_big_endian : Bool)
    (tbd_options options : Nat) :
    locals_kept v (parse_load_command_build_version K info_in v load_cmd buf load_cmd_iter
      is_big_endian tbd_options options) := by
  unfold parse_load_command_build_version locals_kept
  simp only
  split_ifs <;> exact Or.inl rfl

/-- The locals after case `LC_ID_DYLIB`. -/
theorem id_dylib_locals (K : Externals) (info_in : tbd_create_info) (v : walk_locals)
    (load_cmd : load_command) (buf : List Nat) (load_cmd_iter : Nat) (is_big_endian : Bool)
    (tbd_options options : Nat) :
    locals_kept v (parse_load_command_id_dylib K info_in v load_cmd buf load_cmd_iter
      is_big_endian tbd_options options) := by
  have hrec : ∀ name length cv compat,
      locals_kept v (parse_load_command_id_dylib_record K info_in v name length cv compat
        tbd_options options) := by
    intro name length cv compat
    unfold parse_load_command_id_dylib_record locals_kept
    simp only
    split
    · split_ifs <;> first | exact Or.inl rfl | exact Or.inr rfl
    · exact Or.inr rfl
  unfold parse_load_command_id_dylib
  simp only
  split_ifs <;> first | exact Or.inl rfl | exact Or.inr rfl | exact hrec _ _ _ _

/-- The locals after case `LC_REEXPORT_DYLIB`. -/
theorem reexport_dylib_locals (K : Externals) (info_in : tbd_create_info) (v : walk_locals)
    (arch_bit : Nat) (load_cmd : load_command) (buf : List Nat) (load_cmd_iter : Nat)
    (is_big_endian : Bool) (tbd_options options : Nat) :
    locals_kept v (parse_load_command_reexport_dylib K info_in v arch_bit load_cmd buf
      load_cmd_iter is_big_endian tbd_options options) := by
  unfold parse_load_command_reexport_dylib locals_kept
  simp only
  split_ifs <;> exact Or.inl rfl

/-- The locals after case `LC_SUB_CLIENT`. -/
theorem sub_client_locals (K : Externals) (info_in : tbd_create_info) (v : walk_locals)
    (arch_bit : Nat) (load_cmd : load_command) (buf : List Nat) (load_cmd_iter : Nat)
    (is_big_endian : Bool) (tbd_options options : Nat) :
    locals_kept v (parse_load_command_sub_client K info_in v arch_bit load_cmd buf
      load_cmd_iter is_big_endian tbd_options options) := by
  unfold parse_load_command_sub_client locals_kept
  simp only
  split_ifs <;> exact Or.inl rfl

/-- The locals after case `LC_SUB_FRAMEWORK`. -/
theorem sub_framework_locals (K : Externals) (info_in : tbd_create_info) (v : walk_locals)
    (load_cmd : load_command) (buf : List Nat) (load_cmd_iter : Nat) (is_big_endian : Bool)
    (tbd_options options : Nat) :
    locals_kept v (parse_load_command_sub_framework K info_in v load_cmd buf load_cmd_iter
      is_big_endian tbd_options options) := by
  have hrec : ∀ umbrella length,
      locals_kept v (parse_load_command_sub_framework_record K info_in v umbrella length
        options) := by
    intro umbrella length
    unfold parse_load_command_sub_framework_record locals_kept
    simp only
    split
    · split_ifs <;> exact Or.inl rfl
    · exact Or.inl rfl
  unfold parse_load_command_sub_framework
  simp only
  split_ifs <;> first | exact Or.inl rfl | exact hrec _ _

/-- The locals after the cases `LC_VERSION_MIN_*`. -/
theorem version_min_locals (K : Externals) (info_in : tbd_create_info) (v : walk_locals)
    (load_cmd : load_command) (tbd_options options platform : Nat) :
    locals_kept v (parse_load_command_version_min K info_in v load_cmd tbd_options options
      platform) := by
  unfold parse_load_command_version_min locals_kept
  simp only
  split_ifs <;> exact Or.inl rfl

/-- Once a UUID is recorded, no command changes it or clears `found_uuid`: the locals after
`parse_load_command`, whatever it returns. -/
theorem parse_load_command_keeps_uuid (K : Externals) (info_in : tbd_create_info)
    (v : walk_locals) (arch_bit : Nat) (load_cmd : load_command) (buf : List Nat)
    (load_cmd_iter : Nat) (is_big_endian : Bool) (tbd_options options : Nat)
    (copy_strings : Bool) (h : v.found_uuid = true) :
    (parse_load_command K info_in v arch_bit load_cmd buf load_cmd_iter is_big_endian
        tbd_options options copy_strings).2.2.found_uuid = true ∧
    (parse_load_command K info_in v arch_bit load_cmd buf load_cmd_iter is_big_endian
        tbd_options options copy_strings).2.2.uuid_info = v.uuid_info := by
  have hk : ∀ r, locals_kept v r → r.2.2.found_uuid = true ∧ r.2.2.uuid_info = v.uuid_info := by
    intro r hr
    rcases hr with e | e <;> rw [e] <;> exact ⟨h, rfl⟩
  apply parse_load_command_cases K info_in v arch_bit load_cmd buf load_cmd_iter is_big_endian
    tbd_options options copy_strings
    (fun r => r.2.2.found_uuid = true ∧ r.2.2.uuid_info = v.uuid_info)
  · exact hk _ (build_version_locals ..)
  · exact hk _ (id_dylib_locals ..)
  · exact hk _ (reexport_dylib_locals ..)
  · exact hk _ (sub_client_locals ..)
  · exact hk _ (sub_framework_locals ..)
  · unfold parse_load_command_symtab
    simp only
    split_ifs <;> exact ⟨h, rfl⟩
  · unfold parse_load_command_uuid
    simp only [h, if_true]
    split_ifs <;> exact ⟨h, rfl⟩
  · intro platform
    exact hk _ (version_min_locals ..)
  · exact ⟨h, rfl⟩

/-- The extraction of the file-based walk keeps a recorded UUID. -/
theorem extract_from_file_keeps_uuid (K : Externals)
    (p : mf_parse_load_commands_from_file_info) (buf : List Nat) (rr : range)
    (s : file_walk_state) (lc : load_command) (h : s.locals.found_uuid = true) :
    (extract_from_file K p buf rr s lc).2.2.1.found_uuid = true ∧
    (extract_from_file K p buf rr s lc).2.2.1.uuid_info = s.locals.uuid_info := by
  unfold extract_from_file
  by_cases c1 : lc.cmd = LC_SEGMENT
  · rw [if_pos c1]; exact ⟨h, rfl⟩
  rw [if_neg c1]
  by_cases c2 : lc.cmd = LC_SEGMENT_64
  · rw [if_pos c2]; exact ⟨h, rfl⟩
  rw [if_neg c2]
  exact parse_load_command_keeps_uuid K s.info s.locals p.arch_bit lc buf s.load_cmd_iter
    p.is_big_endian p.tbd_options p.options true h

/-- The iteration of the file-based walk on a command whose header passes the size checks. -/
theorem from_file_iteration_eq (K : Externals) (p : mf_parse_load_commands_from_file_info)
    (buf : List Nat) (rr : range) (s : file_walk_state)
    (h1 : 8 ≤ (load_command_at buf s.load_cmd_iter p.is_big_endian).cmdsize)
    (h2 : (load_command_at buf s.load_cmd_iter p.is_big_endian).cmdsize ≤ s.size_left) :
    from_file_iteration K p buf rr s =
      (if (extract_from_file K p buf rr s
            (load_command_at buf s.load_cmd_iter p.is_big_endian)).1 ≠ E_MACHO_FILE_PARSE_OK
        then
          ((extract_from_file K p buf rr s
              (load_command_at buf s.load_cmd_iter p.is_big_endian)).1,
            { s with
              info := (extract_from_file K p buf rr s
                (load_command_at buf s.load_cmd_iter p.is_big_endian)).2.1,
              locals := (extract_from_file K p buf rr s
                (load_command_at buf s.load_cmd_iter p.is_big_endian)).2.2.1,
              fd := (extract_from_file K p buf rr s
                (load_command_at buf s.load_cmd_iter p.is_big_endian)).2.2.2,
              size_left := s.size_left -
                (load_command_at buf s.load_cmd_iter p.is_big_endian).cmdsize })
        else
          (E_MACHO_FILE_PARSE_OK,
            { info := (extract_from_file K p buf rr s
                (load_command_at buf s.load_cmd_iter p.is_big_endian)).2.1,
              locals := (extract_from_file K p buf rr s
                (load_command_at buf s.load_cmd_iter p.is_big_endian)).2.2.1,
              fd := (extract_from_file K p buf rr s
                (load_command_at buf s.load_cmd_iter p.is_big_endian)).2.2.2,
              load_cmd_iter := s.load_cmd_iter +
                (load_command_at buf s.load_cmd_iter p.is_big_endian).cmdsize,
              size_left := s.size_left -
                (load_command_at buf s.load_cmd_iter p.is_big_endian).cmdsize })) := by
  have e1 : ¬ s.size_left < 8 := by omega
  have e2 : ¬ (load_command_at buf s.load_cmd_iter p.is_big_endian).cmdsize < 8 := by omega
  have e3 : ¬ s.size_left < (load_command_at buf s.load_cmd_iter p.is_big_endian).cmdsize := by
    omega
  unfold from_file_iteration
  simp only [sizeof_load_command, e1, e2, e3, if_false]

/-- The iteration of the file-based walk keeps a recorded UUID, whatever it returns. -/
theorem from_file_iteration_keeps_uuid (K : Externals)
    (p : mf_parse_load_commands_from_file_info) (buf : List Nat) (rr : range)
    (s : file_walk_state) (h : s.locals.found_uuid = true) :
    (from_file_iteration K p buf rr s).2.locals.found_uuid = true ∧
    (from_file_iteration K p buf rr s).2.locals.uuid_info = s.locals.uuid_info := by
  by_cases hb : s.size_left < 8 ∨
      (load_command_at buf s.load_cmd_iter p.is_big_endian).cmdsize < 8 ∨
      s.size_left < (load_command_at buf s.load_cmd_iter p.is_big_endian).cmdsize
  · rw [from_file_iteration_bad K p buf rr s hb]
    exact ⟨h, rfl⟩
  · rw [from_file_iteration_eq K p buf rr s (by omega) (by omega)]
    have hk := extract_from_file_keeps_uuid K p buf rr s
      (load_command_at buf s.load_cmd_iter p.is_big_endian) h
    split_ifs <;> exact hk

/-- The file-based walk keeps a recorded UUID, whatever it returns. -/
theorem from_file_loop_keeps_uuid (K : Externals)
    (p : mf_parse_load_commands_from_file_info) (buf : List Nat) (rr : range) (n : Nat) :
    ∀ (s : file_walk_state), s.locals.found_uuid = true →
      (from_file_loop K p buf rr n s).2.locals.found_uuid = true ∧
      (from_file_loop K p buf rr n s).2.locals.uuid_info = s.locals.uuid_info := by
  induction n with
  | zero => intro s h; exact ⟨h, rfl⟩
  | succ n ih =>
    intro s h
    rw [from_file_loop]
    have hk := from_file_iteration_keeps_uuid K p buf rr s h
    by_cases hr : (from_file_iteration K p buf rr s).1 = E_MACHO_FILE_PARSE_OK
    · simp only [hr, ne_eq, not_true_eq_false, if_false]
      have := ih _ hk.1
      exact ⟨this.1, this.2.trans hk.2⟩
    · simp only [ne_eq, hr, not_false_eq_true, if_true]
      exact hk

/-- An iteration that fails after `i < ncmds` accepted commands decides the result of the
file-based parser. -/
theorem from_file_result_of_failed_iteration (K : Externals) (info_in : tbd_create_info)
    (fd : Fd) (p : mf_parse_load_commands_from_file_info) (i : Nat) (s : file_walk_state)
    (hw : from_file_enters_walk p) (hi : i < p.ncmds)
    (hs : from_file_loop K p (fd.read p.sizeofcmds).1 (from_file_relative_range p) i
      (from_file_walk_start K info_in fd p) = (E_MACHO_FILE_PARSE_OK, s))
    (hb : (from_file_iteration K p (fd.read p.sizeofcmds).1 (from_file_relative_range p) s).1 ≠
      E_MACHO_FILE_PARSE_OK) :
    (macho_file_parse_load_commands_from_file K info_in fd p).result =
      (from_file_iteration K p (fd.read p.sizeofcmds).1 (from_file_relative_range p) s).1 := by
  have hsplit := from_file_loop_add K p (fd.read p.sizeofcmds).1 (from_file_relative_range p) i
    (p.ncmds - i) _ _ hs
  have e : i + (p.ncmds - i) = p.ncmds := by omega
  rw [e] at hsplit
  obtain ⟨m, hm⟩ : ∃ m, p.ncmds - i = m + 1 := ⟨p.ncmds - i - 1, by omega⟩
  rw [hm, from_file_loop] at hsplit
  simp only [ne_eq, hb, not_false_eq_true, if_true] at hsplit
  rw [from_file_of_enters_walk K info_in fd p hw, hsplit]
  simp only [ne_eq, hb, not_false_eq_true, if_true]

/-- The bytes of a range of a buffer are as many as asked for. -/
theorem bytes_at_length (buf : List Nat) (off n : Nat) : (bytes_at buf off n).length = n := by
  simp [bytes_at]

/-- The extraction of an `LC_UUID` command of 24 bytes in the file-based walk, when UUIDs
are wanted. -/
theorem extract_from_file_uuid (K : Externals) (p : mf_parse_load_commands_from_file_info)
    (buf : List Nat) (rr : range) (s : file_walk_state)
    (hu : flag_set p.tbd_options K.O_TBD_PARSE_IGNORE_UUID = false) :
    extract_from_file K p buf rr s ⟨LC_UUID, 24⟩ =
      (if s.locals.found_uuid = true then
        (if (!flag_set p.options K.O_MACHO_FILE_PARSE_IGNORE_CONFLICTING_FIELDS &&
              memcmp_ne s.locals.uuid_info.uuid (bytes_at buf (s.load_cmd_iter + 8) 16) 16) =
            true then
          (E_MACHO_FILE_PARSE_CONFLICTING_UUID, s.info, s.locals, s.fd)
        else (E_MACHO_FILE_PARSE_OK, s.info, s.locals, s.fd))
      else
        (E_MACHO_FILE_PARSE_OK, s.info,
          { s.locals with
            uuid_info := { s.locals.uuid_info with uuid := bytes_at buf (s.load_cmd_iter + 8) 16 },
            found_uuid := true }, s.fd)) := by
  unfold extract_from_file
  have c1 : ¬ (LC_UUID = LC_SEGMENT) := by decide
  have c2 : ¬ (LC_UUID = LC_SEGMENT_64) := by decide
  simp only [c1, c2, if_false]
  rw [parse_load_command_of_uuid K s.info s.locals p.arch_bit ⟨LC_UUID, 24⟩ buf s.load_cmd_iter
    p.is_big_endian p.tbd_options p.options true rfl]
  unfold parse_load_command_uuid
  simp only [hu, sizeof_uuid_command, ne_eq, not_true_eq_false, if_false, Bool.false_eq_true]
  by_cases hf : s.locals.found_uuid = true
  · simp only [hf, if_true]
    split_ifs <;> rfl
  · simp only [hf, if_false, Bool.false_eq_true]

/-- C9: in the file-based walk with ignore-uuid not set, let the command reached after `i`
accepted commands be the first `LC_UUID` of the stream (`cmdsize = 24`, no UUID found before)
and let the command reached after `i + 1 + k` accepted commands be another `LC_UUID`
(`cmdsize = 24`, inside the command area) whose 16 bytes differ from those of the first.
Without ignore-conflicting-fields the iteration on the second command, and with it the
parser, returns conflicting-uuid. With ignore-conflicting-fields the second command is
accepted and the UUID record of the slice holds the bytes of the first command, from then
on to the end of the walk. -/
theorem C9_second_uuid (K : Externals) (info_in : tbd_create_info) (fd : Fd)
    (p : mf_parse_load_commands_from_file_info) (i k : Nat) (s1 s2 : file_walk_state)
    (hu : flag_set p.tbd_options K.O_TBD_PARSE_IGNORE_UUID = false)
    (h1 : from_file_loop K p (fd.read p.sizeofcmds).1 (from_file_relative_range p) i
      (from_file_walk_start K info_in fd p) = (E_MACHO_FILE_PARSE_OK, s1))
    (hfirst : s1.locals.found_uuid = false)
    (hc1 : load_command_at (fd.read p.sizeofcmds).1 s1.load_cmd_iter p.is_big_endian =
      ⟨LC_UUID, 24⟩)
    (h2 : from_file_loop K p (fd.read p.sizeofcmds).1 (from_file_relative_range p) (i + 1 + k)
      (from_file_walk_start K info_in fd p) = (E_MACHO_FILE_PARSE_OK, s2))
    (hc2 : load_command_at (fd.read p.sizeofcmds).1 s2.load_cmd_iter p.is_big_endian =
      ⟨LC_UUID, 24⟩)
    (hfit : 24 ≤ s2.size_left)
    (hne : bytes_at (fd.read p.sizeofcmds).1 (s1.load_cmd_iter + 8) 16 ≠
      bytes_at (fd.read p.sizeofcmds).1 (s2.load_cmd_iter + 8) 16) :
    (flag_set p.options K.O_MACHO_FILE_PARSE_IGNORE_CONFLICTING_FIELDS = false →
      (from_file_iteration K p (fd.read p.sizeofcmds).1 (from_file_relative_range p) s2).1 =
        E_MACHO_FILE_PARSE_CONFLICTING_UUID ∧
      (from_file_enters_walk p → i + 1 + k < p.ncmds →
        (macho_file_parse_load_commands_from_file K info_in fd p).result =
          E_MACHO_FILE_PARSE_CONFLICTING_UUID)) ∧
    (flag_set p.options K.O_MACHO_FILE_PARSE_IGNORE_CONFLICTING_FIELDS = true →
      (from_file_iteration K p (fd.read p.sizeofcmds).1 (from_file_relative_range p) s2).1 =
        E_MACHO_FILE_PARSE_OK ∧
      ∀ n, (from_file_loop K p (fd.read p.sizeofcmds).1 (from_file_relative_range p) n
          (from_file_iteration K p (fd.read p.sizeofcmds).1 (from_file_relative_range p)
            s2).2).2.locals.uuid_info.uuid =
        bytes_at (fd.read p.sizeofcmds).1 (s1.load_cmd_iter + 8) 16) := by
  -- the walk from the first command to the second
  have hA := from_file_loop_add K p (fd.read p.sizeofcmds).1 (from_file_relative_range p) i
    (k + 1) _ _ h1
  have e : i + (k + 1) = i + 1 + k := by omega
  rw [e, h2, from_file_loop] at hA
  have hr1 : (from_file_iteration K p (fd.read p.sizeofcmds).1 (from_file_relative_range p)
      s1).1 = E_MACHO_FILE_PARSE_OK := by
    by_contra hcon
    simp only [ne_eq, hcon, not_false_eq_true, if_true] at hA
    rw [← hA] at hcon
    exact hcon rfl
  simp only [hr1, ne_eq, not_true_eq_false, if_false] at hA
  -- the first command records its bytes
  obtain ⟨g1, g2, _, _⟩ := from_file_iteration_ok K p _ _ s1 hr1
  have hit1 := from_file_iteration_eq K p (fd.read p.sizeofcmds).1 (from_file_relative_range p)
    s1 g1 g2
  rw [hc1, extract_from_file_uuid K p _ _ s1 hu] at hit1
  simp only [hfirst, Bool.false_eq_true, if_false, ne_eq, not_true_eq_false] at hit1
  have hk := from_file_loop_keeps_uuid K p (fd.read p.sizeofcmds).1 (from_file_relative_range p)
    k _ (show (from_file_iteration K p (fd.read p.sizeofcmds).1 (from_file_relative_range p)
      s1).2.locals.found_uuid = true by rw [hit1])
  rw [← hA] at hk
  have hfound : s2.locals.found_uuid = true := hk.1
  have huuid : s2.locals.uuid_info.uuid =
      bytes_at (fd.read p.sizeofcmds).1 (s1.load_cmd_iter + 8) 16 := by
    rw [hk.2, hit1]
  -- the second command
  have hit2 := from_file_iteration_eq K p (fd.read p.sizeofcmds).1 (from_file_relative_range p)
    s2 (by rw [hc2]; decide) (by rw [hc2]; exact hfit)
  rw [hc2, extract_from_file_uuid K p _ _ s2 hu] at hit2
  have hcmp : memcmp_ne s2.locals.uuid_info.uuid
      (bytes_at (fd.read p.sizeofcmds).1 (s2.load_cmd_iter + 8) 16) 16 = true := by
    rw [huuid]
    unfold memcmp_ne
    rw [decide_eq_true_eq]
    rw [List.take_of_length_le (by rw [bytes_at_length]),
      List.take_of_length_le (by rw [bytes_at_length])]
    exact hne
  simp only [hfound, if_true, hcmp, Bool.and_true] at hit2
  constructor
  · intro hign
    simp only [hign, Bool.not_false, if_true, ne_eq, reduceCtorEq, not_false_eq_true] at hit2
    have hres : (from_file_iteration K p (fd.read p.sizeofcmds).1 (from_file_relative_range p)
        s2).1 = E_MACHO_FILE_PARSE_CONFLICTING_UUID := by rw [hit2]
    refine ⟨hres, fun hw hlt => ?_⟩
    rw [from_file_result_of_failed_iteration K info_in fd p (i + 1 + k) s2 hw hlt h2
      (by rw [hres]; decide), hres]
  · intro hign
    simp only [hign, Bool.not_true, Bool.false_eq_true, if_false, ne_eq, not_true_eq_false]
      at hit2
    refine ⟨by rw [hit2], fun n => ?_⟩
    have hk2 := from_file_loop_keeps_uuid K p (fd.read p.sizeofcmds).1
      (from_file_relative_range p) n
      (from_file_iteration K p (fd.read p.sizeofcmds).1 (from_file_relative_range p) s2).2
      (by rw [hit2]; exact hfound)
    rw [hk2.2, hit2]
    exact huuid

/-- Witness of C9 (scenario S5): two `LC_UUID` commands with different bytes and no option
set make the file-based parser return conflicting-uuid. -/
theorem C9_second_uuid_witness :
    (macho_file_parse_load_commands_from_file sample_externals empty_create_info
        sample_two_uuid_fd sample_two_uuid_info).result =
      E_MACHO_FILE_PARSE_CONFLICTING_UUID :=
  ((C9_second_uuid sample_externals empty_create_info sample_two_uuid_fd sample_two_uuid_info
      0 0
      (from_file_walk_start sample_externals empty_create_info sample_two_uuid_fd
        sample_two_uuid_info)
      (from_file_loop sample_externals sample_two_uuid_info (sample_two_uuid_fd.read 48).1
        (from_file_relative_range sample_two_uuid_info) 1
        (from_file_walk_start sample_externals empty_create_info sample_two_uuid_fd
          sample_two_uuid_info)).2
      (by decide) (by decide) (by decide) (by decide) (by decide) (by decide) (by decide)
      (by decide)).1 (by decide)).2 (by decide) (by decide)

/-! ## The thin handler -/

/-- C17 (defect of the code): a first slice whose header has `MH_TWOLEVEL` set is parsed
into the empty aggregate; the thin handler then records flat-namespace (and a non-zero
`flags`). A second slice for another architecture whose header has `MH_TWOLEVEL` set is
parsed with ok, where the claim asks for conflicting-flags; a second slice whose header has
`MH_TWOLEVEL` clear is rejected with conflicting-flags, where the claim asks that it is not.
The test of `MH_TWOLEVEL` in the cross-check has the polarity opposite to the one of the
check of `MH_APP_EXTENSION_SAFE` that follows it. -/
theorem C17_flat_namespace_check_is_inverted :
    flag_set sample_two_level_aggregate.flags_field
      sample_externals.TBD_FLAG_FLAT_NAMESPACE = true ∧
    sample_two_level_aggregate.flags ≠ 0 ∧
    (parse_thin_file sample_externals sample_two_level_aggregate (sample_slice_fd 9)
      (sample_slice_header 18 0 (MH_TWOLEVEL ||| MH_APP_EXTENSION_SAFE)) false 0 124 0 0).1 =
      E_MACHO_FILE_PARSE_OK ∧
    (parse_thin_file sample_externals sample_two_level_aggregate (sample_slice_fd 9)
      (sample_slice_header 18 0 MH_APP_EXTENSION_SAFE) false 0 124 0 0).1 =
      E_MACHO_FILE_PARSE_CONFLICTING_FLAGS := by
  refine ⟨by decide, by decide, by decide, by decide⟩

/-- C19 (defect of the code): the command `LC_ID_DYLIB` with name offset 24, current version
2.0.0 (`0x20000`) and compatibility version 1.0.0 (`0x10000`) is parsed in native byte order
and, with `is_big_endian` set, from its twin whose 32-bit fields are byte-swapped. Both
parses return ok and record the install name `"/A"`, but the twin records current version
`0x200` and compatibility version `0x100`: the name offset is swapped, the two versions are
copied as they lie in the buffer. -/
theorem C19_big_endian_versions_not_swapped :
    parse_load_command sample_externals empty_create_info (initial_locals none) 64
        ⟨LC_ID_DYLIB, 32⟩ (id_dylib_command le32 24 0x20000 0x10000) 0 false 0 0 true =
      (E_MACHO_FILE_PARSE_OK, sample_identified_info,
        { initial_locals none with found_identification := true }) ∧
    load_command_at (id_dylib_command be32 24 0x20000 0x10000) 0 true = ⟨LC_ID_DYLIB, 32⟩ ∧
    parse_load_command sample_externals empty_create_info (initial_locals none) 64
        ⟨LC_ID_DYLIB, 32⟩ (id_dylib_command be32 24 0x20000 0x10000) 0 true 0 0 true =
      (E_MACHO_FILE_PARSE_OK,
        { sample_identified_info with current_version := 0x200, compatibility_version := 0x100 },
        { initial_locals none with found_identification := true }) := by
  refine ⟨by decide, by decide, by decide⟩

/-! ## The image-info section -/

set_option maxRecDepth 100000 in
/-- C20 (defect of the code): with ignore-conflicting-fields set, a first slice whose
image-info section has flags 0 records the constraint retain-release; a second slice for
another architecture whose image-info section has the requires-GC flag set makes the
file-based parser return conflicting-objc-constraint, where the claim asks that the mismatch
is ignored (a second slice with flags 0 is parsed with ok). In the same way
`parse_section_from_file` returns conflicting-swift-version for a section of Swift version 4
when the version found before it is 5. The two checks of `parse_section_from_file` do not
look at the option, unlike the check of the Swift version that follows the loop over the
sections and the checks of the platform, the identification and the UUID. -/
theorem C20_image_info_conflict_not_ignored :
    sample_retain_release_aggregate.objc_constraint =
      sample_externals.TBD_OBJC_CONSTRAINT_RETAIN_RELEASE ∧
    (macho_file_parse_load_commands_from_file sample_externals sample_retain_release_aggregate
      (sample_objc_slice_fd 9 sample_externals.F_OBJC_IMAGE_INFO_REQUIRES_GC)
      (sample_objc_slice_info 7
        sample_externals.O_MACHO_FILE_PARSE_IGNORE_CONFLICTING_FIELDS)).result =
      E_MACHO_FILE_PARSE_CONFLICTING_OBJC_CONSTRAINT ∧
    (macho_file_parse_load_commands_from_file sample_externals sample_retain_release_aggregate
      (sample_objc_slice_fd 9 0)
      (sample_objc_slice_info 7
        sample_externals.O_MACHO_FILE_PARSE_IGNORE_CONFLICTING_FIELDS)).result =
      E_MACHO_FILE_PARSE_OK ∧
    (parse_section_from_file sample_externals sample_retain_release_aggregate 5
      (sample_objc_slice_fd 9 0x400) { begin := 0, end_ := 256 } { begin := 28, end_ := 256 }
      248 8 sample_externals.O_MACHO_FILE_PARSE_IGNORE_CONFLICTING_FIELDS).1 =
      E_MACHO_FILE_PARSE_CONFLICTING_SWIFT_VERSION := by
  refine ⟨by decide, by decide, by decide, by decide⟩

/-! ## Binary search and sorted insertion -/

/-- Without wrap-around: the 64-bit difference of two indices. -/
theorem wrap64_sub (a b : Nat) (h : b ≤ a) (ha : a < 2 ^ 64) :
    wrap64 (a + 2 ^ 64 - b) = a - b := by
  unfold wrap64
  have e : a + 2 ^ 64 - b = (a - b) + 2 ^ 64 := by omega
  rw [e, Nat.add_mod_right]
  exact Nat.mod_eq_of_lt (by omega)

/-- Without wrap-around: a 64-bit value below `2 ^ 64`. -/
theorem wrap64_of_lt (a : Nat) (ha : a < 2 ^ 64) : wrap64 a = a := by
  unfold wrap64
  exact Nat.mod_eq_of_lt ha

/-- The middle index of a slice of an array of less than `2 ^ 64` items. -/
theorem array_slice_get_middle_index_eq (slice : array_slice) (h : slice.front ≤ slice.back)
    (hb : slice.back < 2 ^ 64) :
    array_slice_get_middle_index slice = slice.front + (slice.back - slice.front) / 2 := by
  unfold array_slice_get_middle_index
  simp only
  rw [wrap64_sub _ _ h hb, Nat.shiftRight_eq_div_pow, pow_one]
  exact wrap64_of_lt _ (by omega)

/-- In a total order, less-or-equal followed by less is less. -/
theorem comparator_lt_of_le_of_lt {α : Type} {comparator : α → α → Int}
    (hc : comparator_is_total_order comparator) {a b c : α}
    (h1 : comparator a b ≤ 0) (h2 : comparator b c < 0) : comparator a c < 0 := by
  by_contra h
  have h3 : comparator c a ≤ 0 := by
    by_contra h4
    exact h ((hc.antisymm a c).2 (by omega))
  have h5 := hc.trans c a b h3 h1
  have h6 := (hc.antisymm b c).1 h2
  omega

/-- In a total order, less followed by less-or-equal is less. -/
theorem comparator_lt_of_lt_of_le {α : Type} {comparator : α → α → Int}
    (hc : comparator_is_total_order comparator) {a b c : α}
    (h1 : comparator a b < 0) (h2 : comparator b c ≤ 0) : comparator a c < 0 := by
  by_contra h
  have h3 : comparator c a ≤ 0 := by
    by_contra h4
    exact h ((hc.antisymm a c).2 (by omega))
  have h5 := hc.trans b c a h2 h3
  have h6 := (hc.antisymm a b).1 h1
  omega

/-- In a total order, an element that follows (in a sorted array) one that is greater than
the item is greater than the item. -/
theorem comparator_pos_of_pos_of_le {α : Type} {comparator : α → α → Int}
    (hc : comparator_is_total_order comparator) {x y item : α}
    (h1 : 0 < comparator x item) (h2 : comparator x y ≤ 0) : 0 < comparator y item := by
  have h3 := (hc.antisymm item x).2 h1
  exact (hc.antisymm item y).1 (comparator_lt_of_lt_of_le hc h3 h2)

/-- Two elements of a sorted list, the first at the smaller index, are related. -/
theorem pairwise_get? {α : Type} {R : α → α → Prop} {data : List α} (hs : data.Pairwise R)
    {i j : Nat} {x y : α} (hij : i < j) (hi : data.get? i = some x)
    (hj : data.get? j = some y) : R x y := by
  rw [List.get?_eq_some] at hi hj
  obtain ⟨h1, e1⟩ := hi
  obtain ⟨h2, e2⟩ := hj
  rw [← e1, ← e2]
  exact (List.pairwise_iff_get.1 hs) ⟨i, h1⟩ ⟨j, h2⟩ hij

/-- The search loop on a sorted array of less than `2 ^ 64` items: started on a slice that
lies in the array, with the elements before the slice less and the elements after it
greater than the item, and with a budget that covers the halvings of the slice, the loop
returns a match or the insertion position. -/
theorem array_slice_search_loop_finds {α : Type} (comparator : α → α → Int)
    (hc : comparator_is_total_order comparator) (data : List α) (item : α)
    (hs : data.Pairwise (fun a b => comparator a b ≤ 0)) (hlen : data.length < 2 ^ 64) :
    ∀ (fuel : Nat) (slice : array_slice), slice.front ≤ slice.back →
      slice.back < data.length → slice.back - slice.front + 1 < 2 ^ fuel →
      (∀ i x, i < slice.front → data.get? i = some x → comparator x item < 0) →
      (∀ i x, slice.back < i → data.get? i = some x → 0 < comparator x item) →
      search_finds comparator data item
        (array_slice_search_loop data comparator item fuel slice) := by
  intro fuel
  induction fuel with
  | zero =>
    intro slice _ _ h3
    simp at h3
  | succ fuel ih =>
    intro slice hfb hbl hsize hlow hhigh
    have hmid := array_slice_get_middle_index_eq slice hfb (by omega)
    have hpow : 2 ^ (fuel + 1) = 2 * 2 ^ fuel := by rw [pow_succ]; ring
    rw [hpow] at hsize
    obtain ⟨front, back⟩ := slice
    simp only at hfb hbl hsize hlow hhigh hmid
    have hmidlt : front + (back - front) / 2 < data.length := by omega
    obtain ⟨x, hx⟩ : ∃ x, data.get? (front + (back - front) / 2) = some x :=
      ⟨data.get ⟨_, hmidlt⟩, List.get?_eq_get hmidlt⟩
    unfold array_slice_search_loop
    simp only [hmid, hx]
    by_cases c0 : comparator x item = 0
    · rw [if_pos c0]
      exact ⟨x, hx, c0⟩
    rw [if_neg c0]
    by_cases c1 : front = back
    · have e1 : array_slice_holds_one_element ⟨front, back⟩ = true := by
        simp [array_slice_holds_one_element, c1]
      rw [if_pos e1]
      subst c1
      have hm : front + (front - front) / 2 = front := by simp
      rw [hm] at hx
      by_cases c2 : comparator x item < 0
      · have e2 : get_cached_index_type_from_ret (comparator x item) =
            .ARRAY_CACHED_INDEX_GREATER_THAN := by
          simp [get_cached_index_type_from_ret, c2]
        rw [e2]
        refine ⟨by simp, ?_, ?_, ?_⟩
        · simp only [hint_position, if_true]; omega
        · intro i y hi hy
          simp only [hint_position, if_true] at hi
          by_cases hif : i < front
          · exact hlow i y hif hy
          · have : i = front := by omega
            subst this
            rw [hx] at hy
            cases hy
            exact c2
        · intro i y hi hy
          simp only [hint_position, if_true] at hi
          exact hhigh i y (by omega) hy
      · have c3 : 0 < comparator x item := by omega
        have e2 : get_cached_index_type_from_ret (comparator x item) =
            .ARRAY_CACHED_INDEX_LESS_THAN := by
          simp [get_cached_index_type_from_ret, c2, c3]
        rw [e2]
        refine ⟨by simp, ?_, ?_, ?_⟩
        · simp only [hint_position]; simp; omega
        · intro i y hi hy
          simp [hint_position] at hi
          exact hlow i y hi hy
        · intro i y hi hy
          simp [hint_position] at hi
          by_cases hif : i = front
          · subst hif
            rw [hx] at hy
            cases hy
            exact c3
          · exact hhigh i y (by omega) hy
    have e1 : array_slice_holds_one_element ⟨front, back⟩ = false := by
      simp [array_slice_holds_one_element, c1]
    rw [e1]
    simp only [Bool.false_eq_true, if_false]
    have htwo : array_slice_holds_two_elements ⟨front, back⟩ = true ↔ back - front = 1 := by
      unfold array_slice_holds_two_elements
      rw [wrap64_sub _ _ hfb (by omega)]
      exact beq_iff_eq
    by_cases c2 : comparator x item > 0
    · rw [if_pos c2]
      by_cases c3 : back - front = 1
      · rw [if_pos (htwo.2 c3)]
        have hm : front + (back - front) / 2 = front := by omega
        rw [hm] at hx
        refine ⟨by simp, ?_, ?_, ?_⟩
        · simp [hint_position]; omega
        · intro i y hi hy
          simp [hint_position] at hi
          exact hlow i y hi hy
        · intro i y hi hy
          simp [hint_position] at hi
          by_cases hif : i = front
          · subst hif
            rw [hx] at hy
            cases hy
            exact c2
          · have hxy := pairwise_get? hs (by omega : front < i) hx hy
            exact comparator_pos_of_pos_of_le hc c2 hxy
      · rw [if_neg (fun h => c3 (htwo.1 h))]
        have hlower : array_slice_set_to_lower_half ⟨front, back⟩
            (front + (back - front) / 2) = ⟨front, front + (back - front) / 2 - 1⟩ := by
          unfold array_slice_set_to_lower_half
          simp only
          rw [wrap64_sub _ _ (by omega) (by omega)]
        rw [hlower]
        apply ih
        · simp only; omega
        · simp only; omega
        · simp only; omega
        · exact hlow
        · intro i y hi hy
          simp only at hi
          by_cases hif : i = front + (back - front) / 2
          · subst hif
            rw [hx] at hy
            cases hy
            exact c2
          · have hxy := pairwise_get? hs (by omega : front + (back - front) / 2 < i) hx hy
            exact comparator_pos_of_pos_of_le hc c2 hxy
    · rw [if_neg c2]
      have c3 : comparator x item < 0 := by omega
      have hupper : array_slice_set_to_upper_half ⟨front, back⟩
          (front + (back - front) / 2) = ⟨front + (back - front) / 2 + 1, back⟩ := by
        unfold array_slice_set_to_upper_half
        simp only
        rw [wrap64_of_lt _ (by omega)]
      rw [hupper]
      apply ih
      · simp only; omega
      · simp only; omega
      · simp only; omega
      · intro i y hi hy
        simp only at hi
        by_cases hif : i = front + (back - front) / 2
        · subst hif
          rw [hx] at hy
          cases hy
          exact c3
        · have hxy := pairwise_get? hs (by omega : i < front + (back - front) / 2) hy hx
          exact comparator_lt_of_le_of_lt hc hxy c3
      · exact hhigh

/-- The difference comparator orders the natural numbers totally. -/
theorem sample_comparator_is_total_order : comparator_is_total_order sample_comparator := by
  constructor
  · intro a b
    unfold sample_comparator
    omega
  · intro a b c
    unfold sample_comparator
    omega

/-- C13: for every non-empty array (of less than `2 ^ 64` items) that is sorted under a
total-order comparator and every item, `array_find_item_in_sorted` returns either a pointer
to an element that compares equal to the item (the hint is then `{index, equal}` for that
element), or `NULL` with a hint whose insertion position `p` (`index`, or `index + 1` when the
relation is greater-than) satisfies `0 ≤ p ≤ count`, every element before `p` compares less
than the item and every element at or after `p` compares greater. -/
theorem C13_find_item_in_sorted {α : Type} (comparator : α → α → Int)
    (hc : comparator_is_total_order comparator) (items : List α) (item : α)
    (hne : items ≠ []) (hlen : items.length < 2 ^ 64)
    (hs : items.Pairwise (fun a b => comparator a b ≤ 0)) :
    (∃ i x, array_find_item_in_sorted items item comparator = .item i ∧
      items.get? i = some x ∧ comparator x item = 0) ∨
    (∃ info, array_find_item_in_sorted items item comparator = .null info ∧
      0 ≤ hint_position info ∧ hint_position info ≤ items.length ∧
      (∀ i x, i < hint_position info → items.get? i = some x → comparator x item < 0) ∧
      (∀ i x, hint_position info ≤ i → items.get? i = some x → 0 < comparator x item)) := by
  have hpos : 0 < items.length := List.length_pos.2 hne
  have h := array_slice_search_loop_finds comparator hc items item hs hlen 65
    ⟨0, items.length - 1⟩ (Nat.zero_le _) (by simp only; omega) (by simp only; omega)
    (fun i x hi _ => absurd hi (Nat.not_lt_zero i))
    (fun i x hi hx => by
      have hlt : i < items.length := by
        rw [List.get?_eq_some] at hx
        exact hx.1
      simp only at hi
      omega)
  have e : array_find_item_in_sorted items item comparator =
      array_slice_search_loop items comparator item 65 ⟨0, items.length - 1⟩ := by
    unfold array_find_item_in_sorted array_slice_get_sorted_array_item_for_item
    rw [if_neg (by omega)]
  rw [e]
  generalize array_slice_search_loop items comparator item 65 ⟨0, items.length - 1⟩ = r at h
  cases r with
  | item i =>
    obtain ⟨x, hx, hx0⟩ := h
    exact Or.inl ⟨i, x, rfl, hx, hx0⟩
  | null info =>
    obtain ⟨_, h2, h3, h4⟩ := h
    exact Or.inr ⟨info, rfl, Nat.zero_le _, h2, h3, h4⟩
  | outside => exact absurd h id
  | exhausted => exact absurd h id

/-- Witness of C13: the search for 4 in the sorted array `[1, 3, 5]`. -/
theorem C13_find_item_in_sorted_witness :
    ([1, 3, 5] : List Nat) ≠ [] ∧ ([1, 3, 5] : List Nat).length < 2 ^ 64 ∧
    ([1, 3, 5] : List Nat).Pairwise (fun a b => sample_comparator a b ≤ 0) ∧
    ((∃ i x, array_find_item_in_sorted [1, 3, 5] 4 sample_comparator = .item i ∧
      ([1, 3, 5] : List Nat).get? i = some x ∧ sample_comparator x 4 = 0) ∨
    (∃ info, array_find_item_in_sorted [1, 3, 5] 4 sample_comparator = .null info ∧
      0 ≤ hint_position info ∧ hint_position info ≤ ([1, 3, 5] : List Nat).length ∧
      (∀ i x, i < hint_position info → ([1, 3, 5] : List Nat).get? i = some x →
        sample_comparator x 4 < 0) ∧
      (∀ i x, hint_position info ≤ i → ([1, 3, 5] : List Nat).get? i = some x →
        0 < sample_comparator x 4))) :=
  ⟨by decide, by decide, by decide,
    C13_find_item_in_sorted sample_comparator sample_comparator_is_total_order [1, 3, 5] 4
      (by decide) (by decide) (by decide)⟩

/-- The search on a whole sorted array of less than `2 ^ 64` items, empty or not. -/
theorem array_find_item_in_sorted_finds {α : Type} (comparator : α → α → Int)
    (hc : comparator_is_total_order comparator) (items : List α) (item : α)
    (hs : items.Pairwise (fun a b => comparator a b ≤ 0)) (hlen : items.length < 2 ^ 64) :
    search_finds comparator items item (array_find_item_in_sorted items item comparator) ∨
    (items = [] ∧ array_find_item_in_sorted items item comparator =
      .null ⟨0, .ARRAY_CACHED_INDEX_EQUAL⟩) := by
  by_cases h0 : items.length = 0
  · right
    refine ⟨List.length_eq_zero.1 h0, ?_⟩
    unfold array_find_item_in_sorted
    rw [if_pos h0]
  · left
    have e : array_find_item_in_sorted items item comparator =
        array_slice_search_loop items comparator item 65 ⟨0, items.length - 1⟩ := by
      unfold array_find_item_in_sorted array_slice_get_sorted_array_item_for_item
      rw [if_neg h0]
    rw [e]
    exact array_slice_search_loop_finds comparator hc items item hs hlen 65
      ⟨0, items.length - 1⟩ (Nat.zero_le _) (by simp only; omega) (by simp only; omega)
      (fun i x hi _ => absurd hi (Nat.not_lt_zero i))
      (fun i x hi hx => by
        have hlt : i < items.length := by
          rw [List.get?_eq_some] at hx
          exact hx.1
        simp only at hi
        omega)

/-- The insertion with a hint stores the item at the position of the hint, when that
position is at most the item count. -/
theorem array_add_item_with_cached_index_info_eq {α : Type} (items : List α) (item : α)
    (info : array_cached_index_info) (hlen : items.length < 2 ^ 64)
    (hp : hint_position info ≤ items.length) :
    array_add_item_with_cached_index_info items item info =
      (.E_ARRAY_OK,
        items.take (hint_position info) ++ item :: items.drop (hint_position info)) := by
  obtain ⟨index, type⟩ := info
  unfold array_add_item_with_cached_index_info
  simp only
  by_cases hg : type = .ARRAY_CACHED_INDEX_GREATER_THAN
  · have hpe : hint_position ⟨index, type⟩ = index + 1 := by simp [hint_position, hg]
    rw [hpe] at hp ⊢
    have hback : wrap64 (items.length + 2 ^ 64 - 1) = items.length - 1 :=
      wrap64_sub _ _ (by omega) hlen
    rw [hback]
    by_cases h0 : index = 0
    · subst h0
      rw [if_pos rfl, if_neg (by simp [hg])]
      unfold array_add_item_to_index
      rw [if_neg (by omega)]
    · rw [if_neg h0]
      by_cases hb : index = items.length - 1
      · rw [if_pos hb, if_pos hg]
        unfold array_add_item
        have e : index + 1 = items.length := by omega
        rw [e, List.take_length, List.drop_length]
      · rw [if_neg hb, if_neg (by simp [hg])]
        unfold array_add_item_to_index
        rw [if_neg (by omega)]
  · have hpe : hint_position ⟨index, type⟩ = index := by simp [hint_position, hg]
    rw [hpe] at hp ⊢
    by_cases h0 : index = 0
    · subst h0
      rw [if_pos rfl, if_pos hg]
      unfold array_add_item_to_index
      rw [if_neg (by omega)]
    · rw [if_neg h0]
      by_cases hb : index = wrap64 (items.length + 2 ^ 64 - 1)
      · rw [if_pos hb, if_neg hg, ← hb]
        unfold array_add_item_to_index
        rw [if_neg (by omega)]
      · rw [if_neg hb, if_pos hg]
        unfold array_add_item_to_index
        rw [if_neg (by omega)]

/-- The array stays strictly sorted when an item is stored at a position that has the
smaller elements before it and the greater elements from it on. -/
theorem pairwise_insert_at {α : Type} (comparator : α → α → Int)
    (hc : comparator_is_total_order comparator) (items : List α) (item : α) (p : Nat)
    (hs : items.Pairwise (fun a b => comparator a b < 0))
    (hlow : ∀ i x, i < p → items.get? i = some x → comparator x item < 0)
    (hhigh : ∀ i x, p ≤ i → items.get? i = some x → 0 < comparator x item) :
    (items.take p ++ item :: items.drop p).Pairwise (fun a b => comparator a b < 0) := by
  have hbefore : ∀ a ∈ items.take p, comparator a item < 0 := by
    intro a ha
    obtain ⟨i, hi, e⟩ := List.mem_take_iff_getElem.1 ha
    exact hlow i a (by omega) (by rw [List.get?_eq_getElem?, List.getElem?_eq_getElem, e])
  have hafter : ∀ b ∈ items.drop p, comparator item b < 0 := by
    intro b hb
    obtain ⟨i, hi, e⟩ := List.mem_drop_iff_getElem.1 hb
    have h := hhigh (p + i) b (by omega)
      (by rw [List.get?_eq_getElem?, List.getElem?_eq_getElem, e])
    exact (hc.antisymm item b).2 h
  rw [List.pairwise_append]
  refine ⟨hs.sublist (List.take_sublist _ _), ?_, ?_⟩
  · rw [List.pairwise_cons]
    exact ⟨hafter, hs.sublist (List.drop_sublist _ _)⟩
  · intro a ha b hb
    rcases List.mem_cons.1 hb with e | hb2
    · rw [e]
      exact hbefore a ha
    · exact comparator_lt_of_le_of_lt hc (le_of_lt (hbefore a ha)) (hafter b hb2)

/-- One insertion into a strictly sorted array that holds no item equal to the new one: the
two calls succeed and the array is again strictly sorted, with the new item added. -/
theorem array_find_and_add_item_sorted {α : Type} (comparator : α → α → Int)
    (hc : comparator_is_total_order comparator) (items : List α) (item : α)
    (hs : items.Pairwise (fun a b => comparator a b < 0)) (hlen : items.length < 2 ^ 64)
    (hnew : ∀ y ∈ items, comparator y item ≠ 0) :
    ∃ p, p ≤ items.length ∧
      array_find_and_add_item comparator items item =
        some (items.take p ++ item :: items.drop p) ∧
      (items.take p ++ item :: items.drop p).Pairwise (fun a b => comparator a b < 0) := by
  have hle : items.Pairwise (fun a b => comparator a b ≤ 0) := hs.imp (fun h => le_of_lt h)
  unfold array_find_and_add_item
  rcases array_find_item_in_sorted_finds comparator hc items item hle hlen with h | ⟨h1, h2⟩
  · generalize array_find_item_in_sorted items item comparator = r at h
    cases r with
    | item i =>
      obtain ⟨x, hx, hx0⟩ := h
      exact absurd hx0 (hnew x (List.mem_iff_get?.2 ⟨i, hx⟩))
    | null info =>
      obtain ⟨_, h2, h3, h4⟩ := h
      refine ⟨hint_position info, h2, ?_, pairwise_insert_at comparator hc items item _ hs h3 h4⟩
      simp only
      rw [array_add_item_with_cached_index_info_eq items item info hlen h2]
    | outside => exact absurd h id
    | exhausted => exact absurd h id
  · rw [h2]
    subst h1
    exact ⟨0, Nat.le_refl _, rfl, by simp⟩

/-- Items that do not compare 0 in one order do not compare 0 in the other. -/
theorem comparator_ne_zero_symm {α : Type} {comparator : α → α → Int}
    (hc : comparator_is_total_order comparator) {a b : α} (h : comparator a b ≠ 0) :
    comparator b a ≠ 0 := by
  intro h0
  have h1 := hc.antisymm a b
  have h2 := hc.antisymm b a
  omega

/-- Insertion of a sequence into a strictly sorted array, when all items involved are
pairwise distinct under the comparator: every insertion succeeds and the final array is a
strictly sorted rearrangement of the array and the sequence. -/
theorem array_find_and_add_items_sorted {α : Type} (comparator : α → α → Int)
    (hc : comparator_is_total_order comparator) :
    ∀ (rest items : List α), items.Pairwise (fun a b => comparator a b < 0) →
      (items ++ rest).Pairwise (fun a b => comparator a b ≠ 0) →
      items.length + rest.length < 2 ^ 64 →
      ∃ l, array_find_and_add_items comparator items rest = some l ∧
        l.Perm (items ++ rest) ∧ l.Pairwise (fun a b => comparator a b < 0) := by
  intro rest
  induction rest with
  | nil =>
    intro items hs _ _
    exact ⟨items, rfl, by simp, hs⟩
  | cons x rest ih =>
    intro items hs hd hlen
    have hnew : ∀ y ∈ items, comparator y x ≠ 0 := by
      intro y hy
      exact (List.pairwise_append.1 hd).2.2 y hy x (List.mem_cons_self x rest)
    simp only [List.length_cons] at hlen
    obtain ⟨p, hp, hadd, hsorted⟩ :=
      array_find_and_add_item_sorted comparator hc items x hs (by omega) hnew
    have hperm : (items.take p ++ x :: items.drop p ++ rest).Perm (items ++ x :: rest) := by
      have h1 : (items.take p ++ x :: items.drop p).Perm (x :: items) := by
        have := @List.perm_middle α x (items.take p) (items.drop p)
        rwa [List.take_append_drop] at this
      have h2 : (x :: items ++ rest).Perm (items ++ x :: rest) := by
        have := (@List.perm_middle α x items rest).symm
        simpa using this
      exact (h1.append_right rest).trans h2
    have hd2 : (items.take p ++ x :: items.drop p ++ rest).Pairwise
        (fun a b => comparator a b ≠ 0) :=
      (hperm.pairwise_iff (fun h => comparator_ne_zero_symm hc h)).2 hd
    have hlen2 : (items.take p ++ x :: items.drop p).length + rest.length < 2 ^ 64 := by
      have := hperm.length_eq
      simp only [List.length_append, List.length_cons] at this ⊢
      omega
    obtain ⟨l, hl, hlp, hls⟩ := ih _ hsorted hd2 hlen2
    refine ⟨l, ?_, hlp.trans hperm, hls⟩
    show (match array_find_and_add_item comparator items x with
      | some items1 => array_find_and_add_items comparator items1 rest
      | none => none) = some l
    rw [hadd]
    exact hl

/-- Two strictly sorted arrays with the same items are equal. -/
theorem eq_of_perm_of_strictly_sorted {α : Type} (comparator : α → α → Int)
    (hc : comparator_is_total_order comparator) :
    ∀ (l1 l2 : List α), l1.Perm l2 → l1.Pairwise (fun a b => comparator a b < 0) →
      l2.Pairwise (fun a b => comparator a b < 0) → l1 = l2 := by
  intro l1
  induction l1 with
  | nil =>
    intro l2 hp _ _
    exact (List.Perm.nil_eq hp)
  | cons a t1 ih =>
    intro l2 hp h1 h2
    cases l2 with
    | nil => exact absurd hp.symm (List.not_perm_nil_cons a t1)
    | cons b t2 =>
      have hab : a = b := by
        by_contra hne
        have ha : a ∈ t2 := by
          have : a ∈ b :: t2 := hp.subset (List.mem_cons_self a t1)
          rcases List.mem_cons.1 this with e | h
          · exact absurd e hne
          · exact h
        have hb : b ∈ t1 := by
          have : b ∈ a :: t1 := hp.symm.subset (List.mem_cons_self b t2)
          rcases List.mem_cons.1 this with e | h
          · exact absurd e.symm hne
          · exact h
        have h3 := (List.pairwise_cons.1 h1).1 b hb
        have h4 := (List.pairwise_cons.1 h2).1 a ha
        have h5 := (hc.antisymm a b).1 h3
        omega
      subst hab
      rw [ih t2 (List.Perm.cons_inv hp) (List.pairwise_cons.1 h1).2 (List.pairwise_cons.1 h2).2]

/-- The insertion sort of pairwise distinct items under the relation "compares not greater"
is strictly sorted. -/
theorem insertionSort_strictly_sorted {α : Type} (comparator : α → α → Int)
    (hc : comparator_is_total_order comparator) (items : List α)
    (hd : items.Pairwise (fun a b => comparator a b ≠ 0)) :
    (items.insertionSort (fun a b => comparator a b ≤ 0)).Pairwise
      (fun a b => comparator a b < 0) := by
  haveI : IsTotal α (fun a b => comparator a b ≤ 0) :=
    ⟨fun a b => by
      have h := hc.antisymm b a
      by_cases h1 : comparator a b ≤ 0
      · exact Or.inl h1
      · exact Or.inr (le_of_lt (h.2 (by omega)))⟩
  haveI : IsTrans α (fun a b => comparator a b ≤ 0) := ⟨fun a b c => hc.trans a b c⟩
  have h1 : (items.insertionSort (fun a b => comparator a b ≤ 0)).Pairwise
      (fun a b => comparator a b ≤ 0) :=
    List.sorted_insertionSort (fun a b => comparator a b ≤ 0) items
  have h2 : (items.insertionSort (fun a b => comparator a b ≤ 0)).Pairwise
      (fun a b => comparator a b ≠ 0) :=
    ((List.perm_insertionSort (fun a b => comparator a b ≤ 0) items).pairwise_iff
      (fun h => comparator_ne_zero_symm hc h)).2 hd
  exact (h1.and h2).imp (fun h => lt_of_le_of_ne h.1 h.2)

/-- C12: for every sequence of less than `2 ^ 64` items that are pairwise distinct under a
total-order comparator, the insertion of the items one at a time into the empty array, each
by `array_find_item_in_sorted` followed by `array_add_item_with_cached_index_info` with the
returned hint, succeeds at every step and yields the sequence sorted by the comparator: a
rearrangement of the sequence that is strictly increasing, which is the insertion sort of the
sequence. -/
theorem C12_insertion_yields_sorted_sequence {α : Type} (comparator : α → α → Int)
    (hc : comparator_is_total_order comparator) (items : List α)
    (hd : items.Pairwise (fun a b => comparator a b ≠ 0)) (hlen : items.length < 2 ^ 64) :
    ∃ l, array_find_and_add_items comparator [] items = some l ∧ l.Perm items ∧
      l.Pairwise (fun a b => comparator a b < 0) ∧
      l = items.insertionSort (fun a b => comparator a b ≤ 0) := by
  obtain ⟨l, h1, h2, h3⟩ := array_find_and_add_items_sorted comparator hc items []
    List.Pairwise.nil (by simpa using hd) (by simpa using hlen)
  have h2b : l.Perm items := by simpa using h2
  refine ⟨l, h1, h2b, h3, ?_⟩
  exact eq_of_perm_of_strictly_sorted comparator hc _ _
    (h2b.trans (List.perm_insertionSort _ items).symm) h3
    (insertionSort_strictly_sorted comparator hc items hd)

/-- Witness of C12: the insertion of 5, 1, 3 in this order. -/
theorem C12_insertion_yields_sorted_sequence_witness :
    ([5, 1, 3] : List Nat).Pairwise (fun a b => sample_comparator a b ≠ 0) ∧
    ([5, 1, 3] : List Nat).length < 2 ^ 64 ∧
    ∃ l, array_find_and_add_items sample_comparator [] [5, 1, 3] = some l ∧
      l.Perm [5, 1, 3] ∧ l.Pairwise (fun a b => sample_comparator a b < 0) ∧
      l = ([5, 1, 3] : List Nat).insertionSort (fun a b => sample_comparator a b ≤ 0) :=
  ⟨by decide, by decide,
    C12_insertion_yields_sorted_sequence sample_comparator sample_comparator_is_total_order
      [5, 1, 3] (by decide) (by decide)⟩

/-- The sign of `compare_bytes` is antisymmetric. -/
theorem compare_bytes_antisymm : ∀ a b : List Nat,
    compare_bytes a b < 0 ↔ 0 < compare_bytes b a := by
  intro a
  induction a with
  | nil =>
    intro b
    cases b <;> simp [compare_bytes]
  | cons x xs ih =>
    intro b
    cases b with
    | nil => simp [compare_bytes]
    | cons y ys =>
      simp only [compare_bytes]
      by_cases h1 : x < y
      · have h2 : ¬ y < x := by omega
        simp [h1, h2]
      · by_cases h2 : y < x
        · simp [h1, h2]
        · simp only [h1, h2, if_false]
          exact ih ys

/-- The relation "compares not greater" of `compare_bytes` is transitive. -/
theorem compare_bytes_trans : ∀ a b c : List Nat,
    compare_bytes a b ≤ 0 → compare_bytes b c ≤ 0 → compare_bytes a c ≤ 0 := by
  intro a
  induction a with
  | nil =>
    intro b c _ _
    cases c <;> simp [compare_bytes]
  | cons x xs ih =>
    intro b c h1 h2
    cases b with
    | nil => simp [compare_bytes] at h1
    | cons y ys =>
      cases c with
      | nil => simp [compare_bytes] at h2
      | cons z zs =>
        simp only [compare_bytes] at h1 h2 ⊢
        by_cases hxy : x < y
        · have hxz : x < z := by
            by_contra hn
            have hzy : z < y := by omega
            have : ¬ y < z := by omega
            simp [this, hzy] at h2
          simp [hxz]
        · by_cases hyx : y < x
          · simp [hxy, hyx] at h1
          · have exy : x = y := by omega
            subst exy
            simp only [hxy, if_false] at h1
            by_cases hxz : x < z
            · simp [hxz]
            · by_cases hzx : z < x
              · simp [hxz, hzx] at h2
              · simp only [hxz, hzx, if_false] at h2 ⊢
                exact ih ys zs h1 h2

/-- The comparator of export records of `sample_externals` is a total order. -/
theorem sample_export_comparator_is_total_order :
    comparator_is_total_order sample_externals.tbd_export_info_no_archs_comparator := by
  constructor
  · intro a b
    show (if a.type < b.type then (-1 : Int) else if b.type < a.type then 1
        else compare_bytes a.string b.string) < 0 ↔
      0 < (if b.type < a.type then (-1 : Int) else if a.type < b.type then 1
        else compare_bytes b.string a.string)
    by_cases h1 : a.type < b.type
    · have h2 : ¬ b.type < a.type := by omega
      simp [h1, h2]
    · by_cases h2 : b.type < a.type
      · simp [h1, h2]
      · simp only [h1, h2, if_false]
        exact compare_bytes_antisymm _ _
  · intro a b c
    show (if a.type < b.type then (-1 : Int) else if b.type < a.type then 1
        else compare_bytes a.string b.string) ≤ 0 →
      (if b.type < c.type then (-1 : Int) else if c.type < b.type then 1
        else compare_bytes b.string c.string) ≤ 0 →
      (if a.type < c.type then (-1 : Int) else if c.type < a.type then 1
        else compare_bytes a.string c.string) ≤ 0
    intro h1 h2
    by_cases hab : a.type < b.type
    · have hac : a.type < c.type := by
        by_contra hn
        have hcb : c.type < b.type := by omega
        have : ¬ b.type < c.type := by omega
        simp [this, hcb] at h2
      simp [hac]
    · by_cases hba : b.type < a.type
      · simp [hab, hba] at h1
      · simp only [hab, hba, if_false] at h1
        have e : a.type = b.type := by omega
        rw [e]
        by_cases hbc : b.type < c.type
        · simp [hbc]
        · by_cases hcb : c.type < b.type
          · simp [hbc, hcb] at h2
          · simp only [hbc, hcb, if_false] at h2 ⊢
            exact compare_bytes_trans _ _ _ h1 h2

/-- The comparator of export records of `sample_externals` reads `type` and `string` only. -/
theorem sample_export_comparator_ignores_archs :
    comparator_ignores_archs sample_externals.tbd_export_info_no_archs_comparator := by
  intro a b a1 b1 h1 h2 h3 h4
  show (if a.type < b.type then (-1 : Int) else if b.type < a.type then 1
      else compare_bytes a.string b.string) =
    (if a1.type < b1.type then (-1 : Int) else if b1.type < a1.type then 1
      else compare_bytes a1.string b1.string)
  rw [h1, h2, h3, h4]

/-- A relation that does not tell `u` from the element at index `i` holds pairwise after
that element is replaced by `u`. -/
theorem pairwise_set {α : Type} {R : α → α → Prop} (u x : α)
    (hl : ∀ y, R y x → R y u) (hr : ∀ y, R x y → R u y) :
    ∀ (l : List α) (i : Nat), l.get? i = some x → l.Pairwise R → (l.set i u).Pairwise R := by
  intro l
  induction l with
  | nil =>
    intro i hi _
    simp at hi
  | cons a t ih =>
    intro i hi h
    have h1 := (List.pairwise_cons.1 h).1
    have h2 := (List.pairwise_cons.1 h).2
    cases i with
    | zero =>
      have e : a = x := by simpa using hi
      subst e
      show (u :: t).Pairwise R
      exact List.pairwise_cons.2 ⟨fun b hb => hr b (h1 b hb), h2⟩
    | succ j =>
      have hj : t.get? j = some x := by simpa using hi
      show (a :: t.set j u).Pairwise R
      refine List.pairwise_cons.2 ⟨?_, ih j hj h2⟩
      intro b hb
      rcases List.mem_or_eq_of_mem_set hb with hb1 | hb2
      · exact h1 b hb1
      · rw [hb2]
        exact hl a (h1 x (List.mem_iff_get?.2 ⟨j, hj⟩))

/-- One call of `add_export_to_info` on an aggregate whose exports are strictly sorted
returns ok, keeps them strictly sorted and adds at most one record. -/
theorem add_export_to_info_sorted (K : Externals)
    (hc : comparator_is_total_order K.tbd_export_info_no_archs_comparator)
    (hk : comparator_ignores_archs K.tbd_export_info_no_archs_comparator)
    (info_in : tbd_create_info) (arch_bit type : Nat) (string : List Nat) (string_length : Nat)
    (hs : info_in.exports.Pairwise
      (fun a b => K.tbd_export_info_no_archs_comparator a b < 0))
    (hlen : info_in.exports.length < 2 ^ 64) :
    (add_export_to_info K info_in arch_bit type string string_length).1 =
      E_MACHO_FILE_PARSE_OK ∧
    (add_export_to_info K info_in arch_bit type string string_length).2.exports.Pairwise
      (fun a b => K.tbd_export_info_no_archs_comparator a b < 0) ∧
    (add_export_to_info K info_in arch_bit type string string_length).2.exports.length ≤
      info_in.exports.length + 1 := by
  have hle : info_in.exports.Pairwise
      (fun a b => K.tbd_export_info_no_archs_comparator a b ≤ 0) :=
    hs.imp (fun h => le_of_lt h)
  unfold add_export_to_info
  simp only
  have hkey : ∀ y, K.tbd_export_info_no_archs_comparator y
        (if K.yaml_check_c_str string = true then
          (⟨arch_bit, 1, string_length, string, type,
            0 ||| K.F_TBD_EXPORT_INFO_STRING_NEEDS_QUOTES⟩ : tbd_export_info)
        else ⟨arch_bit, 1, string_length, string, type, 0⟩) =
      K.tbd_export_info_no_archs_comparator y
        ⟨arch_bit, 1, string_length, string, type, 0⟩ := by
    intro y
    split_ifs
    · exact hk _ _ _ _ rfl rfl rfl rfl
    · rfl
  generalize (if K.yaml_check_c_str string = true then
      (⟨arch_bit, 1, string_length, string, type,
        0 ||| K.F_TBD_EXPORT_INFO_STRING_NEEDS_QUOTES⟩ : tbd_export_info)
    else ⟨arch_bit, 1, string_length, string, type, 0⟩) = export_info1 at hkey ⊢
  generalize (⟨arch_bit, 1, string_length, string, type, 0⟩ : tbd_export_info) =
    export_info at hkey ⊢
  rcases array_find_item_in_sorted_finds K.tbd_export_info_no_archs_comparator hc
    info_in.exports export_info hle hlen with h | ⟨h1, h2⟩
  · generalize array_find_item_in_sorted info_in.exports export_info
      K.tbd_export_info_no_archs_comparator = r at h
    cases r with
    | item i =>
      obtain ⟨x, hx, hx0⟩ := h
      simp only [hx]
      split_ifs
      · refine ⟨rfl, ?_, ?_⟩
        · simp only
          apply pairwise_set _ x _ _ info_in.exports i hx hs
          · intro y hy
            exact lt_of_eq_of_lt (hk _ _ y x rfl rfl rfl rfl) hy
          · intro y hy
            exact lt_of_eq_of_lt (hk _ _ x y rfl rfl rfl rfl) hy
        · simp
      · exact ⟨rfl, hs, Nat.le_succ _⟩
    | null info =>
      obtain ⟨_, h2, h3, h4⟩ := h
      simp only
      rw [array_add_item_with_cached_index_info_eq info_in.exports export_info1 info hlen h2]
      refine ⟨rfl, ?_, ?_⟩
      · simp only
        apply pairwise_insert_at K.tbd_export_info_no_archs_comparator hc _ _ _ hs
        · intro i x hi hx
          rw [hkey x]
          exact h3 i x hi hx
        · intro i x hi hx
          rw [hkey x]
          exact h4 i x hi hx
      · simp only [List.length_append, List.length_cons, List.length_take, List.length_drop]
        omega
    | outside => exact absurd h id
    | exhausted => exact absurd h id
  · rw [h2]
    simp only
    rw [h1]
    refine ⟨rfl, ?_, ?_⟩
    · simp [array_add_item_with_cached_index_info, array_add_item_to_index]
    · simp [array_add_item_with_cached_index_info, array_add_item_to_index]

/-- A sequence of calls of `add_export_to_info` keeps the exports strictly sorted. -/
theorem add_exports_to_info_sorted (K : Externals)
    (hc : comparator_is_total_order K.tbd_export_info_no_archs_comparator)
    (hk : comparator_ignores_archs K.tbd_export_info_no_archs_comparator) :
    ∀ (calls : List (Nat × Nat × List Nat × Nat)) (info : tbd_create_info),
      info.exports.Pairwise (fun a b => K.tbd_export_info_no_archs_comparator a b < 0) →
      info.exports.length + calls.length < 2 ^ 64 →
      (add_exports_to_info K info calls).exports.Pairwise
        (fun a b => K.tbd_export_info_no_archs_comparator a b < 0) := by
  intro calls
  induction calls with
  | nil =>
    intro info hs _
    exact hs
  | cons c rest ih =>
    intro info hs hlen
    simp only [List.length_cons] at hlen
    obtain ⟨_, h2, h3⟩ := add_export_to_info_sorted K hc hk info c.1 c.2.1 c.2.2.1 c.2.2.2 hs
      (by omega)
    exact ih _ h2 (by omega)

/-- C11: starting from an aggregate whose exports array is empty, after every call of a
sequence of (less than `2 ^ 64`) calls of `add_export_to_info`, with any arch masks, types
and strings, the exports array is strictly sorted under `tbd_export_info_no_archs_comparator`
and holds no two records with equal `(type, string)`. The comparator is assumed to be a total
order that reads `type` and `string` only. -/
theorem C11_exports_strictly_sorted (K : Externals)
    (hc : comparator_is_total_order K.tbd_export_info_no_archs_comparator)
    (hk : comparator_ignores_archs K.tbd_export_info_no_archs_comparator)
    (info_in : tbd_create_info) (hempty : info_in.exports = [])
    (calls : List (Nat × Nat × List Nat × Nat)) (hlen : calls.length < 2 ^ 64) (n : Nat) :
    (add_exports_to_info K info_in (calls.take n)).exports.Pairwise
      (fun a b => K.tbd_export_info_no_archs_comparator a b < 0) ∧
    (add_exports_to_info K info_in (calls.take n)).exports.Pairwise
      (fun a b => ¬ (a.type = b.type ∧ a.string = b.string)) := by
  have hs : (add_exports_to_info K info_in (calls.take n)).exports.Pairwise
      (fun a b => K.tbd_export_info_no_archs_comparator a b < 0) := by
    apply add_exports_to_info_sorted K hc hk
    · rw [hempty]
      exact List.Pairwise.nil
    · rw [hempty]
      simp only [List.length_nil, List.length_take]
      omega
  refine ⟨hs, hs.imp ?_⟩
  intro a b hab hkey
  have h1 : K.tbd_export_info_no_archs_comparator a b =
      K.tbd_export_info_no_archs_comparator a a := hk a b a a rfl rfl hkey.1.symm hkey.2.symm
  have h2 := hc.antisymm a a
  omega

/-- Witness of C11: three calls, for the re-export `"/B"` (architecture bit 6), the re-export
`"/A"` (bit 6) and again the re-export `"/B"` (bit 7), on the empty aggregate. -/
theorem C11_exports_strictly_sorted_witness :
    empty_create_info.exports = [] ∧
    ([(64, 1, [47, 66], 2), (64, 1, [47, 65], 2), (128, 1, [47, 66], 2)] :
      List (Nat × Nat × List Nat × Nat)).length < 2 ^ 64 ∧
    (add_exports_to_info sample_externals empty_create_info
      (([(64, 1, [47, 66], 2), (64, 1, [47, 65], 2), (128, 1, [47, 66], 2)] :
        List (Nat × Nat × List Nat × Nat)).take 3)).exports.Pairwise
      (fun a b => sample_externals.tbd_export_info_no_archs_comparator a b < 0) ∧
    (add_exports_to_info sample_externals empty_create_info
      (([(64, 1, [47, 66], 2), (64, 1, [47, 65], 2), (128, 1, [47, 66], 2)] :
        List (Nat × Nat × List Nat × Nat)).take 3)).exports.Pairwise
      (fun a b => ¬ (a.type = b.type ∧ a.string = b.string)) :=
  ⟨rfl, by decide,
    C11_exports_strictly_sorted sample_externals sample_export_comparator_is_total_order
      sample_export_comparator_ignores_archs empty_create_info rfl
      [(64, 1, [47, 66], 2), (64, 1, [47, 65], 2), (128, 1, [47, 66], 2)] (by decide) 3⟩

/-! ## What a slice changes in the aggregate -/

/-- The aggregate itself is within `aggregate_kept`. -/
theorem aggregate_kept_refl (arch_bit : Nat) (a : tbd_create_info) :
    aggregate_kept arch_bit a a :=
  ⟨rfl, rfl, fun _ _ h => h⟩

/-- The relation `aggregate_kept` is transitive. -/
theorem aggregate_kept_trans {arch_bit : Nat} {a b c : tbd_create_info}
    (h1 : aggregate_kept arch_bit a b) (h2 : aggregate_kept arch_bit b c) :
    aggregate_kept arch_bit a c :=
  ⟨h2.1.trans h1.1, h2.2.1.trans h1.2.1,
    fun m hm ha => h2.2.2 m hm (h1.2.2 m hm ha)⟩

/-- A change of fields other than `archs`, `uuids` and `exports` is within
`aggregate_kept`. -/
theorem aggregate_kept_of_fields {arch_bit : Nat} {a b : tbd_create_info}
    (h1 : b.archs = a.archs) (h2 : b.uuids = a.uuids) (h3 : b.exports = a.exports) :
    aggregate_kept arch_bit a b :=
  ⟨h1, h2, fun _ _ ha e he => ha e (h3 ▸ he)⟩

/-- The union of two masks that lie within `m` lies within `m`. -/
theorem archs_within_or {a b m : Nat} (ha : archs_within a m) (hb : archs_within b m) :
    archs_within (a ||| b) m := by
  intro i hi
  rw [Nat.testBit_or, Bool.or_eq_true] at hi
  rcases hi with h | h
  · exact ha i h
  · exact hb i h

/-- An item of the array after `array_add_item_with_cached_index_info` is an item of the
array before it or the new item. -/
theorem mem_array_add_item_with_cached_index_info {α : Type} (items : List α) (item : α)
    (info : array_cached_index_info) (e : α)
    (he : e ∈ (array_add_item_with_cached_index_info items item info).2) :
    e ∈ items ∨ e = item := by
  have hidx : ∀ index, e ∈ (array_add_item_to_index items item index).2 →
      e ∈ items ∨ e = item := by
    intro index h
    unfold array_add_item_to_index at h
    split_ifs at h
    · exact Or.inl h
    · simp only [List.mem_append, List.mem_cons] at h
      rcases h with h | h | h
      · exact Or.inl (List.mem_of_mem_take h)
      · exact Or.inr h
      · exact Or.inl (List.mem_of_mem_drop h)
  have hadd : e ∈ (array_add_item items item).2 → e ∈ items ∨ e = item := by
    intro h
    unfold array_add_item at h
    simpa using h
  unfold array_add_item_with_cached_index_info at he
  simp only at he
  split_ifs at he
  all_goals first | exact hidx _ he | exact hadd he

/-- Function `add_export_to_info` changes the aggregate within `aggregate_kept`. -/
theorem add_export_to_info_kept (K : Externals) (info_in : tbd_create_info)
    (arch_bit type : Nat) (string : List Nat) (string_length : Nat) :
    aggregate_kept arch_bit info_in
      (add_export_to_info K info_in arch_bit type string string_length).2 := by
  unfold add_export_to_info
  simp only
  generalize array_find_item_in_sorted info_in.exports
    (⟨arch_bit, 1, string_length, string, type, 0⟩ : tbd_export_info)
    K.tbd_export_info_no_archs_comparator = r
  cases r with
  | item i =>
    simp only
    cases hx : info_in.exports.get? i with
    | none => exact aggregate_kept_refl _ _
    | some x =>
      simp only
      split_ifs
      · refine ⟨rfl, rfl, ?_⟩
        intro m hm ha e he
        simp only at he
        rcases List.mem_or_eq_of_mem_set he with h | h
        · exact ha e h
        · rw [h]
          exact archs_within_or (ha x (List.mem_iff_get?.2 ⟨i, hx⟩)) hm
      · exact aggregate_kept_refl _ _
  | null info =>
    simp only
    generalize hq : array_add_item_with_cached_index_info info_in.exports
      (if K.yaml_check_c_str string = true then
        (⟨arch_bit, 1, string_length, string, type,
          0 ||| K.F_TBD_EXPORT_INFO_STRING_NEEDS_QUOTES⟩ : tbd_export_info)
      else ⟨arch_bit, 1, string_length, string, type, 0⟩) info = q
    obtain ⟨res, l⟩ := q
    cases res with
    | E_ARRAY_OK =>
      simp only
      refine ⟨rfl, rfl, ?_⟩
      intro m hm ha e he
      simp only at he
      have he2 : e ∈ (array_add_item_with_cached_index_info info_in.exports
          (if K.yaml_check_c_str string = true then
            (⟨arch_bit, 1, string_length, string, type,
              0 ||| K.F_TBD_EXPORT_INFO_STRING_NEEDS_QUOTES⟩ : tbd_export_info)
          else ⟨arch_bit, 1, string_length, string, type, 0⟩) info).2 := by
        rw [hq]
        exact he
      rcases mem_array_add_item_with_cached_index_info _ _ _ _ he2 with h | h
      · exact ha e h
      · rw [h]
        split_ifs <;> exact hm
    | E_ARRAY_ALLOC_FAIL => exact aggregate_kept_refl _ _
    | E_ARRAY_INDEX_OUT_OF_BOUNDS => exact aggregate_kept_refl _ _
  | outside => exact aggregate_kept_refl _ _
  | exhausted => exact aggregate_kept_refl _ _

/-- Case `LC_BUILD_VERSION` keeps `archs`, `uuids` and `exports`. -/
theorem build_version_fields (K : Externals) (info_in : tbd_create_info) (v : walk_locals)
    (load_cmd : load_command) (buf : List Nat) (load_cmd_iter : Nat) (is_big_endian : Bool)
    (tbd_options options : Nat) :
    fields_kept info_in (parse_load_command_build_version K info_in v load_cmd buf
      load_cmd_iter is_big_endian tbd_options options).2.1 := by
  unfold parse_load_command_build_version fields_kept
  simp only
  split_ifs <;> exact ⟨rfl, rfl, rfl⟩

/-- Case `LC_ID_DYLIB` keeps `archs`, `uuids` and `exports`. -/
theorem id_dylib_fields (K : Externals) (info_in : tbd_create_info) (v : walk_locals)
    (load_cmd : load_command) (buf : List Nat) (load_cmd_iter : Nat) (is_big_endian : Bool)
    (tbd_options options : Nat) :
    fields_kept info_in (parse_load_command_id_dylib K info_in v load_cmd buf load_cmd_iter
      is_big_endian tbd_options options).2.1 := by
  have hrec : ∀ name length cv compat,
      fields_kept info_in (parse_load_command_id_dylib_record K info_in v name length cv
        compat tbd_options options).2.1 := by
    intro name length cv compat
    unfold parse_load_command_id_dylib_record fields_kept
    simp only
    split
    · split_ifs <;> exact ⟨rfl, rfl, rfl⟩
    · split_ifs <;> exact ⟨rfl, rfl, rfl⟩
  unfold parse_load_command_id_dylib
  simp only
  split_ifs <;> first | exact ⟨rfl, rfl, rfl⟩ | exact hrec _ _ _ _

/-- Case `LC_SUB_FRAMEWORK` keeps `archs`, `uuids` and `exports`. -/
theorem sub_framework_fields (K : Externals) (info_in : tbd_create_info) (v : walk_locals)
    (load_cmd : load_command) (buf : List Nat) (load_cmd_iter : Nat) (is_big_endian : Bool)
    (tbd_options options : Nat) :
    fields_kept info_in (parse_load_command_sub_framework K info_in v load_cmd buf
      load_cmd_iter is_big_endian tbd_options options).2.1 := by
  have hrec : ∀ umbrella length,
      fields_kept info_in (parse_load_command_sub_framework_record K info_in v umbrella length
        options).2.1 := by
    intro umbrella length
    unfold parse_load_command_sub_framework_record fields_kept
    simp only
    split
    · split_ifs <;> exact ⟨rfl, rfl, rfl⟩
    · split_ifs <;> exact ⟨rfl, rfl, rfl⟩
  unfold parse_load_command_sub_framework
  simp only
  split_ifs <;> first | exact ⟨rfl, rfl, rfl⟩ | exact hrec _ _

/-- Case `LC_SYMTAB` keeps the aggregate. -/
theorem symtab_fields (K : Externals) (info_in : tbd_create_info) (v : walk_locals)
    (load_cmd : load_command) (buf : List Nat) (load_cmd_iter : Nat) (tbd_options : Nat) :
    fields_kept info_in (parse_load_command_symtab K info_in v load_cmd buf load_cmd_iter
      tbd_options).2.1 := by
  unfold parse_load_command_symtab fields_kept
  simp only
  split_ifs <;> exact ⟨rfl, rfl, rfl⟩

/-- Case `LC_UUID` keeps the aggregate. -/
theorem uuid_fields (K : Externals) (info_in : tbd_create_info) (v : walk_locals)
    (load_cmd : load_command) (buf : List Nat) (load_cmd_iter : Nat)
    (tbd_options options : Nat) :
    fields_kept info_in (parse_load_command_uuid K info_in v load_cmd buf load_cmd_iter
      tbd_options options).2.1 := by
  unfold parse_load_command_uuid fields_kept
  simp only
  split_ifs <;> exact ⟨rfl, rfl, rfl⟩

/-- The cases `LC_VERSION_MIN_*` keep `archs`, `uuids` and `exports`. -/
theorem version_min_fields (K : Externals) (info_in : tbd_create_info) (v : walk_locals)
    (load_cmd : load_command) (tbd_options options platform : Nat) :
    fields_kept info_in (parse_load_command_version_min K info_in v load_cmd tbd_options
      options platform).2.1 := by
  unfold parse_load_command_version_min fields_kept
  simp only
  split_ifs <;> exact ⟨rfl, rfl, rfl⟩

/-- Case `LC_REEXPORT_DYLIB` changes the aggregate within `aggregate_kept`. -/
theorem reexport_dylib_kept (K : Externals) (info_in : tbd_create_info) (v : walk_locals)
    (arch_bit : Nat) (load_cmd : load_command) (buf : List Nat) (load_cmd_iter : Nat)
    (is_big_endian : Bool) (tbd_options options : Nat) :
    aggregate_kept arch_bit info_in (parse_load_command_reexport_dylib K info_in v arch_bit
      load_cmd buf load_cmd_iter is_big_endian tbd_options options).2.1 := by
  unfold parse_load_command_reexport_dylib
  simp only
  split_ifs <;> first | exact aggregate_kept_refl _ _ | exact add_export_to_info_kept _ _ _ _ _ _

/-- Case `LC_SUB_CLIENT` changes the aggregate within `aggregate_kept`. -/
theorem sub_client_kept (K : Externals) (info_in : tbd_create_info) (v : walk_locals)
    (arch_bit : Nat) (load_cmd : load_command) (buf : List Nat) (load_cmd_iter : Nat)
    (is_big_endian : Bool) (tbd_options options : Nat) :
    aggregate_kept arch_bit info_in (parse_load_command_sub_client K info_in v arch_bit
      load_cmd buf load_cmd_iter is_big_endian tbd_options options).2.1 := by
  unfold parse_load_command_sub_client
  simp only
  split_ifs <;> first | exact aggregate_kept_refl _ _ | exact add_export_to_info_kept _ _ _ _ _ _

/-- Aggregates with the same `archs`, `uuids` and `exports` are within `aggregate_kept`. -/
theorem aggregate_kept_of_fields_kept {arch_bit : Nat} {a b : tbd_create_info}
    (h : fields_kept a b) : aggregate_kept arch_bit a b :=
  aggregate_kept_of_fields h.1 h.2.1 h.2.2

/-- Function `parse_load_command` changes the aggregate within `aggregate_kept`. -/
theorem parse_load_command_kept (K : Externals) (info_in : tbd_create_info)
    (v : walk_locals) (arch_bit : Nat) (load_cmd : load_command) (buf : List Nat)
    (load_cmd_iter : Nat) (is_big_endian : Bool) (tbd_options options : Nat)
    (copy_strings : Bool) :
    aggregate_kept arch_bit info_in (parse_load_command K info_in v arch_bit load_cmd buf
      load_cmd_iter is_big_endian tbd_options options copy_strings).2.1 := by
  apply parse_load_command_cases K info_in v arch_bit load_cmd buf load_cmd_iter
    is_big_endian tbd_options options copy_strings
    (fun r => aggregate_kept arch_bit info_in r.2.1)
  · exact aggregate_kept_of_fields_kept (build_version_fields _ _ _ _ _ _ _ _ _)
  · exact aggregate_kept_of_fields_kept (id_dylib_fields _ _ _ _ _ _ _ _ _)
  · exact reexport_dylib_kept _ _ _ _ _ _ _ _ _ _
  · exact sub_client_kept _ _ _ _ _ _ _ _ _ _
  · exact aggregate_kept_of_fields_kept (sub_framework_fields _ _ _ _ _ _ _ _ _)
  · exact aggregate_kept_of_fields_kept (symtab_fields _ _ _ _ _ _ _)
  · exact aggregate_kept_of_fields_kept (uuid_fields _ _ _ _ _ _ _ _)
  · intro platform
    exact aggregate_kept_of_fields_kept (version_min_fields _ _ _ _ _ _ _)
  · exact aggregate_kept_refl _ _

/-- A seek keeps the content of the file. -/
theorem lseek_set_bytes {fd fd1 : Fd} {off : Nat} (h : fd.lseek_set off = some fd1) :
    fd1.bytes = fd.bytes := by
  unfold Fd.lseek_set at h
  split_ifs at h
  cases h
  rfl

/-- A relative seek keeps the content of the file. -/
theorem lseek_cur_bytes {fd fd1 : Fd} {n : Nat} (h : fd.lseek_cur n = some fd1) :
    fd1.bytes = fd.bytes := by
  unfold Fd.lseek_cur at h
  split_ifs at h
  cases h
  rfl

/-- A read keeps the content of the file. -/
theorem read_bytes (fd : Fd) (n : Nat) : (fd.read n).2.bytes = fd.bytes := rfl

/-- The checks of the image-info flags keep `archs`, `uuids` and `exports`. -/
theorem parse_section_flags_fields (K : Externals) (info_in : tbd_create_info)
    (existing_swift_version_in flags : Nat) :
    fields_kept info_in (parse_section_flags K info_in existing_swift_version_in flags).2.1 := by
  unfold parse_section_flags fields_kept
  simp only
  split_ifs <;> exact ⟨rfl, rfl, rfl⟩

/-- Function `parse_section_from_file` keeps `archs`, `uuids`, `exports` and the content of
the file. -/
theorem parse_section_from_file_fields (K : Externals) (info_in : tbd_create_info)
    (existing_swift_version_in : Nat) (fd : Fd) (full_range macho_range : range)
    (sect_offset sect_size options : Nat) :
    fields_kept info_in (parse_section_from_file K info_in existing_swift_version_in fd
      full_range macho_range sect_offset sect_size options).2.1 ∧
    (parse_section_from_file K info_in existing_swift_version_in fd full_range macho_range
      sect_offset sect_size options).2.2.2.bytes = fd.bytes := by
  unfold parse_section_from_file
  simp only
  by_cases h1 : sect_size ≠ sizeof_objc_image_info
  · rw [if_pos h1]
    exact ⟨⟨rfl, rfl, rfl⟩, rfl⟩
  rw [if_neg h1]
  by_cases h2 : (!range_contains_range macho_range
      { begin := sect_offset, end_ := wrap64 (sect_offset + sect_size) }) = true
  · rw [if_pos h2]
    exact ⟨⟨rfl, rfl, rfl⟩, rfl⟩
  rw [if_neg h2]
  have hsought : ∀ fd1, (if flag_set options K.O_MACHO_FILE_PARSE_SECT_OFF_ABSOLUTE = true then
        fd.lseek_set sect_offset
      else fd.lseek_set (wrap64 (full_range.begin + sect_offset))) = some fd1 →
      fd1.bytes = fd.bytes := by
    intro fd1 h
    split_ifs at h <;> exact lseek_set_bytes h
  generalize (if flag_set options K.O_MACHO_FILE_PARSE_SECT_OFF_ABSOLUTE = true then
        fd.lseek_set sect_offset
      else fd.lseek_set (wrap64 (full_range.begin + sect_offset))) = sought at hsought ⊢
  cases sought with
  | none => exact ⟨⟨rfl, rfl, rfl⟩, rfl⟩
  | some fd1 =>
    have hb1 : fd1.bytes = fd.bytes := hsought fd1 rfl
    simp only
    cases hs2 : (fd1.read sizeof_objc_image_info).2.lseek_set fd.pos with
    | none =>
      simp only
      exact ⟨⟨rfl, rfl, rfl⟩, hb1⟩
    | some fd3 =>
      simp only
      refine ⟨parse_section_flags_fields _ _ _ _, ?_⟩
      rw [lseek_set_bytes hs2]
      exact hb1

/-- The relation `fields_kept` is transitive. -/
theorem fields_kept_trans {a b c : tbd_create_info} (h1 : fields_kept a b)
    (h2 : fields_kept b c) : fields_kept a c :=
  ⟨h2.1.trans h1.1, h2.2.1.trans h1.2.1, h2.2.2.trans h1.2.2⟩

/-- The loop over the sections of a segment keeps `archs`, `uuids`, `exports` and the
content of the file. -/
theorem sections_loop_from_file_fields (K : Externals) (wide : Bool) (buf : List Nat)
    (is_big_endian : Bool) (full_range relative_range : range) (options : Nat) :
    ∀ (n sect : Nat) (info : tbd_create_info) (swift_version : Nat) (fd : Fd),
      fields_kept info (sections_loop_from_file K wide buf is_big_endian full_range
        relative_range options n sect info swift_version fd).2.1 ∧
      (sections_loop_from_file K wide buf is_big_endian full_range relative_range options
        n sect info swift_version fd).2.2.2.bytes = fd.bytes := by
  intro n
  induction n with
  | zero =>
    intro sect info swift_version fd
    exact ⟨⟨rfl, rfl, rfl⟩, rfl⟩
  | succ n ih =>
    intro sect info swift_version fd
    unfold sections_loop_from_file
    simp only
    by_cases h1 : (!is_image_info_section buf sect) = true
    · rw [if_pos h1]
      exact ih _ _ _ _
    rw [if_neg h1]
    have hsec := parse_section_from_file_fields K info swift_version fd full_range
      relative_range (read_field buf (sect + (if wide = true then 48 else 40)) is_big_endian)
      (if wide = true then
        (if is_big_endian = true then swap_uint64 (read_u64 buf (sect + 40))
          else read_u64 buf (sect + 40))
        else read_field buf (sect + 36) is_big_endian) options
    generalize parse_section_from_file K info swift_version fd full_range
      relative_range (read_field buf (sect + (if wide = true then 48 else 40)) is_big_endian)
      (if wide = true then
        (if is_big_endian = true then swap_uint64 (read_u64 buf (sect + 40))
          else read_u64 buf (sect + 40))
        else read_field buf (sect + 36) is_big_endian) options = r at hsec ⊢
    by_cases h2 : r.1 ≠ E_MACHO_FILE_PARSE_OK
    · rw [if_pos h2]
      exact hsec
    rw [if_neg h2]
    have hrest := ih (sect + (if wide = true then sizeof_section_64 else sizeof_section))
      r.2.1 r.2.2.1 r.2.2.2
    exact ⟨fields_kept_trans hsec.1 hrest.1, hrest.2.trans hsec.2⟩

/-- The end of the segment cases keeps `archs`, `uuids` and `exports`, and hands on the
descriptor. -/
theorem parse_segment_from_file_swift_version_fields (K : Externals) (options : Nat)
    (r : macho_file_parse_result × tbd_create_info × Nat × Fd) :
    fields_kept r.2.1 (parse_segment_from_file_swift_version K options r).2.1 ∧
    (parse_segment_from_file_swift_version K options r).2.2 = r.2.2.2 := by
  unfold parse_segment_from_file_swift_version
  simp only
  split_ifs <;> exact ⟨⟨rfl, rfl, rfl⟩, rfl⟩

/-- The cases `LC_SEGMENT` and `LC_SEGMENT_64` keep `archs`, `uuids`, `exports` and the
content of the file. -/
theorem parse_segment_from_file_fields (K : Externals) (wide : Bool)
    (p : mf_parse_load_commands_from_file_info) (buf : List Nat) (relative_range : range)
    (info : tbd_create_info) (fd : Fd) (load_cmd : load_command) (load_cmd_iter : Nat) :
    fields_kept info (parse_segment_from_file K wide p buf relative_range info fd load_cmd
      load_cmd_iter).2.1 ∧
    (parse_segment_from_file K wide p buf relative_range info fd load_cmd
      load_cmd_iter).2.2.bytes = fd.bytes := by
  have h1 := fun n sect => sections_loop_from_file_fields K wide buf p.is_big_endian
    p.full_range relative_range p.options n sect info 0 fd
  have h2 := parse_segment_from_file_swift_version_fields K p.options
  unfold parse_segment_from_file
  simp only
  split_ifs
  all_goals first
    | exact ⟨⟨rfl, rfl, rfl⟩, rfl⟩
    | (split
       · exact ⟨⟨rfl, rfl, rfl⟩, rfl⟩
       · split_ifs
         · exact ⟨⟨rfl, rfl, rfl⟩, rfl⟩
         · exact ⟨fields_kept_trans (h1 _ _).1 (h2 _).1, by rw [(h2 _).2]; exact (h1 _ _).2⟩)

/-- The switch of the file-based walk changes the aggregate within `aggregate_kept` and
keeps the content of the file. -/
theorem extract_from_file_kept (K : Externals) (p : mf_parse_load_commands_from_file_info)
    (buf : List Nat) (rr : range) (s : file_walk_state) (load_cmd : load_command) :
    aggregate_kept p.arch_bit s.info (extract_from_file K p buf rr s load_cmd).2.1 ∧
    (extract_from_file K p buf rr s load_cmd).2.2.2.bytes = s.fd.bytes := by
  unfold extract_from_file
  simp only
  split_ifs
  · exact ⟨aggregate_kept_of_fields_kept (parse_segment_from_file_fields _ _ _ _ _ _ _ _ _).1,
      (parse_segment_from_file_fields _ _ _ _ _ _ _ _ _).2⟩
  · exact ⟨aggregate_kept_of_fields_kept (parse_segment_from_file_fields _ _ _ _ _ _ _ _ _).1,
      (parse_segment_from_file_fields _ _ _ _ _ _ _ _ _).2⟩
  · exact ⟨parse_load_command_kept _ _ _ _ _ _ _ _ _ _ _, rfl⟩

/-- One iteration of the file-based walk changes the aggregate within `aggregate_kept` and
keeps the content of the file, whatever it returns. -/
theorem from_file_iteration_kept (K : Externals) (p : mf_parse_load_commands_from_file_info)
    (buf : List Nat) (rr : range) (s : file_walk_state) :
    aggregate_kept p.arch_bit s.info (from_file_iteration K p buf rr s).2.info ∧
    (from_file_iteration K p buf rr s).2.fd.bytes = s.fd.bytes := by
  have h := extract_from_file_kept K p buf rr s
    (load_command_at buf s.load_cmd_iter p.is_big_endian)
  unfold from_file_iteration
  simp only
  split_ifs
  · exact ⟨aggregate_kept_refl _ _, rfl⟩
  · exact ⟨aggregate_kept_refl _ _, rfl⟩
  · exact ⟨aggregate_kept_refl _ _, rfl⟩
  · exact h
  · exact h

/-- The file-based walk changes the aggregate within `aggregate_kept` and keeps the content
of the file, whatever it returns. -/
theorem from_file_loop_kept (K : Externals) (p : mf_parse_load_commands_from_file_info)
    (buf : List Nat) (rr : range) :
    ∀ (n : Nat) (s : file_walk_state),
      aggregate_kept p.arch_bit s.info (from_file_loop K p buf rr n s).2.info ∧
      (from_file_loop K p buf rr n s).2.fd.bytes = s.fd.bytes := by
  intro n
  induction n with
  | zero =>
    intro s
    exact ⟨aggregate_kept_refl _ _, rfl⟩
  | succ n ih =>
    intro s
    have h := from_file_iteration_kept K p buf rr s
    unfold from_file_loop
    simp only
    split_ifs
    · exact h
    · have h2 := ih (from_file_iteration K p buf rr s).2
      exact ⟨aggregate_kept_trans h.1 h2.1, h2.2.trans h.2⟩

/-- When `array_find_item` returns `NULL`, no item of the array compares 0 with the item. -/
theorem array_find_item_none {α β : Type} (items : List α) (item : β)
    (comparator : α → β → Int) (h : array_find_item items item comparator = none) :
    ∀ x ∈ items, comparator x item ≠ 0 := by
  unfold array_find_item at h
  cases hf : items.findIdx? (fun x => comparator x item == 0) with
  | some i =>
    rw [hf] at h
    cases h
  | none =>
    intro x hx h0
    have := List.findIdx?_eq_none_iff.1 hf x hx
    simp [h0] at this

/-- The part of the file-based parser that follows the walk: the exports and `archs` are
kept, the file is not changed, and a result of ok comes with one new UUID record. -/
theorem from_file_after_walk_kept (K : Externals) (hK : symbol_parsers_keep K)
    (p : mf_parse_load_commands_from_file_info) (s : file_walk_state) :
    exports_kept p.arch_bit s.info (from_file_after_walk K p s).info ∧
    (from_file_after_walk K p s).fd.bytes = s.fd.bytes ∧
    ((from_file_after_walk K p s).result = E_MACHO_FILE_PARSE_OK →
      uuid_added K s.info (from_file_after_walk K p s).info) := by
  have hrefl : exports_kept p.arch_bit s.info s.info := ⟨rfl, fun _ _ h => h⟩
  unfold from_file_after_walk
  by_cases h1 : (!s.locals.found_identification) = true
  · rw [if_pos h1]
    exact ⟨hrefl, rfl, fun h => by cases h⟩
  rw [if_neg h1]
  cases hf : array_find_item s.info.uuids s.locals.uuid_info K.tbd_uuid_info_comparator with
  | some i => exact ⟨hrefl, rfl, fun h => by cases h⟩
  | none =>
    have hnew := array_find_item_none _ _ _ hf
    have hinfo1 : exports_kept p.arch_bit s.info
        { s.info with uuids := (array_add_item s.info.uuids s.locals.uuid_info).2 } :=
      ⟨rfl, fun _ _ h => h⟩
    have hadd : uuid_added K s.info
        { s.info with uuids := (array_add_item s.info.uuids s.locals.uuid_info).2 } :=
      ⟨s.locals.uuid_info, rfl, hnew⟩
    simp only
    split_ifs
    · exact ⟨hinfo1, rfl, fun h => by cases h⟩
    · exact ⟨hinfo1, rfl, fun h => by cases h⟩
    · exact ⟨hinfo1, rfl, fun h => by cases h⟩
    · exact ⟨hinfo1, rfl, fun _ => hadd⟩
    · have hk := hK.from_file_64
        { s.info with uuids := (array_add_item s.info.uuids s.locals.uuid_info).2 } s.fd
        p.full_range p.available_range p.arch_bit p.is_big_endian
        (swap_symtab p.is_big_endian s.locals.symtab).symoff
        (swap_symtab p.is_big_endian s.locals.symtab).nsyms
        (swap_symtab p.is_big_endian s.locals.symtab).stroff
        (swap_symtab p.is_big_endian s.locals.symtab).strsize p.tbd_options
      refine ⟨⟨hk.1.1, hk.1.2.2⟩, hk.2, fun _ => ?_⟩
      exact ⟨s.locals.uuid_info, hk.1.2.1, hnew⟩
    · have hk := hK.from_file
        { s.info with uuids := (array_add_item s.info.uuids s.locals.uuid_info).2 } s.fd
        p.full_range p.available_range p.arch_bit p.is_big_endian
        (swap_symtab p.is_big_endian s.locals.symtab).symoff
        (swap_symtab p.is_big_endian s.locals.symtab).nsyms
        (swap_symtab p.is_big_endian s.locals.symtab).stroff
        (swap_symtab p.is_big_endian s.locals.symtab).strsize p.tbd_options
      refine ⟨⟨hk.1.1, hk.1.2.2⟩, hk.2, fun _ => ?_⟩
      exact ⟨s.locals.uuid_info, hk.1.2.1, hnew⟩

/-- Function `macho_file_parse_load_commands_from_file`: whatever it returns, `archs` and
the exports are kept (the exports within the architecture bit of the slice) and the file is
not changed; a result of ok comes with one new UUID record. -/
theorem macho_file_parse_load_commands_from_file_kept (K : Externals)
    (hK : symbol_parsers_keep K) (info_in : tbd_create_info) (fd : Fd)
    (p : mf_parse_load_commands_from_file_info) :
    exports_kept p.arch_bit info_in
      (macho_file_parse_load_commands_from_file K info_in fd p).info ∧
    (macho_file_parse_load_commands_from_file K info_in fd p).fd.bytes = fd.bytes ∧
    ((macho_file_parse_load_commands_from_file K info_in fd p).result =
        E_MACHO_FILE_PARSE_OK →
      uuid_added K info_in (macho_file_parse_load_commands_from_file K info_in fd p).info) := by
  have hrefl : exports_kept p.arch_bit info_in info_in := ⟨rfl, fun _ _ h => h⟩
  have hpast : exports_kept p.arch_bit info_in (from_file_past_minimum_size K info_in fd p).info ∧
      (from_file_past_minimum_size K info_in fd p).fd.bytes = fd.bytes ∧
      ((from_file_past_minimum_size K info_in fd p).result = E_MACHO_FILE_PARSE_OK →
        uuid_added K info_in (from_file_past_minimum_size K info_in fd p).info) := by
    have hloop := from_file_loop_kept K p (fd.read p.sizeofcmds).1 (from_file_relative_range p)
      p.ncmds (from_file_walk_start K info_in fd p)
    have hstart : aggregate_kept p.arch_bit info_in (from_file_walk_start K info_in fd p).info :=
      aggregate_kept_of_fields rfl rfl rfl
    have hwalk := aggregate_kept_trans hstart hloop.1
    have hbytes : (from_file_loop K p (fd.read p.sizeofcmds).1 (from_file_relative_range p)
        p.ncmds (from_file_walk_start K info_in fd p)).2.fd.bytes = fd.bytes := hloop.2
    have hafter := from_file_after_walk_kept K hK p
      (from_file_loop K p (fd.read p.sizeofcmds).1 (from_file_relative_range p)
        p.ncmds (from_file_walk_start K info_in fd p)).2
    unfold from_file_past_minimum_size
    simp only
    split_ifs
    · exact ⟨hrefl, rfl, fun h => by cases h⟩
    · exact ⟨⟨hwalk.1, hwalk.2.2⟩, hbytes, fun h => absurd h (by assumption)⟩
    · refine ⟨⟨hafter.1.1.trans hwalk.1, fun m hm ha => hafter.1.2 m hm (hwalk.2.2 m hm ha)⟩,
        hafter.2.1.trans hbytes, fun h => ?_⟩
      obtain ⟨u, hu1, hu2⟩ := hafter.2.2 h
      refine ⟨u, ?_, ?_⟩
      · rw [hu1, hwalk.2.1]
      · rw [← hwalk.2.1]
        exact hu2
  unfold macho_file_parse_load_commands_from_file
  simp only
  split_ifs
  · exact ⟨hrefl, rfl, fun h => by cases h⟩
  · exact ⟨hrefl, rfl, fun h => by cases h⟩
  · split
    · exact ⟨hrefl, rfl, fun h => by cases h⟩
    · split_ifs
      · exact ⟨hrefl, rfl, fun h => by cases h⟩
      · exact hpast

/-- A pointer returned by the search loop refers to an element of the array. -/
theorem array_slice_search_loop_item_lt {α β : Type} (data : List α)
    (comparator : α → β → Int) (item : β) :
    ∀ (fuel : Nat) (slice : array_slice) (i : Nat),
      array_slice_search_loop data comparator item fuel slice = .item i → i < data.length := by
  intro fuel
  induction fuel with
  | zero =>
    intro slice i h
    cases h
  | succ fuel ih =>
    intro slice i h
    unfold array_slice_search_loop at h
    simp only at h
    cases hx : data.get? (array_slice_get_middle_index slice) with
    | none =>
      rw [hx] at h
      cases h
    | some x =>
      rw [hx] at h
      simp only at h
      split_ifs at h
      all_goals first
        | exact ih _ _ h
        | (cases h; done)
        | (cases h; rw [List.get?_eq_some] at hx; exact hx.1)

/-- The index returned by `arch_info_for_cputype` is below 64, so the shift that makes the
architecture bit does not leave the 64-bit word. -/
theorem arch_info_for_cputype_lt (cputype cpusubtype : Int) (k : Nat)
    (h : arch_info_for_cputype cputype cpusubtype = some k) : k < 64 := by
  have hfront : ∀ info ∈ cputype_info_list, info.front < 64 := by decide
  have hlen : arch_info_list.length < 64 := by decide
  unfold arch_info_for_cputype at h
  simp only at h
  generalize (array_find_item_in_sorted_with_slice cputype_info_list
    { front := 0, back := wrap64 (cputype_info_list_get_size + 2 ^ 64 - 1) } cputype
    cputype_info_comparator).ptr = optr at h
  cases optr with
  | none => cases h
  | some i =>
    simp only at h
    cases hinfo : cputype_info_list.get? i with
    | none =>
      rw [hinfo] at h
      cases h
    | some info =>
      rw [hinfo] at h
      simp only at h
      have hmem : info ∈ cputype_info_list := List.mem_iff_get?.2 ⟨i, hinfo⟩
      by_cases hfb : info.front = info.back
      · rw [if_pos hfb] at h
        cases harch : arch_info_list.get? info.front with
        | none =>
          rw [harch] at h
          cases h
        | some arch =>
          rw [harch] at h
          simp only at h
          split_ifs at h
          cases h
          exact hfront info hmem
      · rw [if_neg hfb] at h
        unfold array_find_item_in_sorted_with_slice
          array_slice_get_sorted_array_item_for_item at h
        generalize hr : array_slice_search_loop arch_info_list arch_info_cpusubtype_comparator
          cpusubtype 65 { front := info.front, back := info.back } = r at h
        cases r with
        | item j =>
          simp only [search_result.ptr, Option.some.injEq] at h
          have := array_slice_search_loop_item_lt _ _ _ _ _ _ hr
          omega
        | null _ => simp [search_result.ptr] at h
        | outside => simp [search_result.ptr] at h
        | exhausted => simp [search_result.ptr] at h

/-- The test of an architecture bit in a mask is the test of the bit of that index. -/
theorem flag_set_arch_bit (archs k : Nat) (hk : k < 64) :
    flag_set archs (wrap64 (1 <<< k)) = archs.testBit k := by
  have hlt : 1 <<< k < 2 ^ 64 := by
    rw [Nat.one_shiftLeft]
    exact Nat.pow_lt_pow_right (by decide) hk
  rw [wrap64_of_lt _ hlt, Nat.one_shiftLeft]
  unfold flag_set
  rw [Nat.and_two_pow]
  cases archs.testBit k <;> simp

/-- The flags block of the thin handler keeps `archs`, `uuids` and `exports`. -/
theorem parse_thin_file_flags_fields (K : Externals) (info_in : tbd_create_info)
    (header : mach_header) :
    fields_kept info_in (parse_thin_file_flags K info_in header).2 := by
  unfold parse_thin_file_flags fields_kept
  simp only
  split_ifs <;> exact ⟨rfl, rfl, rfl⟩

/-- The entry block of the thin handler keeps the content of the file. -/
theorem parse_thin_file_entry_bytes (fd : Fd) (header : mach_header) (is_big_endian : Bool)
    (size : Nat) : (parse_thin_file_entry fd header is_big_endian size).2.bytes = fd.bytes := by
  unfold parse_thin_file_entry
  simp only
  split_ifs
  · rfl
  · cases h : fd.lseek_cur 4 with
    | none => rfl
    | some fd1 => exact lseek_cur_bytes h
  · rfl
  · rfl

/-- The thin handler past its entry check and its flags cross-check: the lookup of the
architecture, the test of its bit, and the parser of the load commands. -/
theorem parse_thin_file_eq (K : Externals) (info_in : tbd_create_info) (fd : Fd)
    (header : mach_header) (is_big_endian : Bool) (start size tbd_options options : Nat)
    (hentry : (parse_thin_file_entry fd header is_big_endian size).1 = E_MACHO_FILE_PARSE_OK)
    (hflags : (parse_thin_file_flags K info_in header).1 = E_MACHO_FILE_PARSE_OK) :
    parse_thin_file K info_in fd header is_big_endian start size tbd_options options =
      match arch_info_for_cputype header.cputype header.cpusubtype with
      | none =>
        (E_MACHO_FILE_PARSE_UNSUPPORTED_CPUTYPE, (parse_thin_file_flags K info_in header).2,
          (parse_thin_file_entry fd header is_big_endian size).2)
      | some arch_index =>
        if flag_set (parse_thin_file_flags K info_in header).2.archs
            (wrap64 (1 <<< arch_index)) then
          (E_MACHO_FILE_PARSE_MULTIPLE_ARCHS_FOR_CPUTYPE,
            (parse_thin_file_flags K info_in header).2,
            (parse_thin_file_entry fd header is_big_endian size).2)
        else
          ((macho_file_parse_load_commands_from_file K
              { (parse_thin_file_flags K info_in header).2 with
                archs := (parse_thin_file_flags K info_in header).2.archs |||
                  wrap64 (1 <<< arch_index) }
              (parse_thin_file_entry fd header is_big_endian size).2
              (parse_thin_file_info header is_big_endian start size tbd_options options
                arch_index)).result,
            (macho_file_parse_load_commands_from_file K
              { (parse_thin_file_flags K info_in header).2 with
                archs := (parse_thin_file_flags K info_in header).2.archs |||
                  wrap64 (1 <<< arch_index) }
              (parse_thin_file_entry fd header is_big_endian size).2
              (parse_thin_file_info header is_big_endian start size tbd_options options
                arch_index)).info,
            (macho_file_parse_load_commands_from_file K
              { (parse_thin_file_flags K info_in header).2 with
                archs := (parse_thin_file_flags K info_in header).2.archs |||
                  wrap64 (1 <<< arch_index) }
              (parse_thin_file_entry fd header is_big_endian size).2
              (parse_thin_file_info header is_big_endian start size tbd_options options
                arch_index)).fd) := by
  unfold parse_thin_file
  simp only
  rw [if_neg (not_not.2 hentry), if_neg (not_not.2 hflags)]

/-- A result of ok of the thin handler has passed the entry check and the flags
cross-check. -/
theorem parse_thin_file_ok_checks (K : Externals) (info_in : tbd_create_info) (fd : Fd)
    (header : mach_header) (is_big_endian : Bool) (start size tbd_options options : Nat)
    (h : (parse_thin_file K info_in fd header is_big_endian start size tbd_options
      options).1 = E_MACHO_FILE_PARSE_OK) :
    (parse_thin_file_entry fd header is_big_endian size).1 = E_MACHO_FILE_PARSE_OK ∧
    (parse_thin_file_flags K info_in header).1 = E_MACHO_FILE_PARSE_OK := by
  unfold parse_thin_file at h
  simp only at h
  by_cases h1 : (parse_thin_file_entry fd header is_big_endian size).1 = E_MACHO_FILE_PARSE_OK
  · refine ⟨h1, ?_⟩
    rw [if_neg (not_not.2 h1)] at h
    by_contra h2
    rw [if_pos h2] at h
    exact h2 h
  · rw [if_pos h1] at h
    exact absurd h h1

/-- The symbol-table parsers of `sample_externals` leave the aggregate and the file as they
are. -/
theorem sample_externals_keep : symbol_parsers_keep sample_externals :=
  ⟨fun _ _ _ _ _ _ _ _ _ _ _ => ⟨aggregate_kept_refl _ _, rfl⟩,
    fun _ _ _ _ _ _ _ _ _ _ _ => ⟨aggregate_kept_refl _ _, rfl⟩⟩

/-- C18, counterexample to the claim as stated: the pair `(7, 3)` is found in the table at
index 6 and bit 6 is already set in `archs` of the aggregate, which also records
not-app-extension-safe; for a header with `MH_APP_EXTENSION_SAFE` set the thin handler
returns conflicting-flags, not multiple-archs-for-cputype: the cross-check of the flags
comes before the lookup of the architecture. -/
theorem C18_flags_check_comes_first :
    arch_info_for_cputype 7 3 = some 6 ∧
    sample_not_safe_aggregate.archs.testBit 6 = true ∧
    (parse_thin_file sample_externals sample_not_safe_aggregate (sample_slice_fd 9)
      (sample_slice_header 7 3 (MH_TWOLEVEL ||| MH_APP_EXTENSION_SAFE)) false 0 124 0 0).1 =
      E_MACHO_FILE_PARSE_CONFLICTING_FLAGS ∧
    (parse_thin_file sample_externals sample_not_safe_aggregate (sample_slice_fd 9)
      (sample_slice_header 7 3 (MH_TWOLEVEL ||| MH_APP_EXTENSION_SAFE)) false 0 124 0 0).1 ≠
      E_MACHO_FILE_PARSE_MULTIPLE_ARCHS_FOR_CPUTYPE := by
  refine ⟨by decide, by decide, by decide, by decide⟩

/-- C18, amended: for every Mach-O header that passes the entry check of the thin handler
(the size of a 64-bit header, the magic of a 32-bit one) and its cross-check of the flags,
which both come before the lookup: when the pair `(cputype, cpusubtype)` is found in the
table at index `k` and bit `k` is already set in `archs`, the handler returns
multiple-archs-for-cputype and leaves `archs` unchanged; when bit `k` is clear, `archs` after
the handler is `archs | 1 << k` (bit `k` set, no other bit changed), whatever the parser of
the load commands returns; when the pair is not found, the handler returns
unsupported-cputype and leaves `archs` unchanged. The symbol-table parsers, which are not
under src/, are assumed to leave `archs` alone. -/
theorem C18_arch_bit_of_slice (K : Externals) (hK : symbol_parsers_keep K)
    (info_in : tbd_create_info) (fd : Fd) (header : mach_header) (is_big_endian : Bool)
    (start size tbd_options options : Nat)
    (hentry : (parse_thin_file_entry fd header is_big_endian size).1 = E_MACHO_FILE_PARSE_OK)
    (hflags : (parse_thin_file_flags K info_in header).1 = E_MACHO_FILE_PARSE_OK) :
    (∀ k, arch_info_for_cputype header.cputype header.cpusubtype = some k →
      info_in.archs.testBit k = true →
      (parse_thin_file K info_in fd header is_big_endian start size tbd_options options).1 =
        E_MACHO_FILE_PARSE_MULTIPLE_ARCHS_FOR_CPUTYPE ∧
      (parse_thin_file K info_in fd header is_big_endian start size tbd_options
        options).2.1.archs = info_in.archs) ∧
    (∀ k, arch_info_for_cputype header.cputype header.cpusubtype = some k →
      info_in.archs.testBit k = false →
      (parse_thin_file K info_in fd header is_big_endian start size tbd_options
        options).2.1.archs = info_in.archs ||| 1 <<< k) ∧
    (arch_info_for_cputype header.cputype header.cpusubtype = none →
      (parse_thin_file K info_in fd header is_big_endian start size tbd_options options).1 =
        E_MACHO_FILE_PARSE_UNSUPPORTED_CPUTYPE ∧
      (parse_thin_file K info_in fd header is_big_endian start size tbd_options
        options).2.1.archs = info_in.archs) := by
  have harchs := (parse_thin_file_flags_fields K info_in header).1
  rw [parse_thin_file_eq K info_in fd header is_big_endian start size tbd_options options
    hentry hflags]
  refine ⟨?_, ?_, ?_⟩
  · intro k hk hbit
    have hlt := arch_info_for_cputype_lt _ _ _ hk
    rw [hk]
    simp only
    rw [harchs, flag_set_arch_bit _ _ hlt, hbit, if_pos rfl]
    exact ⟨rfl, harchs⟩
  · intro k hk hbit
    have hlt := arch_info_for_cputype_lt _ _ _ hk
    have hw : wrap64 (1 <<< k) = 1 <<< k := by
      apply wrap64_of_lt
      rw [Nat.one_shiftLeft]
      exact Nat.pow_lt_pow_right (by decide) hlt
    rw [hk]
    simp only
    rw [harchs, flag_set_arch_bit _ _ hlt, hbit, if_neg (by simp)]
    simp only
    rw [(macho_file_parse_load_commands_from_file_kept K hK _ _ _).1.1, hw]
  · intro hk
    rw [hk]
    exact ⟨rfl, harchs⟩

/-- Witness of C18: the first slice, for the pair `(7, 3)` of index 6, parsed into the
empty aggregate. -/
theorem C18_arch_bit_of_slice_witness :
    (parse_thin_file_entry (sample_slice_fd 7) (sample_slice_header 7 3 MH_TWOLEVEL) false
      124).1 = E_MACHO_FILE_PARSE_OK ∧
    (parse_thin_file_flags sample_externals empty_create_info
      (sample_slice_header 7 3 MH_TWOLEVEL)).1 = E_MACHO_FILE_PARSE_OK ∧
    arch_info_for_cputype (sample_slice_header 7 3 MH_TWOLEVEL).cputype
      (sample_slice_header 7 3 MH_TWOLEVEL).cpusubtype = some 6 ∧
    empty_create_info.archs.testBit 6 = false ∧
    (parse_thin_file sample_externals empty_create_info (sample_slice_fd 7)
      (sample_slice_header 7 3 MH_TWOLEVEL) false 0 124 0 0).2.1.archs =
      empty_create_info.archs ||| 1 <<< 6 :=
  ⟨by decide, by decide, by decide, by decide,
    (C18_arch_bit_of_slice sample_externals sample_externals_keep empty_create_info
      (sample_slice_fd 7) (sample_slice_header 7 3 MH_TWOLEVEL) false 0 124 0 0
      (by decide) (by decide)).2.1 6 (by decide) (by decide)⟩

/-- A slice that the thin handler parses with ok: its pair is found in the table, at an
index whose bit was clear, and the aggregate changes as `slice_added` says; the file is not
changed. -/
theorem parse_thin_file_ok (K : Externals) (hK : symbol_parsers_keep K)
    (info_in : tbd_create_info) (fd : Fd) (header : mach_header) (is_big_endian : Bool)
    (start size tbd_options options : Nat)
    (h : (parse_thin_file K info_in fd header is_big_endian start size tbd_options
      options).1 = E_MACHO_FILE_PARSE_OK) :
    ∃ k, arch_info_for_cputype header.cputype header.cpusubtype = some k ∧
      slice_added K k info_in (parse_thin_file K info_in fd header is_big_endian start size
        tbd_options options).2.1 ∧
      (parse_thin_file K info_in fd header is_big_endian start size tbd_options
        options).2.2.bytes = fd.bytes := by
  obtain ⟨hentry, hflags⟩ := parse_thin_file_ok_checks K info_in fd header is_big_endian start
    size tbd_options options h
  have hf := parse_thin_file_flags_fields K info_in header
  have hb := parse_thin_file_entry_bytes fd header is_big_endian size
  rw [parse_thin_file_eq K info_in fd header is_big_endian start size tbd_options options
    hentry hflags] at h ⊢
  cases hk : arch_info_for_cputype header.cputype header.cpusubtype with
  | none =>
    rw [hk] at h
    cases h
  | some k =>
    rw [hk] at h
    simp only at h ⊢
    have hlt := arch_info_for_cputype_lt _ _ _ hk
    have hw : wrap64 (1 <<< k) = 1 <<< k := by
      apply wrap64_of_lt
      rw [Nat.one_shiftLeft]
      exact Nat.pow_lt_pow_right (by decide) hlt
    by_cases hbit : flag_set (parse_thin_file_flags K info_in header).2.archs
        (wrap64 (1 <<< k)) = true
    · rw [if_pos hbit] at h
      cases h
    · rw [if_neg hbit] at h ⊢
      simp only at h ⊢
      have hkept := macho_file_parse_load_commands_from_file_kept K hK
        { (parse_thin_file_flags K info_in header).2 with
          archs := (parse_thin_file_flags K info_in header).2.archs ||| wrap64 (1 <<< k) }
        (parse_thin_file_entry fd header is_big_endian size).2
        (parse_thin_file_info header is_big_endian start size tbd_options options k)
      have hclear : info_in.archs.testBit k = false := by
        rw [flag_set_arch_bit _ _ hlt, hf.1] at hbit
        simpa using hbit
      refine ⟨k, rfl, ⟨hlt, hclear, ?_, ?_, ?_⟩, hkept.2.1.trans hb⟩
      · rw [hkept.1.1]
        simp only
        rw [hf.1, hw]
      · obtain ⟨u, hu1, hu2⟩ := hkept.2.2 h
        refine ⟨u, ?_, ?_⟩
        · rw [hu1]
          simp only
          rw [hf.2.1]
        · intro x hx
          exact hu2 x (by simp only; rw [hf.2.1]; exact hx)
      · intro m hm ha
        apply hkept.1.2 m
        · show archs_within (wrap64 (1 <<< k)) m
          rw [hw]
          exact hm
        · intro e he
          exact ha e (by simp only at he; rw [hf.2.2] at he; exact he)

/-- A successful seek sets the position and nothing else. -/
theorem lseek_set_eq {fd fd1 : Fd} {off : Nat} (h : fd.lseek_set off = some fd1) :
    fd1 = { bytes := fd.bytes, pos := off } := by
  unfold Fd.lseek_set at h
  split_ifs at h
  cases h
  rfl

/-- The parse loop of the fat handlers, when it returns ok: the slices of the records with a
Mach-O magic number were parsed by the thin handler, each with ok, and no other; without
skip-invalid-architectures these are all records; the file is not changed; and when no
slice had been parsed before the loop, at least one is parsed in it. -/
theorem handle_fat_parse_loop_ok (K : Externals) (hK : symbol_parsers_keep K)
    (start tbd_options options : Nat) :
    ∀ (archs : List fat_arch) (parsed_one_arch : Bool) (info : tbd_create_info) (fd : Fd),
      (handle_fat_parse_loop K start tbd_options options archs parsed_one_arch info fd).1 =
        E_MACHO_FILE_PARSE_OK →
      slices_added K (parsed_slices fd.bytes start archs) info
        (handle_fat_parse_loop K start tbd_options options archs parsed_one_arch info fd).2.1 ∧
      (handle_fat_parse_loop K start tbd_options options archs parsed_one_arch info
        fd).2.2.bytes = fd.bytes ∧
      (flag_set options K.O_MACHO_FILE_PARSE_SKIP_INVALID_ARCHITECTURES = false →
        parsed_slices fd.bytes start archs = archs) ∧
      (parsed_one_arch = false → parsed_slices fd.bytes start archs ≠ []) := by
  intro archs
  induction archs with
  | nil =>
    intro parsed_one_arch info fd h
    unfold handle_fat_parse_loop at h ⊢
    cases parsed_one_arch with
    | false => simp at h
    | true => simp [parsed_slices, slices_added]
  | cons arch rest ih =>
    intro parsed_one_arch info fd h
    unfold handle_fat_parse_loop at h ⊢
    cases hseek : fd.lseek_set (wrap64 (start + arch.offset)) with
    | none =>
      rw [hseek] at h
      cases h
    | some fd1 =>
      have hfd1 := lseek_set_eq hseek
      subst hfd1
      rw [hseek] at h
      simp only at h ⊢
      have hmagic : (mach_header_of_bytes
          (({ bytes := fd.bytes, pos := wrap64 (start + arch.offset) } : Fd).read
            sizeof_mach_header).1).magic = fat_slice_magic fd.bytes start arch := rfl
      rw [hmagic] at h ⊢
      by_cases hskip : (!(fat_slice_magic fd.bytes start arch == MH_CIGAM ||
          fat_slice_magic fd.bytes start arch == MH_CIGAM_64) &&
          !thin_magic_is_valid (fat_slice_magic fd.bytes start arch)) = true
      · have hnot : fat_slice_is_parsed fd.bytes start arch = false := by
          unfold fat_slice_is_parsed
          revert hskip
          cases (fat_slice_magic fd.bytes start arch == MH_CIGAM) <;>
            cases (fat_slice_magic fd.bytes start arch == MH_CIGAM_64) <;>
            cases (thin_magic_is_valid (fat_slice_magic fd.bytes start arch)) <;> simp
        have hps : parsed_slices fd.bytes start (arch :: rest) =
            parsed_slices fd.bytes start rest := by
          unfold parsed_slices
          rw [List.filter_cons_of_neg (by simp [hnot])]
        rw [if_pos hskip] at h ⊢
        by_cases hflag : flag_set options K.O_MACHO_FILE_PARSE_SKIP_INVALID_ARCHITECTURES = true
        · rw [if_pos hflag] at h ⊢
          have hrec := ih parsed_one_arch info
            (({ bytes := fd.bytes, pos := wrap64 (start + arch.offset) } : Fd).read
              sizeof_mach_header).2 h
          rw [hps]
          refine ⟨hrec.1, hrec.2.1, fun hc => ?_, hrec.2.2.2⟩
          rw [hflag] at hc
          cases hc
        · rw [if_neg hflag] at h
          cases h
      · have hyes : fat_slice_is_parsed fd.bytes start arch = true := by
          unfold fat_slice_is_parsed
          revert hskip
          cases (fat_slice_magic fd.bytes start arch == MH_CIGAM) <;>
            cases (fat_slice_magic fd.bytes start arch == MH_CIGAM_64) <;>
            cases (thin_magic_is_valid (fat_slice_magic fd.bytes start arch)) <;> simp
        have hps : parsed_slices fd.bytes start (arch :: rest) =
            arch :: parsed_slices fd.bytes start rest := by
          unfold parsed_slices
          rw [List.filter_cons_of_pos (by simp [hyes])]
        rw [if_neg hskip] at h ⊢
        generalize hhdr : (if (fat_slice_magic fd.bytes start arch == MH_CIGAM ||
            fat_slice_magic fd.bytes start arch == MH_CIGAM_64) = true then
          mach_header_swap (mach_header_of_bytes
            (({ bytes := fd.bytes, pos := wrap64 (start + arch.offset) } : Fd).read
              sizeof_mach_header).1)
          else mach_header_of_bytes
            (({ bytes := fd.bytes, pos := wrap64 (start + arch.offset) } : Fd).read
              sizeof_mach_header).1) = header at h ⊢
        by_cases hc1 : header.cputype ≠ arch.cputype
        · rw [if_pos hc1] at h
          cases h
        rw [if_neg hc1] at h ⊢
        by_cases hc2 : header.cpusubtype ≠ arch.cpusubtype
        · rw [if_pos hc2] at h
          cases h
        rw [if_neg hc2] at h ⊢
        by_cases hthin : (parse_thin_file K info
            (({ bytes := fd.bytes, pos := wrap64 (start + arch.offset) } : Fd).read
              sizeof_mach_header).2 header
            (fat_slice_magic fd.bytes start arch == MH_CIGAM ||
              fat_slice_magic fd.bytes start arch == MH_CIGAM_64)
            (wrap64 (start + arch.offset)) arch.size tbd_options options).1 =
            E_MACHO_FILE_PARSE_OK
        · rw [if_neg (not_not.2 hthin)] at h ⊢
          obtain ⟨k, hk, hadded, hbytes⟩ := parse_thin_file_ok K hK _ _ _ _ _ _ _ _ hthin
          have hbytes2 : (parse_thin_file K info
              (({ bytes := fd.bytes, pos := wrap64 (start + arch.offset) } : Fd).read
                sizeof_mach_header).2 header
              (fat_slice_magic fd.bytes start arch == MH_CIGAM ||
                fat_slice_magic fd.bytes start arch == MH_CIGAM_64)
              (wrap64 (start + arch.offset)) arch.size tbd_options options).2.2.bytes =
              fd.bytes := hbytes
          have hrec := ih true _ _ h
          rw [hbytes2] at hrec
          rw [hps]
          refine ⟨⟨k, _, ?_, hadded, hrec.1⟩, hrec.2.1, fun hc => ?_, fun _ => by simp⟩
          · rw [← not_not.1 hc1, ← not_not.1 hc2]
            exact hk
          · rw [hrec.2.2.1 hc]
        · rw [if_pos hthin] at h
          exact absurd h hthin

/-- Setting a bit that was clear adds one to the count of the set bits among the indices
of a list without repetition that holds the index of the bit. -/
theorem length_filter_set_bit (x k : Nat) (hclear : x.testBit k = false) :
    ∀ l : List Nat, l.Nodup →
      ((l.filter (fun i => (x ||| 1 <<< k).testBit i)).length =
        (l.filter (fun i => x.testBit i)).length + (if k ∈ l then 1 else 0)) := by
  intro l
  induction l with
  | nil =>
    intro _
    simp
  | cons a t ih =>
    intro hnd
    have hnd2 := (List.nodup_cons.1 hnd)
    have iht := ih hnd2.2
    have hbit : (x ||| 1 <<< k).testBit a = (x.testBit a || decide (k = a)) := by
      rw [Nat.testBit_or, Nat.one_shiftLeft, Nat.testBit_two_pow]
    by_cases hka : k = a
    · subst hka
      have hkt : k ∉ t := hnd2.1
      simp only [List.filter_cons, hbit, hclear, decide_True, Bool.or_true, if_true,
        Bool.false_eq_true, if_false, List.length_cons, List.mem_cons, true_or] at iht ⊢
      rw [iht, if_neg hkt]
    · have hmem : (k ∈ a :: t) ↔ k ∈ t := by
        simp [hka]
      simp only [List.filter_cons, hbit, hka, decide_False, Bool.or_false, hmem]
      by_cases hxa : x.testBit a = true
      · simp only [hxa, if_true, List.length_cons]
        rw [iht]
        omega
      · simp only [hxa, Bool.false_eq_true, if_false]
        exact iht

/-- Setting a bit below 64 that was clear adds one to the count of the set bits. -/
theorem popcount_set_bit (x k : Nat) (hk : k < 64) (hclear : x.testBit k = false) :
    popcount (x ||| 1 <<< k) = popcount x + 1 := by
  unfold popcount
  rw [length_filter_set_bit x k hclear (List.range 64) (List.nodup_range 64),
    if_pos (List.mem_range.2 hk)]

/-- The change of `archs` by the slices of a fat file. -/
theorem slices_added_archs (K : Externals) :
    ∀ (l : List fat_arch) (a b : tbd_create_info), slices_added K l a b →
      b.archs = a.archs ||| arch_bits_of l := by
  intro l
  induction l with
  | nil =>
    intro a b h
    have e : b = a := h
    rw [e]
    simp [arch_bits_of]
  | cons s rest ih =>
    intro a b h
    obtain ⟨k, mid, hk, hadd, hrest⟩ := h
    rw [ih mid b hrest, hadd.2.2.1]
    simp only [arch_bits_of, hk]
    rw [Nat.lor_assoc]

/-- The slices of a fat file keep the masks of the exports within `archs`. -/
theorem slices_added_exports (K : Externals) :
    ∀ (l : List fat_arch) (a b : tbd_create_info), slices_added K l a b →
      (∀ e ∈ a.exports, archs_within e.archs a.archs) →
      ∀ e ∈ b.exports, archs_within e.archs b.archs := by
  intro l
  induction l with
  | nil =>
    intro a b h
    have e : b = a := h
    rw [e]
    exact fun h => h
  | cons s rest ih =>
    intro a b h ha
    obtain ⟨k, mid, hk, hadd, hrest⟩ := h
    apply ih mid b hrest
    apply hadd.2.2.2.2 mid.archs
    · intro i hi
      rw [hadd.2.2.1, Nat.testBit_or, hi, Bool.or_true]
    · intro e he i hi
      rw [hadd.2.2.1, Nat.testBit_or, ha e he i hi, Bool.true_or]

/-- The verification loop of `handle_fat_32_file`, when it accepts the records, returns
them swapped and in order. -/
theorem fat_32_verify_loop_ok (is_big_endian : Bool) (total_headers_size start size : Nat) :
    ∀ (raws verified out : List fat_arch),
      fat_32_verify_loop is_big_endian total_headers_size start size verified raws = .ok out →
      out = verified ++ raws.map (fat_arch_swap_32 is_big_endian) := by
  intro raws
  induction raws with
  | nil =>
    intro verified out h
    unfold fat_32_verify_loop at h
    cases h
    simp
  | cons raw rest ih =>
    intro verified out h
    unfold fat_32_verify_loop at h
    simp only at h
    split at h
    · cases h
    · split_ifs at h
      have := ih _ _ h
      rw [this]
      simp

/-- The verification pass of `handle_fat_32_file`, when it accepts the records, returns
them swapped and in order. -/
theorem fat_32_verify_ok (is_big_endian : Bool) (total_headers_size start size : Nat)
    (archs out : List fat_arch)
    (h : fat_32_verify is_big_endian total_headers_size start size archs = .ok out) :
    out = archs.map (fat_arch_swap_32 is_big_endian) := by
  unfold fat_32_verify at h
  cases archs with
  | nil => cases h
  | cons raw rest =>
    simp only at h
    split at h
    · cases h
    · have := fat_32_verify_loop_ok _ _ _ _ _ _ _ h
      rw [this]
      simp

/-- The verification loop of `handle_fat_64_file`, when it accepts the records, returns
them swapped and in order. -/
theorem fat_64_verify_loop_ok (is_big_endian : Bool) (total_headers_size start size : Nat) :
    ∀ (raws verified out : List fat_arch),
      fat_64_verify_loop is_big_endian total_headers_size start size verified raws = .ok out →
      out = verified ++ raws.map (fat_arch_swap_64 is_big_endian) := by
  intro raws
  induction raws with
  | nil =>
    intro verified out h
    unfold fat_64_verify_loop at h
    cases h
    simp
  | cons raw rest ih =>
    intro verified out h
    unfold fat_64_verify_loop at h
    simp only at h
    split at h
    · cases h
    · split_ifs at h
      have := ih _ _ h
      rw [this]
      simp

/-- The verification pass of `handle_fat_64_file`, when it accepts the records, returns
them swapped and in order. -/
theorem fat_64_verify_ok (is_big_endian : Bool) (total_headers_size start size : Nat)
    (archs out : List fat_arch)
    (h : fat_64_verify is_big_endian total_headers_size start size archs = .ok out) :
    out = archs.map (fat_arch_swap_64 is_big_endian) := by
  unfold fat_64_verify at h
  cases archs with
  | nil => cases h
  | cons raw rest =>
    simp only at h
    split at h
    · cases h
    · have := fat_64_verify_loop_ok _ _ _ _ _ _ _ h
      rw [this]
      simp

/-- A code that the checks of a fat-32 record return is not ok. -/
theorem fat_32_check_arch_ne_ok (arch : fat_arch) (total_headers_size start size : Nat)
    (e : macho_file_parse_result)
    (h : fat_32_check_arch arch total_headers_size start size = some e) :
    e ≠ E_MACHO_FILE_PARSE_OK := by
  unfold fat_32_check_arch at h
  simp only at h
  split_ifs at h
  all_goals first
    | (cases h; intro hc; cases hc)
    | (split at h
       · cases h; intro hc; cases hc
       · split at h
         · cases h; intro hc; cases hc
         · cases h)

/-- A code that the checks of a fat-64 record return is not ok. -/
theorem fat_64_check_arch_ne_ok (arch : fat_arch) (total_headers_size start size : Nat)
    (e : macho_file_parse_result)
    (h : fat_64_check_arch arch total_headers_size start size = some e) :
    e ≠ E_MACHO_FILE_PARSE_OK := by
  unfold fat_64_check_arch at h
  simp only at h
  repeat' split at h
  all_goals first
    | (cases h; intro hc; cases hc)
    | cases h

/-- An error of the verification loop of `handle_fat_32_file` is not ok. -/
theorem fat_32_verify_loop_error (is_big_endian : Bool) (total_headers_size start size : Nat) :
    ∀ (raws verified : List fat_arch) (e : macho_file_parse_result),
      fat_32_verify_loop is_big_endian total_headers_size start size verified raws = .error e →
      e ≠ E_MACHO_FILE_PARSE_OK := by
  intro raws
  induction raws with
  | nil =>
    intro verified e h
    unfold fat_32_verify_loop at h
    cases h
  | cons raw rest ih =>
    intro verified e h
    unfold fat_32_verify_loop at h
    simp only at h
    split at h
    · rename_i e1 he1
      cases h
      exact fat_32_check_arch_ne_ok _ _ _ _ _ he1
    · split_ifs at h
      · cases h
        intro hc
        cases hc
      · exact ih _ _ h

/-- An error of the verification pass of `handle_fat_32_file` is not ok. -/
theorem fat_32_verify_error (is_big_endian : Bool) (total_headers_size start size : Nat)
    (archs : List fat_arch) (e : macho_file_parse_result)
    (h : fat_32_verify is_big_endian total_headers_size start size archs = .error e) :
    e ≠ E_MACHO_FILE_PARSE_OK := by
  unfold fat_32_verify at h
  cases archs with
  | nil =>
    cases h
    intro hc
    cases hc
  | cons raw rest =>
    simp only at h
    split at h
    · rename_i e1 he1
      cases h
      exact fat_32_check_arch_ne_ok _ _ _ _ _ he1
    · exact fat_32_verify_loop_error _ _ _ _ _ _ _ h

/-- An error of the verification loop of `handle_fat_64_file` is not ok. -/
theorem fat_64_verify_loop_error (is_big_endian : Bool) (total_headers_size start size : Nat) :
    ∀ (raws verified : List fat_arch) (e : macho_file_parse_result),
      fat_64_verify_loop is_big_endian total_headers_size start size verified raws = .error e →
      e ≠ E_MACHO_FILE_PARSE_OK := by
  intro raws
  induction raws with
  | nil =>
    intro verified e h
    unfold fat_64_verify_loop at h
    cases h
  | cons raw rest ih =>
    intro verified e h
    unfold fat_64_verify_loop at h
    simp only at h
    split at h
    · rename_i e1 he1
      cases h
      exact fat_64_check_arch_ne_ok _ _ _ _ _ he1
    · split_ifs at h
      · cases h
        intro hc
        cases hc
      · exact ih _ _ h

/-- An error of the verification pass of `handle_fat_64_file` is not ok. -/
theorem fat_64_verify_error (is_big_endian : Bool) (total_headers_size start size : Nat)
    (archs : List fat_arch) (e : macho_file_parse_result)
    (h : fat_64_verify is_big_endian total_headers_size start size archs = .error e) :
    e ≠ E_MACHO_FILE_PARSE_OK := by
  unfold fat_64_verify at h
  cases archs with
  | nil =>
    cases h
    intro hc
    cases hc
  | cons raw rest =>
    simp only at h
    split at h
    · rename_i e1 he1
      cases h
      exact fat_64_check_arch_ne_ok _ _ _ _ _ he1
    · exact fat_64_verify_loop_error _ _ _ _ _ _ _ h

/-- Function `handle_fat_32_file`, when it returns ok: the slices of the records with a
Mach-O magic number were parsed by the thin handler, each with ok; the file is not changed. -/
theorem handle_fat_32_file_ok (K : Externals) (hK : symbol_parsers_keep K)
    (info_in : tbd_create_info) (fd : Fd) (is_big_endian : Bool)
    (nfat_arch start size tbd_options options : Nat)
    (h : (handle_fat_32_file K info_in fd is_big_endian nfat_arch start size tbd_options
      options).1 = E_MACHO_FILE_PARSE_OK) :
    slices_added K (parsed_slices fd.bytes start (fat_32_records fd is_big_endian nfat_arch))
      info_in (handle_fat_32_file K info_in fd is_big_endian nfat_arch start size tbd_options
        options).2.1 ∧
    (handle_fat_32_file K info_in fd is_big_endian nfat_arch start size tbd_options
      options).2.2.bytes = fd.bytes ∧
    (flag_set options K.O_MACHO_FILE_PARSE_SKIP_INVALID_ARCHITECTURES = false →
      parsed_slices fd.bytes start (fat_32_records fd is_big_endian nfat_arch) =
        fat_32_records fd is_big_endian nfat_arch) ∧
    parsed_slices fd.bytes start (fat_32_records fd is_big_endian nfat_arch) ≠ [] := by
  unfold handle_fat_32_file at h ⊢
  unfold guard_overflow_mul at h ⊢
  by_cases h1 : sizeof_fat_arch * nfat_arch < 2 ^ 64
  · rw [if_pos h1] at h ⊢
    simp only at h ⊢
    generalize h2 : guard_overflow_add 64 sizeof_fat_header (sizeof_fat_arch * nfat_arch) =
      total at h ⊢
    cases total with
    | none =>
      cases h
    | some total_headers_size =>
      simp only at h ⊢
      by_cases h3 : total_headers_size ≥ size
      · rw [if_pos h3] at h
        cases h
      · rw [if_neg h3] at h ⊢
        generalize h4 : fat_32_verify is_big_endian total_headers_size start size
            (List.map (fat_arch_of_bytes (fd.read (sizeof_fat_arch * nfat_arch)).1)
              (List.range nfat_arch)) = verdict at h ⊢
        cases verdict with
        | error e =>
          exact absurd h (fat_32_verify_error _ _ _ _ _ _ h4)
        | ok verified =>
          simp only at h ⊢
          have hv := fat_32_verify_ok _ _ _ _ _ _ h4
          have hrec : verified = fat_32_records fd is_big_endian nfat_arch := by
            rw [hv]
            unfold fat_32_records
            rw [List.map_map]
            rfl
          have hloop := handle_fat_parse_loop_ok K hK start tbd_options options verified false
            info_in (fd.read (sizeof_fat_arch * nfat_arch)).2 h
          rw [read_bytes, hrec] at hloop
          rw [hrec]
          exact ⟨hloop.1, hloop.2.1, hloop.2.2.1, hloop.2.2.2 rfl⟩
  · rw [if_neg h1] at h
    cases h

/-- Function `handle_fat_64_file`, when it returns ok: the slices of the records with a
Mach-O magic number were parsed by the thin handler, each with ok; the file is not changed. -/
theorem handle_fat_64_file_ok (K : Externals) (hK : symbol_parsers_keep K)
    (info_in : tbd_create_info) (fd : Fd) (is_big_endian : Bool)
    (nfat_arch start size tbd_options options : Nat)
    (h : (handle_fat_64_file K info_in fd is_big_endian nfat_arch start size tbd_options
      options).1 = E_MACHO_FILE_PARSE_OK) :
    slices_added K (parsed_slices fd.bytes start (fat_64_records fd is_big_endian nfat_arch))
      info_in (handle_fat_64_file K info_in fd is_big_endian nfat_arch start size tbd_options
        options).2.1 ∧
    (handle_fat_64_file K info_in fd is_big_endian nfat_arch start size tbd_options
      options).2.2.bytes = fd.bytes ∧
    (flag_set options K.O_MACHO_FILE_PARSE_SKIP_INVALID_ARCHITECTURES = false →
      parsed_slices fd.bytes start (fat_64_records fd is_big_endian nfat_arch) =
        fat_64_records fd is_big_endian nfat_arch) ∧
    parsed_slices fd.bytes start (fat_64_records fd is_big_endian nfat_arch) ≠ [] := by
  unfold handle_fat_64_file at h ⊢
  unfold guard_overflow_mul at h ⊢
  by_cases h1 : sizeof_fat_arch_64 * nfat_arch < 2 ^ 64
  · rw [if_pos h1] at h ⊢
    simp only at h ⊢
    generalize h2 : guard_overflow_add 64 sizeof_fat_header (sizeof_fat_arch_64 * nfat_arch) =
      total at h ⊢
    cases total with
    | none =>
      cases h
    | some total_headers_size =>
      simp only at h ⊢
      by_cases h3 : total_headers_size ≥ size
      · rw [if_pos h3] at h
        cases h
      · rw [if_neg h3] at h ⊢
        generalize h4 : fat_64_verify is_big_endian total_headers_size start size
            (List.map (fat_arch_64_of_bytes (fd.read (sizeof_fat_arch_64 * nfat_arch)).1)
              (List.range nfat_arch)) = verdict at h ⊢
        cases verdict with
        | error e =>
          exact absurd h (fat_64_verify_error _ _ _ _ _ _ h4)
        | ok verified =>
          simp only at h ⊢
          have hv := fat_64_verify_ok _ _ _ _ _ _ h4
          have hrec : verified = fat_64_records fd is_big_endian nfat_arch := by
            rw [hv]
            unfold fat_64_records
            rw [List.map_map]
            rfl
          have hloop := handle_fat_parse_loop_ok K hK start tbd_options options verified false
            info_in (fd.read (sizeof_fat_arch_64 * nfat_arch)).2 h
          rw [read_bytes, hrec] at hloop
          rw [hrec]
          exact ⟨hloop.1, hloop.2.1, hloop.2.2.1, hloop.2.2.2 rfl⟩
  · rw [if_neg h1] at h
    cases h

/-- Every slice that the parse loop hands to the thin handler with ok has its pair in the
architecture table. -/
theorem slices_added_found (K : Externals) :
    ∀ (l : List fat_arch) (a b : tbd_create_info), slices_added K l a b →
      ∀ s ∈ l, ∃ k, arch_info_for_cputype s.cputype s.cpusubtype = some k := by
  intro l
  induction l with
  | nil =>
    intro a b _ s hs
    cases hs
  | cons x rest ih =>
    intro a b h s hs
    obtain ⟨k, mid, hk, _, hrest⟩ := h
    rcases List.mem_cons.1 hs with e | hmem
    · rw [e]
      exact ⟨k, hk⟩
    · exact ih mid b hrest s hmem

/-! ## Fat files -/

/-- C14: for every fat file (fat-32 or fat-64) parsed from an aggregate whose `archs` is 0,
if the handler returns ok then `archs` is the bitwise OR of `1 << k` over the indices `k` in
the architecture table of the pairs `(cputype, cpusubtype)` of the slices that were parsed,
each of which is found in the table; the parsed slices are those whose magic number is a
Mach-O magic number, and they are all slices of the file when skip-invalid-architectures is
not set. The symbol-table parsers, which are not under src/, are assumed to leave `archs`
and the file alone. -/
theorem C14_fat_archs_are_the_parsed_slices (K : Externals) (hK : symbol_parsers_keep K)
    (info_in : tbd_create_info) (fd : Fd) (is_big_endian : Bool)
    (nfat_arch start size tbd_options options : Nat) (h0 : info_in.archs = 0) :
    ((handle_fat_32_file K info_in fd is_big_endian nfat_arch start size tbd_options
        options).1 = E_MACHO_FILE_PARSE_OK →
      (handle_fat_32_file K info_in fd is_big_endian nfat_arch start size tbd_options
        options).2.1.archs =
        arch_bits_of (parsed_slices fd.bytes start (fat_32_records fd is_big_endian nfat_arch)) ∧
      (∀ s ∈ parsed_slices fd.bytes start (fat_32_records fd is_big_endian nfat_arch),
        ∃ k, arch_info_for_cputype s.cputype s.cpusubtype = some k) ∧
      (flag_set options K.O_MACHO_FILE_PARSE_SKIP_INVALID_ARCHITECTURES = false →
        parsed_slices fd.bytes start (fat_32_records fd is_big_endian nfat_arch) =
          fat_32_records fd is_big_endian nfat_arch)) ∧
    ((handle_fat_64_file K info_in fd is_big_endian nfat_arch start size tbd_options
        options).1 = E_MACHO_FILE_PARSE_OK →
      (handle_fat_64_file K info_in fd is_big_endian nfat_arch start size tbd_options
        options).2.1.archs =
        arch_bits_of (parsed_slices fd.bytes start (fat_64_records fd is_big_endian nfat_arch)) ∧
      (∀ s ∈ parsed_slices fd.bytes start (fat_64_records fd is_big_endian nfat_arch),
        ∃ k, arch_info_for_cputype s.cputype s.cpusubtype = some k) ∧
      (flag_set options K.O_MACHO_FILE_PARSE_SKIP_INVALID_ARCHITECTURES = false →
        parsed_slices fd.bytes start (fat_64_records fd is_big_endian nfat_arch) =
          fat_64_records fd is_big_endian nfat_arch)) := by
  constructor
  · intro h
    have hok := handle_fat_32_file_ok K hK info_in fd is_big_endian nfat_arch start size
      tbd_options options h
    refine ⟨?_, slices_added_found K _ _ _ hok.1, hok.2.2.1⟩
    rw [slices_added_archs K _ _ _ hok.1, h0, Nat.zero_or]
  · intro h
    have hok := handle_fat_64_file_ok K hK info_in fd is_big_endian nfat_arch start size
      tbd_options options h
    refine ⟨?_, slices_added_found K _ _ _ hok.1, hok.2.2.1⟩
    rw [slices_added_archs K _ _ _ hok.1, h0, Nat.zero_or]

set_option maxRecDepth 100000 in
/-- Witness of C14: a fat-32 file and a fat-64 file with the slices for `(7, 3)`, of index 6,
and `(18, 0)`, of index 33; `archs` becomes `1 << 6 | 1 << 33`. -/
theorem C14_fat_archs_are_the_parsed_slices_witness :
    empty_create_info.archs = 0 ∧
    (handle_fat_32_file sample_externals empty_create_info ⟨sample_fat_32_file, 8⟩ true 2 0
      296 0 0).1 = E_MACHO_FILE_PARSE_OK ∧
    (handle_fat_32_file sample_externals empty_create_info ⟨sample_fat_32_file, 8⟩ true 2 0
      296 0 0).2.1.archs =
      arch_bits_of (parsed_slices sample_fat_32_file 0
        (fat_32_records ⟨sample_fat_32_file, 8⟩ true 2)) ∧
    arch_bits_of (parsed_slices sample_fat_32_file 0
      (fat_32_records ⟨sample_fat_32_file, 8⟩ true 2)) = 1 <<< 6 ||| 1 <<< 33 ∧
    (handle_fat_64_file sample_externals empty_create_info ⟨sample_fat_64_file, 8⟩ true 2 0
      320 0 0).1 = E_MACHO_FILE_PARSE_OK ∧
    (handle_fat_64_file sample_externals empty_create_info ⟨sample_fat_64_file, 8⟩ true 2 0
      320 0 0).2.1.archs =
      arch_bits_of (parsed_slices sample_fat_64_file 0
        (fat_64_records ⟨sample_fat_64_file, 8⟩ true 2)) :=
  ⟨rfl, by decide,
    ((C14_fat_archs_are_the_parsed_slices sample_externals sample_externals_keep
      empty_create_info ⟨sample_fat_32_file, 8⟩ true 2 0 296 0 0 rfl).1 (by decide)).1,
    by decide, by decide,
    ((C14_fat_archs_are_the_parsed_slices sample_externals sample_externals_keep
      empty_create_info ⟨sample_fat_64_file, 8⟩ true 2 0 320 0 0 rfl).2 (by decide)).1⟩

/-- The slices of a fat file keep `archs` below `2 ^ 64`. -/
theorem slices_added_archs_lt (K : Externals) :
    ∀ (l : List fat_arch) (a b : tbd_create_info), slices_added K l a b →
      a.archs < 2 ^ 64 → b.archs < 2 ^ 64 := by
  intro l
  induction l with
  | nil =>
    intro a b h ha
    have e : b = a := h
    rw [e]
    exact ha
  | cons s rest ih =>
    intro a b h ha
    obtain ⟨k, mid, _, hadd, hrest⟩ := h
    apply ih mid b hrest
    rw [hadd.2.2.1]
    apply Nat.or_lt_two_pow ha
    rw [Nat.one_shiftLeft]
    exact Nat.pow_lt_pow_right (by decide) hadd.1

/-- The end of `macho_file_parse_from_file`, when it returns ok: the handler returned ok,
`archs` and `uuids` are those the handler left and the exports are rearranged. -/
theorem macho_file_parse_from_file_finish_ok (K : Externals) (tbd_options : Nat)
    (ret : macho_file_parse_result × tbd_create_info × Fd)
    (h : (macho_file_parse_from_file_finish K tbd_options ret).1 = E_MACHO_FILE_PARSE_OK) :
    ret.1 = E_MACHO_FILE_PARSE_OK ∧
    (macho_file_parse_from_file_finish K tbd_options ret).2.1.archs = ret.2.1.archs ∧
    (macho_file_parse_from_file_finish K tbd_options ret).2.1.uuids = ret.2.1.uuids ∧
    (macho_file_parse_from_file_finish K tbd_options ret).2.1.exports.Perm
      ret.2.1.exports := by
  unfold macho_file_parse_from_file_finish array_sort_items_with_comparator at h ⊢
  by_cases h1 : ret.1 ≠ E_MACHO_FILE_PARSE_OK
  · rw [if_pos h1] at h
    exact absurd h h1
  rw [if_neg h1] at h ⊢
  by_cases h2 : (!flag_set tbd_options K.O_TBD_PARSE_IGNORE_MISSING_EXPORTS &&
      array_is_empty ret.2.1.exports) = true
  · rw [if_pos h2] at h
    cases h
  · rw [if_neg h2]
    exact ⟨not_not.1 h1, rfl, rfl, List.perm_insertionSort _ _⟩

/-- The fat branch of `macho_file_parse_from_file`, when it returns ok: the aggregate went
through the slices of some records, each parsed with ok by the thin handler, and at least
one. -/
theorem macho_file_parse_from_file_fat_ok (K : Externals) (hK : symbol_parsers_keep K)
    (info_in : tbd_create_info) (fd : Fd) (magic tbd_options options : Nat)
    (h : (macho_file_parse_from_file_fat K info_in fd magic tbd_options options).1 =
      E_MACHO_FILE_PARSE_OK) :
    ∃ l, l ≠ [] ∧ slices_added K l info_in
      (macho_file_parse_from_file_fat K info_in fd magic tbd_options options).2.1 := by
  unfold macho_file_parse_from_file_fat at h ⊢
  simp only at h ⊢
  by_cases h1 : read_u32 (fd.read 4).1 0 = 0
  · rw [if_pos h1] at h
    cases h
  rw [if_neg h1] at h ⊢
  by_cases h2 : (magic == FAT_MAGIC_64 || magic == FAT_CIGAM_64) = true
  · rw [if_pos h2] at h ⊢
    have hok := handle_fat_64_file_ok K hK _ _ _ _ _ _ _ _ h
    exact ⟨_, hok.2.2.2, hok.1⟩
  · rw [if_neg h2] at h ⊢
    have hok := handle_fat_32_file_ok K hK _ _ _ _ _ _ _ _ h
    exact ⟨_, hok.2.2.2, hok.1⟩

/-- The thin branch of `macho_file_parse_from_file`, when it returns ok: the aggregate went
through one slice, parsed with ok by the thin handler. -/
theorem macho_file_parse_from_file_thin_ok (K : Externals) (hK : symbol_parsers_keep K)
    (info_in : tbd_create_info) (fd : Fd) (magic tbd_options options : Nat)
    (h : (macho_file_parse_from_file_thin K info_in fd magic tbd_options options).1 =
      E_MACHO_FILE_PARSE_OK) :
    ∃ l, l ≠ [] ∧ slices_added K l info_in
      (macho_file_parse_from_file_thin K info_in fd magic tbd_options options).2.1 := by
  unfold macho_file_parse_from_file_thin at h ⊢
  simp only at h ⊢
  by_cases h1 : (!(magic == MH_MAGIC || magic == MH_CIGAM || magic == MH_MAGIC_64 ||
      magic == MH_CIGAM_64)) = true
  · rw [if_pos h1] at h
    cases h
  rw [if_neg h1] at h ⊢
  obtain ⟨k, hk, hadded, _⟩ := parse_thin_file_ok K hK _ _ _ _ _ _ _ _ h
  exact ⟨[⟨_, _, 0, 0⟩], by simp, k, _, hk, hadded, rfl⟩

/-- Function `macho_file_parse_from_file`, when it returns ok for a thin or a fat file: the
aggregate went through the slices of some records, each parsed with ok by the thin handler,
and at least one; after them the exports were rearranged. -/
theorem macho_file_parse_from_file_ok (K : Externals) (hK : symbol_parsers_keep K)
    (info_in : tbd_create_info) (fd : Fd) (magic tbd_options options : Nat)
    (h : (macho_file_parse_from_file K info_in fd magic tbd_options options).1 =
      E_MACHO_FILE_PARSE_OK) :
    ∃ l mid, l ≠ [] ∧ slices_added K l info_in mid ∧
      (macho_file_parse_from_file K info_in fd magic tbd_options options).2.1.archs =
        mid.archs ∧
      (macho_file_parse_from_file K info_in fd magic tbd_options options).2.1.uuids =
        mid.uuids ∧
      (macho_file_parse_from_file K info_in fd magic tbd_options options).2.1.exports.Perm
        mid.exports := by
  unfold macho_file_parse_from_file at h ⊢
  simp only at h ⊢
  obtain ⟨hret, h1, h2, h3⟩ := macho_file_parse_from_file_finish_ok K tbd_options _ h
  have hbranch : ∃ l, l ≠ [] ∧ slices_added K l info_in
      (if (magic == FAT_MAGIC || magic == FAT_CIGAM || magic == FAT_MAGIC_64 ||
          magic == FAT_CIGAM_64) = true then
        macho_file_parse_from_file_fat K info_in fd magic tbd_options options
      else macho_file_parse_from_file_thin K info_in fd magic tbd_options options).2.1 := by
    split_ifs at hret ⊢
    · exact macho_file_parse_from_file_fat_ok K hK _ _ _ _ _ hret
    · exact macho_file_parse_from_file_thin_ok K hK _ _ _ _ _ hret
  obtain ⟨l, hl, hs⟩ := hbranch
  exact ⟨l, _, hl, hs, h1, h2, h3⟩

/-- A mask whose bits lie within a 64-bit mask has no bit in common with the complement of
that mask. -/
theorem and_not_eq_zero_of_archs_within (a m : Nat) (hm : m < 2 ^ 64)
    (h : archs_within a m) : a &&& (2 ^ 64 - 1 - m) = 0 := by
  apply Nat.eq_of_testBit_eq
  intro i
  have e : 2 ^ 64 - 1 - m = 2 ^ 64 - (m + 1) := by omega
  rw [e, Nat.testBit_and, Nat.testBit_two_pow_sub_succ hm, Nat.zero_testBit]
  cases ha : a.testBit i with
  | false => simp
  | true => simp [h i ha]

/-- C16: for every thin or fat input that `macho_file_parse_from_file` parses with ok into
an aggregate whose `archs` is 0 and whose exports array is empty, the mask `archs` of every
export record is a subset of `archs` of the aggregate: every bit of the one is a bit of the
other, that is `archs & ~create_info.archs = 0` on 64 bits. The symbol-table parsers, which
are not under src/, are assumed to add exports for the architecture bit of their slice
only. -/
theorem C16_export_archs_within_archs (K : Externals) (hK : symbol_parsers_keep K)
    (info_in : tbd_create_info) (fd : Fd) (magic tbd_options options : Nat)
    (harchs : info_in.archs = 0) (hexports : info_in.exports = [])
    (h : (macho_file_parse_from_file K info_in fd magic tbd_options options).1 =
      E_MACHO_FILE_PARSE_OK) :
    ∀ e ∈ (macho_file_parse_from_file K info_in fd magic tbd_options options).2.1.exports,
      (∀ i, e.archs.testBit i = true →
        (macho_file_parse_from_file K info_in fd magic tbd_options
          options).2.1.archs.testBit i = true) ∧
      e.archs &&& (2 ^ 64 - 1 -
        (macho_file_parse_from_file K info_in fd magic tbd_options options).2.1.archs) = 0 := by
  obtain ⟨l, mid, _, hs, h1, _, h3⟩ := macho_file_parse_from_file_ok K hK info_in fd magic
    tbd_options options h
  have hlt : mid.archs < 2 ^ 64 := by
    apply slices_added_archs_lt K l info_in mid hs
    rw [harchs]
    decide
  have hin := slices_added_exports K l info_in mid hs (by
    rw [hexports]
    intro e he
    cases he)
  intro e he
  have hw := hin e (h3.subset he)
  rw [h1]
  exact ⟨hw, and_not_eq_zero_of_archs_within _ _ hlt hw⟩

set_option maxRecDepth 100000 in
/-- Witness of C16: a thin file with a command `LC_REEXPORT_DYLIB`, whose export record has
the mask `1 << 6` of the slice. -/
theorem C16_export_archs_within_archs_witness :
    empty_create_info.archs = 0 ∧ empty_create_info.exports = [] ∧
    (macho_file_parse_from_file sample_externals empty_create_info ⟨sample_reexport_file, 4⟩
      MH_MAGIC 0 0).1 = E_MACHO_FILE_PARSE_OK ∧
    (macho_file_parse_from_file sample_externals empty_create_info ⟨sample_reexport_file, 4⟩
      MH_MAGIC 0 0).2.1.exports = [⟨64, 1, 2, [47, 66], 1, 0⟩] ∧
    ∀ e ∈ (macho_file_parse_from_file sample_externals empty_create_info
        ⟨sample_reexport_file, 4⟩ MH_MAGIC 0 0).2.1.exports,
      (∀ i, e.archs.testBit i = true →
        (macho_file_parse_from_file sample_externals empty_create_info
          ⟨sample_reexport_file, 4⟩ MH_MAGIC 0 0).2.1.archs.testBit i = true) ∧
      e.archs &&& (2 ^ 64 - 1 -
        (macho_file_parse_from_file sample_externals empty_create_info
          ⟨sample_reexport_file, 4⟩ MH_MAGIC 0 0).2.1.archs) = 0 :=
  ⟨rfl, rfl, by decide, by decide,
    C16_export_archs_within_archs sample_externals sample_externals_keep empty_create_info
      ⟨sample_reexport_file, 4⟩ MH_MAGIC 0 0 rfl rfl (by decide)⟩

/-- Eight bytes are determined by the 64-bit value they make in little-endian order. -/
theorem le_bytes_eq_iff (b0 b1 b2 b3 b4 b5 b6 b7 c0 c1 c2 c3 c4 c5 c6 c7 : Nat)
    (hb0 : b0 < 256) (hb1 : b1 < 256) (hb2 : b2 < 256) (hb3 : b3 < 256)
    (hb4 : b4 < 256) (hb5 : b5 < 256) (hb6 : b6 < 256) (_hb7 : b7 < 256)
    (hc0 : c0 < 256) (hc1 : c1 < 256) (hc2 : c2 < 256) (hc3 : c3 < 256)
    (hc4 : c4 < 256) (hc5 : c5 < 256) (hc6 : c6 < 256) (hc7 : c7 < 256) :
    b0 + b1 * 2 ^ 8 + b2 * 2 ^ 16 + b3 * 2 ^ 24 +
        (b4 + b5 * 2 ^ 8 + b6 * 2 ^ 16 + b7 * 2 ^ 24) * 2 ^ 32 =
      c0 + c1 * 2 ^ 8 + c2 * 2 ^ 16 + c3 * 2 ^ 24 +
        (c4 + c5 * 2 ^ 8 + c6 * 2 ^ 16 + c7 * 2 ^ 24) * 2 ^ 32 ↔
    b0 = c0 ∧ b1 = c1 ∧ b2 = c2 ∧ b3 = c3 ∧ b4 = c4 ∧ b5 = c5 ∧ b6 = c6 ∧ b7 = c7 := by
  constructor
  · intro h
    omega
  · rintro ⟨rfl, rfl, rfl, rfl, rfl, rfl, rfl, rfl⟩
    rfl

/-- C24: for every 16-byte name, `segment_has_image_info_sect` returns true exactly for the
names `"__DATA"`, `"__DATA_DIRTY"`, `"__DATA_CONST"` and `"__OBJC"` padded with zero bytes to
16 bytes, and `is_image_info_section` returns true exactly for `"__image_info"` padded with
zero bytes and for the 16 characters `"__objc_imageinfo"`. -/
theorem C24_image_info_names (b0 b1 b2 b3 b4 b5 b6 b7 b8 b9 b10 b11 b12 b13 b14 b15 : Nat)
    (h0 : b0 < 256) (h1 : b1 < 256) (h2 : b2 < 256) (h3 : b3 < 256) (h4 : b4 < 256)
    (h5 : b5 < 256) (h6 : b6 < 256) (h7 : b7 < 256) (h8 : b8 < 256) (h9 : b9 < 256)
    (h10 : b10 < 256) (h11 : b11 < 256) (h12 : b12 < 256) (h13 : b13 < 256)
    (h14 : b14 < 256) (h15 : b15 < 256) :
    (segment_has_image_info_sect
        [b0, b1, b2, b3, b4, b5, b6, b7, b8, b9, b10, b11, b12, b13, b14, b15] 0 = true ↔
      [b0, b1, b2, b3, b4, b5, b6, b7, b8, b9, b10, b11, b12, b13, b14, b15] =
          [95, 95, 68, 65, 84, 65, 0, 0, 0, 0, 0, 0, 0, 0, 0, 0] ∨
        [b0, b1, b2, b3, b4, b5, b6, b7, b8, b9, b10, b11, b12, b13, b14, b15] =
          [95, 95, 68, 65, 84, 65, 95, 68, 73, 82, 84, 89, 0, 0, 0, 0] ∨
        [b0, b1, b2, b3, b4, b5, b6, b7, b8, b9, b10, b11, b12, b13, b14, b15] =
          [95, 95, 68, 65, 84, 65, 95, 67, 79, 78, 83, 84, 0, 0, 0, 0] ∨
        [b0, b1, b2, b3, b4, b5, b6, b7, b8, b9, b10, b11, b12, b13, b14, b15] =
          [95, 95, 79, 66, 74, 67, 0, 0, 0, 0, 0, 0, 0, 0, 0, 0]) ∧
    (is_image_info_section
        [b0, b1, b2, b3, b4, b5, b6, b7, b8, b9, b10, b11, b12, b13, b14, b15] 0 = true ↔
      [b0, b1, b2, b3, b4, b5, b6, b7, b8, b9, b10, b11, b12, b13, b14, b15] =
          [95, 95, 105, 109, 97, 103, 101, 95, 105, 110, 102, 111, 0, 0, 0, 0] ∨
        [b0, b1, b2, b3, b4, b5, b6, b7, b8, b9, b10, b11, b12, b13, b14, b15] =
          [95, 95, 111, 98, 106, 99, 95, 105, 109, 97, 103, 101, 105, 110, 102, 111]) := by
  have hA1 : b0 + b1 * 2 ^ 8 + b2 * 2 ^ 16 + b3 * 2 ^ 24 +
        (b4 + b5 * 2 ^ 8 + b6 * 2 ^ 16 + b7 * 2 ^ 24) * 2 ^ 32 = 71830128058207 ↔
      b0 = 95 ∧ b1 = 95 ∧ b2 = 68 ∧ b3 = 65 ∧ b4 = 84 ∧ b5 = 65 ∧ b6 = 0 ∧ b7 = 0 :=
    le_bytes_eq_iff b0 b1 b2 b3 b4 b5 b6 b7 95 95 68 65 84 65 0 0 h0 h1 h2 h3 h4 h5 h6 h7
      (by decide) (by decide) (by decide) (by decide) (by decide) (by decide) (by decide)
      (by decide)
  have hA2 : b0 + b1 * 2 ^ 8 + b2 * 2 ^ 16 + b3 * 2 ^ 24 +
        (b4 + b5 * 2 ^ 8 + b6 * 2 ^ 16 + b7 * 2 ^ 24) * 2 ^ 32 = 4926728347494670175 ↔
      b0 = 95 ∧ b1 = 95 ∧ b2 = 68 ∧ b3 = 65 ∧ b4 = 84 ∧ b5 = 65 ∧ b6 = 95 ∧ b7 = 68 :=
    le_bytes_eq_iff b0 b1 b2 b3 b4 b5 b6 b7 95 95 68 65 84 65 95 68 h0 h1 h2 h3 h4 h5 h6 h7
      (by decide) (by decide) (by decide) (by decide) (by decide) (by decide) (by decide)
      (by decide)
  have hA3 : b0 + b1 * 2 ^ 8 + b2 * 2 ^ 16 + b3 * 2 ^ 24 +
        (b4 + b5 * 2 ^ 8 + b6 * 2 ^ 16 + b7 * 2 ^ 24) * 2 ^ 32 = 4854670753456742239 ↔
      b0 = 95 ∧ b1 = 95 ∧ b2 = 68 ∧ b3 = 65 ∧ b4 = 84 ∧ b5 = 65 ∧ b6 = 95 ∧ b7 = 67 :=
    le_bytes_eq_iff b0 b1 b2 b3 b4 b5 b6 b7 95 95 68 65 84 65 95 67 h0 h1 h2 h3 h4 h5 h6 h7
      (by decide) (by decide) (by decide) (by decide) (by decide) (by decide) (by decide)
      (by decide)
  have hA4 : b0 + b1 * 2 ^ 8 + b2 * 2 ^ 16 + b3 * 2 ^ 24 +
        (b4 + b5 * 2 ^ 8 + b6 * 2 ^ 16 + b7 * 2 ^ 24) * 2 ^ 32 = 73986219138911 ↔
      b0 = 95 ∧ b1 = 95 ∧ b2 = 79 ∧ b3 = 66 ∧ b4 = 74 ∧ b5 = 67 ∧ b6 = 0 ∧ b7 = 0 :=
    le_bytes_eq_iff b0 b1 b2 b3 b4 b5 b6 b7 95 95 79 66 74 67 0 0 h0 h1 h2 h3 h4 h5 h6 h7
      (by decide) (by decide) (by decide) (by decide) (by decide) (by decide) (by decide)
      (by decide)
  have hA5 : b0 + b1 * 2 ^ 8 + b2 * 2 ^ 16 + b3 * 2 ^ 24 +
        (b4 + b5 * 2 ^ 8 + b6 * 2 ^ 16 + b7 * 2 ^ 24) * 2 ^ 32 = 6874014074396041055 ↔
      b0 = 95 ∧ b1 = 95 ∧ b2 = 105 ∧ b3 = 109 ∧ b4 = 97 ∧ b5 = 103 ∧ b6 = 101 ∧ b7 = 95 :=
    le_bytes_eq_iff b0 b1 b2 b3 b4 b5 b6 b7 95 95 105 109 97 103 101 95 h0 h1 h2 h3 h4 h5 h6 h7
      (by decide) (by decide) (by decide) (by decide) (by decide) (by decide) (by decide)
      (by decide)
  have hA6 : b0 + b1 * 2 ^ 8 + b2 * 2 ^ 16 + b3 * 2 ^ 24 +
        (b4 + b5 * 2 ^ 8 + b6 * 2 ^ 16 + b7 * 2 ^ 24) * 2 ^ 32 = 7592896805339094879 ↔
      b0 = 95 ∧ b1 = 95 ∧ b2 = 111 ∧ b3 = 98 ∧ b4 = 106 ∧ b5 = 99 ∧ b6 = 95 ∧ b7 = 105 :=
    le_bytes_eq_iff b0 b1 b2 b3 b4 b5 b6 b7 95 95 111 98 106 99 95 105 h0 h1 h2 h3 h4 h5 h6 h7
      (by decide) (by decide) (by decide) (by decide) (by decide) (by decide) (by decide)
      (by decide)
  have hB1 : b8 + b9 * 2 ^ 8 + b10 * 2 ^ 16 + b11 * 2 ^ 24 +
        (b12 + b13 * 2 ^ 8 + b14 * 2 ^ 16 + b15 * 2 ^ 24) * 2 ^ 32 = 0 ↔
      b8 = 0 ∧ b9 = 0 ∧ b10 = 0 ∧ b11 = 0 ∧ b12 = 0 ∧ b13 = 0 ∧ b14 = 0 ∧ b15 = 0 :=
    le_bytes_eq_iff b8 b9 b10 b11 b12 b13 b14 b15 0 0 0 0 0 0 0 0 h8 h9 h10 h11 h12 h13 h14 h15
      (by decide) (by decide) (by decide) (by decide) (by decide) (by decide) (by decide)
      (by decide)
  have hB2 : b8 + b9 * 2 ^ 8 + b10 * 2 ^ 16 + b11 * 2 ^ 24 +
        (b12 + b13 * 2 ^ 8 + b14 * 2 ^ 16 + b15 * 2 ^ 24) * 2 ^ 32 = 1498698313 ↔
      b8 = 73 ∧ b9 = 82 ∧ b10 = 84 ∧ b11 = 89 ∧ b12 = 0 ∧ b13 = 0 ∧ b14 = 0 ∧ b15 = 0 :=
    le_bytes_eq_iff b8 b9 b10 b11 b12 b13 b14 b15 73 82 84 89 0 0 0 0 h8 h9 h10 h11 h12 h13 h14 h15
      (by decide) (by decide) (by decide) (by decide) (by decide) (by decide) (by decide)
      (by decide)
  have hB3 : b8 + b9 * 2 ^ 8 + b10 * 2 ^ 16 + b11 * 2 ^ 24 +
        (b12 + b13 * 2 ^ 8 + b14 * 2 ^ 16 + b15 * 2 ^ 24) * 2 ^ 32 = 1414745679 ↔
      b8 = 79 ∧ b9 = 78 ∧ b10 = 83 ∧ b11 = 84 ∧ b12 = 0 ∧ b13 = 0 ∧ b14 = 0 ∧ b15 = 0 :=
    le_bytes_eq_iff b8 b9 b10 b11 b12 b13 b14 b15 79 78 83 84 0 0 0 0 h8 h9 h10 h11 h12 h13 h14 h15
      (by decide) (by decide) (by decide) (by decide) (by decide) (by decide) (by decide)
      (by decide)
  have hB5 : b8 + b9 * 2 ^ 8 + b10 * 2 ^ 16 + b11 * 2 ^ 24 +
        (b12 + b13 * 2 ^ 8 + b14 * 2 ^ 16 + b15 * 2 ^ 24) * 2 ^ 32 = 1868983913 ↔
      b8 = 105 ∧ b9 = 110 ∧ b10 = 102 ∧ b11 = 111 ∧ b12 = 0 ∧ b13 = 0 ∧ b14 = 0 ∧ b15 = 0 :=
    le_bytes_eq_iff b8 b9 b10 b11 b12 b13 b14 b15 105 110 102 111 0 0 0 0 h8 h9 h10 h11 h12 h13 h14 h15
      (by decide) (by decide) (by decide) (by decide) (by decide) (by decide) (by decide)
      (by decide)
  have hB6 : b8 + b9 * 2 ^ 8 + b10 * 2 ^ 16 + b11 * 2 ^ 24 +
        (b12 + b13 * 2 ^ 8 + b14 * 2 ^ 16 + b15 * 2 ^ 24) * 2 ^ 32 = 8027224784786383213 ↔
      b8 = 109 ∧ b9 = 97 ∧ b10 = 103 ∧ b11 = 101 ∧ b12 = 105 ∧ b13 = 110 ∧ b14 = 102 ∧ b15 = 111 :=
    le_bytes_eq_iff b8 b9 b10 b11 b12 b13 b14 b15 109 97 103 101 105 110 102 111 h8 h9 h10 h11 h12 h13 h14 h15
      (by decide) (by decide) (by decide) (by decide) (by decide) (by decide) (by decide)
      (by decide)
  have e1 : read_u64 [b0, b1, b2, b3, b4, b5, b6, b7, b8, b9, b10, b11, b12, b13, b14, b15] 0 =
      b0 + b1 * 2 ^ 8 + b2 * 2 ^ 16 + b3 * 2 ^ 24 +
        (b4 + b5 * 2 ^ 8 + b6 * 2 ^ 16 + b7 * 2 ^ 24) * 2 ^ 32 := rfl
  have e2 : read_u64 [b0, b1, b2, b3, b4, b5, b6, b7, b8, b9, b10, b11, b12, b13, b14, b15]
      (0 + 8) =
      b8 + b9 * 2 ^ 8 + b10 * 2 ^ 16 + b11 * 2 ^ 24 +
        (b12 + b13 * 2 ^ 8 + b14 * 2 ^ 16 + b15 * 2 ^ 24) * 2 ^ 32 := rfl
  unfold segment_has_image_info_sect is_image_info_section
  simp only [e1, e2, List.cons.injEq, and_true, beq_iff_eq, hA1, hA2, hA3, hA4, hA5, hA6,
    hB1, hB2, hB3, hB5, hB6]
  refine ⟨?_, ?_⟩
  · split_ifs with c1 c2 c3 c4
    · obtain ⟨rfl, rfl, rfl, rfl, rfl, rfl, rfl, rfl⟩ := c1
      simp only [beq_iff_eq, hB1]
      simp
    · obtain ⟨rfl, rfl, rfl, rfl, rfl, rfl, rfl, rfl⟩ := c2
      simp only [beq_iff_eq, hB2]
      simp
    · obtain ⟨rfl, rfl, rfl, rfl, rfl, rfl, rfl, rfl⟩ := c3
      simp only [beq_iff_eq, hB3]
      simp
    · obtain ⟨rfl, rfl, rfl, rfl, rfl, rfl, rfl, rfl⟩ := c4
      simp only [beq_iff_eq, hB1]
      simp
    · simp only [Bool.false_eq_true, false_iff]
      rintro (⟨a0, a1, a2, a3, a4, a5, a6, a7, _⟩ | ⟨a0, a1, a2, a3, a4, a5, a6, a7, _⟩ | ⟨a0, a1, a2, a3, a4, a5, a6, a7, _⟩ | ⟨a0, a1, a2, a3, a4, a5, a6, a7, _⟩)
      · exact c1 ⟨a0, a1, a2, a3, a4, a5, a6, a7⟩
      · exact c2 ⟨a0, a1, a2, a3, a4, a5, a6, a7⟩
      · exact c3 ⟨a0, a1, a2, a3, a4, a5, a6, a7⟩
      · exact c4 ⟨a0, a1, a2, a3, a4, a5, a6, a7⟩
  · split_ifs with c1 c2
    · obtain ⟨rfl, rfl, rfl, rfl, rfl, rfl, rfl, rfl⟩ := c1
      simp only [beq_iff_eq, hB5]
      simp
    · obtain ⟨rfl, rfl, rfl, rfl, rfl, rfl, rfl, rfl⟩ := c2
      simp only [beq_iff_eq, hB6]
      simp
    · simp only [Bool.false_eq_true, false_iff]
      rintro (⟨a0, a1, a2, a3, a4, a5, a6, a7, _⟩ | ⟨a0, a1, a2, a3, a4, a5, a6, a7, _⟩)
      · exact c1 ⟨a0, a1, a2, a3, a4, a5, a6, a7⟩
      · exact c2 ⟨a0, a1, a2, a3, a4, a5, a6, a7⟩

theorem C24_image_info_names_witness :
    (segment_has_image_info_sect
        [95, 95, 68, 65, 84, 65, 0, 0, 0, 0, 0, 0, 0, 0, 0, 0] 0 = true ↔
      [95, 95, 68, 65, 84, 65, 0, 0, 0, 0, 0, 0, 0, 0, 0, 0] =
          [95, 95, 68, 65, 84, 65, 0, 0, 0, 0, 0, 0, 0, 0, 0, 0] ∨
        [95, 95, 68, 65, 84, 65, 0, 0, 0, 0, 0, 0, 0, 0, 0, 0] =
          [95, 95, 68, 65, 84, 65, 95, 68, 73, 82, 84, 89, 0, 0, 0, 0] ∨
        [95, 95, 68, 65, 84, 65, 0, 0, 0, 0, 0, 0, 0, 0, 0, 0] =
          [95, 95, 68, 65, 84, 65, 95, 67, 79, 78, 83, 84, 0, 0, 0, 0] ∨
        [95, 95, 68, 65, 84, 65, 0, 0, 0, 0, 0, 0, 0, 0, 0, 0] =
          [95, 95, 79, 66, 74, 67, 0, 0, 0, 0, 0, 0, 0, 0, 0, 0]) ∧
    (is_image_info_section
        [95, 95, 68, 65, 84, 65, 0, 0, 0, 0, 0, 0, 0, 0, 0, 0] 0 = true ↔
      [95, 95, 68, 65, 84, 65, 0, 0, 0, 0, 0, 0, 0, 0, 0, 0] =
          [95, 95, 105, 109, 97, 103, 101, 95, 105, 110, 102, 111, 0, 0, 0, 0] ∨
        [95, 95, 68, 65, 84, 65, 0, 0, 0, 0, 0, 0, 0, 0, 0, 0] =
          [95, 95, 111, 98, 106, 99, 95, 105, 109, 97, 103, 101, 105, 110, 102, 111]) :=
  C24_image_info_names 95 95 68 65 84 65 0 0 0 0 0 0 0 0 0 0
    (by decide) (by decide) (by decide) (by decide) (by decide) (by decide) (by decide)
    (by decide) (by decide) (by decide) (by decide) (by decide) (by decide) (by decide)
    (by decide) (by decide)

/-! ## Out-of-bounds string offsets of the re-export and client commands -/

/-- C21 (defect of the code): for every value of the parser option word, so also with
ignore-invalid-fields set, an `LC_REEXPORT_DYLIB` command of sufficient size whose name offset
lies inside the fixed part of the command (8) or at the command size (32) makes
`parse_load_command` return invalid-reexport, and an `LC_SUB_CLIENT` command whose client
offset lies inside the fixed part (8) or at the command size (16) makes it return
invalid-client: the command is not skipped. An `LC_ID_DYLIB` command with the same two offsets
is skipped (ok, aggregate unchanged) when ignore-invalid-fields is set. -/
theorem C21_reexport_and_client_offsets_not_skipped :
    (∀ options : Nat,
      parse_load_command sample_externals empty_create_info (initial_locals none) 64
          ⟨LC_REEXPORT_DYLIB, 32⟩ (sample_dylib_command LC_REEXPORT_DYLIB 8) 0 false 0 options
          true =
        (E_MACHO_FILE_PARSE_INVALID_REEXPORT, empty_create_info, initial_locals none) ∧
      parse_load_command sample_externals empty_create_info (initial_locals none) 64
          ⟨LC_REEXPORT_DYLIB, 32⟩ (sample_dylib_command LC_REEXPORT_DYLIB 32) 0 false 0 options
          true =
        (E_MACHO_FILE_PARSE_INVALID_REEXPORT, empty_create_info, initial_locals none) ∧
      parse_load_command sample_externals empty_create_info (initial_locals none) 64
          ⟨LC_SUB_CLIENT, 16⟩ (sample_sub_client_command 8) 0 false 0 options true =
        (E_MACHO_FILE_PARSE_INVALID_CLIENT, empty_create_info, initial_locals none) ∧
      parse_load_command sample_externals empty_create_info (initial_locals none) 64
          ⟨LC_SUB_CLIENT, 16⟩ (sample_sub_client_command 16) 0 false 0 options true =
        (E_MACHO_FILE_PARSE_INVALID_CLIENT, empty_create_info, initial_locals none)) ∧
    flag_set sample_externals.O_MACHO_FILE_PARSE_IGNORE_INVALID_FIELDS
        sample_externals.O_MACHO_FILE_PARSE_IGNORE_INVALID_FIELDS = true ∧
    parse_load_command sample_externals empty_create_info (initial_locals none) 64
        ⟨LC_ID_DYLIB, 32⟩ (sample_dylib_command LC_ID_DYLIB 8) 0 false 0
        sample_externals.O_MACHO_FILE_PARSE_IGNORE_INVALID_FIELDS true =
      (E_MACHO_FILE_PARSE_OK, empty_create_info,
        { initial_locals none with found_identification := true }) ∧
    parse_load_command sample_externals empty_create_info (initial_locals none) 64
        ⟨LC_ID_DYLIB, 32⟩ (sample_dylib_command LC_ID_DYLIB 32) 0 false 0
        sample_externals.O_MACHO_FILE_PARSE_IGNORE_INVALID_FIELDS true =
      (E_MACHO_FILE_PARSE_OK, empty_create_info,
        { initial_locals none with found_identification := true }) := by
  refine ⟨fun options => ⟨rfl, rfl, rfl, rfl⟩, by decide, by decide, by decide⟩

/-! ## The compatibility version of the first `LC_ID_DYLIB` -/

/-- C22 (defect of the code): when no install name is recorded yet, the compatibility version
after the recording part of case `LC_ID_DYLIB` is the old one if the bit
`O_TBD_PARSE_IGNORE_COMPATIBILITY_VERSION` is set in the parser option word `options`, and the
one of the command otherwise, whatever the parse-flag word `tbd_options` holds. So a first
command parsed with ignore-compatibility-version set in `tbd_options` (and `options` 0) records
the compatibility version 1.0.0 of the command, and one parsed with `tbd_options` 0 and the
same bit set in `options` leaves it at 0; the current version, the sibling field, follows
`tbd_options`. -/
theorem C22_compatibility_version_reads_option_word :
    (∀ (K : Externals) (info_in : tbd_create_info) (v : walk_locals) (name : List Nat)
        (length cur compat tbd_options options : Nat),
      (parse_load_command_id_dylib_record K { info_in with install_name := none } v name length
          cur compat tbd_options options).2.1.compatibility_version =
        if flag_set options K.O_TBD_PARSE_IGNORE_COMPATIBILITY_VERSION then
          info_in.compatibility_version
        else compat) ∧
    flag_set 4 sample_externals.O_TBD_PARSE_IGNORE_COMPATIBILITY_VERSION = true ∧
    flag_set 4 sample_externals.O_TBD_PARSE_IGNORE_INSTALL_NAME = false ∧
    parse_load_command sample_externals empty_create_info (initial_locals none) 64
        ⟨LC_ID_DYLIB, 32⟩ (sample_dylib_command LC_ID_DYLIB 24) 0 false 4 0 true =
      (E_MACHO_FILE_PARSE_OK, sample_identified_info,
        { initial_locals none with found_identification := true }) ∧
    parse_load_command sample_externals empty_create_info (initial_locals none) 64
        ⟨LC_ID_DYLIB, 32⟩ (sample_dylib_command LC_ID_DYLIB 24) 0 false 0 4 true =
      (E_MACHO_FILE_PARSE_OK, { sample_identified_info with compatibility_version := 0 },
        { initial_locals none with found_identification := true }) ∧
    parse_load_command sample_externals empty_create_info (initial_locals none) 64
        ⟨LC_ID_DYLIB, 32⟩ (sample_dylib_command LC_ID_DYLIB 24) 0 false 2 0 true =
      (E_MACHO_FILE_PARSE_OK, { sample_identified_info with current_version := 0 },
        { initial_locals none with found_identification := true }) := by
  refine ⟨?_, by decide, by decide, by decide, by decide, by decide⟩
  intro K info_in v name length cur compat tbd_options options
  unfold parse_load_command_id_dylib_record
  simp only
  split_ifs <;> first | rfl | simp_all

/-! ## Decoding of the image-info flags -/

/-- A byte of the destination of a read is the byte of the file at the position read. -/
theorem byte_at_read (fd : Fd) (n i : Nat) (hi : i < n) :
    byte_at (fd.read n).1 i = byte_at fd.bytes (fd.pos + i) := by
  unfold Fd.read byte_at
  simp only [List.getD_eq_getElem?_getD, List.getElem?_append, List.length_take,
    List.length_drop, List.getElem?_take, List.getElem?_drop, List.getElem?_replicate]
  by_cases h1 : i < min n (fd.bytes.length - fd.pos)
  · rw [if_pos h1, if_pos (by omega)]
  · rw [if_neg h1]
    have h2 : fd.bytes.length ≤ fd.pos + i := by omega
    rw [List.getElem?_eq_none h2]
    split_ifs <;> rfl

/-- A 32-bit load from the destination of a read is the load from the file. -/
theorem read_u32_read (fd : Fd) (n off : Nat) (h : off + 4 ≤ n) :
    read_u32 (fd.read n).1 off = read_u32 fd.bytes (fd.pos + off) := by
  unfold read_u32
  rw [byte_at_read fd n off (by omega), byte_at_read fd n (off + 1) (by omega),
    byte_at_read fd n (off + 2) (by omega), byte_at_read fd n (off + 3) (by omega)]
  rfl

/-- C23: with the swift-version mask `0xff00` of `objc.h`, for every flags word of an
`objc_image_info` the checks of the flags, started with no constraint and no swift version
recorded, return ok, record the constraint GC if requires-GC is set, otherwise
retain/release-or-GC if supports-GC is set, otherwise retain/release-for-simulator if
is-for-simulator is set, otherwise retain/release, and store the swift version
`(flags & 0xFF00) >> 8`, which is below 256. The file-based and the map-based section parser
both apply these checks to the 32-bit word at offset 4 of the section: on the same bytes, once
the range checks and the seeks of the file-based parser pass, they return the same result, the
same aggregate and the same swift version. -/
theorem C23_image_info_flags_decoding (K : Externals) (info_in : tbd_create_info) (flags : Nat)
    (hmask : K.objc_image_info_swift_version_mask = 0xff00) :
    parse_section_flags K { info_in with objc_constraint := 0 } 0 flags =
      (E_MACHO_FILE_PARSE_OK,
        { info_in with objc_constraint :=
            if flags &&& K.F_OBJC_IMAGE_INFO_REQUIRES_GC ≠ 0 then K.TBD_OBJC_CONSTRAINT_GC
            else if flags &&& K.F_OBJC_IMAGE_INFO_SUPPORTS_GC ≠ 0 then
              K.TBD_OBJC_CONSTRAINT_RETAIN_RELEASE_OR_GC
            else if flags &&& K.F_OBJC_IMAGE_INFO_IS_FOR_SIMULATOR ≠ 0 then
              K.TBD_OBJC_CONSTRAINT_RETAIN_RELEASE_FOR_SIMULATOR
            else K.TBD_OBJC_CONSTRAINT_RETAIN_RELEASE },
        (flags &&& 0xff00) >>> 8) ∧
    (flags &&& 0xff00) >>> 8 < 256 ∧
    ∀ (existing : Nat) (fd : Fd) (full_range macho_range map_range : range)
        (sect_offset options : Nat),
      fd.pos < 2 ^ 63 → full_range.begin + sect_offset < 2 ^ 63 →
      range_contains_range macho_range
        { begin := sect_offset, end_ := wrap64 (sect_offset + sizeof_objc_image_info) } = true →
      range_contains_range map_range
        { begin := sect_offset, end_ := wrap64 (sect_offset + sizeof_objc_image_info) } = true →
      ((parse_section_from_file K info_in existing fd full_range macho_range sect_offset
            sizeof_objc_image_info options).1,
          (parse_section_from_file K info_in existing fd full_range macho_range sect_offset
            sizeof_objc_image_info options).2.1,
          (parse_section_from_file K info_in existing fd full_range macho_range sect_offset
            sizeof_objc_image_info options).2.2.1) =
        parse_section_flags K info_in existing
          (read_u32 fd.bytes
            ((if flag_set options K.O_MACHO_FILE_PARSE_SECT_OFF_ABSOLUTE then sect_offset
              else full_range.begin + sect_offset) + 4)) ∧
      parse_section_from_map K info_in existing map_range macho_range fd.bytes full_range.begin
          sect_offset sizeof_objc_image_info options =
        parse_section_flags K info_in existing
          (read_u32 fd.bytes
            ((if flag_set options K.O_MACHO_FILE_PARSE_SECT_OFF_ABSOLUTE then sect_offset
              else full_range.begin + sect_offset) + 4)) := by
  refine ⟨?_, ?_, ?_⟩
  · unfold parse_section_flags objc_constraint_of_flags flag_set
    simp only [hmask, ne_eq, not_true_eq_false, false_and, if_false, bne_iff_ne]
  · have h := Nat.and_le_right (n := flags) (m := 0xff00)
    rw [Nat.shiftRight_eq_div_pow]
    omega
  · intro existing fd full_range macho_range map_range sect_offset options hpos hoff hmacho hmap
    have hw : wrap64 (full_range.begin + sect_offset) = full_range.begin + sect_offset := by
      unfold wrap64
      exact Nat.mod_eq_of_lt (by omega)
    have hseek : ∀ (f : Fd) (off : Nat), off < 2 ^ 63 →
        f.lseek_set off = some { bytes := f.bytes, pos := off } := by
      intro f off h
      unfold Fd.lseek_set
      rw [if_pos h]
    have hs : sect_offset < 2 ^ 63 := by omega
    unfold parse_section_from_file parse_section_from_map
    simp only [ne_eq, not_true_eq_false, if_false, hmacho, hmap, Bool.not_true,
      Bool.false_eq_true, hw, hseek _ _ hs, hseek _ _ hoff, hseek _ _ hpos]
    by_cases habs : flag_set options K.O_MACHO_FILE_PARSE_SECT_OFF_ABSOLUTE = true
    · simp only [habs, if_true, read_u32_read _ sizeof_objc_image_info 4 (by decide)]
      exact ⟨trivial, trivial⟩
    · have hf : flag_set options K.O_MACHO_FILE_PARSE_SECT_OFF_ABSOLUTE = false := by
        simpa using habs
      simp only [hf, Bool.false_eq_true, if_false,
        read_u32_read _ sizeof_objc_image_info 4 (by decide)]
      exact ⟨trivial, trivial⟩

theorem C23_image_info_flags_decoding_witness :
    sample_externals.objc_image_info_swift_version_mask = 0xff00 ∧
    parse_section_flags sample_externals { empty_create_info with objc_constraint := 0 } 0
        0x504 =
      (E_MACHO_FILE_PARSE_OK,
        { empty_create_info with objc_constraint := sample_externals.TBD_OBJC_CONSTRAINT_GC },
        5) ∧
    (0x504 &&& 0xff00) >>> 8 < 256 ∧
    ((parse_section_from_file sample_externals empty_create_info 0
          (sample_objc_slice_fd 7 0x504) ⟨0, 256⟩ ⟨0, 256⟩ 248 sizeof_objc_image_info 0).1,
        (parse_section_from_file sample_externals empty_create_info 0
          (sample_objc_slice_fd 7 0x504) ⟨0, 256⟩ ⟨0, 256⟩ 248 sizeof_objc_image_info 0).2.1,
        (parse_section_from_file sample_externals empty_create_info 0
          (sample_objc_slice_fd 7 0x504) ⟨0, 256⟩ ⟨0, 256⟩ 248 sizeof_objc_image_info
          0).2.2.1) =
      parse_section_from_map sample_externals empty_create_info 0 ⟨0, 256⟩ ⟨0, 256⟩
        (sample_objc_slice_fd 7 0x504).bytes 0 248 sizeof_objc_image_info 0 :=
  ⟨rfl, (C23_image_info_flags_decoding sample_externals empty_create_info 0x504 rfl).1,
    (C23_image_info_flags_decoding sample_externals empty_create_info 0x504 rfl).2.1,
    (((C23_image_info_flags_decoding sample_externals empty_create_info 0x504 rfl).2.2 0
        (sample_objc_slice_fd 7 0x504) ⟨0, 256⟩ ⟨0, 256⟩ ⟨0, 256⟩ 248 0 (by decide) (by decide)
        (by decide) (by decide)).1).trans
      (((C23_image_info_flags_decoding sample_externals empty_create_info 0x504 rfl).2.2 0
        (sample_objc_slice_fd 7 0x504) ⟨0, 256⟩ ⟨0, 256⟩ ⟨0, 256⟩ 248 0 (by decide) (by decide)
        (by decide) (by decide)).2).symm⟩

/-! ## The platform check after the walk -/

set_option maxRecDepth 100000 in
/-- C25 (defect of the code): a little-endian slice whose commands are `LC_ID_DYLIB`, `LC_UUID`
and `LC_SYMTAB`, with no platform command, is parsed with ignore-platform not set into an
empty aggregate. The file-based parser returns no-platform. The map-based parser, given the
same bytes, returns ok and leaves the platform unset (0): it has no platform check after the
walk. -/
theorem C25_map_parser_has_no_platform_check :
    flag_set sample_no_platform_info.tbd_options sample_externals.O_TBD_PARSE_IGNORE_PLATFORM =
      false ∧
    (macho_file_parse_load_commands_from_file sample_externals empty_create_info
        sample_no_platform_fd sample_no_platform_info).result =
      E_MACHO_FILE_PARSE_NO_PLATFORM ∧
    flag_set sample_no_platform_map_info.tbd_options
        sample_externals.O_TBD_PARSE_IGNORE_PLATFORM = false ∧
    (macho_file_parse_load_commands_from_map sample_externals empty_create_info
        sample_no_platform_map_info).result = E_MACHO_FILE_PARSE_OK ∧
    (macho_file_parse_load_commands_from_map sample_externals empty_create_info
        sample_no_platform_map_info).info.platform = 0 ∧
    (macho_file_parse_load_commands_from_map sample_externals empty_create_info
        sample_no_platform_map_info).info.install_name = some [47, 65] ∧
    (macho_file_parse_load_commands_from_map sample_externals empty_create_info
        sample_no_platform_map_info).info.uuids.length = 1 := by
  refine ⟨by decide, by decide, by decide, by decide, by decide, by decide, by decide⟩

/-! ## The order of the architecture table -/

/-- C26 (defect of the code): the 56 entries of the architecture table are in non-decreasing
order of cputype, and every block of `cputype_info_list` spans entries of its cputype, but the
blocks are not all in strictly increasing order of cpusubtype: the order fails between the
entries 8 and 9 (`(7, 132)` before `(7, 5)`), 12 and 13, 13 and 14 of the block of
`CPU_TYPE_X86`, 15 and 16 of `CPU_TYPE_HPPA` (twice cpusubtype 0), 28 and 29 of `CPU_TYPE_ARM`
and 45 and 46 of `CPU_TYPE_VEO`, and nowhere else. -/
theorem C26_table_blocks_not_sorted :
    (List.range 55).all arch_cputypes_in_order = true ∧
    cputype_info_list.all (fun c =>
      (List.range 56).all (fun i =>
        decide ((arch_info_list.get? i).map (fun a => a.cputype) = some c.cputype) ==
          (decide (c.front ≤ i) && decide (i ≤ c.back)))) = true ∧
    arch_info_list.get? 8 = some ⟨CPU_TYPE_X86, 132, some "i486SX"⟩ ∧
    arch_info_list.get? 9 = some ⟨CPU_TYPE_X86, 5, some "pentium"⟩ ∧
    (List.range 55).filter (fun i => !arch_entries_in_order i) = [8, 12, 13, 15, 28, 45] := by
  refine ⟨by decide, by decide, by decide, by decide, by decide⟩

/-! ## Records of a fat-64 file that start at the end of the file -/

/-- A record that passes the checks of `handle_fat_64_file` lies after the headers and inside
the file, and starts before its end. -/
theorem fat_64_check_arch_none (arch : fat_arch) (total_headers_size start size : Nat)
    (h : fat_64_check_arch arch total_headers_size start size = none) :
    total_headers_size ≤ arch.offset ∧ arch.offset + arch.size ≤ size ∧ arch.offset < size := by
  unfold fat_64_check_arch at h
  simp only at h
  by_cases h1 : arch.offset < total_headers_size
  · rw [if_pos h1] at h
    cases h
  rw [if_neg h1] at h
  by_cases h2 : arch.size < sizeof_mach_header
  · rw [if_pos h2] at h
    cases h
  rw [if_neg h2] at h
  unfold guard_overflow_add at h
  by_cases h3 : arch.offset + arch.size < 2 ^ 64
  · rw [if_pos h3] at h
    simp only at h
    by_cases h4 : arch.offset > size
    · rw [if_pos h4] at h
      cases h
    rw [if_neg h4] at h
    by_cases h5 : arch.offset + arch.size > size
    · rw [if_pos h5] at h
      cases h
    unfold sizeof_mach_header at h2
    omega
  · rw [if_neg h3] at h
    cases h

/-- A record that starts at or after the end of the file fails the checks of
`handle_fat_64_file`. -/
theorem fat_64_check_arch_at_end (arch : fat_arch) (total_headers_size start size : Nat)
    (h : size ≤ arch.offset) :
    fat_64_check_arch arch total_headers_size start size ≠ none := by
  intro hc
  have h1 := (fat_64_check_arch_none arch total_headers_size start size hc).2.2
  omega

/-- The records that the verification loop of `handle_fat_64_file` lets through pass the
checks. -/
theorem fat_64_verify_loop_checked (is_big_endian : Bool)
    (total_headers_size start size : Nat) :
    ∀ (raws verified out : List fat_arch),
      fat_64_verify_loop is_big_endian total_headers_size start size verified raws = .ok out →
      ∀ raw ∈ raws,
        fat_64_check_arch (fat_arch_swap_64 is_big_endian raw) total_headers_size start size =
          none := by
  intro raws
  induction raws with
  | nil =>
    intro verified out _ raw hraw
    cases hraw
  | cons first rest ih =>
    intro verified out h raw hraw
    unfold fat_64_verify_loop at h
    simp only at h
    generalize hc : fat_64_check_arch (fat_arch_swap_64 is_big_endian first) total_headers_size
      start size = c at h
    cases c with
    | some e => cases h
    | none =>
      simp only at h
      split_ifs at h
      rcases List.mem_cons.1 hraw with rfl | hmem
      · exact hc
      · exact ih _ out h raw hmem

/-- The records that the verification pass of `handle_fat_64_file` lets through pass the
checks. -/
theorem fat_64_verify_checked (is_big_endian : Bool) (total_headers_size start size : Nat)
    (archs out : List fat_arch)
    (h : fat_64_verify is_big_endian total_headers_size start size archs = .ok out) :
    ∀ raw ∈ archs,
      fat_64_check_arch (fat_arch_swap_64 is_big_endian raw) total_headers_size start size =
        none := by
  intro raw hraw
  unfold fat_64_verify at h
  cases archs with
  | nil => cases hraw
  | cons first rest =>
    simp only at h
    generalize hc : fat_64_check_arch (fat_arch_swap_64 is_big_endian first) total_headers_size
      start size = c at h
    cases c with
    | some e => cases h
    | none =>
      simp only at h
      rcases List.mem_cons.1 hraw with rfl | hmem
      · exact hc
      · exact fat_64_verify_loop_checked is_big_endian total_headers_size start size rest _ out
          h raw hmem

/-- A result whose value part is `some y` is the success `y`. -/
theorem except_eq_ok_of_toOption {ε α : Type} (x : Except ε α) (y : α)
    (h : x.toOption = some y) : x = .ok y := by
  cases x with
  | error e => cases h
  | ok a =>
    cases h
    rfl

/-- C27: every record that the validation pass of `handle_fat_64_file` accepts starts strictly
before the end of the file (`offset < size`) and ends inside it; and when a record of the file
has `offset >= size`, the handler returns an error and leaves the aggregate as it was, no
slice being parsed. The comparison `offset > size` of the source lets `offset == size` through,
but such a record then fails the check of the end of the slice, as a slice holds at least a
Mach-O header. -/
theorem C27_fat_64_offset_below_size (K : Externals) (info_in : tbd_create_info) (fd : Fd)
    (is_big_endian : Bool) (nfat_arch total_headers_size start size tbd_options options : Nat) :
    (∀ archs out : List fat_arch,
      fat_64_verify is_big_endian total_headers_size start size archs = .ok out →
      ∀ a ∈ out, a.offset < size ∧ a.offset + a.size ≤ size) ∧
    ((∃ a ∈ fat_64_records fd is_big_endian nfat_arch, size ≤ a.offset) →
      (handle_fat_64_file K info_in fd is_big_endian nfat_arch start size tbd_options
          options).1 ≠ E_MACHO_FILE_PARSE_OK ∧
        (handle_fat_64_file K info_in fd is_big_endian nfat_arch start size tbd_options
          options).2.1 = info_in) := by
  have hpass : ∀ (ths : Nat) (archs out : List fat_arch),
      fat_64_verify is_big_endian ths start size archs = .ok out →
      ∀ a ∈ out, a.offset < size ∧ a.offset + a.size ≤ size := by
    intro ths archs out h a ha
    rw [fat_64_verify_ok is_big_endian ths start size archs out h] at ha
    obtain ⟨raw, hraw, rfl⟩ := List.mem_map.1 ha
    have hc := fat_64_check_arch_none _ _ _ _
      (fat_64_verify_checked is_big_endian ths start size archs out h raw hraw)
    exact ⟨hc.2.2, hc.2.1⟩
  refine ⟨hpass total_headers_size, ?_⟩
  rintro ⟨a, ha, hsize⟩
  unfold handle_fat_64_file
  unfold guard_overflow_mul
  by_cases h1 : sizeof_fat_arch_64 * nfat_arch < 2 ^ 64
  · rw [if_pos h1]
    simp only
    unfold guard_overflow_add
    by_cases h2 : sizeof_fat_header + sizeof_fat_arch_64 * nfat_arch < 2 ^ 64
    · rw [if_pos h2]
      simp only
      by_cases h3 : sizeof_fat_header + sizeof_fat_arch_64 * nfat_arch ≥ size
      · rw [if_pos h3]
        exact ⟨(by intro hc; cases hc), rfl⟩
      · rw [if_neg h3]
        generalize hv : fat_64_verify is_big_endian
          (sizeof_fat_header + sizeof_fat_arch_64 * nfat_arch) start size
          (List.map (fat_arch_64_of_bytes (fd.read (sizeof_fat_arch_64 * nfat_arch)).1)
            (List.range nfat_arch)) = v
        cases v with
        | error e =>
          exact ⟨fat_64_verify_error _ _ _ _ _ e hv, rfl⟩
        | ok verified =>
          exfalso
          have hmem : a ∈ verified := by
            rw [fat_64_verify_ok _ _ _ _ _ verified hv, List.map_map]
            exact ha
          have := (hpass _ _ verified hv a hmem).1
          omega
    · rw [if_neg h2]
      exact ⟨(by intro hc; cases hc), rfl⟩
  · rw [if_neg h1]
    exact ⟨(by intro hc; cases hc), rfl⟩

set_option maxRecDepth 100000 in
theorem C27_fat_64_offset_below_size_witness :
    (∀ a ∈ fat_64_records ⟨sample_fat_64_file, 8⟩ true 2,
      a.offset < 320 ∧ a.offset + a.size ≤ 320) ∧
    (handle_fat_64_file sample_externals empty_create_info ⟨sample_fat_64_end_file, 8⟩ true 1 0
        41 0 0).1 ≠ E_MACHO_FILE_PARSE_OK ∧
    (handle_fat_64_file sample_externals empty_create_info ⟨sample_fat_64_end_file, 8⟩ true 1 0
        41 0 0).2.1 = empty_create_info :=
  ⟨(C27_fat_64_offset_below_size sample_externals empty_create_info ⟨sample_fat_64_file, 8⟩
      true 2 72 0 320 0 0).1
      ((List.range 2).map
        (fat_arch_64_of_bytes ((Fd.mk sample_fat_64_file 8).read (sizeof_fat_arch_64 * 2)).1))
      (fat_64_records ⟨sample_fat_64_file, 8⟩ true 2)
      (except_eq_ok_of_toOption _ _ (by decide)),
    (C27_fat_64_offset_below_size sample_externals empty_create_info
      ⟨sample_fat_64_end_file, 8⟩ true 1 40 0 41 0 0).2
      ⟨⟨7, 3, 41, 28⟩, by decide, by decide⟩⟩

/-! ## The shared-cache parser -/

/-- The location test of the header range: a location passes exactly when it lies at or after
the size of the header and before the end of the file. -/
theorem dsc_location_check (C : CacheExternals) (dsc_size location : Nat) :
    range_contains_location { begin := C.sizeof_dyld_cache_header, end_ := dsc_size } location =
        true ↔
      C.sizeof_dyld_cache_header ≤ location ∧ location < dsc_size := by
  unfold range_contains_location
  simp only [Bool.and_eq_true, decide_eq_true_eq]

/-- The header checks reject a mapping offset outside the header range with
invalid-mappings. -/
theorem dsc_check_header_mapping_offset (C : CacheExternals) (header : dyld_cache_header)
    (dsc_size : Nat)
    (h : header.mappingOffset < C.sizeof_dyld_cache_header ∨ dsc_size ≤ header.mappingOffset) :
    dsc_check_header C header dsc_size = .error E_DYLD_SHARED_CACHE_PARSE_INVALID_MAPPINGS := by
  have hc : range_contains_location
      { begin := C.sizeof_dyld_cache_header, end_ := dsc_size } header.mappingOffset = false := by
    rw [← Bool.not_eq_true, dsc_location_check]
    omega
  unfold dsc_check_header
  simp only [hc, Bool.not_false, if_true]

/-- The header checks reject an images offset outside the header range with invalid-images,
when the mapping offset lies inside the range. -/
theorem dsc_check_header_images_offset (C : CacheExternals) (header : dyld_cache_header)
    (dsc_size : Nat)
    (hm : C.sizeof_dyld_cache_header ≤ header.mappingOffset ∧ header.mappingOffset < dsc_size)
    (h : header.imagesOffset < C.sizeof_dyld_cache_header ∨ dsc_size ≤ header.imagesOffset) :
    dsc_check_header C header dsc_size = .error E_DYLD_SHARED_CACHE_PARSE_INVALID_IMAGES := by
  have hc1 : range_contains_location
      { begin := C.sizeof_dyld_cache_header, end_ := dsc_size } header.mappingOffset = true :=
    (dsc_location_check C dsc_size header.mappingOffset).2 hm
  have hc2 : range_contains_location
      { begin := C.sizeof_dyld_cache_header, end_ := dsc_size } header.imagesOffset = false := by
    rw [← Bool.not_eq_true, dsc_location_check]
    omega
  unfold dsc_check_header
  simp only [hc1, hc2, Bool.not_true, Bool.not_false, if_true, Bool.false_eq_true, if_false]

/-- An error of the header checks is the result of the parser, which leaves the caller's
record as it was. -/
theorem dsc_parse_of_header_error (C : CacheExternals) (info_in : dyld_shared_cache_info)
    (fd : Fd) (magic : List Nat) (options : Nat) (e : dyld_shared_cache_parse_result)
    (hmagic : get_arch_info_from_magic magic ≠ none)
    (h : dsc_check_header C (dsc_read_header C fd) fd.bytes.length = .error e) :
    (dyld_shared_cache_parse_from_file C info_in fd magic options).1 = e ∧
    (dyld_shared_cache_parse_from_file C info_in fd magic options).2.1 = info_in := by
  unfold dyld_shared_cache_parse_from_file
  cases hm : get_arch_info_from_magic magic with
  | none => exact absurd hm hmagic
  | some p =>
    obtain ⟨arch, arch_bit⟩ := p
    simp only [h, and_self]

/-- C28: for every header read after a recognised magic whose `mappingOffset` is at or after
the size of the file, `dyld_shared_cache_parse_from_file` returns invalid-mappings, whatever
the other fields of the header, the options and the rest of the file hold, and the caller's
record is left as it was. -/
theorem C28_mapping_offset_past_end_of_file (C : CacheExternals)
    (info_in : dyld_shared_cache_info) (fd : Fd) (magic : List Nat) (options : Nat)
    (hmagic : get_arch_info_from_magic magic ≠ none)
    (hoff : fd.bytes.length ≤ (dsc_read_header C fd).mappingOffset) :
    (dyld_shared_cache_parse_from_file C info_in fd magic options).1 =
      E_DYLD_SHARED_CACHE_PARSE_INVALID_MAPPINGS ∧
    (dyld_shared_cache_parse_from_file C info_in fd magic options).2.1 = info_in :=
  dsc_parse_of_header_error C info_in fd magic options _ hmagic
    (dsc_check_header_mapping_offset C _ _ (Or.inr hoff))

set_option maxRecDepth 100000 in
theorem C28_mapping_offset_past_end_of_file_witness :
    (dsc_read_header sample_cache_externals
      ⟨sample_cache_file 1000 1 144 (sample_cache_mapping 0 178 ++ sample_cache_image 176),
        16⟩).mappingOffset = 1000 ∧
    (sample_cache_file 1000 1 144
      (sample_cache_mapping 0 178 ++ sample_cache_image 176)).length = 178 ∧
    (dyld_shared_cache_parse_from_file sample_cache_externals empty_cache_info
      ⟨sample_cache_file 1000 1 144 (sample_cache_mapping 0 178 ++ sample_cache_image 176), 16⟩
      sample_cache_magic 0).1 = E_DYLD_SHARED_CACHE_PARSE_INVALID_MAPPINGS ∧
    (dyld_shared_cache_parse_from_file sample_cache_externals empty_cache_info
      ⟨sample_cache_file 1000 1 144 (sample_cache_mapping 0 178 ++ sample_cache_image 176), 16⟩
      sample_cache_magic 0).2.1 = empty_cache_info :=
  ⟨by decide, by decide,
    C28_mapping_offset_past_end_of_file sample_cache_externals empty_cache_info
      ⟨sample_cache_file 1000 1 144 (sample_cache_mapping 0 178 ++ sample_cache_image 176), 16⟩
      sample_cache_magic 0 (by decide) (by decide)⟩

/-- An error of the header checks is not ok. -/
theorem dsc_check_header_ne_ok (C : CacheExternals) (header : dyld_cache_header)
    (dsc_size : Nat) (e : dyld_shared_cache_parse_result)
    (h : dsc_check_header C header dsc_size = .error e) :
    e ≠ E_DYLD_SHARED_CACHE_PARSE_OK := by
  unfold dsc_check_header at h
  simp only at h
  repeat' split at h
  all_goals first
    | (cases h; intro hc; cases hc)
    | cases h

/-- When the parser returns ok, the magic was recognised, the header checks have passed and
the part after the mapping of the file has returned ok. -/
theorem dsc_parse_ok_header (C : CacheExternals) (info_in : dyld_shared_cache_info)
    (fd : Fd) (magic : List Nat) (options : Nat)
    (h : (dyld_shared_cache_parse_from_file C info_in fd magic options).1 =
      E_DYLD_SHARED_CACHE_PARSE_OK) :
    ∃ arch arch_bit mapping_end images_end,
      get_arch_info_from_magic magic = some (arch, arch_bit) ∧
      dsc_check_header C (dsc_read_header C fd) fd.bytes.length =
        .ok (mapping_end, images_end) ∧
      (dsc_parse_mapped C info_in (dsc_read_header C fd) fd.bytes fd.bytes.length mapping_end
        images_end arch arch_bit options).1 = E_DYLD_SHARED_CACHE_PARSE_OK := by
  unfold dyld_shared_cache_parse_from_file at h
  cases hm : get_arch_info_from_magic magic with
  | none =>
    rw [hm] at h
    cases h
  | some p =>
    obtain ⟨arch, arch_bit⟩ := p
    rw [hm] at h
    simp only at h
    cases hc : dsc_check_header C (dsc_read_header C fd) fd.bytes.length with
    | error e =>
      rw [hc] at h
      exact absurd h (dsc_check_header_ne_ok C _ _ e hc)
    | ok q =>
      obtain ⟨mapping_end, images_end⟩ := q
      rw [hc] at h
      exact ⟨arch, arch_bit, mapping_end, images_end, rfl, rfl, h⟩

set_option maxRecDepth 100000 in
/-- C30, counterexample to the claim as stated: with a header of 112 bytes, a cache whose
`mappingOffset` is 112, the size of the header, and a cache whose `imagesOffset` is 112 are
both parsed with ok: an offset equal to the size of the header is not rejected with
invalid-mappings or invalid-images. -/
theorem C30_offset_at_header_size_accepted :
    sample_cache_externals.sizeof_dyld_cache_header = 112 ∧
    (dsc_read_header sample_cache_externals
      ⟨sample_cache_file 112 1 144 (sample_cache_mapping 0 178 ++ sample_cache_image 176),
        16⟩).mappingOffset = 112 ∧
    (dyld_shared_cache_parse_from_file sample_cache_externals empty_cache_info
      ⟨sample_cache_file 112 1 144 (sample_cache_mapping 0 178 ++ sample_cache_image 176), 16⟩
      sample_cache_magic 0).1 = E_DYLD_SHARED_CACHE_PARSE_OK ∧
    (dsc_read_header sample_cache_externals
      ⟨sample_cache_file 144 1 112 (sample_cache_image 176 ++ sample_cache_mapping 0 178),
        16⟩).imagesOffset = 112 ∧
    (dyld_shared_cache_parse_from_file sample_cache_externals empty_cache_info
      ⟨sample_cache_file 144 1 112 (sample_cache_image 176 ++ sample_cache_mapping 0 178), 16⟩
      sample_cache_magic 0).1 = E_DYLD_SHARED_CACHE_PARSE_OK := by
  refine ⟨by decide, by decide, by decide, by decide, by decide⟩

/-- C30, amended: after a recognised magic, the parser accepts `mappingOffset` and
`imagesOffset` only if each is at least `sizeof(dyld_cache_header)` and strictly less than the
size of the file: a `mappingOffset` below the size of the header, or at or after the end of
the file, is rejected with invalid-mappings; with `mappingOffset` inside these bounds, such an
`imagesOffset` is rejected with invalid-images; and when the parser returns ok both offsets
lie inside the bounds. -/
theorem C30_offsets_inside_header_range (C : CacheExternals) (info_in : dyld_shared_cache_info)
    (fd : Fd) (magic : List Nat) (options : Nat)
    (hmagic : get_arch_info_from_magic magic ≠ none) :
    (((dsc_read_header C fd).mappingOffset < C.sizeof_dyld_cache_header ∨
        fd.bytes.length ≤ (dsc_read_header C fd).mappingOffset) →
      (dyld_shared_cache_parse_from_file C info_in fd magic options).1 =
        E_DYLD_SHARED_CACHE_PARSE_INVALID_MAPPINGS) ∧
    (C.sizeof_dyld_cache_header ≤ (dsc_read_header C fd).mappingOffset →
      (dsc_read_header C fd).mappingOffset < fd.bytes.length →
      ((dsc_read_header C fd).imagesOffset < C.sizeof_dyld_cache_header ∨
        fd.bytes.length ≤ (dsc_read_header C fd).imagesOffset) →
      (dyld_shared_cache_parse_from_file C info_in fd magic options).1 =
        E_DYLD_SHARED_CACHE_PARSE_INVALID_IMAGES) ∧
    ((dyld_shared_cache_parse_from_file C info_in fd magic options).1 =
        E_DYLD_SHARED_CACHE_PARSE_OK →
      C.sizeof_dyld_cache_header ≤ (dsc_read_header C fd).mappingOffset ∧
      (dsc_read_header C fd).mappingOffset < fd.bytes.length ∧
      C.sizeof_dyld_cache_header ≤ (dsc_read_header C fd).imagesOffset ∧
      (dsc_read_header C fd).imagesOffset < fd.bytes.length) := by
  have h1 : ((dsc_read_header C fd).mappingOffset < C.sizeof_dyld_cache_header ∨
        fd.bytes.length ≤ (dsc_read_header C fd).mappingOffset) →
      (dyld_shared_cache_parse_from_file C info_in fd magic options).1 =
        E_DYLD_SHARED_CACHE_PARSE_INVALID_MAPPINGS := fun h =>
    (dsc_parse_of_header_error C info_in fd magic options _ hmagic
      (dsc_check_header_mapping_offset C _ _ h)).1
  have h2 : C.sizeof_dyld_cache_header ≤ (dsc_read_header C fd).mappingOffset →
      (dsc_read_header C fd).mappingOffset < fd.bytes.length →
      ((dsc_read_header C fd).imagesOffset < C.sizeof_dyld_cache_header ∨
        fd.bytes.length ≤ (dsc_read_header C fd).imagesOffset) →
      (dyld_shared_cache_parse_from_file C info_in fd magic options).1 =
        E_DYLD_SHARED_CACHE_PARSE_INVALID_IMAGES := fun ha hb h =>
    (dsc_parse_of_header_error C info_in fd magic options _ hmagic
      (dsc_check_header_images_offset C _ _ ⟨ha, hb⟩ h)).1
  refine ⟨h1, h2, ?_⟩
  intro hok
  have hm : C.sizeof_dyld_cache_header ≤ (dsc_read_header C fd).mappingOffset ∧
      (dsc_read_header C fd).mappingOffset < fd.bytes.length := by
    by_contra hc
    have := h1 (by omega)
    rw [this] at hok
    cases hok
  have hi : C.sizeof_dyld_cache_header ≤ (dsc_read_header C fd).imagesOffset ∧
      (dsc_read_header C fd).imagesOffset < fd.bytes.length := by
    by_contra hc
    have := h2 hm.1 hm.2 (by omega)
    rw [this] at hok
    cases hok
  exact ⟨hm.1, hm.2, hi.1, hi.2⟩

set_option maxRecDepth 100000 in
theorem C30_offsets_inside_header_range_witness :
    (dyld_shared_cache_parse_from_file sample_cache_externals empty_cache_info
      ⟨sample_cache_file 111 1 144 (sample_cache_mapping 0 178 ++ sample_cache_image 176), 16⟩
      sample_cache_magic 0).1 = E_DYLD_SHARED_CACHE_PARSE_INVALID_MAPPINGS ∧
    (dyld_shared_cache_parse_from_file sample_cache_externals empty_cache_info
      ⟨sample_cache_file 112 1 178 (sample_cache_mapping 0 178 ++ sample_cache_image 176), 16⟩
      sample_cache_magic 0).1 = E_DYLD_SHARED_CACHE_PARSE_INVALID_IMAGES ∧
    (112 ≤ (dsc_read_header sample_cache_externals
        ⟨sample_cache_file 112 1 144 (sample_cache_mapping 0 178 ++ sample_cache_image 176),
          16⟩).mappingOffset ∧
      (dsc_read_header sample_cache_externals
        ⟨sample_cache_file 112 1 144 (sample_cache_mapping 0 178 ++ sample_cache_image 176),
          16⟩).mappingOffset < 178 ∧
      112 ≤ (dsc_read_header sample_cache_externals
        ⟨sample_cache_file 112 1 144 (sample_cache_mapping 0 178 ++ sample_cache_image 176),
          16⟩).imagesOffset ∧
      (dsc_read_header sample_cache_externals
        ⟨sample_cache_file 112 1 144 (sample_cache_mapping 0 178 ++ sample_cache_image 176),
          16⟩).imagesOffset < 178) :=
  ⟨(C30_offsets_inside_header_range sample_cache_externals empty_cache_info
      ⟨sample_cache_file 111 1 144 (sample_cache_mapping 0 178 ++ sample_cache_image 176), 16⟩
      sample_cache_magic 0 (by decide)).1 (Or.inl (by decide)),
    (C30_offsets_inside_header_range sample_cache_externals empty_cache_info
      ⟨sample_cache_file 112 1 178 (sample_cache_mapping 0 178 ++ sample_cache_image 176), 16⟩
      sample_cache_magic 0 (by decide)).2.1 (by decide) (by decide) (Or.inr (by decide)),
    (C30_offsets_inside_header_range sample_cache_externals empty_cache_info
      ⟨sample_cache_file 112 1 144 (sample_cache_mapping 0 178 ++ sample_cache_image 176), 16⟩
      sample_cache_magic 0 (by decide)).2.2 (by decide)⟩

/-- The overlap test is symmetric. -/
theorem ranges_overlap_comm (a b : range) : ranges_overlap a b = ranges_overlap b a := by
  unfold ranges_overlap
  exact Bool.and_comm _ _

/-- A mapping that passes the body of the loop over the mappings: the end of its file range
does not overflow, the range lies inside the file and overlaps no earlier one. -/
theorem dsc_check_mapping_none (map : List Nat) (mappings dsc_size i : Nat)
    (h : dsc_check_mapping map mappings dsc_size i = none) :
    (dsc_mapping_at map mappings i).fileOffset + (dsc_mapping_at map mappings i).size <
      2 ^ 64 ∧
    (dsc_mapping_at map mappings i).fileOffset + (dsc_mapping_at map mappings i).size ≤
      dsc_size ∧
    ∀ j, j < i →
      ranges_overlap
        { begin := (dsc_mapping_at map mappings i).fileOffset,
          end_ := (dsc_mapping_at map mappings i).fileOffset +
            (dsc_mapping_at map mappings i).size }
        { begin := (dsc_mapping_at map mappings j).fileOffset,
          end_ := wrap64 ((dsc_mapping_at map mappings j).fileOffset +
            (dsc_mapping_at map mappings j).size) } = false := by
  unfold dsc_check_mapping at h
  simp only at h
  unfold guard_overflow_add at h
  by_cases h1 : (dsc_mapping_at map mappings i).fileOffset +
      (dsc_mapping_at map mappings i).size < 2 ^ 64
  · rw [if_pos h1] at h
    simp only at h
    split_ifs at h with h2 h3
    refine ⟨h1, ?_, ?_⟩
    · unfold range_contains_range at h2
      simp only [Bool.not_eq_true', Bool.and_eq_false_iff, decide_eq_false_iff_not,
        not_or, not_not, Nat.zero_le, not_true_eq_false, false_or, not_le] at h2
      omega
    · intro j hj
      rw [← Bool.not_eq_true]
      intro hov
      apply h3
      rw [List.any_eq_true]
      exact ⟨j, List.mem_range.2 hj, hov⟩
  · rw [if_neg h1] at h
    cases h

/-- An error of the body of the loop over the mappings is not ok. -/
theorem dsc_check_mapping_ne_ok (map : List Nat) (mappings dsc_size i : Nat)
    (e : dyld_shared_cache_parse_result)
    (h : dsc_check_mapping map mappings dsc_size i = some e) :
    e ≠ E_DYLD_SHARED_CACHE_PARSE_OK := by
  unfold dsc_check_mapping at h
  simp only at h
  repeat' split at h
  all_goals first
    | (cases h; intro hc; cases hc)
    | cases h

/-- When the loop over the mappings ends without an error, every mapping has passed its
body. -/
theorem dsc_verify_mappings_none (map : List Nat) (mappings dsc_size : Nat) :
    ∀ l : List Nat, dsc_verify_mappings map mappings dsc_size l = none →
      ∀ i ∈ l, dsc_check_mapping map mappings dsc_size i = none := by
  intro l
  induction l with
  | nil =>
    intro _ i hi
    cases hi
  | cons first rest ih =>
    intro h i hi
    unfold dsc_verify_mappings at h
    cases hc : dsc_check_mapping map mappings dsc_size first with
    | some e =>
      rw [hc] at h
      cases h
    | none =>
      rw [hc] at h
      rcases List.mem_cons.1 hi with rfl | hmem
      · exact hc
      · exact ih h i hmem

/-- An error of the loop over the mappings is not ok. -/
theorem dsc_verify_mappings_ne_ok (map : List Nat) (mappings dsc_size : Nat) :
    ∀ (l : List Nat) (e : dyld_shared_cache_parse_result),
      dsc_verify_mappings map mappings dsc_size l = some e →
      e ≠ E_DYLD_SHARED_CACHE_PARSE_OK := by
  intro l
  induction l with
  | nil =>
    intro e h
    cases h
  | cons first rest ih =>
    intro e h
    unfold dsc_verify_mappings at h
    cases hc : dsc_check_mapping map mappings dsc_size first with
    | some e1 =>
      rw [hc] at h
      cases h
      exact dsc_check_mapping_ne_ok map mappings dsc_size first e hc
    | none =>
      rw [hc] at h
      exact ih e h

/-- The loop over the mappings returns the error of the first mapping that fails its body. -/
theorem dsc_verify_mappings_first_error (map : List Nat) (mappings dsc_size i : Nat)
    (e : dyld_shared_cache_parse_result)
    (he : dsc_check_mapping map mappings dsc_size i = some e) :
    ∀ n s : Nat, s ≤ i → i < s + n →
      (∀ k, s ≤ k → k < i → dsc_check_mapping map mappings dsc_size k = none) →
      dsc_verify_mappings map mappings dsc_size (List.range' s n) = some e := by
  intro n
  induction n with
  | zero =>
    intro s h1 h2 _
    omega
  | succ n ih =>
    intro s h1 h2 hk
    rw [List.range'_succ]
    unfold dsc_verify_mappings
    by_cases hs : s = i
    · subst hs
      rw [he]
    · rw [hk s (le_refl s) (by omega)]
      exact ih (s + 1) (by omega) (by omega) (fun k hk1 hk2 => hk k (by omega) hk2)

/-- The result of the part after the mapping of the file, when a mapping fails its body. -/
theorem dsc_parse_mapped_mapping_error (C : CacheExternals) (info_in : dyld_shared_cache_info)
    (header : dyld_cache_header) (map : List Nat) (dsc_size mapping_end images_end : Nat)
    (arch arch_bit options i : Nat) (e : dyld_shared_cache_parse_result)
    (hi : i < header.mappingCount)
    (hk : ∀ k, k < i → dsc_check_mapping map header.mappingOffset dsc_size k = none)
    (he : dsc_check_mapping map header.mappingOffset dsc_size i = some e) :
    dsc_parse_mapped C info_in header map dsc_size mapping_end images_end arch arch_bit
      options = (e, info_in) := by
  unfold dsc_parse_mapped
  rw [List.range_eq_range',
    dsc_verify_mappings_first_error map header.mappingOffset dsc_size i e he
      header.mappingCount 0 (Nat.zero_le i) (by omega) (fun k _ hk2 => hk k hk2)]

/-- When the part after the mapping of the file returns ok, the loop over the mappings has
ended without an error. -/
theorem dsc_parse_mapped_ok (C : CacheExternals) (info_in : dyld_shared_cache_info)
    (header : dyld_cache_header) (map : List Nat) (dsc_size mapping_end images_end : Nat)
    (arch arch_bit options : Nat)
    (h : (dsc_parse_mapped C info_in header map dsc_size mapping_end images_end arch arch_bit
      options).1 = E_DYLD_SHARED_CACHE_PARSE_OK) :
    dsc_verify_mappings map header.mappingOffset dsc_size (List.range header.mappingCount) =
      none := by
  unfold dsc_parse_mapped at h
  cases hv : dsc_verify_mappings map header.mappingOffset dsc_size
      (List.range header.mappingCount) with
  | none => rfl
  | some e =>
    rw [hv] at h
    exact absurd h (dsc_verify_mappings_ne_ok map _ _ _ e hv)

/-- The body of the loop over the mappings returns invalid-mappings for a mapping whose file
range does not overflow and ends after the end of the file. -/
theorem dsc_check_mapping_outside (map : List Nat) (mappings dsc_size i : Nat)
    (h1 : (dsc_mapping_at map mappings i).fileOffset + (dsc_mapping_at map mappings i).size <
      2 ^ 64)
    (h2 : dsc_size <
      (dsc_mapping_at map mappings i).fileOffset + (dsc_mapping_at map mappings i).size) :
    dsc_check_mapping map mappings dsc_size i =
      some E_DYLD_SHARED_CACHE_PARSE_INVALID_MAPPINGS := by
  unfold dsc_check_mapping
  simp only
  unfold guard_overflow_add
  rw [if_pos h1]
  simp only
  have hc : range_contains_range { begin := 0, end_ := dsc_size }
      { begin := (dsc_mapping_at map mappings i).fileOffset,
        end_ := (dsc_mapping_at map mappings i).fileOffset +
          (dsc_mapping_at map mappings i).size } = false := by
    unfold range_contains_range
    simp only [Bool.and_eq_false_iff, decide_eq_false_iff_not, not_le]
    exact Or.inr h2
  rw [hc]
  rfl

/-- The body of the loop over the mappings returns overlapping-mappings for a mapping whose
file range lies inside the file and overlaps that of an earlier mapping which has passed the
body. -/
theorem dsc_check_mapping_overlapping (map : List Nat) (mappings dsc_size i j : Nat)
    (h2 : (dsc_mapping_at map mappings i).fileOffset + (dsc_mapping_at map mappings i).size ≤
      dsc_size)
    (hj : j < i) (hcj : dsc_check_mapping map mappings dsc_size j = none)
    (hov : ranges_overlap
      { begin := (dsc_mapping_at map mappings i).fileOffset,
        end_ := (dsc_mapping_at map mappings i).fileOffset +
          (dsc_mapping_at map mappings i).size }
      { begin := (dsc_mapping_at map mappings j).fileOffset,
        end_ := (dsc_mapping_at map mappings j).fileOffset +
          (dsc_mapping_at map mappings j).size } = true) :
    dsc_check_mapping map mappings dsc_size i =
      some E_DYLD_SHARED_CACHE_PARSE_OVERLAPPING_MAPPINGS := by
  have hw : wrap64 ((dsc_mapping_at map mappings j).fileOffset +
      (dsc_mapping_at map mappings j).size) =
      (dsc_mapping_at map mappings j).fileOffset + (dsc_mapping_at map mappings j).size := by
    unfold wrap64
    exact Nat.mod_eq_of_lt (dsc_check_mapping_none map mappings dsc_size j hcj).1
  unfold dsc_check_mapping
  simp only
  unfold guard_overflow_add
  by_cases h1 : (dsc_mapping_at map mappings i).fileOffset +
      (dsc_mapping_at map mappings i).size < 2 ^ 64
  · rw [if_pos h1]
    simp only
    have hc : range_contains_range { begin := 0, end_ := dsc_size }
        { begin := (dsc_mapping_at map mappings i).fileOffset,
          end_ := (dsc_mapping_at map mappings i).fileOffset +
            (dsc_mapping_at map mappings i).size } = true := by
      unfold range_contains_range
      simp only [Bool.and_eq_true, decide_eq_true_eq]
      exact ⟨Nat.zero_le _, h2⟩
    rw [hc]
    have hany : (List.range i).any (fun j =>
        ranges_overlap
          { begin := (dsc_mapping_at map mappings i).fileOffset,
            end_ := (dsc_mapping_at map mappings i).fileOffset +
              (dsc_mapping_at map mappings i).size }
          { begin := (dsc_mapping_at map mappings j).fileOffset,
            end_ := wrap64 ((dsc_mapping_at map mappings j).fileOffset +
              (dsc_mapping_at map mappings j).size) }) = true := by
      rw [List.any_eq_true]
      refine ⟨j, List.mem_range.2 hj, ?_⟩
      rw [hw]
      exact hov
    rw [if_neg (by decide), if_pos hany]
  · rw [if_neg h1]

/-- The body of the loop over the mappings returns overlapping-mappings for a mapping the end
of whose file range overflows 64 bits, whatever the other mappings are. -/
theorem dsc_check_mapping_overflow (map : List Nat) (mappings dsc_size i : Nat)
    (h1 : 2 ^ 64 ≤
      (dsc_mapping_at map mappings i).fileOffset + (dsc_mapping_at map mappings i).size) :
    dsc_check_mapping map mappings dsc_size i =
      some E_DYLD_SHARED_CACHE_PARSE_OVERLAPPING_MAPPINGS := by
  unfold dsc_check_mapping
  simp only
  unfold guard_overflow_add
  rw [if_neg (Nat.not_lt.2 h1)]

/-- C29 (defect of the code): a mapping the end of whose file range overflows 64 bits lies
outside the file, and `dyld_shared_cache_parse_from_file` answers it with overlapping-mappings,
not with invalid-mappings, even when it is the only mapping: the return under
`guard_overflow_add` in the loop over the mappings names the wrong error, where the guards of
the table of mappings in the same function return invalid-mappings. The rest is as said. When
the function returns ok, the file range `[fileOffset, fileOffset + size)` of every mapping is
computed without 64-bit overflow, ends at or before the end of the file, and overlaps the range
of no other mapping. And once the magic is recognised and the header checks have passed, the
first mapping that fails the loop over the mappings decides the result, the caller's record
being left as it was: overlapping-mappings when the end of its range overflows, invalid-mappings
when its range does not overflow and ends after the end of the file, overlapping-mappings when
its range lies inside the file and overlaps the range of an earlier mapping. -/
theorem C29_mapping_end_overflow_gives_overlapping_mappings (C : CacheExternals)
    (info_in : dyld_shared_cache_info) (fd : Fd) (magic : List Nat) (options : Nat) :
    ((dyld_shared_cache_parse_from_file C info_in fd magic options).1 =
        E_DYLD_SHARED_CACHE_PARSE_OK →
      ∀ i, i < (dsc_read_header C fd).mappingCount →
        (dsc_mapping_at fd.bytes (dsc_read_header C fd).mappingOffset i).fileOffset +
          (dsc_mapping_at fd.bytes (dsc_read_header C fd).mappingOffset i).size < 2 ^ 64 ∧
        (dsc_mapping_at fd.bytes (dsc_read_header C fd).mappingOffset i).fileOffset +
          (dsc_mapping_at fd.bytes (dsc_read_header C fd).mappingOffset i).size ≤
            fd.bytes.length ∧
        ∀ j, j < (dsc_read_header C fd).mappingCount → j ≠ i →
          ranges_overlap
            { begin := (dsc_mapping_at fd.bytes (dsc_read_header C fd).mappingOffset i).fileOffset,
              end_ :=
                (dsc_mapping_at fd.bytes (dsc_read_header C fd).mappingOffset i).fileOffset +
                (dsc_mapping_at fd.bytes (dsc_read_header C fd).mappingOffset i).size }
            { begin := (dsc_mapping_at fd.bytes (dsc_read_header C fd).mappingOffset j).fileOffset,
              end_ :=
                (dsc_mapping_at fd.bytes (dsc_read_header C fd).mappingOffset j).fileOffset +
                (dsc_mapping_at fd.bytes (dsc_read_header C fd).mappingOffset j).size } =
            false) ∧
    (get_arch_info_from_magic magic ≠ none →
      (∃ ends, dsc_check_header C (dsc_read_header C fd) fd.bytes.length = .ok ends) →
      ∀ i, i < (dsc_read_header C fd).mappingCount →
        (∀ k, k < i →
          dsc_check_mapping fd.bytes (dsc_read_header C fd).mappingOffset fd.bytes.length k =
            none) →
        (2 ^ 64 ≤
            (dsc_mapping_at fd.bytes (dsc_read_header C fd).mappingOffset i).fileOffset +
            (dsc_mapping_at fd.bytes (dsc_read_header C fd).mappingOffset i).size →
          (dyld_shared_cache_parse_from_file C info_in fd magic options).1 =
              E_DYLD_SHARED_CACHE_PARSE_OVERLAPPING_MAPPINGS ∧
            (dyld_shared_cache_parse_from_file C info_in fd magic options).2.1 = info_in) ∧
        ((dsc_mapping_at fd.bytes (dsc_read_header C fd).mappingOffset i).fileOffset +
            (dsc_mapping_at fd.bytes (dsc_read_header C fd).mappingOffset i).size < 2 ^ 64 →
          fd.bytes.length <
            (dsc_mapping_at fd.bytes (dsc_read_header C fd).mappingOffset i).fileOffset +
            (dsc_mapping_at fd.bytes (dsc_read_header C fd).mappingOffset i).size →
          (dyld_shared_cache_parse_from_file C info_in fd magic options).1 =
              E_DYLD_SHARED_CACHE_PARSE_INVALID_MAPPINGS ∧
            (dyld_shared_cache_parse_from_file C info_in fd magic options).2.1 = info_in) ∧
        ((dsc_mapping_at fd.bytes (dsc_read_header C fd).mappingOffset i).fileOffset +
            (dsc_mapping_at fd.bytes (dsc_read_header C fd).mappingOffset i).size ≤
              fd.bytes.length →
          (∃ j, j < i ∧
            ranges_overlap
              { begin :=
                  (dsc_mapping_at fd.bytes (dsc_read_header C fd).mappingOffset i).fileOffset,
                end_ :=
                  (dsc_mapping_at fd.bytes (dsc_read_header C fd).mappingOffset i).fileOffset +
                  (dsc_mapping_at fd.bytes (dsc_read_header C fd).mappingOffset i).size }
              { begin :=
                  (dsc_mapping_at fd.bytes (dsc_read_header C fd).mappingOffset j).fileOffset,
                end_ :=
                  (dsc_mapping_at fd.bytes (dsc_read_header C fd).mappingOffset j).fileOffset +
                  (dsc_mapping_at fd.bytes (dsc_read_header C fd).mappingOffset j).size } =
              true) →
          (dyld_shared_cache_parse_from_file C info_in fd magic options).1 =
              E_DYLD_SHARED_CACHE_PARSE_OVERLAPPING_MAPPINGS ∧
            (dyld_shared_cache_parse_from_file C info_in fd magic options).2.1 = info_in)) := by
  refine ⟨?_, ?_⟩
  · intro hok
    obtain ⟨arch, arch_bit, mapping_end, images_end, _, _, hmapped⟩ :=
      dsc_parse_ok_header C info_in fd magic options hok
    have hall := dsc_verify_mappings_none fd.bytes _ _ _
      (dsc_parse_mapped_ok C info_in _ _ _ _ _ _ _ _ hmapped)
    intro i hi
    have hci := dsc_check_mapping_none fd.bytes _ _ i (hall i (List.mem_range.2 hi))
    refine ⟨hci.1, hci.2.1, ?_⟩
    intro j hj hne
    have hcj := dsc_check_mapping_none fd.bytes _ _ j (hall j (List.mem_range.2 hj))
    rcases Nat.lt_or_gt_of_ne hne with hlt | hgt
    · have h := hci.2.2 j hlt
      unfold wrap64 at h
      rw [Nat.mod_eq_of_lt hcj.1] at h
      exact h
    · have h := hcj.2.2 i hgt
      unfold wrap64 at h
      rw [Nat.mod_eq_of_lt hci.1, ranges_overlap_comm] at h
      exact h
  · intro hmagic hheader i hi hk
    obtain ⟨ends, hends⟩ := hheader
    have hparse : ∀ e, dsc_check_mapping fd.bytes (dsc_read_header C fd).mappingOffset
        fd.bytes.length i = some e →
        (dyld_shared_cache_parse_from_file C info_in fd magic options).1 = e ∧
        (dyld_shared_cache_parse_from_file C info_in fd magic options).2.1 = info_in := by
      intro e he
      unfold dyld_shared_cache_parse_from_file
      cases hm : get_arch_info_from_magic magic with
      | none => exact absurd hm hmagic
      | some p =>
        obtain ⟨arch, arch_bit⟩ := p
        obtain ⟨mapping_end, images_end⟩ := ends
        simp only [hends]
        rw [dsc_parse_mapped_mapping_error C info_in _ fd.bytes _ mapping_end images_end arch
          arch_bit options i e hi hk he]
        exact ⟨rfl, rfl⟩
    refine ⟨?_, ?_, ?_⟩
    · intro h1
      exact hparse _ (dsc_check_mapping_overflow fd.bytes _ _ i h1)
    · intro h1 h2
      exact hparse _ (dsc_check_mapping_outside fd.bytes _ _ i h1 h2)
    · intro h2 hov
      obtain ⟨j, hj, hov⟩ := hov
      exact hparse _ (dsc_check_mapping_overlapping fd.bytes _ _ i j h2 hj (hk j hj) hov)

set_option maxRecDepth 100000 in
theorem C29_mapping_end_overflow_gives_overlapping_mappings_witness :
    (sample_cache_one_mapping_fd (2 ^ 64 - 1) 2).bytes.length = 178 ∧
    (dsc_read_header sample_cache_externals
      (sample_cache_one_mapping_fd (2 ^ 64 - 1) 2)).mappingCount = 1 ∧
    (dsc_mapping_at (sample_cache_one_mapping_fd (2 ^ 64 - 1) 2).bytes
        (dsc_read_header sample_cache_externals
          (sample_cache_one_mapping_fd (2 ^ 64 - 1) 2)).mappingOffset 0).fileOffset =
      2 ^ 64 - 1 ∧
    (dsc_mapping_at (sample_cache_one_mapping_fd (2 ^ 64 - 1) 2).bytes
        (dsc_read_header sample_cache_externals
          (sample_cache_one_mapping_fd (2 ^ 64 - 1) 2)).mappingOffset 0).size = 2 ∧
    (dyld_shared_cache_parse_from_file sample_cache_externals empty_cache_info
      (sample_cache_one_mapping_fd (2 ^ 64 - 1) 2) sample_cache_magic 0).1 =
      E_DYLD_SHARED_CACHE_PARSE_OVERLAPPING_MAPPINGS ∧
    (dyld_shared_cache_parse_from_file sample_cache_externals empty_cache_info
      (sample_cache_one_mapping_fd 0 179) sample_cache_magic 0).1 =
      E_DYLD_SHARED_CACHE_PARSE_INVALID_MAPPINGS ∧
    (dsc_mapping_at (sample_cache_two_mappings_fd 100 110).bytes
        (dsc_read_header sample_cache_externals
          (sample_cache_two_mappings_fd 100 110)).mappingOffset 1).fileOffset +
      (dsc_mapping_at (sample_cache_two_mappings_fd 100 110).bytes
        (dsc_read_header sample_cache_externals
          (sample_cache_two_mappings_fd 100 110)).mappingOffset 1).size ≤
      (sample_cache_two_mappings_fd 100 110).bytes.length ∧
    (dyld_shared_cache_parse_from_file sample_cache_externals empty_cache_info
      (sample_cache_two_mappings_fd 100 111) sample_cache_magic 0).1 =
      E_DYLD_SHARED_CACHE_PARSE_INVALID_MAPPINGS ∧
    (dyld_shared_cache_parse_from_file sample_cache_externals empty_cache_info
      (sample_cache_two_mappings_fd 50 100) sample_cache_magic 0).1 =
      E_DYLD_SHARED_CACHE_PARSE_OVERLAPPING_MAPPINGS :=
  ⟨by decide, by decide, by decide, by decide,
    (((C29_mapping_end_overflow_gives_overlapping_mappings sample_cache_externals
      empty_cache_info (sample_cache_one_mapping_fd (2 ^ 64 - 1) 2) sample_cache_magic 0).2
      (by decide) ⟨(144, 176), except_eq_ok_of_toOption _ _ (by decide)⟩ 0 (by decide)
      (fun k hk => absurd hk (Nat.not_lt_zero k))).1 (by decide)).1,
    (((C29_mapping_end_overflow_gives_overlapping_mappings sample_cache_externals
      empty_cache_info (sample_cache_one_mapping_fd 0 179) sample_cache_magic 0).2
      (by decide) ⟨(144, 176), except_eq_ok_of_toOption _ _ (by decide)⟩ 0 (by decide)
      (fun k hk => absurd hk (Nat.not_lt_zero k))).2.1 (by decide) (by decide)).1,
    ((C29_mapping_end_overflow_gives_overlapping_mappings sample_cache_externals
      empty_cache_info (sample_cache_two_mappings_fd 100 110) sample_cache_magic 0).1
      (by decide) 1 (by decide)).2.1,
    (((C29_mapping_end_overflow_gives_overlapping_mappings sample_cache_externals
      empty_cache_info (sample_cache_two_mappings_fd 100 111) sample_cache_magic 0).2
      (by decide) ⟨(176, 208), except_eq_ok_of_toOption _ _ (by decide)⟩ 1 (by decide)
      (fun k hk => by
        have h0 : k = 0 := by omega
        subst h0
        decide)).2.1 (by decide) (by decide)).1,
    (((C29_mapping_end_overflow_gives_overlapping_mappings sample_cache_externals
      empty_cache_info (sample_cache_two_mappings_fd 50 100) sample_cache_magic 0).2
      (by decide) ⟨(176, 208), except_eq_ok_of_toOption _ _ (by decide)⟩ 1 (by decide)
      (fun k hk => by
        have h0 : k = 0 := by omega
        subst h0
        decide)).2.2 (by decide) ⟨0, by decide, by decide⟩).1⟩

/-! ## The pads of the images of a shared cache -/

set_option maxRecDepth 100000 in
/-- C31 (defect of the code): the sample cache with one image, whose pad is 7 and whose path
offset lies in the available range, is parsed with ok under both option words. With
zero-image-pads alone the pad of the image in the mapping is 0 afterwards; with
zero-image-pads and verify-image-path-offsets both set it is still 7: in the loop that zeroes
the pads, an image whose path offset passes the verification is left by `continue` before the
store of the pad. -/
theorem C31_verified_image_keeps_pad :
    flag_set 3 sample_cache_externals.O_DYLD_SHARED_CACHE_PARSE_ZERO_IMAGE_PADS = true ∧
    flag_set 3 sample_cache_externals.O_DYLD_SHARED_CACHE_PARSE_VERIFY_IMAGE_PATH_OFFSETS =
      true ∧
    (dyld_shared_cache_parse_from_file sample_cache_externals empty_cache_info
      ⟨sample_cache_file 112 1 144 (sample_cache_mapping 0 178 ++ sample_cache_image 176), 16⟩
      sample_cache_magic 3).1 = E_DYLD_SHARED_CACHE_PARSE_OK ∧
    (dyld_shared_cache_parse_from_file sample_cache_externals empty_cache_info
      ⟨sample_cache_file 112 1 144 (sample_cache_mapping 0 178 ++ sample_cache_image 176), 16⟩
      sample_cache_magic 3).2.1.images_count = 1 ∧
    ((dyld_shared_cache_parse_from_file sample_cache_externals empty_cache_info
      ⟨sample_cache_file 112 1 144 (sample_cache_mapping 0 178 ++ sample_cache_image 176), 16⟩
      sample_cache_magic 3).2.1.map.map (fun map => read_u32 map (144 + 28))) = some 7 ∧
    (dyld_shared_cache_parse_from_file sample_cache_externals empty_cache_info
      ⟨sample_cache_file 112 1 144 (sample_cache_mapping 0 178 ++ sample_cache_image 176), 16⟩
      sample_cache_magic 1).1 = E_DYLD_SHARED_CACHE_PARSE_OK ∧
    ((dyld_shared_cache_parse_from_file sample_cache_externals empty_cache_info
      ⟨sample_cache_file 112 1 144 (sample_cache_mapping 0 178 ++ sample_cache_image 176), 16⟩
      sample_cache_magic 1).2.1.map.map (fun map => read_u32 map (144 + 28))) = some 0 := by
  refine ⟨by decide, by decide, by decide, by decide, by decide, by decide, by decide⟩

/-! ## The UUID check with ignore-uuid -/

set_option maxRecDepth 100000 in
/-- C36 (defect of the code): the fat-32 file with two well-formed slices, whose `LC_UUID`
commands differ, is parsed with ok when ignore-uuid is not set, and with conflicting-uuid when
it is set: with the flag the `LC_UUID` commands are skipped, the record of every slice keeps
its sixteen bytes 0, and the check of uniqueness after the walk, which does not look at the
flag, finds the record of the first slice. -/
theorem C36_ignore_uuid_gives_conflicting_uuid :
    flag_set (sample_externals.O_TBD_PARSE_IGNORE_UUID |||
      sample_externals.O_TBD_PARSE_IGNORE_MISSING_EXPORTS)
      sample_externals.O_TBD_PARSE_IGNORE_UUID = true ∧
    (macho_file_parse_from_file sample_externals empty_create_info ⟨sample_fat_32_file, 4⟩
      FAT_CIGAM sample_externals.O_TBD_PARSE_IGNORE_MISSING_EXPORTS 0).1 =
      E_MACHO_FILE_PARSE_OK ∧
    (macho_file_parse_from_file sample_externals empty_create_info ⟨sample_fat_32_file, 4⟩
      FAT_CIGAM (sample_externals.O_TBD_PARSE_IGNORE_UUID |||
        sample_externals.O_TBD_PARSE_IGNORE_MISSING_EXPORTS) 0).1 =
      E_MACHO_FILE_PARSE_CONFLICTING_UUID := by
  refine ⟨by decide, by decide, by decide⟩

/-! ## The magic of a shared cache -/

/-- An accepted magic has one of the two prefixes and its second half is one of the literals of
the switch, with the index and the bit of that case. -/
theorem get_arch_info_from_magic_some (magic : List Nat) (k bit : Nat)
    (h : get_arch_info_from_magic magic = some (k, bit)) :
    (read_u64 magic 0 = dsc_magic_64 ∨ read_u64 magic 0 = dsc_magic_64_other) ∧
    (read_u64 magic 8, k, bit) ∈ dsc_magic_cases := by
  unfold get_arch_info_from_magic at h
  simp only at h
  by_cases h0 : read_u64 magic 0 ≠ dsc_magic_64 ∧ read_u64 magic 0 ≠ dsc_magic_64_other
  · rw [if_pos h0] at h
    cases h
  rw [if_neg h0] at h
  refine ⟨by omega, ?_⟩
  unfold dsc_magic_cases
  by_cases h1 : read_u64 magic 8 = 15261442200576032
  · rw [if_pos h1] at h
    cases h
    rw [h1]
    decide
  rw [if_neg h1] at h
  by_cases h2 : read_u64 magic 8 = 14696481348417568
  · rw [if_pos h2] at h
    cases h
    rw [h2]
    decide
  rw [if_neg h2] at h
  by_cases h3 : read_u64 magic 8 = 29330805708175480
  · rw [if_pos h3] at h
    cases h
    rw [h3]
    decide
  rw [if_neg h3] at h
  by_cases h4 : read_u64 magic 8 = 15048386208145440
  · rw [if_pos h4] at h
    cases h
    rw [h4]
    decide
  rw [if_neg h4] at h
  by_cases h5 : read_u64 magic 8 = 15329861184856096
  · rw [if_pos h5] at h
    cases h
    rw [h5]
    decide
  rw [if_neg h5] at h
  by_cases h6 : read_u64 magic 8 = 15611336161566752
  · rw [if_pos h6] at h
    cases h
    rw [h6]
    decide
  rw [if_neg h6] at h
  by_cases h7 : read_u64 magic 8 = 3996502057361088544
  · rw [if_pos h7] at h
    cases h
    rw [h7]
    decide
  rw [if_neg h7] at h
  by_cases h8 : read_u64 magic 8 = 7725773898219855904
  · rw [if_pos h8] at h
    cases h
    rw [h8]
    decide
  rw [if_neg h8] at h
  by_cases h9 : read_u64 magic 8 = 8302234650523279392
  · rw [if_pos h9] at h
    cases h
    rw [h9]
    decide
  rw [if_neg h9] at h
  by_cases h10 : read_u64 magic 8 = 7869889086295711776
  · rw [if_pos h10] at h
    cases h
    rw [h10]
    decide
  rw [if_neg h10] at h
  by_cases h11 : read_u64 magic 8 = 14696542487257120
  · rw [if_pos h11] at h
    cases h
    rw [h11]
    decide
  rw [if_neg h11] at h
  by_cases h12 : read_u64 magic 8 = 28486381016867104
  · rw [if_pos h12] at h
    cases h
    rw [h12]
    decide
  rw [if_neg h12] at h
  by_cases h13 : read_u64 magic 8 = 14130232826424690
  · rw [if_pos h13] at h
    cases h
    rw [h13]
    decide
  rw [if_neg h13] at h
  cases h

/-- A magic whose second half is none of the literals of the switch is not accepted. -/
theorem get_arch_info_from_magic_none (magic : List Nat)
    (h : ∀ t ∈ dsc_magic_cases, read_u64 magic 8 ≠ t.1) :
    get_arch_info_from_magic magic = none := by
  cases hg : get_arch_info_from_magic magic with
  | none => rfl
  | some p =>
    obtain ⟨k, bit⟩ := p
    exact absurd rfl (h _ (get_arch_info_from_magic_some magic k bit hg).2)

/-- The cases of the switch: every index is below 56, every bit is `1 << index` and is a
single bit, and different literals have different bits. -/
theorem dsc_magic_cases_bits :
    (∀ t ∈ dsc_magic_cases, t.2.1 < 56 ∧ t.2.2 = 2 ^ t.2.1 ∧ t.2.2 = 1 <<< t.2.1 ∧
      popcount t.2.2 = 1) ∧
    (∀ t ∈ dsc_magic_cases, ∀ u ∈ dsc_magic_cases, t.2.2 = u.2.2 → t.1 = u.1) := by
  refine ⟨by decide, by decide⟩

/-- C32: for every 16-byte magic that `get_arch_info_from_magic` accepts, the index `k` of the
architecture entry it returns is below 56 and the architecture bit is `1 << k`, a single bit;
two accepted magics with different second halves get different bits; and a magic whose first
half is neither of the two prefixes, or whose second half is none of the literals of the
switch, is not accepted, so that `dyld_shared_cache_parse_from_file` returns not-a-cache. -/
theorem C32_magic_arch_bit (magic : List Nat) :
    (∀ k bit, get_arch_info_from_magic magic = some (k, bit) →
      k < 56 ∧ bit = 1 <<< k ∧ popcount bit = 1) ∧
    (∀ other k1 b1 k2 b2, get_arch_info_from_magic magic = some (k1, b1) →
      get_arch_info_from_magic other = some (k2, b2) →
      read_u64 magic 8 ≠ read_u64 other 8 → b1 ≠ b2) ∧
    (read_u64 magic 0 ≠ dsc_magic_64 → read_u64 magic 0 ≠ dsc_magic_64_other →
      get_arch_info_from_magic magic = none) ∧
    ((∀ t ∈ dsc_magic_cases, read_u64 magic 8 ≠ t.1) →
      get_arch_info_from_magic magic = none) ∧
    (get_arch_info_from_magic magic = none →
      ∀ (C : CacheExternals) (info_in : dyld_shared_cache_info) (fd : Fd) (options : Nat),
        dyld_shared_cache_parse_from_file C info_in fd magic options =
          (E_DYLD_SHARED_CACHE_PARSE_NOT_A_CACHE, info_in, fd)) := by
  refine ⟨?_, ?_, ?_, get_arch_info_from_magic_none magic, ?_⟩
  · intro k bit h
    have hb := dsc_magic_cases_bits.1 _ (get_arch_info_from_magic_some magic k bit h).2
    exact ⟨hb.1, hb.2.2.1, hb.2.2.2⟩
  · intro other k1 b1 k2 b2 h1 h2 hne hb
    exact hne (dsc_magic_cases_bits.2 _ (get_arch_info_from_magic_some magic k1 b1 h1).2 _
      (get_arch_info_from_magic_some other k2 b2 h2).2 hb)
  · intro h1 h2
    cases hg : get_arch_info_from_magic magic with
    | none => rfl
    | some p =>
      obtain ⟨k, bit⟩ := p
      rcases (get_arch_info_from_magic_some magic k bit hg).1 with h | h
      · exact absurd h h1
      · exact absurd h h2
  · intro h C info_in fd options
    unfold dyld_shared_cache_parse_from_file
    rw [h]

set_option maxRecDepth 100000 in
theorem C32_magic_arch_bit_witness :
    (48 < 56 ∧ 2 ^ 48 = 1 <<< 48 ∧ popcount (2 ^ 48) = 1) ∧
    2 ^ 48 ≠ 2 ^ 50 ∧
    get_arch_info_from_magic (List.replicate 16 0) = none ∧
    get_arch_info_from_magic (le64 dsc_magic_64 ++ List.replicate 8 0) = none ∧
    dyld_shared_cache_parse_from_file sample_cache_externals empty_cache_info
        ⟨List.replicate 200 0, 16⟩ (List.replicate 16 0) 0 =
      (E_DYLD_SHARED_CACHE_PARSE_NOT_A_CACHE, empty_cache_info, ⟨List.replicate 200 0, 16⟩) :=
  ⟨(C32_magic_arch_bit sample_cache_magic).1 48 (2 ^ 48) (by decide),
    (C32_magic_arch_bit sample_cache_magic).2.1 (le64 dsc_magic_64 ++ le64 14696542487257120)
      48 (2 ^ 48) 50 (2 ^ 50) (by decide) (by decide) (by decide),
    (C32_magic_arch_bit (List.replicate 16 0)).2.2.1 (by decide) (by decide),
    (C32_magic_arch_bit (le64 dsc_magic_64 ++ List.replicate 8 0)).2.2.2.1 (by decide),
    (C32_magic_arch_bit (List.replicate 16 0)).2.2.2.2 (by decide) sample_cache_externals
      empty_cache_info ⟨List.replicate 200 0, 16⟩ 0⟩

/-! ## A recognised segment without an image-info section -/

set_option maxRecDepth 100000 in
/-- C35 (defect of the code): the segment `__DATA_CONST` with one section `__const` is a
recognised segment with a section and no image-info section. The slice whose only segment is
`__DATA` with `__objc_imageinfo` (Swift version 5) is parsed with ok and records Swift version
5; the same slice with the segment `__DATA_CONST` after it is parsed with
conflicting-swift-version. And for every Swift version `v + 1` recorded before, the case
`LC_SEGMENT` returns conflicting-swift-version on this segment: after the loop over the
sections the recorded version is compared with the local `swift_version`, which is still
0. -/
theorem C35_segment_without_image_info_conflicts :
    segment_has_image_info_sect sample_name_data_const 0 = true ∧
    is_image_info_section sample_name_const 0 = false ∧
    (macho_file_parse_load_commands_from_file sample_externals empty_create_info
      sample_one_segment_fd (sample_segments_info 5 220 256)).result = E_MACHO_FILE_PARSE_OK ∧
    (macho_file_parse_load_commands_from_file sample_externals empty_create_info
      sample_one_segment_fd (sample_segments_info 5 220 256)).info.swift_version = 5 ∧
    (macho_file_parse_load_commands_from_file sample_externals empty_create_info
      sample_two_segments_fd (sample_segments_info 6 344 380)).result =
      E_MACHO_FILE_PARSE_CONFLICTING_SWIFT_VERSION ∧
    (∀ v : Nat,
      (parse_segment_from_file sample_externals false (sample_segments_info 1 124 152)
        (sample_segment sample_name_data_const sample_name_const 0) ⟨28, 152⟩
        { empty_create_info with swift_version := v + 1 }
        ⟨List.replicate 28 0 ++ sample_segment sample_name_data_const sample_name_const 0, 152⟩
        ⟨LC_SEGMENT, 124⟩ 0).1 = E_MACHO_FILE_PARSE_CONFLICTING_SWIFT_VERSION) := by
  refine ⟨by decide, by decide, by decide, by decide, by decide, fun v => ?_⟩
  rfl

/-! ## The count of the architectures of an export -/

/-- The number of set bits among the 64 bits of a word is at most 64. -/
theorem popcount_le (x : Nat) : popcount x ≤ 64 := by
  unfold popcount
  have h := List.length_filter_le (fun i => x.testBit i) (List.range 64)
  rw [List.length_range] at h
  exact h

/-- A single architecture bit counts as one. -/
theorem popcount_one_shiftLeft (k : Nat) (hk : k < 64) : popcount (1 <<< k) = 1 := by
  have h := popcount_set_bit 0 k hk (Nat.zero_testBit k)
  rw [Nat.zero_or] at h
  rw [h]
  decide

/-- The test of a single architecture bit in a mask is the test of the bit of its index. -/
theorem flag_set_one_shiftLeft (archs k : Nat) (hk : k < 64) :
    flag_set archs (1 <<< k) = archs.testBit k := by
  have hlt : 1 <<< k < 2 ^ 64 := by
    rw [Nat.one_shiftLeft]
    exact Nat.pow_lt_pow_right (by decide) hk
  have h := flag_set_arch_bit archs k hk
  rw [wrap64_of_lt _ hlt] at h
  exact h

/-- One call of `add_export_to_info` with a single architecture bit keeps the count of every
export record equal to the number of bits of its mask. -/
theorem add_export_to_info_archs_count (K : Externals) (info_in : tbd_create_info)
    (k type : Nat) (string : List Nat) (string_length : Nat) (hk : k < 64)
    (hinv : ∀ e ∈ info_in.exports, e.archs_count = popcount e.archs) :
    ∀ e ∈ (add_export_to_info K info_in (1 <<< k) type string string_length).2.exports,
      e.archs_count = popcount e.archs := by
  unfold add_export_to_info
  simp only
  generalize array_find_item_in_sorted info_in.exports
    (⟨1 <<< k, 1, string_length, string, type, 0⟩ : tbd_export_info)
    K.tbd_export_info_no_archs_comparator = r
  cases r with
  | item i =>
    simp only
    cases hx : info_in.exports.get? i with
    | none => exact hinv
    | some x =>
      simp only
      have hxmem : x ∈ info_in.exports := List.mem_iff_get?.2 ⟨i, hx⟩
      by_cases hf : flag_set x.archs (1 <<< k) = true
      · rw [hf]
        exact hinv
      · have hf0 : flag_set x.archs (1 <<< k) = false := by simpa using hf
        rw [hf0]
        simp only [Bool.not_false, if_true]
        intro e he
        rcases List.mem_or_eq_of_mem_set he with h | h
        · exact hinv e h
        · rw [h]
          simp only
          rw [flag_set_one_shiftLeft _ _ hk] at hf0
          rw [popcount_set_bit x.archs k hk hf0, hinv x hxmem]
          unfold wrap32
          have := popcount_le x.archs
          exact Nat.mod_eq_of_lt (by omega)
  | null cached_info =>
    simp only
    have hnew : ∀ e : tbd_export_info, e.archs = 1 <<< k → e.archs_count = 1 →
        ∀ e1 ∈ (match array_add_item_with_cached_index_info info_in.exports e cached_info with
          | (.E_ARRAY_OK, exports1) =>
            (E_MACHO_FILE_PARSE_OK, { info_in with exports := exports1 })
          | (_, _) => (E_MACHO_FILE_PARSE_ARRAY_FAIL, info_in)).2.exports,
          e1.archs_count = popcount e1.archs := by
      intro e ha hc e1 he1
      have hm := mem_array_add_item_with_cached_index_info info_in.exports e cached_info
      generalize array_add_item_with_cached_index_info info_in.exports e cached_info = q
        at he1 hm
      obtain ⟨res, exports1⟩ := q
      cases res with
      | E_ARRAY_OK =>
        simp only at he1
        rcases hm e1 he1 with h | h
        · exact hinv e1 h
        · rw [h, hc, ha, popcount_one_shiftLeft k hk]
      | E_ARRAY_ALLOC_FAIL => exact hinv e1 he1
      | E_ARRAY_INDEX_OUT_OF_BOUNDS => exact hinv e1 he1
    split_ifs
    · exact hnew _ rfl rfl
    · exact hnew _ rfl rfl
  | outside => exact hinv
  | exhausted => exact hinv

/-- A sequence of calls of `add_export_to_info`, each with a single architecture bit, keeps the
count of every export record equal to the number of bits of its mask. -/
theorem add_exports_to_info_archs_count (K : Externals) :
    ∀ (calls : List (Nat × Nat × List Nat × Nat)) (info : tbd_create_info),
      (∀ c ∈ calls, ∃ k, k < 64 ∧ c.1 = 1 <<< k) →
      (∀ e ∈ info.exports, e.archs_count = popcount e.archs) →
      ∀ e ∈ (add_exports_to_info K info calls).exports, e.archs_count = popcount e.archs := by
  intro calls
  induction calls with
  | nil =>
    intro info _ hinv
    exact hinv
  | cons c rest ih =>
    intro info hbits hinv
    obtain ⟨k, hk, hc⟩ := hbits c (List.mem_cons_self _ _)
    unfold add_exports_to_info
    apply ih
    · exact fun c1 hc1 => hbits c1 (List.mem_cons_of_mem _ hc1)
    · rw [hc]
      exact add_export_to_info_archs_count K info k _ _ _ hk hinv

/-- A call of `add_export_to_info` for the type and string of a record of the strictly sorted
exports, with an architecture bit that the record already has, changes nothing. -/
theorem add_export_to_info_existing (K : Externals)
    (hc : comparator_is_total_order K.tbd_export_info_no_archs_comparator)
    (hk : comparator_ignores_archs K.tbd_export_info_no_archs_comparator)
    (info_in : tbd_create_info)
    (hs : info_in.exports.Pairwise
      (fun a b => K.tbd_export_info_no_archs_comparator a b < 0))
    (hlen : info_in.exports.length < 2 ^ 64)
    (r : tbd_export_info) (hr : r ∈ info_in.exports) (arch_bit string_length : Nat)
    (hbit : flag_set r.archs arch_bit = true) :
    add_export_to_info K info_in arch_bit r.type r.string string_length =
      (E_MACHO_FILE_PARSE_OK, info_in) := by
  have hself : ∀ a, K.tbd_export_info_no_archs_comparator a a = 0 := by
    intro a
    have h := hc.antisymm a a
    omega
  have hre : ∀ y, K.tbd_export_info_no_archs_comparator y
      (⟨arch_bit, 1, string_length, r.string, r.type, 0⟩ : tbd_export_info) =
      K.tbd_export_info_no_archs_comparator y r := fun y => hk _ _ y r rfl rfl rfl rfl
  have her : ∀ y, K.tbd_export_info_no_archs_comparator
      (⟨arch_bit, 1, string_length, r.string, r.type, 0⟩ : tbd_export_info) y =
      K.tbd_export_info_no_archs_comparator r y := fun y => hk _ _ r y rfl rfl rfl rfl
  obtain ⟨j, hj⟩ := List.mem_iff_get?.1 hr
  have hle : info_in.exports.Pairwise
      (fun a b => K.tbd_export_info_no_archs_comparator a b ≤ 0) :=
    hs.imp (fun h => le_of_lt h)
  have hfind := array_find_item_in_sorted_finds K.tbd_export_info_no_archs_comparator hc
    info_in.exports (⟨arch_bit, 1, string_length, r.string, r.type, 0⟩ : tbd_export_info)
    hle hlen
  unfold add_export_to_info
  simp only
  generalize array_find_item_in_sorted info_in.exports
    (⟨arch_bit, 1, string_length, r.string, r.type, 0⟩ : tbd_export_info)
    K.tbd_export_info_no_archs_comparator = res at hfind
  rcases hfind with hfind | ⟨hnil, _⟩
  · cases res with
    | item i =>
      obtain ⟨x, hx, hx0⟩ := hfind
      rw [hre] at hx0
      have hxr : x = r := by
        rcases Nat.lt_trichotomy i j with h | h | h
        · have := pairwise_get? hs h hx hj
          omega
        · rw [h, hj] at hx
          exact (Option.some.inj hx).symm
        · have h1 := pairwise_get? hs h hj hx
          have h2 := (hc.antisymm r x).1 h1
          omega
      simp only [hx, hxr, hbit, Bool.not_true, Bool.false_eq_true, if_false]
    | null info =>
      obtain ⟨_, _, hlow, hhigh⟩ := hfind
      exfalso
      by_cases hpos : j < hint_position info
      · have := hlow j r hpos hj
        rw [hre, hself] at this
        omega
      · have := hhigh j r (by omega) hj
        rw [hre, hself] at this
        omega
    | outside => exact absurd hfind id
    | exhausted => exact absurd hfind id
  · rw [hnil] at hr
    cases hr

/-- A sequence of calls of `add_export_to_info` on strictly sorted exports adds at most one
record per call. -/
theorem add_exports_to_info_length (K : Externals)
    (hc : comparator_is_total_order K.tbd_export_info_no_archs_comparator)
    (hk : comparator_ignores_archs K.tbd_export_info_no_archs_comparator) :
    ∀ (calls : List (Nat × Nat × List Nat × Nat)) (info : tbd_create_info),
      info.exports.Pairwise (fun a b => K.tbd_export_info_no_archs_comparator a b < 0) →
      info.exports.length + calls.length < 2 ^ 64 →
      (add_exports_to_info K info calls).exports.length ≤
        info.exports.length + calls.length := by
  intro calls
  induction calls with
  | nil =>
    intro info _ _
    exact Nat.le_refl _
  | cons c rest ih =>
    intro info hs hlen
    simp only [List.length_cons] at hlen ⊢
    obtain ⟨_, h2, h3⟩ := add_export_to_info_sorted K hc hk info c.1 c.2.1 c.2.2.1 c.2.2.2 hs
      (by omega)
    have h4 := ih _ h2 (by omega)
    unfold add_exports_to_info
    omega

/-- C34: starting from an aggregate whose exports array is empty, for every sequence of (less
than `2 ^ 64`) calls of `add_export_to_info` whose `arch_bit` arguments are single bits
`1 << k`, `k < 64`: after every call every export record has `archs_count` equal to the number
of bits set in `archs`; and a further call for the type and string of a record, with an
architecture bit that the record already has, returns ok and changes nothing, so neither
`archs` nor `archs_count`. The comparator is assumed to be a total order that reads `type` and
`string` only. -/
theorem C34_archs_count_is_popcount (K : Externals)
    (hc : comparator_is_total_order K.tbd_export_info_no_archs_comparator)
    (hk : comparator_ignores_archs K.tbd_export_info_no_archs_comparator)
    (info_in : tbd_create_info) (hempty : info_in.exports = [])
    (calls : List (Nat × Nat × List Nat × Nat)) (hlen : calls.length < 2 ^ 64)
    (hbits : ∀ c ∈ calls, ∃ k, k < 64 ∧ c.1 = 1 <<< k) :
    (∀ n, ∀ e ∈ (add_exports_to_info K info_in (calls.take n)).exports,
      e.archs_count = popcount e.archs) ∧
    (∀ r ∈ (add_exports_to_info K info_in calls).exports, ∀ arch_bit string_length : Nat,
      flag_set r.archs arch_bit = true →
      add_export_to_info K (add_exports_to_info K info_in calls) arch_bit r.type r.string
          string_length =
        (E_MACHO_FILE_PARSE_OK, add_exports_to_info K info_in calls)) := by
  refine ⟨?_, ?_⟩
  · intro n
    apply add_exports_to_info_archs_count K
    · exact fun c hc1 => hbits c (List.mem_of_mem_take hc1)
    · rw [hempty]
      intro e he
      cases he
  · intro r hr arch_bit string_length hbit
    have hs : (add_exports_to_info K info_in calls).exports.Pairwise
        (fun a b => K.tbd_export_info_no_archs_comparator a b < 0) := by
      apply add_exports_to_info_sorted K hc hk
      · rw [hempty]
        exact List.Pairwise.nil
      · rw [hempty]
        simp only [List.length_nil]
        omega
    have hl : (add_exports_to_info K info_in calls).exports.length < 2 ^ 64 := by
      have h := add_exports_to_info_length K hc hk calls info_in
        (by rw [hempty]; exact List.Pairwise.nil)
        (by rw [hempty]; simp only [List.length_nil]; omega)
      rw [hempty] at h
      simp only [List.length_nil] at h
      omega
    exact add_export_to_info_existing K hc hk _ hs hl r hr arch_bit string_length hbit

theorem C34_archs_count_is_popcount_witness :
    (∀ e ∈ (add_exports_to_info sample_externals empty_create_info
        (([(64, 1, [47, 66], 2), (4, 1, [47, 66], 2), (64, 6, [65], 1)] :
          List (Nat × Nat × List Nat × Nat)).take 3)).exports,
      e.archs_count = popcount e.archs) ∧
    add_export_to_info sample_externals
        (add_exports_to_info sample_externals empty_create_info
          [(64, 1, [47, 66], 2), (4, 1, [47, 66], 2), (64, 6, [65], 1)])
        4 (⟨68, 2, 2, [47, 66], 1, 0⟩ : tbd_export_info).type
        (⟨68, 2, 2, [47, 66], 1, 0⟩ : tbd_export_info).string 2 =
      (E_MACHO_FILE_PARSE_OK,
        add_exports_to_info sample_externals empty_create_info
          [(64, 1, [47, 66], 2), (4, 1, [47, 66], 2), (64, 6, [65], 1)]) :=
  ⟨(C34_archs_count_is_popcount sample_externals sample_export_comparator_is_total_order
      sample_export_comparator_ignores_archs empty_create_info rfl
      [(64, 1, [47, 66], 2), (4, 1, [47, 66], 2), (64, 6, [65], 1)] (by decide)
      (by decide)).1 3,
    (C34_archs_count_is_popcount sample_externals sample_export_comparator_is_total_order
      sample_export_comparator_ignores_archs empty_create_info rfl
      [(64, 1, [47, 66], 2), (4, 1, [47, 66], 2), (64, 6, [65], 1)] (by decide)
      (by decide)).2 ⟨68, 2, 2, [47, 66], 1, 0⟩ (by decide) 4 2 (by decide)⟩

/-! ## The search with an arbitrary comparator -/

/-- The loop with a record of its iterations has the outcome of the loop. -/
theorem array_slice_search_loop_traced_fst {α β : Type} (data : List α)
    (comparator : α → β → Int) (item : β) :
    ∀ (fuel : Nat) (slice : array_slice),
      (array_slice_search_loop_traced data comparator item fuel slice).1 =
        array_slice_search_loop data comparator item fuel slice := by
  intro fuel
  induction fuel with
  | zero =>
    intro slice
    rfl
  | succ fuel ih =>
    intro slice
    unfold array_slice_search_loop_traced array_slice_search_loop
    simp only
    cases data.get? (array_slice_get_middle_index slice) with
    | none => rfl
    | some x =>
      simp only
      split_ifs
      · rfl
      · rfl
      · rfl
      · exact ih _
      · exact ih _

/-- The search loop with any comparator, started on a slice that lies in an array of less than
`2 ^ 64` items, with a budget that covers the halvings of the slice: the loop returns, it makes
at most as many iterations as the slice has elements, and the slice of every iteration is not
empty and lies in the slice it was started on. -/
theorem array_slice_search_loop_traced_bounds {α β : Type} (data : List α)
    (comparator : α → β → Int) (item : β) (hlen : data.length < 2 ^ 64) :
    ∀ (fuel : Nat) (slice : array_slice), slice.front ≤ slice.back →
      slice.back < data.length → slice.back - slice.front + 1 < 2 ^ fuel →
      (array_slice_search_loop_traced data comparator item fuel slice).1.returned = true ∧
      (array_slice_search_loop_traced data comparator item fuel slice).2.length ≤
        slice.back - slice.front + 1 ∧
      ∀ s ∈ (array_slice_search_loop_traced data comparator item fuel slice).2,
        slice.front ≤ s.front ∧ s.front ≤ s.back ∧ s.back ≤ slice.back := by
  intro fuel
  induction fuel with
  | zero =>
    intro slice _ _ h3
    simp at h3
  | succ fuel ih =>
    intro slice hfb hbl hsize
    have hmid := array_slice_get_middle_index_eq slice hfb (by omega)
    have hpow : 2 ^ (fuel + 1) = 2 * 2 ^ fuel := by rw [pow_succ]; ring
    rw [hpow] at hsize
    obtain ⟨front, back⟩ := slice
    simp only at hfb hbl hsize hmid
    have hmidlt : front + (back - front) / 2 < data.length := by omega
    obtain ⟨x, hx⟩ : ∃ x, data.get? (front + (back - front) / 2) = some x :=
      ⟨data.get ⟨_, hmidlt⟩, List.get?_eq_get hmidlt⟩
    have hone : ∀ r : search_result, r.returned = true →
        (r, [(⟨front, back⟩ : array_slice)]).1.returned = true ∧
        (r, [(⟨front, back⟩ : array_slice)]).2.length ≤ back - front + 1 ∧
        ∀ s ∈ (r, [(⟨front, back⟩ : array_slice)]).2,
          front ≤ s.front ∧ s.front ≤ s.back ∧ s.back ≤ back := by
      intro r hr
      refine ⟨hr, by simp, ?_⟩
      intro s hs
      simp only [List.mem_singleton] at hs
      rw [hs]
      exact ⟨Nat.le_refl _, hfb, Nat.le_refl _⟩
    have hrec : ∀ s1 : array_slice, front ≤ s1.front → s1.front ≤ s1.back → s1.back ≤ back →
        s1.back - s1.front + 1 < 2 ^ fuel → s1.back - s1.front + 1 ≤ back - front →
        (array_slice_search_loop_traced data comparator item fuel s1).1.returned = true ∧
        ((⟨front, back⟩ : array_slice) ::
          (array_slice_search_loop_traced data comparator item fuel s1).2).length ≤
          back - front + 1 ∧
        ∀ s ∈ ((⟨front, back⟩ : array_slice) ::
          (array_slice_search_loop_traced data comparator item fuel s1).2),
          front ≤ s.front ∧ s.front ≤ s.back ∧ s.back ≤ back := by
      intro s1 h1 h2 h3 h4 h5
      obtain ⟨r1, r2, r3⟩ := ih s1 h2 (by omega) h4
      refine ⟨r1, ?_, ?_⟩
      · simp only [List.length_cons]
        omega
      · intro s hs
        rcases List.mem_cons.1 hs with h | h
        · rw [h]
          exact ⟨Nat.le_refl _, hfb, Nat.le_refl _⟩
        · have := r3 s h
          omega
    unfold array_slice_search_loop_traced
    simp only [hmid, hx]
    by_cases c0 : comparator x item = 0
    · rw [if_pos c0]
      exact hone _ rfl
    rw [if_neg c0]
    by_cases c1 : front = back
    · have e1 : array_slice_holds_one_element ⟨front, back⟩ = true := by
        simp [array_slice_holds_one_element, c1]
      rw [if_pos e1]
      exact hone _ rfl
    have e1 : array_slice_holds_one_element ⟨front, back⟩ = false := by
      simp [array_slice_holds_one_element, c1]
    rw [e1]
    simp only [Bool.false_eq_true, if_false]
    have htwo : array_slice_holds_two_elements ⟨front, back⟩ = true ↔ back - front = 1 := by
      unfold array_slice_holds_two_elements
      rw [wrap64_sub _ _ hfb (by omega)]
      exact beq_iff_eq
    by_cases c2 : comparator x item > 0
    · rw [if_pos c2]
      by_cases c3 : back - front = 1
      · rw [if_pos (htwo.2 c3)]
        exact hone _ rfl
      · rw [if_neg (fun h => c3 (htwo.1 h))]
        have hlower : array_slice_set_to_lower_half ⟨front, back⟩
            (front + (back - front) / 2) = ⟨front, front + (back - front) / 2 - 1⟩ := by
          unfold array_slice_set_to_lower_half
          simp only
          rw [wrap64_sub _ _ (by omega) (by omega)]
        rw [hlower]
        exact hrec _ (Nat.le_refl _) (by simp only; omega) (by simp only; omega)
          (by simp only; omega) (by simp only; omega)
    · rw [if_neg c2]
      have hupper : array_slice_set_to_upper_half ⟨front, back⟩
          (front + (back - front) / 2) = ⟨front + (back - front) / 2 + 1, back⟩ := by
        unfold array_slice_set_to_upper_half
        simp only
        rw [wrap64_of_lt _ (by omega)]
      rw [hupper]
      exact hrec _ (by simp only; omega) (by simp only; omega) (Nat.le_refl _)
        (by simp only; omega) (by simp only; omega)

/-- C37: for every array of less than `2 ^ 64` items, every comparator, consistent with an
order or not, and every slice with `front <= back < item count`,
`array_find_item_in_sorted_with_slice` returns (a pointer to an element or `NULL` with a
hint); it calls the comparator once per iteration, in at most `back - front + 1` iterations;
and the slice of every iteration is not empty, lies in the slice given, and holds the middle
index, the index of the element that the iteration reads. -/
theorem C37_search_terminates_inside_slice {α β : Type} (data : List α)
    (comparator : α → β → Int) (item : β) (slice : array_slice)
    (hfb : slice.front ≤ slice.back) (hbl : slice.back < data.length)
    (hlen : data.length < 2 ^ 64) :
    (array_find_item_in_sorted_with_slice data slice item comparator).returned = true ∧
    array_find_item_in_sorted_with_slice data slice item comparator =
      (array_slice_search_loop_traced data comparator item 65 slice).1 ∧
    (array_slice_search_loop_traced data comparator item 65 slice).2.length ≤
      slice.back - slice.front + 1 ∧
    ∀ s ∈ (array_slice_search_loop_traced data comparator item 65 slice).2,
      slice.front ≤ s.front ∧ s.front ≤ s.back ∧ s.back ≤ slice.back ∧
      s.front ≤ array_slice_get_middle_index s ∧ array_slice_get_middle_index s ≤ s.back := by
  have hsize : slice.back - slice.front + 1 < 2 ^ 65 := by
    have h : (2 : Nat) ^ 64 < 2 ^ 65 := by decide
    omega
  obtain ⟨h1, h2, h3⟩ := array_slice_search_loop_traced_bounds data comparator item hlen 65
    slice hfb hbl hsize
  have he : array_find_item_in_sorted_with_slice data slice item comparator =
      (array_slice_search_loop_traced data comparator item 65 slice).1 := by
    unfold array_find_item_in_sorted_with_slice array_slice_get_sorted_array_item_for_item
    exact (array_slice_search_loop_traced_fst data comparator item 65 slice).symm
  refine ⟨by rw [he]; exact h1, he, h2, ?_⟩
  intro s hs
  obtain ⟨a, b, c⟩ := h3 s hs
  have hmid := array_slice_get_middle_index_eq s b (by omega)
  rw [hmid]
  exact ⟨a, b, c, by omega, by omega⟩

theorem C37_search_terminates_inside_slice_witness :
    (array_find_item_in_sorted_with_slice [10, 20, 30, 40, 50] ⟨1, 4⟩ (7 : Nat)
      (fun (a : Nat) (_ : Nat) => if a = 30 then (1 : Int) else -1)).returned = true ∧
    (array_slice_search_loop_traced [10, 20, 30, 40, 50]
      (fun (a : Nat) (_ : Nat) => if a = 30 then (1 : Int) else -1) (7 : Nat) 65 ⟨1, 4⟩).2.length ≤
      (⟨1, 4⟩ : array_slice).back - (⟨1, 4⟩ : array_slice).front + 1 :=
  ⟨(C37_search_terminates_inside_slice [10, 20, 30, 40, 50]
      (fun (a : Nat) (_ : Nat) => if a = 30 then (1 : Int) else -1) (7 : Nat) ⟨1, 4⟩
      (by decide) (by decide) (by decide)).1,
    (C37_search_terminates_inside_slice [10, 20, 30, 40, 50]
      (fun (a : Nat) (_ : Nat) => if a = 30 then (1 : Int) else -1) (7 : Nat) ⟨1, 4⟩
      (by decide) (by decide) (by decide)).2.2.1⟩

/-! ## `array.c` at the level of bytes -/

/-- C39 (defect of the code): for the array of one item of 4 bytes at the address `0x1000`,
`array_get_item_at_index` returns the item for index 0 and `NULL` for index 2, but for
index 1, the item count, it returns `0x1004`, the address `data_end` after the last item: the
test is `iter > data_end`. And for the index `2 ^ 62`, for which the 64-bit product
`item_size * index` is 0, it returns the address of item 0. -/
theorem C39_index_at_item_count_is_not_null :
    ByteLevel.array_get_item_count (sample_byte_array 1) 4 = 1 ∧
    ByteLevel.array_get_item_at_index (sample_byte_array 1) 4 0 = 0x1000 ∧
    ByteLevel.array_get_item_at_index (sample_byte_array 1) 4 2 = 0 ∧
    ByteLevel.array_get_item_at_index (sample_byte_array 1) 4 1 = 0x1004 ∧
    (sample_byte_array 1).data_end = 0x1004 ∧
    ByteLevel.array_get_item_at_index (sample_byte_array 1) 4 (2 ^ 62) = 0x1000 := by
  refine ⟨by decide, by decide, by decide, by decide, by decide, by decide⟩

set_option maxRecDepth 100000 in
/-- C40 (defect of the code): an item is added with a hint to the array of two items of 4 bytes,
the caller supplying `item_out`, a variable that holds 0. With the hint `{1, less-than}` the
call returns ok, the item is stored at index 1 of the new buffer at `0x2000` and `item_out` is
`0x2004`. With the hint `{1, greater-than}`, index 1 being the last index, the call returns
ok and the item is stored at index 2, after the last element, but `item_out` is still 0, not
`0x2008`: in this branch `array_add_item` is called with `NULL` for `item_out`. On the array of
one item the hint `{0, greater-than}` appends and sets `item_out`. -/
theorem C40_item_out_not_set_on_append :
    ByteLevel.array_add_item_with_cached_index_info sample_malloc (sample_byte_array 2) 4
        (le32 9) ⟨1, .ARRAY_CACHED_INDEX_LESS_THAN⟩ (some 0) =
      some (.E_ARRAY_OK, ⟨0x2000, le32 1 ++ le32 9 ++ le32 2, 16⟩, some 0x2004) ∧
    ByteLevel.array_add_item_with_cached_index_info sample_malloc (sample_byte_array 2) 4
        (le32 9) ⟨1, .ARRAY_CACHED_INDEX_GREATER_THAN⟩ (some 0) =
      some (.E_ARRAY_OK, ⟨0x2000, le32 1 ++ le32 2 ++ le32 9, 16⟩, some 0) ∧
    ByteLevel.array_add_item_with_cached_index_info sample_malloc (sample_byte_array 1) 4
        (le32 9) ⟨0, .ARRAY_CACHED_INDEX_GREATER_THAN⟩ (some 0) =
      some (.E_ARRAY_OK, ⟨0x2000, le32 1 ++ le32 9, 8⟩, some 0x2004) := by
  refine ⟨by decide, by decide, by decide⟩

/-! ## Adding the items of another array -/

/-- When `array_find_item` returns an item, an item of the array compares 0 with the item. -/
theorem array_find_item_some {α β : Type} (items : List α) (item : β)
    (comparator : α → β → Int) (i : Nat)
    (h : array_find_item items item comparator = some i) :
    ∃ x ∈ items, comparator x item = 0 := by
  by_contra hc
  have hnone : items.findIdx? (fun x => comparator x item == 0) = none := by
    rw [List.findIdx?_eq_none_iff]
    intro x hx
    have h0 : comparator x item ≠ 0 := fun h0 => hc ⟨x, hx, h0⟩
    simpa using h0
  unfold array_find_item at h
  rw [hnone] at h
  cases h

/-- The loop of `array_add_and_unique_items_from_array` on a destination that has no two items
that compare equal: it returns ok, keeps the items of the destination, adds no two items that
compare equal, and every item of the source is then in the destination or compares equal to
one of its items. -/
theorem array_add_and_unique_items_loop_unique {α : Type} (comparator : α → α → Int) :
    ∀ (other items : List α), items.Pairwise (fun a b => comparator a b ≠ 0) →
      (array_add_and_unique_items_loop comparator items other).1 = .E_ARRAY_OK ∧
      (array_add_and_unique_items_loop comparator items other).2.Pairwise
        (fun a b => comparator a b ≠ 0) ∧
      (∀ e ∈ items, e ∈ (array_add_and_unique_items_loop comparator items other).2) ∧
      (∀ x ∈ other, ∃ e ∈ (array_add_and_unique_items_loop comparator items other).2,
        e = x ∨ comparator e x = 0) := by
  intro other
  induction other with
  | nil =>
    intro items hs
    exact ⟨rfl, hs, fun e he => he, fun x hx => by cases hx⟩
  | cons first rest ih =>
    intro items hs
    unfold array_add_and_unique_items_loop
    cases hf : array_find_item items first comparator with
    | some i =>
      simp only
      obtain ⟨h1, h2, h3, h4⟩ := ih items hs
      refine ⟨h1, h2, h3, ?_⟩
      intro x hx
      rcases List.mem_cons.1 hx with rfl | hmem
      · obtain ⟨e, he, h0⟩ := array_find_item_some items x comparator i hf
        exact ⟨e, h3 e he, Or.inr h0⟩
      · exact h4 x hmem
    | none =>
      have hnone := array_find_item_none items first comparator hf
      have hs1 : (items ++ [first]).Pairwise (fun a b => comparator a b ≠ 0) := by
        rw [List.pairwise_append]
        refine ⟨hs, List.pairwise_singleton _ _, ?_⟩
        intro a ha b hb
        rw [List.mem_singleton] at hb
        rw [hb]
        exact hnone a ha
      obtain ⟨h1, h2, h3, h4⟩ := ih (items ++ [first]) hs1
      simp only [array_add_item, ne_eq, not_true_eq_false, if_false]
      refine ⟨h1, h2, fun e he => h3 e (List.mem_append_left _ he), ?_⟩
      intro x hx
      rcases List.mem_cons.1 hx with rfl | hmem
      · exact ⟨x, h3 x (List.mem_append_right _ (List.mem_singleton.2 rfl)), Or.inl rfl⟩
      · exact h4 x hmem

/-- C38 (defect of the code): into the empty destination,
`array_add_and_unique_items_from_array` copies the source `[1, 1]` as it is and returns ok:
the destination then holds two items that compare equal. Into the destination `[2]` the same
source adds one item only. With an empty destination the function returns the result of
`array_add_items_from_array` before its loop, which is where every item is looked up in the
destination. -/
theorem C38_empty_destination_keeps_duplicates :
    sample_comparator 1 1 = 0 ∧
    array_add_and_unique_items_from_array [] [1, 1] sample_comparator =
      (.E_ARRAY_OK, [1, 1]) ∧
    array_add_and_unique_items_from_array [2] [1, 1] sample_comparator =
      (.E_ARRAY_OK, [2, 1]) := by
  refine ⟨by decide, by decide, by decide⟩

/-! ## The capacity of an array -/

/-- The used size of an array of less than `2 ^ 64` bytes is the number of its bytes. -/
theorem array_get_used_size_eq (a : ByteLevel.array) (h : a.bytes.length < 2 ^ 64) :
    ByteLevel.array_get_used_size a = a.bytes.length := by
  unfold ByteLevel.array_get_used_size ByteLevel.array.data_end wrap64
  have e : a.data + a.bytes.length + 2 ^ 64 - a.data = a.bytes.length + 2 ^ 64 := by omega
  rw [e, Nat.add_mod_right]
  exact Nat.mod_eq_of_lt h

/-- The difference `alloc_end - data` is the capacity. -/
theorem array_alloc_end_sub_data (a : ByteLevel.array) (h : a.capacity < 2 ^ 64) :
    wrap64 (a.alloc_end + 2 ^ 64 - a.data) = a.capacity := by
  unfold ByteLevel.array.alloc_end wrap64
  have e : a.data + a.capacity + 2 ^ 64 - a.data = a.capacity + 2 ^ 64 := by omega
  rw [e, Nat.add_mod_right]
  exact Nat.mod_eq_of_lt h

/-- The bytes of a buffer from its start on, as many as it holds, are the buffer. -/
theorem bytes_at_zero_length (item : List Nat) : bytes_at item 0 item.length = item := by
  unfold bytes_at
  apply List.ext_getElem
  · simp
  · intro i h1 h2
    simp only [List.length_map, List.length_range] at h1
    simp [byte_at, List.getD_eq_getElem?_getD, List.getElem?_eq_getElem h2]

/-- The doubling loop, when it ends: the capacity it ends with is the capacity it started with
times the least power of two that reaches the wanted capacity. -/
theorem array_expand_loop_spec (wanted : Nat) (hw : wanted ≤ 2 ^ 63) :
    ∀ (fuel c r : Nat), ByteLevel.array_expand_loop wanted fuel c = some r →
      ∃ j, r = c * 2 ^ j ∧ wanted ≤ r ∧ ∀ i, i < j → c * 2 ^ i < wanted := by
  intro fuel
  induction fuel with
  | zero =>
    intro c r h
    cases h
  | succ fuel ih =>
    intro c r h
    unfold ByteLevel.array_expand_loop at h
    by_cases hc : c < wanted
    · rw [if_pos hc, wrap64_of_lt _ (by omega)] at h
      obtain ⟨j, h1, h2, h3⟩ := ih (c * 2) r h
      refine ⟨j + 1, ?_, h2, ?_⟩
      · rw [h1, pow_succ]
        ring
      · intro i hi
        cases i with
        | zero => simpa using hc
        | succ i =>
          have := h3 i (by omega)
          rw [pow_succ]
          calc c * (2 ^ i * 2) = c * 2 * 2 ^ i := by ring
            _ < wanted := this
    · rw [if_neg hc] at h
      cases h
      exact ⟨0, by simp, by omega, fun i hi => absurd hi (Nat.not_lt_zero i)⟩

/-- The doubling loop ends within its budget when the wanted capacity is at most `2 ^ 63`. -/
theorem array_expand_loop_returns (wanted : Nat) (hw : wanted ≤ 2 ^ 63) :
    ∀ (fuel c : Nat), wanted ≤ c * 2 ^ fuel →
      ∃ r, ByteLevel.array_expand_loop wanted (fuel + 1) c = some r := by
  intro fuel
  induction fuel with
  | zero =>
    intro c h
    unfold ByteLevel.array_expand_loop
    rw [if_neg (by simpa using h)]
    exact ⟨c, rfl⟩
  | succ fuel ih =>
    intro c h
    unfold ByteLevel.array_expand_loop
    by_cases hc : c < wanted
    · rw [if_pos hc, wrap64_of_lt _ (by omega)]
      apply ih
      calc wanted ≤ c * 2 ^ (fuel + 1) := h
        _ = c * 2 * 2 ^ fuel := by rw [pow_succ]; ring
    · rw [if_neg hc]
      exact ⟨c, rfl⟩

/-- Function `array_expand_if_necessary` on an array whose wanted capacity is at most `2 ^ 63`:
it returns, and when it returns ok the bytes are kept and the capacity is the old one if the
wanted capacity fits, the wanted capacity if the old capacity is 0, and otherwise the old
capacity times the least power of two, from 2 on, that reaches the wanted capacity. -/
theorem array_expand_if_necessary_spec (malloc : Nat → Nat) (a : ByteLevel.array)
    (add_byte_size : Nat) (hcap : a.bytes.length ≤ a.capacity) (hcap64 : a.capacity < 2 ^ 64)
    (hsize : a.bytes.length + add_byte_size ≤ 2 ^ 63) :
    (∃ r, ByteLevel.array_expand_if_necessary malloc a add_byte_size = some r) ∧
    ∀ a1, ByteLevel.array_expand_if_necessary malloc a add_byte_size = some (.E_ARRAY_OK, a1) →
      a1.bytes = a.bytes ∧
      (a.bytes.length + add_byte_size ≤ a.capacity → a1.capacity = a.capacity) ∧
      (a.capacity < a.bytes.length + add_byte_size → a.capacity = 0 →
        a1.capacity = a.bytes.length + add_byte_size) ∧
      (a.capacity < a.bytes.length + add_byte_size → a.capacity ≠ 0 →
        ∃ k, 1 ≤ k ∧ a1.capacity = a.capacity * 2 ^ k ∧
          a.bytes.length + add_byte_size ≤ a.capacity * 2 ^ k ∧
          ∀ j, 1 ≤ j → j < k → a.capacity * 2 ^ j < a.bytes.length + add_byte_size) := by
  have hused := array_get_used_size_eq a (by omega)
  have hold := array_alloc_end_sub_data a hcap64
  have hwanted : wrap64 (a.bytes.length + add_byte_size) = a.bytes.length + add_byte_size :=
    wrap64_of_lt _ (by omega)
  unfold ByteLevel.array_expand_if_necessary
  simp only [hused, hold, hwanted]
  by_cases hfit : a.bytes.length + add_byte_size ≤ a.capacity
  · rw [if_pos hfit]
    refine ⟨⟨_, rfl⟩, ?_⟩
    intro a1 h
    simp only [Option.some.injEq, Prod.mk.injEq, true_and] at h
    rw [← h]
    exact ⟨rfl, fun _ => rfl, fun h1 => absurd hfit (by omega), fun h1 => absurd hfit (by omega)⟩
  rw [if_neg hfit]
  have hdouble : wrap64 (a.capacity * 2) = a.capacity * 2 := wrap64_of_lt _ (by omega)
  rw [hdouble]
  by_cases h0 : a.capacity = 0
  · have hd0 : ¬ (a.capacity * 2 ≠ 0) := by omega
    rw [if_neg hd0]
    simp only
    by_cases hm : malloc (a.bytes.length + add_byte_size) = 0
    · rw [if_pos hm]
      refine ⟨⟨_, rfl⟩, ?_⟩
      intro a1 h
      simp only [Option.some.injEq, Prod.mk.injEq] at h
      exact absurd h.1 (by decide)
    · rw [if_neg hm]
      refine ⟨⟨_, rfl⟩, ?_⟩
      intro a1 h
      simp only [Option.some.injEq, Prod.mk.injEq, true_and] at h
      rw [← h]
      exact ⟨rfl, fun h1 => absurd h1 hfit, fun _ _ => rfl, fun _ h2 => absurd h0 h2⟩
  · have hd0 : a.capacity * 2 ≠ 0 := by omega
    rw [if_pos hd0]
    obtain ⟨r, hr⟩ := array_expand_loop_returns (a.bytes.length + add_byte_size) hsize 64
      (a.capacity * 2) (by
        have h1 : 2 ^ 63 ≤ a.capacity * 2 * 2 ^ 64 := by
          have h2 : 1 ≤ a.capacity * 2 := by omega
          calc 2 ^ 63 ≤ 1 * 2 ^ 64 := by decide
            _ ≤ a.capacity * 2 * 2 ^ 64 := Nat.mul_le_mul_right _ h2
        omega)
    obtain ⟨j, hj1, hj2, hj3⟩ := array_expand_loop_spec (a.bytes.length + add_byte_size) hsize
      65 (a.capacity * 2) r hr
    rw [hr]
    simp only
    by_cases hm : malloc r = 0
    · rw [if_pos hm]
      refine ⟨⟨_, rfl⟩, ?_⟩
      intro a1 h
      simp only [Option.some.injEq, Prod.mk.injEq] at h
      exact absurd h.1 (by decide)
    · rw [if_neg hm]
      refine ⟨⟨_, rfl⟩, ?_⟩
      intro a1 h
      simp only [Option.some.injEq, Prod.mk.injEq, true_and] at h
      rw [← h]
      refine ⟨rfl, fun h1 => absurd h1 hfit, fun _ h2 => absurd h2 h0, fun _ _ => ?_⟩
      have hpow : ∀ i, a.capacity * 2 ^ (i + 1) = a.capacity * 2 * 2 ^ i := by
        intro i
        rw [pow_succ]
        ring
      refine ⟨j + 1, by omega, ?_, ?_, ?_⟩
      · simp only
        rw [hj1, hpow]
      · rw [hpow, ← hj1]
        exact hj2
      · intro i hi1 hi2
        obtain ⟨i1, rfl⟩ : ∃ i1, i = i1 + 1 := ⟨i - 1, by omega⟩
        rw [hpow]
        exact hj3 i1 (by omega)

/-- C33: for every array whose bytes fit its capacity and every item of `item_size` bytes, the
bytes in use and the item together being at most `2 ^ 63` bytes, `array_add_item` returns; and
when it returns ok, the bytes of the array are the bytes before followed by the item (the
items before are unchanged and in the same order, the new last item is the given item), the
item count has grown by one, and the capacity is unchanged if `used + item_size` fitted,
`used + item_size` if the old capacity was 0, and otherwise the old capacity times the least
power of two `2 ^ k`, `k >= 1`, that makes it at least `used + item_size`. -/
theorem C33_array_add_item_capacity (malloc : Nat → Nat) (a : ByteLevel.array)
    (item_size : Nat) (item : List Nat) (item_out : Option Nat)
    (hitem : item.length = item_size) (hcap : a.bytes.length ≤ a.capacity)
    (hcap64 : a.capacity < 2 ^ 64) (hsize : a.bytes.length + item_size ≤ 2 ^ 63) :
    (∃ r, ByteLevel.array_add_item malloc a item_size item item_out = some r) ∧
    ∀ a1 out,
      ByteLevel.array_add_item malloc a item_size item item_out = some (.E_ARRAY_OK, a1, out) →
      a1.bytes = a.bytes ++ item ∧
      (0 < item_size → ByteLevel.array_get_item_count a1 item_size =
        ByteLevel.array_get_item_count a item_size + 1) ∧
      (a.bytes.length + item_size ≤ a.capacity → a1.capacity = a.capacity) ∧
      (a.capacity < a.bytes.length + item_size → a.capacity = 0 →
        a1.capacity = a.bytes.length + item_size) ∧
      (a.capacity < a.bytes.length + item_size → a.capacity ≠ 0 →
        ∃ k, 1 ≤ k ∧ a1.capacity = a.capacity * 2 ^ k ∧
          a.bytes.length + item_size ≤ a.capacity * 2 ^ k ∧
          ∀ j, 1 ≤ j → j < k → a.capacity * 2 ^ j < a.bytes.length + item_size) := by
  have hbi : wrap64 (a.data_end + 2 ^ 64 - a.data) = a.bytes.length := by
    have h := array_get_used_size_eq a (by omega)
    unfold ByteLevel.array_get_used_size at h
    exact h
  obtain ⟨⟨r, hr⟩, hspec⟩ := array_expand_if_necessary_spec malloc a item_size hcap hcap64 hsize
  obtain ⟨res, a0⟩ := r
  unfold ByteLevel.array_add_item ByteLevel.array_add_item_to_byte_index
  simp only [hbi, hr]
  by_cases hres : res = .E_ARRAY_OK
  · subst hres
    obtain ⟨hb, hc1, hc2, hc3⟩ := hspec a0 hr
    simp only [ne_eq, not_true_eq_false, if_false]
    refine ⟨⟨_, rfl⟩, ?_⟩
    intro a1 out h
    simp only [Option.some.injEq, Prod.mk.injEq, true_and] at h
    have hbytes : a1.bytes = a.bytes ++ item := by
      rw [← h.1]
      simp only [hb, List.take_length, List.drop_length, List.append_nil]
      rw [← hitem, bytes_at_zero_length]
    have hcapacity : a1.capacity = a0.capacity := by rw [← h.1]
    refine ⟨hbytes, ?_, ?_, ?_, ?_⟩
    · intro hpos
      unfold ByteLevel.array_get_item_count
      rw [array_get_used_size_eq a (by omega), array_get_used_size_eq a1 (by
        rw [hbytes, List.length_append, hitem]
        omega)]
      rw [hbytes, List.length_append, hitem]
      exact Nat.add_div_right _ hpos
    · rw [hcapacity]
      exact hc1
    · rw [hcapacity]
      exact hc2
    · rw [hcapacity]
      exact hc3
  · rw [if_pos hres]
    refine ⟨⟨_, rfl⟩, ?_⟩
    intro a1 out h
    simp only [Option.some.injEq, Prod.mk.injEq] at h
    exact absurd h.1 hres

theorem C33_array_add_item_capacity_witness :
    (∃ r, ByteLevel.array_add_item sample_malloc (sample_byte_array 2) 4 (le32 9) none =
      some r) ∧
    (⟨0x2000, le32 1 ++ le32 2 ++ le32 9, 16⟩ : ByteLevel.array).bytes =
      (sample_byte_array 2).bytes ++ le32 9 ∧
    (∃ k, 1 ≤ k ∧
      (⟨0x2000, le32 1 ++ le32 2 ++ le32 9, 16⟩ : ByteLevel.array).capacity =
        (sample_byte_array 2).capacity * 2 ^ k ∧
      (sample_byte_array 2).bytes.length + 4 ≤ (sample_byte_array 2).capacity * 2 ^ k ∧
      ∀ j, 1 ≤ j → j < k →
        (sample_byte_array 2).capacity * 2 ^ j < (sample_byte_array 2).bytes.length + 4) :=
  ⟨(C33_array_add_item_capacity sample_malloc (sample_byte_array 2) 4 (le32 9) none
      (by decide) (by decide) (by decide) (by decide)).1,
    ((C33_array_add_item_capacity sample_malloc (sample_byte_array 2) 4 (le32 9) none
      (by decide) (by decide) (by decide) (by decide)).2
      ⟨0x2000, le32 1 ++ le32 2 ++ le32 9, 16⟩ none (by decide)).1,
    ((C33_array_add_item_capacity sample_malloc (sample_byte_array 2) 4 (le32 9) none
      (by decide) (by decide) (by decide) (by decide)).2
      ⟨0x2000, le32 1 ++ le32 2 ++ le32 9, 16⟩ none (by decide)).2.2.2.2 (by decide)
      (by decide)⟩

end Tbd
